import Mathlib

/-!
# rpi-tsop48-nand: a shallow embedding of the GPIO NAND drivers

The two drivers (`rpi-raw-nand-v3.c` and `rpi-tsop48-nand-v1.c`) bit-bang the
parallel NAND bus through memory-mapped GPIO registers.  The embedding keeps
the source's functions and names.

* Every access to a GPIO register is an event `Ev`; the events executed so far
  are kept in `World.trace`, newest first.
* The level register `GPLEV0` is the only input of the program.  Its value is
  given by `World.lev`, a function of the whole history, so that any chip (and
  any sequence of glitches) is covered by quantifying over `World.lev`.
* C `int` values are `Int`; `unsigned char` arrays are functions `Nat → Nat`
  whose stores are reduced modulo 256.
* The three operations `read_pages`, `write_pages` and `erase_blocks` contain
  unbounded loops (`goto retry`, busy polling), so each one is a labelled
  transition system: one `step` per basic block of the C function.
* What an operation did to the chip is read off the trace, not off the program
  counter: `items` decodes the bytes that cross the bus (one per rising edge of
  write-enable or read-enable), `cycles` groups them into command cycles, and
  `cycles_since` / `sent_since` are the cycles of a run.
-/

namespace Nand

/-! ## Bus events and the world -/

/-- One access to the GPIO block. -/
inductive Ev where
  /-- The read-modify-write of `INP_GPIO(g)`: pin `g` becomes an input. -/
  | inp (g : Nat)
  /-- The second read-modify-write of `OUT_GPIO(g)`: pin `g` becomes an output. -/
  | out (g : Nat)
  /-- Store `1 << g` to `GPSET0` (`gpio + 7`). -/
  | set1 (g : Nat)
  /-- Store `1 << g` to `GPCLR0` (`gpio + 10`). -/
  | set0 (g : Nat)
  /-- Load of `GPLEV0` (`gpio + 13`) by `GPIO_READ(g)`, which returned `x`. -/
  | read (g : Nat) (x : Nat)
  /-- One call of `shortpause()`. -/
  | pause
  deriving DecidableEq, Repr

/-- Lines written to standard output (and `perror` lines), one constructor for
each `printf` of the drivers. -/
inductive Msg where
  | id_identical
  | raw_id (b0 b1 b2 b3 b4 : Nat)
  | print_id (b0 b1 b2 b3 b4 : Nat)
  | abort_hint
  | start_reading
  | reading_page (page_no block_no page_nbr number_of_pages percent : Int)
  | id_changed
  | newline
  | read_retry
  | too_many_retries
  | reading_done
  | start_writing
  | writing_page (page block_no page_nbr number_of_pages percent : Int)
  | write_retry
  | write_done
  | start_erasing
  | erasing_block (block address block_nbr number_of_blocks percent : Int)
  | erase_retry
  | erasing_done
  | busy_low
  | perror_fopen_output
  | perror_fopen_badlog
  | perror_fopen_input
  | perror_fwrite
  | banner
  | usage
  | count_not_positive
  | unknown_command
  | delay_too_small
  | perror_open
  | perror_mmap
  | v1_nand_id (b0 b1 b2 b3 b4 : Nat)
  | v1_reading_page (shifted : Int)
  | busy_not_low
  | busy_not_high
  deriving DecidableEq, Repr

/-- The machine the driver runs on: the input register as a function of the
history, the history of register accesses (newest first) and standard output
(newest first). -/
structure World where
  lev : List Ev → Nat
  trace : List Ev
  stdout : List Msg

/-- Append one register access to the history. -/
def World.log (w : World) (e : Ev) : World :=
  { w with trace := e :: w.trace }

/-- Append one line to standard output. -/
def World.print (w : World) (m : Msg) : World :=
  { w with stdout := m :: w.stdout }

/-- The register accesses executed between `w0` and `w`, oldest first. -/
def World.since (w w0 : World) : List Ev :=
  (w.trace.take (w.trace.length - w0.trace.length)).reverse

/-! ## GPIO primitives (identical in both drivers) -/

def INP_GPIO (g : Nat) (w : World) : World :=
  w.log (.inp g)

def OUT_GPIO (g : Nat) (w : World) : World :=
  ( INP_GPIO g w).log (.out g)

def GPIO_SET_1 (g : Nat) (w : World) : World :=
  w.log (.set1 g)

def GPIO_SET_0 (g : Nat) (w : World) : World :=
  w.log (.set0 g)

/-- The source computes `(*(gpio + 13) & (1 << g)) >> g` on a 32-bit register. -/
def GPIO_READ (g : Nat) (w : World) : Nat × World :=
  let x := ((w.lev w.trace % 2 ^ 32) &&& (1 <<< g)) >>> g
  (x, w.log (.read g x))

def shortpause (w : World) : World :=
  w.log .pause

/-- The loop `for (i = 0; i < 8; i++) INP_GPIO(data_to_gpio_map[i])`, with
`k` iterations left. -/
def set_data_direction_in_loop (m : Nat → Nat) : Nat → Nat → World → World
  | 0, _, w => w
  | k + 1, i, w => set_data_direction_in_loop m k (i + 1) ( INP_GPIO (m i) w)

def set_data_direction_in_of (m : Nat → Nat) (w : World) : World :=
  set_data_direction_in_loop m 8 0 w

/-- The loop `for (i = 0; i < 8; i++) OUT_GPIO(data_to_gpio_map[i])`, with
`k` iterations left. -/
def set_data_direction_out_loop (m : Nat → Nat) : Nat → Nat → World → World
  | 0, _, w => w
  | k + 1, i, w => set_data_direction_out_loop m k (i + 1) ( OUT_GPIO (m i) w)

def set_data_direction_out_of (m : Nat → Nat) (w : World) : World :=
  set_data_direction_out_loop m 8 0 w

/-- The loop of `GPIO_DATA8_IN`:
`for (i = data = 0; i < 8; i++, data = data << 1) data |= GPIO_READ(map[7 - i]);` -/
def GPIO_DATA8_IN_loop (m : Nat → Nat) : Nat → Nat → Nat → World → Nat × World
  | 0, _, data, w => (data, w)
  | k + 1, i, data, w =>
    let r := GPIO_READ (m (7 - i)) w
    GPIO_DATA8_IN_loop m k (i + 1) ((data ||| r.1) <<< 1) r.2

/-- The function `GPIO_DATA8_IN`: the loop, then `data >>= 1`. -/
def GPIO_DATA8_IN_of (m : Nat → Nat) (w : World) : Nat × World :=
  let r := GPIO_DATA8_IN_loop m 8 0 0 w
  (r.1 >>> 1, r.2)

/-- The loop of `GPIO_DATA8_OUT`:
`for (i = 0; i < 8; i++, data >>= 1) if (data & 1) GPIO_SET_1(..) else GPIO_SET_0(..)`. -/
def GPIO_DATA8_OUT_loop (m : Nat → Nat) : Nat → Nat → Int → World → World
  | 0, _, _, w => w
  | k + 1, i, data, w =>
    GPIO_DATA8_OUT_loop m k (i + 1) (data >>> 1)
      (if Int.land data 1 ≠ 0 then GPIO_SET_1 (m i) w else GPIO_SET_0 (m i) w)

def GPIO_DATA8_OUT_of (m : Nat → Nat) (data : Int) (w : World) : World :=
  GPIO_DATA8_OUT_loop m 8 0 data w

/-- The function `page_to_address` (identical in both drivers). -/
def page_to_address (page : Int) (address_byte_index : Nat) : Int :=
  match address_byte_index with
  | 2 => Int.land page 0xff
  | 3 => Int.land (page >>> 8) 0xff
  | 4 => Int.land (page >>> 16) 0xff
  | _ => 0

/-- The C `memcmp(a, b, len) != 0` on byte arrays. -/
def memcmp_ne (a b : Nat → Nat) (len : Nat) : Bool :=
  (List.range len).any (fun i => a i != b i)

/-- The C `memcpy(dst, src, len)`. -/
def memcpy (dst src : Nat → Nat) (len : Nat) : Nat → Nat :=
  fun i => if i < len then src i else dst i

/-! ## rpi-raw-nand-v3.c -/

def PAGE_SIZE : Nat := 2112
def BLOCK_SIZE : Nat := 135168

def N_WRITE_PROTECT : Nat := 2
def N_READ_BUSY : Nat := 3
def ADDRESS_LATCH_ENABLE : Nat := 4
def COMMAND_LATCH_ENABLE : Nat := 5
def N_READ_ENABLE : Nat := 6
def N_WRITE_ENABLE : Nat := 7

/-- The table `data_to_gpio_map[8] = { 8, 9, 10, 11, 12, 13, 14, 15 }`. -/
def data_to_gpio_map (i : Nat) : Nat :=
  [8, 9, 10, 11, 12, 13, 14, 15].getD i 0

def set_data_direction_in (w : World) : World :=
  set_data_direction_in_of data_to_gpio_map w

def set_data_direction_out (w : World) : World :=
  set_data_direction_out_of data_to_gpio_map w

def GPIO_DATA8_IN (w : World) : Nat × World :=
  GPIO_DATA8_IN_of data_to_gpio_map w

def GPIO_DATA8_OUT (data : Int) (w : World) : World :=
  GPIO_DATA8_OUT_of data_to_gpio_map data w

def error_msg (m : Msg) (w : World) : World :=
  w.print m

/-- The function `print_id`, as far as the operations need it: one report line
carrying the five bytes. -/
def print_id (id : Nat → Nat) (w : World) : World :=
  w.print (.print_id (id 0) (id 1) (id 2) (id 3) (id 4))

/-- The loop of `read_id` that strobes read-enable and stores `buf[i]`. -/
def read_id_loop : Nat → Nat → (Nat → Nat) → World → (Nat → Nat) × World
  | 0, _, buf, w => (buf, w)
  | k + 1, i, buf, w =>
    let w := GPIO_SET_0 N_READ_ENABLE w
    let w := shortpause w
    let r := GPIO_DATA8_IN w
    let buf := Function.update buf i (r.1 % 256)
    let w := GPIO_SET_1 N_READ_ENABLE r.2
    let w := shortpause w
    read_id_loop k (i + 1) buf w

/-- The result of `read_id`: the return value, the caller's array after the
call, the bytes captured in the local `buf`, and the world. -/
structure ReadId where
  ret : Int
  id : Nat → Nat
  buf : Nat → Nat
  w : World

/-- The bus transaction of `read_id` of rpi-raw-nand-v3.c, from its first
statement to the end of the `for` loop: the five bytes captured in the local
`buf`, and the world. -/
def read_id_capture (w : World) : (Nat → Nat) × World :=
  let w := GPIO_SET_1 COMMAND_LATCH_ENABLE w
  let w := shortpause w
  let w := GPIO_SET_0 N_WRITE_ENABLE w
  let w := set_data_direction_out w
  let w := GPIO_DATA8_OUT 0x90 w
  let w := shortpause w
  let w := GPIO_SET_1 N_WRITE_ENABLE w
  let w := shortpause w
  let w := set_data_direction_in w
  let w := GPIO_SET_0 COMMAND_LATCH_ENABLE w
  let w := shortpause w
  let w := GPIO_SET_1 ADDRESS_LATCH_ENABLE w
  let w := GPIO_SET_0 N_WRITE_ENABLE w
  let w := set_data_direction_out w
  let w := GPIO_DATA8_OUT 0x00 w
  let w := shortpause w
  let w := GPIO_SET_1 N_WRITE_ENABLE w
  let w := shortpause w
  let w := set_data_direction_in w
  let w := GPIO_SET_0 ADDRESS_LATCH_ENABLE w
  let w := shortpause w
  read_id_loop 5 0 (fun _ => 0) w

/-- The function `read_id` of rpi-raw-nand-v3.c: the bus transaction, then the
copy to the caller (or the report when the argument is `NULL`, here `none`) and
the test of the five bytes. -/
def read_id (id : Option (Nat → Nat)) (w : World) : ReadId :=
  let r := read_id_capture w
  let buf := r.1
  let w := r.2
  let idOut := match id with
    | some a => memcpy a buf 5
    | none => buf
  let w := match id with
    | some _ => w
    | none => print_id buf w
  if buf 0 = buf 1 ∧ buf 1 = buf 2 ∧ buf 2 = buf 3 ∧ buf 3 = buf 4 then
    ⟨-1, idOut, buf, error_msg .id_identical w⟩
  else
    ⟨0, idOut, buf, w⟩

/-- The address loop `for (i = from; i < 5; i++)` of the three command
functions; `pause_first` tells whether `shortpause()` follows the falling edge
of write-enable (it does in `send_read_command` and `send_eraseblock_command`,
not in `send_write_command`). -/
def address_loop (pause_first : Bool) (page : Int) : Nat → Nat → World → World
  | 0, _, w => w
  | k + 1, i, w =>
    let w := GPIO_SET_0 N_WRITE_ENABLE w
    let w := if pause_first then shortpause w else w
    let w := GPIO_DATA8_OUT (page_to_address page i) w
    let w := shortpause w
    let w := GPIO_SET_1 N_WRITE_ENABLE w
    let w := shortpause w
    address_loop pause_first page k (i + 1) w

/-- The function `send_read_command`. -/
def send_read_command (page : Int) (w : World) : World :=
  let w := set_data_direction_out w
  let w := GPIO_SET_1 COMMAND_LATCH_ENABLE w
  let w := shortpause w
  let w := GPIO_SET_0 N_WRITE_ENABLE w
  let w := shortpause w
  let w := GPIO_DATA8_OUT 0x00 w
  let w := shortpause w
  let w := GPIO_SET_1 N_WRITE_ENABLE w
  let w := shortpause w
  let w := GPIO_SET_0 COMMAND_LATCH_ENABLE w
  let w := shortpause w
  let w := GPIO_SET_1 ADDRESS_LATCH_ENABLE w
  let w := address_loop true page 5 0 w
  let w := GPIO_SET_0 ADDRESS_LATCH_ENABLE w
  let w := shortpause w
  let w := GPIO_SET_1 COMMAND_LATCH_ENABLE w
  let w := shortpause w
  let w := GPIO_SET_0 N_WRITE_ENABLE w
  let w := shortpause w
  let w := GPIO_DATA8_OUT 0x30 w
  let w := shortpause w
  let w := GPIO_SET_1 N_WRITE_ENABLE w
  let w := shortpause w
  let w := GPIO_SET_0 COMMAND_LATCH_ENABLE w
  shortpause w

/-- The data loop `for (i = 0; i < PAGE_SIZE; i++)` of `send_write_command`. -/
def write_data_loop (data : Nat → Nat) : Nat → Nat → World → World
  | 0, _, w => w
  | k + 1, i, w =>
    let w := GPIO_SET_0 N_WRITE_ENABLE w
    let w := shortpause w
    let w := GPIO_DATA8_OUT (data i : Nat) w
    let w := shortpause w
    let w := GPIO_SET_1 N_WRITE_ENABLE w
    let w := shortpause w
    write_data_loop data k (i + 1) w

/-- The function `send_write_command`. -/
def send_write_command (page : Int) (data : Nat → Nat) (w : World) : World :=
  let w := set_data_direction_out w
  let w := GPIO_SET_1 COMMAND_LATCH_ENABLE w
  let w := shortpause w
  let w := GPIO_SET_0 N_WRITE_ENABLE w
  let w := shortpause w
  let w := GPIO_DATA8_OUT 0x80 w
  let w := shortpause w
  let w := GPIO_SET_1 N_WRITE_ENABLE w
  let w := shortpause w
  let w := GPIO_SET_0 COMMAND_LATCH_ENABLE w
  let w := shortpause w
  let w := GPIO_SET_1 ADDRESS_LATCH_ENABLE w
  let w := address_loop false page 5 0 w
  let w := GPIO_SET_0 ADDRESS_LATCH_ENABLE w
  let w := shortpause w
  let w := write_data_loop data PAGE_SIZE 0 w
  let w := GPIO_SET_1 COMMAND_LATCH_ENABLE w
  let w := shortpause w
  let w := GPIO_SET_0 N_WRITE_ENABLE w
  let w := GPIO_DATA8_OUT 0x10 w
  let w := shortpause w
  let w := GPIO_SET_1 N_WRITE_ENABLE w
  let w := shortpause w
  let w := GPIO_SET_0 COMMAND_LATCH_ENABLE w
  shortpause w

/-- The function `send_eraseblock_command`. -/
def send_eraseblock_command (block : Int) (w : World) : World :=
  let w := set_data_direction_out w
  let w := GPIO_SET_1 COMMAND_LATCH_ENABLE w
  let w := shortpause w
  let w := GPIO_SET_0 N_WRITE_ENABLE w
  let w := shortpause w
  let w := GPIO_DATA8_OUT 0x60 w
  let w := shortpause w
  let w := GPIO_SET_1 N_WRITE_ENABLE w
  let w := shortpause w
  let w := GPIO_SET_0 COMMAND_LATCH_ENABLE w
  let w := shortpause w
  let w := GPIO_SET_1 ADDRESS_LATCH_ENABLE w
  let w := address_loop true block 3 2 w
  let w := GPIO_SET_0 ADDRESS_LATCH_ENABLE w
  let w := shortpause w
  let w := GPIO_SET_1 COMMAND_LATCH_ENABLE w
  let w := shortpause w
  let w := GPIO_SET_0 N_WRITE_ENABLE w
  let w := shortpause w
  let w := GPIO_DATA8_OUT 0xD0 w
  let w := shortpause w
  let w := GPIO_SET_1 N_WRITE_ENABLE w
  let w := shortpause w
  let w := GPIO_SET_0 COMMAND_LATCH_ENABLE w
  shortpause w

/-- The function `read_status`: returns `data & 1`. -/
def read_status (w : World) : Nat × World :=
  let w := set_data_direction_out w
  let w := GPIO_SET_1 COMMAND_LATCH_ENABLE w
  let w := shortpause w
  let w := GPIO_SET_0 N_WRITE_ENABLE w
  let w := GPIO_DATA8_OUT 0x70 w
  let w := shortpause w
  let w := GPIO_SET_1 N_WRITE_ENABLE w
  let w := shortpause w
  let w := GPIO_SET_0 COMMAND_LATCH_ENABLE w
  let w := shortpause w
  let w := set_data_direction_in w
  let w := GPIO_SET_0 N_READ_ENABLE w
  let w := shortpause w
  let r := GPIO_DATA8_IN w
  let w := shortpause r.2
  let w := GPIO_SET_1 N_READ_ENABLE w
  let w := shortpause w
  (r.1 &&& 1, w)

/-! ## What the chip sees: bytes latched on write-enable -/

/-- The GPIO numbers of the lines that take part in a latch cycle. -/
structure Wiring where
  we : Nat
  cle : Nat
  ale : Nat
  data : Nat → Nat

/-- The wiring of rpi-raw-nand-v3.c. -/
def wiring : Wiring :=
  ⟨N_WRITE_ENABLE, COMMAND_LATCH_ENABLE, ADDRESS_LATCH_ENABLE, data_to_gpio_map⟩

/-- The output level of every pin after a history (newest first), from the
levels `s0` before the first event: `GPSET0` raises a pin, `GPCLR0` lowers it. -/
def pins (s0 : Nat → Nat) : List Ev → Nat → Nat
  | [] => s0
  | .set1 g :: t => Function.update (pins s0 t) g 1
  | .set0 g :: t => Function.update (pins s0 t) g 0
  | _ :: t => pins s0 t

/-- The byte on the eight data lines: line `i` has weight `2 ^ i`. -/
def data_byte (m : Nat → Nat) (s : Nat → Nat) : Nat :=
  s (m 0) + 2 * s (m 1) + 4 * s (m 2) + 8 * s (m 3) + 16 * s (m 4) + 32 * s (m 5)
    + 64 * s (m 6) + 128 * s (m 7)

/-- A byte taken by the chip on a rising edge of write-enable, with the levels
of the two latch-enable lines at that moment. -/
structure Latch where
  cle : Nat
  ale : Nat
  data : Nat
  deriving DecidableEq, Repr

/-- The bytes latched during a history (newest first), oldest first: one per
rising edge of write-enable. -/
def latched (wr : Wiring) (s0 : Nat → Nat) : List Ev → List Latch
  | [] => []
  | e :: t =>
    latched wr s0 t ++
      (if e = .set1 wr.we ∧ pins s0 t wr.we = 0 then
        [⟨pins s0 t wr.cle, pins s0 t wr.ale, data_byte wr.data (pins s0 t)⟩]
      else [])

/-! ## rpi-tsop48-nand-v1.c -/

namespace V1

def N_WRITE_PROTECT : Nat := 0
def N_READ_BUSY : Nat := 1
def N_WRITE_ENABLE : Nat := 21
def ADDRESS_LATCH_ENABLE : Nat := 4
def COMMAND_LATCH_ENABLE : Nat := 17
def N_READ_ENABLE : Nat := 18
def N_CHIP_ENABLE : Nat := 22

/-- The table `data_to_gpio_map[8] = { 23, 24, 25, 8, 7, 10, 9, 11 }`. -/
def data_to_gpio_map (i : Nat) : Nat :=
  [23, 24, 25, 8, 7, 10, 9, 11].getD i 0

def set_data_direction_in (w : World) : World :=
  set_data_direction_in_of data_to_gpio_map w

def set_data_direction_out (w : World) : World :=
  set_data_direction_out_of data_to_gpio_map w

def GPIO_DATA8_IN (w : World) : Nat × World :=
  GPIO_DATA8_IN_of data_to_gpio_map w

def GPIO_DATA8_OUT (data : Int) (w : World) : World :=
  GPIO_DATA8_OUT_of data_to_gpio_map data w

/-- The loop of `read_id`: here read-enable is raised before the byte is
sampled. -/
def read_id_loop : Nat → Nat → (Nat → Nat) → World → (Nat → Nat) × World
  | 0, _, buf, w => (buf, w)
  | k + 1, i, buf, w =>
    let w := GPIO_SET_0 N_READ_ENABLE w
    let w := shortpause w
    let w := GPIO_SET_1 N_READ_ENABLE w
    let r := GPIO_DATA8_IN w
    let buf := Function.update buf i (r.1 % 256)
    let w := shortpause r.2
    read_id_loop k (i + 1) buf w

/-- The bus transaction of `read_id` of rpi-tsop48-nand-v1.c, from its first
statement to the end of the `for` loop. -/
def read_id_capture (w : World) : (Nat → Nat) × World :=
  let w := GPIO_SET_1 COMMAND_LATCH_ENABLE w
  let w := shortpause w
  let w := GPIO_SET_0 N_WRITE_ENABLE w
  let w := set_data_direction_out w
  let w := GPIO_DATA8_OUT 0x90 w
  let w := shortpause w
  let w := GPIO_SET_1 N_WRITE_ENABLE w
  let w := shortpause w
  let w := set_data_direction_in w
  let w := GPIO_SET_0 COMMAND_LATCH_ENABLE w
  let w := shortpause w
  let w := GPIO_SET_1 ADDRESS_LATCH_ENABLE w
  let w := GPIO_SET_0 N_WRITE_ENABLE w
  let w := set_data_direction_out w
  let w := GPIO_DATA8_OUT 0x00 w
  let w := shortpause w
  let w := GPIO_SET_1 N_WRITE_ENABLE w
  let w := shortpause w
  let w := set_data_direction_in w
  let w := GPIO_SET_0 ADDRESS_LATCH_ENABLE w
  let w := shortpause w
  read_id_loop 5 0 (fun _ => 0) w

/-- The function `read_id` of rpi-tsop48-nand-v1.c. -/
def read_id (id : Option (Nat → Nat)) (w : World) : ReadId :=
  let r := read_id_capture w
  let buf := r.1
  let w := r.2
  let idOut := match id with
    | some a => memcpy a buf 5
    | none => buf
  let w := match id with
    | some _ => w
    | none => w.print (.raw_id (buf 0) (buf 1) (buf 2) (buf 3) (buf 4))
  if buf 0 = buf 1 ∧ buf 1 = buf 2 ∧ buf 2 = buf 3 ∧ buf 3 = buf 4 then
    ⟨-1, idOut, buf, w.print .id_identical⟩
  else
    ⟨0, idOut, buf, w⟩

/-- The address loop of `send_command_address`. -/
def address_loop (page : Int) : Nat → Nat → World → World
  | 0, _, w => w
  | k + 1, i, w =>
    let w := GPIO_SET_0 N_WRITE_ENABLE w
    let w := GPIO_DATA8_OUT (page_to_address page i) w
    let w := shortpause w
    let w := GPIO_SET_1 N_WRITE_ENABLE w
    let w := shortpause w
    address_loop page k (i + 1) w

/-- The function `send_command_address`. -/
def send_command_address (cmd1 cmd2 : Int) (page : Int) (w : World) : World :=
  let w := set_data_direction_out w
  let w := GPIO_SET_1 COMMAND_LATCH_ENABLE w
  let w := shortpause w
  let w := GPIO_SET_0 N_WRITE_ENABLE w
  let w := GPIO_DATA8_OUT cmd1 w
  let w := shortpause w
  let w := GPIO_SET_1 N_WRITE_ENABLE w
  let w := shortpause w
  let w := GPIO_SET_0 COMMAND_LATCH_ENABLE w
  let w := shortpause w
  let w := GPIO_SET_1 ADDRESS_LATCH_ENABLE w
  let w := address_loop page 5 0 w
  let w := GPIO_SET_0 ADDRESS_LATCH_ENABLE w
  let w := shortpause w
  let w := GPIO_SET_1 COMMAND_LATCH_ENABLE w
  let w := shortpause w
  let w := GPIO_SET_0 N_WRITE_ENABLE w
  let w := GPIO_DATA8_OUT cmd2 w
  let w := shortpause w
  let w := GPIO_SET_1 N_WRITE_ENABLE w
  let w := shortpause w
  let w := GPIO_SET_0 COMMAND_LATCH_ENABLE w
  shortpause w

/-- The wiring of rpi-tsop48-nand-v1.c. -/
def wiring : Wiring :=
  ⟨N_WRITE_ENABLE, COMMAND_LATCH_ENABLE, ADDRESS_LATCH_ENABLE, data_to_gpio_map⟩

end V1

/-! ## The operations of rpi-raw-nand-v3.c as transition systems

Each operation is split at its labels and loop heads.  A configuration holds
the program counter, the local variables and the world; `*_step` executes the
basic block at the program counter.  `sleep` and `clock` have no effect on the
state that is modelled. -/

/-- Program points of `read_pages`. -/
inductive RPc where
  /-- The test `page < (first_page_number + number_of_pages)*2` of the `for`. -/
  | for_cond
  /-- Label `retry_all:`. -/
  | retry_all
  /-- Label `retry:`. -/
  | retry
  /-- The head of `while (GPIO_READ(N_READ_BUSY) == 0)`. -/
  | busy
  /-- The statement `if (!n) continue;`, right after the byte loop. -/
  | after_read
  /-- The statement `if (memcmp(buf, buf + PAGE_SIZE, PAGE_SIZE) != 0)`. -/
  | compare
  /-- The statement `if (write_spare)` with its two `fwrite` calls. -/
  | write
  /-- The function has returned `ret`, or has run off its end (`none`). -/
  | exit (ret : Option Int)
  deriving DecidableEq, Repr

/-- A configuration of `read_pages`.  `sink` holds the records appended to the
output file by successful `fwrite` calls, `badlog` the page numbers of the
lines appended to `bad.log`, and `fwrite_ok k` tells whether the `fwrite`
issued after `k` successful ones succeeds. -/
structure RCfg where
  pc : RPc
  first_page_number : Int
  number_of_pages : Int
  write_spare : Int
  page : Int
  page_no : Int
  retry_count : Nat
  id : Nat → Nat
  id2 : Nat → Nat
  buf : Nat → Nat
  sink : List (List Nat)
  badlog : List Int
  fwrite_ok : Nat → Bool
  w : World

/-- The byte loop of `read_pages`:
`for (i = 0; i < PAGE_SIZE; i++) { ...; buf[i + n] = GPIO_DATA8_IN(); ... }`. -/
def read_pages_byte_loop (n : Int) : Nat → Nat → (Nat → Nat) → World → (Nat → Nat) × World
  | 0, _, buf, w => (buf, w)
  | k + 1, i, buf, w =>
    let w := GPIO_SET_0 N_READ_ENABLE w
    let w := shortpause w
    let r := GPIO_DATA8_IN w
    let buf := Function.update buf ((i : Int) + n).toNat (r.1 % 256)
    let w := GPIO_SET_1 N_READ_ENABLE r.2
    let w := shortpause w
    read_pages_byte_loop n k (i + 1) buf w

/-- The part of `read_pages` before the `for` loop.  `fopen_out` and
`fopen_badlog` tell whether the two `fopen` calls succeed; `id0`, `id2` and
`buf0` are the contents of the local arrays on entry. -/
def read_pages_start (first_page_number number_of_pages : Int) (fopen_out fopen_badlog : Bool)
    (fwrite_ok : Nat → Bool) (write_spare : Int) (id0 id2 buf0 : Nat → Nat) (w : World) : RCfg :=
  let c : RCfg :=
    { pc := .exit (some (-1)), first_page_number := first_page_number,
      number_of_pages := number_of_pages, write_spare := write_spare, page := 0, page_no := 0,
      retry_count := 0, id := id0, id2 := id2, buf := buf0, sink := [], badlog := [],
      fwrite_ok := fwrite_ok, w := w }
  if !fopen_out then
    { c with w := w.print .perror_fopen_output }
  else if !fopen_badlog then
    { c with w := w.print .perror_fopen_badlog }
  else
    let r := GPIO_READ N_READ_BUSY w
    if r.1 = 0 then
      { c with w := error_msg .busy_low r.2 }
    else
      let q := read_id (some id0) r.2
      if q.ret < 0 then
        { c with id := q.id, w := q.w }
      else
        let w := print_id q.id q.w
        let w := w.print .abort_hint
        let w := w.print .start_reading
        { c with pc := .for_cond, id := q.id, w := w, retry_count := 0,
                 page := first_page_number * 2 }

/-- One basic block of `read_pages`. -/
def read_pages_step (c : RCfg) : RCfg :=
  match c.pc with
  | .for_cond =>
    if c.page < (c.first_page_number + c.number_of_pages) * 2 then
      { c with pc := .retry_all }
    else
      { c with pc := .exit none, w := c.w.print .reading_done }
  | .retry_all =>
    let page_no := c.page >>> 1
    let w :=
      if c.page.tmod 2 = 0 ∧ c.retry_count = 0 then
        let page_nbr := page_no - c.first_page_number + 1
        let percent := (100 * page_nbr).tdiv c.number_of_pages
        let block_no := page_no.tdiv 64
        c.w.print (.reading_page page_no block_no page_nbr c.number_of_pages percent)
      else c.w
    { c with pc := .retry, page_no := page_no, w := w }
  | .retry =>
    let q := read_id (some c.id2) c.w
    if memcmp_ne c.id q.id 5 then
      { c with pc := .retry, id2 := q.id, w := q.w.print .id_changed }
    else
      { c with pc := .busy, id2 := q.id, w := send_read_command c.page_no q.w }
  | .busy =>
    let r := GPIO_READ N_READ_BUSY c.w
    if r.1 = 0 then
      { c with pc := .busy, w := shortpause r.2 }
    else
      let w := set_data_direction_in r.2
      let n : Int := (PAGE_SIZE : Int) * Int.land c.page 1
      let b := read_pages_byte_loop n PAGE_SIZE 0 c.buf w
      { c with pc := .after_read, buf := b.1, w := b.2 }
  | .after_read =>
    let n : Int := (PAGE_SIZE : Int) * Int.land c.page 1
    if n = 0 then
      { c with pc := .for_cond, page := c.page + 1 }
    else
      { c with pc := .compare }
  | .compare =>
    if memcmp_ne c.buf (fun i => c.buf (i + PAGE_SIZE)) PAGE_SIZE then
      let w := if c.retry_count = 0 then c.w.print .newline else c.w
      if c.retry_count < 5 then
        { c with pc := .retry_all, w := w.print .read_retry, retry_count := c.retry_count + 1,
                 page := Int.land c.page (~~~(1 : Int)) }
      else
        { c with pc := .write, w := w.print .too_many_retries,
                 badlog := c.badlog ++ [c.page_no] }
    else
      { c with pc := .write }
  | .write =>
    let len := if c.write_spare ≠ 0 then PAGE_SIZE else 512 * (PAGE_SIZE / 512)
    if c.fwrite_ok c.sink.length then
      { c with pc := .for_cond, sink := c.sink ++ [(List.range len).map c.buf],
               retry_count := 0, page := c.page + 1 }
    else
      { c with pc := .exit (some (-1)), w := c.w.print .perror_fwrite }
  | .exit _ => c

/-- Operations on the input file of `write_pages`. -/
inductive FileOp where
  | fseek (offset : Int)
  | fread (size : Nat)
  deriving DecidableEq, Repr

/-- Program points of `write_pages` and of `erase_blocks`. -/
inductive WPc where
  /-- The test of the `for`. -/
  | for_cond
  /-- Label `retry_all:`. -/
  | retry_all
  /-- Label `retry:`. -/
  | retry
  /-- The head of `while (GPIO_READ(N_READ_BUSY) == 0)`. -/
  | busy
  /-- The statement `if (read_status())`. -/
  | status
  /-- The function has returned `ret`, or has run off its end (`none`). -/
  | exit (ret : Option Int)
  deriving DecidableEq, Repr

/-- A configuration of `write_pages`.  `infile` is the content of the input
file, `fpos` the file position and `fops` the operations issued on the file
(newest first). -/
structure WCfg where
  pc : WPc
  first_page_number : Int
  number_of_pages : Int
  page : Int
  retry_count : Nat
  id : Nat → Nat
  id2 : Nat → Nat
  buf : Nat → Nat
  infile : List Nat
  fpos : Nat
  fops : List FileOp
  w : World

/-- The call `fread(buf, PAGE_SIZE, 1, f)` at file position `pos`: the bytes
that the file still holds, at most `PAGE_SIZE`, overwrite the front of `buf`. -/
def fread_page (infile : List Nat) (pos : Nat) (buf : Nat → Nat) : Nat → Nat :=
  fun i => if i < PAGE_SIZE ∧ pos + i < infile.length then infile.getD (pos + i) 0 % 256 else buf i

/-- The part of `write_pages` before the `for` loop. -/
def write_pages_start (first_page_number number_of_pages : Int) (fopen_in : Bool)
    (infile : List Nat) (id0 id2 buf0 : Nat → Nat) (w : World) : WCfg :=
  let c : WCfg :=
    { pc := .exit (some (-1)), first_page_number := first_page_number,
      number_of_pages := number_of_pages, page := 0, retry_count := 0, id := id0, id2 := id2,
      buf := buf0, infile := infile, fpos := 0, fops := [], w := w }
  let q := read_id (some id0) w
  if q.ret < 0 then
    { c with id := q.id, w := q.w }
  else
    let w := print_id q.id q.w
    let w := w.print .abort_hint
    let w := w.print .start_writing
    if !fopen_in then
      { c with id := q.id, w := w.print .perror_fopen_input }
    else
      { c with pc := .for_cond, id := q.id, w := w, retry_count := 0, page := first_page_number }

/-- One basic block of `write_pages`. -/
def write_pages_step (c : WCfg) : WCfg :=
  match c.pc with
  | .for_cond =>
    if c.page < c.first_page_number + c.number_of_pages then
      { c with pc := .retry_all }
    else
      { c with pc := .exit none, w := c.w.print .write_done }
  | .retry_all =>
    let w :=
      if c.retry_count = 0 then
        let page_nbr := c.page - c.first_page_number + 1
        let percent := (100 * page_nbr).tdiv c.number_of_pages
        let block_no := c.page.tdiv 64
        c.w.print (.writing_page c.page block_no page_nbr c.number_of_pages percent)
      else c.w
    let offset : Int := c.page * (PAGE_SIZE : Int)
    let pos := if offset < 0 then c.fpos else offset.toNat
    { c with pc := .retry, w := w, buf := fread_page c.infile pos c.buf,
             fpos := pos + min PAGE_SIZE (c.infile.length - pos),
             fops := .fread PAGE_SIZE :: .fseek offset :: c.fops }
  | .retry =>
    let q := read_id (some c.id2) c.w
    if memcmp_ne c.id q.id 5 then
      { c with pc := .retry, id2 := q.id, w := q.w.print .id_changed }
    else
      { c with pc := .busy, id2 := q.id, w := send_write_command c.page c.buf q.w }
  | .busy =>
    let r := GPIO_READ N_READ_BUSY c.w
    if r.1 = 0 then
      { c with pc := .busy, w := shortpause r.2 }
    else
      { c with pc := .status, w := r.2 }
  | .status =>
    let r := read_status c.w
    if r.1 ≠ 0 then
      let w := if c.retry_count = 0 then r.2.print .newline else r.2
      if c.retry_count < 5 then
        { c with pc := .retry_all, w := w.print .write_retry, retry_count := c.retry_count + 1 }
      else
        { c with pc := .for_cond, w := w.print .too_many_retries, retry_count := 0,
                 page := c.page + 1 }
    else
      { c with pc := .for_cond, w := r.2, retry_count := 0, page := c.page + 1 }
  | .exit _ => c

/-- A configuration of `erase_blocks`. -/
structure ECfg where
  pc : WPc
  first_block_number : Int
  number_of_blocks : Int
  block : Int
  retry_count : Nat
  id : Nat → Nat
  id2 : Nat → Nat
  w : World

/-- The part of `erase_blocks` before the `for` loop. -/
def erase_blocks_start (first_block_number number_of_blocks : Int) (id0 id2 : Nat → Nat)
    (w : World) : ECfg :=
  let c : ECfg :=
    { pc := .exit (some (-1)), first_block_number := first_block_number,
      number_of_blocks := number_of_blocks, block := 0, retry_count := 0, id := id0, id2 := id2,
      w := w }
  let q := read_id (some id0) w
  if q.ret < 0 then
    { c with id := q.id, w := q.w }
  else
    let w := print_id q.id q.w
    let w := w.print .abort_hint
    let w := w.print .start_erasing
    { c with pc := .for_cond, id := q.id, w := w, retry_count := 0, block := first_block_number }

/-- One basic block of `erase_blocks`. -/
def erase_blocks_step (c : ECfg) : ECfg :=
  match c.pc with
  | .for_cond =>
    if c.block < c.first_block_number + c.number_of_blocks then
      { c with pc := .retry_all }
    else
      { c with pc := .exit none, w := c.w.print .erasing_done }
  | .retry_all =>
    let block_nbr := c.block - c.first_block_number + 1
    let percent := (100 * block_nbr).tdiv c.number_of_blocks
    let w :=
      if c.retry_count = 0 then
        c.w.print (.erasing_block c.block (c.block * (BLOCK_SIZE : Int)) block_nbr
          c.number_of_blocks percent)
      else c.w
    { c with pc := .retry, w := w }
  | .retry =>
    let q := read_id (some c.id2) c.w
    if memcmp_ne c.id q.id 5 then
      { c with pc := .retry, id2 := q.id, w := q.w.print .id_changed }
    else
      { c with pc := .busy, id2 := q.id, w := send_eraseblock_command (c.block * 64) q.w }
  | .busy =>
    let r := GPIO_READ N_READ_BUSY c.w
    if r.1 = 0 then
      { c with pc := .busy, w := shortpause r.2 }
    else
      { c with pc := .status, w := r.2 }
  | .status =>
    let r := read_status c.w
    if r.1 ≠ 0 then
      let w := if c.retry_count = 0 then r.2.print .newline else r.2
      if c.retry_count < 5 then
        { c with pc := .retry_all, w := w.print .erase_retry, retry_count := c.retry_count + 1 }
      else
        { c with pc := .for_cond, w := w.print .too_many_retries, retry_count := 0,
                 block := c.block + 1 }
    else
      { c with pc := .for_cond, w := r.2, retry_count := 0, block := c.block + 1 }
  | .exit _ => c

/-- The ID check at label `retry:` of `read_pages` fails in `c`: the five bytes
re-read into `id2` differ from the ID captured at the start. -/
def RCfg.id_drift (c : RCfg) : Bool :=
  memcmp_ne c.id (read_id (some c.id2) c.w).id 5

/-- The ID check at label `retry:` of `write_pages` fails in `c`. -/
def WCfg.id_drift (c : WCfg) : Bool :=
  memcmp_ne c.id (read_id (some c.id2) c.w).id 5

/-- The ID check at label `retry:` of `erase_blocks` fails in `c`. -/
def ECfg.id_drift (c : ECfg) : Bool :=
  memcmp_ne c.id (read_id (some c.id2) c.w).id 5

/-- The bytes latched by `m` consecutive Read-ID transactions, the first one
entered with address-latch at level `a`. -/
def read_id_latches (a : Nat) (m : Nat) : List Latch :=
  (List.range m).flatMap (fun i => [⟨1, if i = 0 then a else 0, 0x90⟩, ⟨0, 1, 0x00⟩])

/-! ## Concrete machines used to instantiate the theorems -/

/-- A world whose level register always reads 0. -/
def world_low : World :=
  ⟨fun _ => 0, [], []⟩

/-- A configuration of `read_pages` at label `retry:` whose captured ID cannot
be read again, because its first entry is not a byte. -/
def rcfg_drift : RCfg :=
  { pc := .retry, first_page_number := 0, number_of_pages := 1, write_spare := 1, page := 0,
    page_no := 0, retry_count := 3, id := fun _ => 256, id2 := fun _ => 0, buf := fun _ => 0,
    sink := [], badlog := [], fwrite_ok := fun _ => true, w := world_low }

/-- A configuration of `write_pages` at label `retry:` whose captured ID cannot
be read again. -/
def wcfg_drift : WCfg :=
  { pc := .retry, first_page_number := 0, number_of_pages := 1, page := 0, retry_count := 2,
    id := fun _ => 256, id2 := fun _ => 0, buf := fun _ => 0, infile := [], fpos := 0,
    fops := [], w := world_low }

/-- A configuration of `erase_blocks` at label `retry:` whose captured ID cannot
be read again. -/
def ecfg_drift : ECfg :=
  { pc := .retry, first_block_number := 0, number_of_blocks := 1, block := 0, retry_count := 1,
    id := fun _ => 256, id2 := fun _ => 0, w := world_low }

/-! ## Observing a run -/

/-- The observations made by the first `K` steps of a run from `c`. -/
def observe {σ α : Type} (step : σ → σ) (obs : σ → Option α) (c : σ) (K : Nat) : List α :=
  (List.range K).filterMap (fun i => obs (step^[i] c))

/-- A world whose level register always reads 8: the busy line (GPIO 3) is
high and the data lines are low. -/
def world_ready : World :=
  ⟨fun _ => 8, [], []⟩

/-- The loop of `erase_blocks` entered for blocks 3 and 4, on a quiet chip
whose ID reads as five zero bytes. -/
def ecfg_two_blocks : ECfg :=
  { pc := .for_cond, first_block_number := 3, number_of_blocks := 2, block := 3, retry_count := 0,
    id := fun _ => 0, id2 := fun _ => 0, w := world_ready }

/-- The assignment `fifthbits[bit] = (id[4] >> bit) & 1` (and likewise for the
third and fourth byte) of `print_id`. -/
def id_bit (b : Nat) (bit : Nat) : Nat :=
  (b >>> bit) &&& 1

/-- The last `switch` of `print_id`, over
`fifthbits[6] * 100 + fifthbits[5] * 10 + fifthbits[4]`, as a function of the
fifth ID byte.  The case labels are the C literals of the source: `010` and
`011` start with `0` and are therefore octal (8 and 9).  The result is `none`
when no label matches, so that `plane_size` is left unassigned. -/
def plane_size (id4 : Nat) : Option Nat :=
  let v := id_bit id4 6 * 100 + id_bit id4 5 * 10 + id_bit id4 4
  if v = 0 then some (64 / 8 * 1024 * 1024)
  else if v = 1 then some (128 / 8 * 1024 * 1024)
  else if v = 0o10 then some (256 / 8 * 1024 * 1024)
  else if v = 0o11 then some (512 / 8 * 1024 * 1024)
  else if v = 100 then some (1024 / 8 * 1024 * 1024)
  else if v = 101 then some (2048 / 8 * 1024 * 1024)
  else if v = 110 then some (4096 / 8 * 1024 * 1024)
  else if v = 111 then some (8192 / 8 * 1024 * 1024)
  else none

/-- How `main` ends: with a `return` of its own, or with the tail call
`return f(...)` of one of the operations, whose arguments are recorded. -/
inductive MainOutcome where
  | exit (code : Int) (w : World)
  | read_id (w : World)
  | read_pages (first_page_number number_of_pages : Int) (outfile : String) (write_spare : Int)
      (w : World)
  | write_pages (first_page_number number_of_pages : Int) (infile : String) (w : World)
  | erase_blocks (first_block_number number_of_blocks : Int) (w : World)

/-- The pin set-up at the top of `main` of rpi-raw-nand-v3.c. -/
def main_gpio_setup (w : World) : World :=
  let w := INP_GPIO N_READ_BUSY w
  let w := OUT_GPIO N_WRITE_PROTECT w
  let w := GPIO_SET_1 N_WRITE_PROTECT w
  let w := OUT_GPIO N_READ_ENABLE w
  let w := GPIO_SET_1 N_READ_ENABLE w
  let w := OUT_GPIO N_WRITE_ENABLE w
  let w := GPIO_SET_1 N_WRITE_ENABLE w
  let w := OUT_GPIO COMMAND_LATCH_ENABLE w
  let w := GPIO_SET_0 COMMAND_LATCH_ENABLE w
  let w := OUT_GPIO ADDRESS_LATCH_ENABLE w
  GPIO_SET_0 ADDRESS_LATCH_ENABLE w

/-- The function `main` of rpi-raw-nand-v3.c.  `atoi` is the C library
function; `open_ok` and `mmap_ok` tell whether `/dev/mem` could be opened and
mapped; `argv` holds the `argc` arguments.  Label `usage:` prints the usage
text and returns -1. -/
def main (atoi : String → Int) (open_ok mmap_ok : Bool) (argv : List String) (w : World) :
    MainOutcome :=
  let w := w.print .banner
  if !open_ok then .exit (-1) (w.print .perror_open)
  else if !mmap_ok then .exit (-1) (w.print .perror_mmap)
  else
    let w := main_gpio_setup w
    let usage : MainOutcome := .exit (-1) (w.print .usage)
    if argv.length < 3 then usage
    else if argv.getD 2 "" = "read_id" then .read_id w
    else if argv.getD 2 "" = "read_full" then
      if argv.length ≠ 6 then usage
      else if atoi (argv.getD 4 "") ≤ 0 then .exit (-1) (w.print .count_not_positive)
      else .read_pages (atoi (argv.getD 3 "")) (atoi (argv.getD 4 "")) (argv.getD 5 "") 1 w
    else if argv.getD 2 "" = "read_data" then
      if argv.length ≠ 6 then usage
      else if atoi (argv.getD 4 "") ≤ 0 then .exit (-1) (w.print .count_not_positive)
      else .read_pages (atoi (argv.getD 3 "")) (atoi (argv.getD 4 "")) (argv.getD 5 "") 0 w
    else if argv.getD 2 "" = "write_full" then
      if argv.length ≠ 6 then usage
      else if atoi (argv.getD 4 "") ≤ 0 then .exit (-1) (w.print .count_not_positive)
      else .write_pages (atoi (argv.getD 3 "")) (atoi (argv.getD 4 "")) (argv.getD 5 "") w
    else if argv.getD 2 "" = "erase_blocks" then
      if argv.length ≠ 5 then usage
      else if atoi (argv.getD 4 "") ≤ 0 then .exit (-1) (w.print .count_not_positive)
      else .erase_blocks (atoi (argv.getD 3 "")) (atoi (argv.getD 4 "")) w
    else .exit (-1) ((w.print .unknown_command).print .usage)

/-- The pin set-up at the top of `main` of rpi-tsop48-nand-v1.c. -/
def V1.main_gpio_setup (w : World) : World :=
  let w := INP_GPIO V1.N_READ_BUSY w
  let w := OUT_GPIO V1.N_WRITE_PROTECT w
  let w := GPIO_SET_1 V1.N_WRITE_PROTECT w
  let w := OUT_GPIO V1.N_READ_ENABLE w
  let w := GPIO_SET_1 V1.N_READ_ENABLE w
  let w := OUT_GPIO V1.N_WRITE_ENABLE w
  let w := GPIO_SET_1 V1.N_WRITE_ENABLE w
  let w := OUT_GPIO V1.COMMAND_LATCH_ENABLE w
  let w := GPIO_SET_0 V1.COMMAND_LATCH_ENABLE w
  let w := OUT_GPIO V1.ADDRESS_LATCH_ENABLE w
  let w := GPIO_SET_0 V1.ADDRESS_LATCH_ENABLE w
  let w := OUT_GPIO V1.N_CHIP_ENABLE w
  GPIO_SET_0 V1.N_CHIP_ENABLE w

/-- The function `main` of rpi-tsop48-nand-v1.c. -/
def V1.main (atoi : String → Int) (open_ok mmap_ok : Bool) (argv : List String) (w : World) :
    MainOutcome :=
  if !open_ok then .exit (-1) (w.print .perror_open)
  else if !mmap_ok then .exit (-1) (w.print .perror_mmap)
  else
    let w := V1.main_gpio_setup w
    let usage : MainOutcome := .exit (-1) ((GPIO_SET_1 V1.N_CHIP_ENABLE w).print .usage)
    if argv.length < 3 then usage
    else if atoi (argv.getD 1 "") < 20 then .exit (-1) (w.print .delay_too_small)
    else if argv.getD 2 "" = "read_id" then .read_id w
    else if argv.getD 2 "" = "read_full" then
      if argv.length ≠ 6 then usage
      else if atoi (argv.getD 4 "") ≤ 0 then .exit (-1) (w.print .count_not_positive)
      else .read_pages (atoi (argv.getD 3 "")) (atoi (argv.getD 4 "")) (argv.getD 5 "") 1 w
    else if argv.getD 2 "" = "read_data" then
      if argv.length ≠ 6 then usage
      else if atoi (argv.getD 4 "") ≤ 0 then .exit (-1) (w.print .count_not_positive)
      else .read_pages (atoi (argv.getD 3 "")) (atoi (argv.getD 4 "")) (argv.getD 5 "") 0 w
    else
      .exit (-1) (((GPIO_SET_1 V1.N_CHIP_ENABLE w).print .unknown_command).print .usage)

/-- The command line `prog 50 read_full 0 0 out.bin`. -/
def argv_zero_count : List String :=
  ["prog", "50", "read_full", "0", "0", "out.bin"]

def V1.MAX_WAIT_READ_BUSY : Nat := 1000000

/-- The bounded polling loops of `read_pages` of rpi-tsop48-nand-v1.c,
`for (i = 0; i < MAX_WAIT_READ_BUSY; i++) if (GPIO_READ(N_READ_BUSY) == level) break;`
with `k` iterations left; the result is `false` when the loop ran to
`i == MAX_WAIT_READ_BUSY`. -/
def V1.wait_read_busy (level : Nat) : Nat → World → Bool × World
  | 0, w => (false, w)
  | k + 1, w =>
    let r := GPIO_READ V1.N_READ_BUSY w
    if r.1 = level then (true, r.2) else V1.wait_read_busy level k r.2

/-- The byte loop of `read_pages` of rpi-tsop48-nand-v1.c: read-enable is
raised before the byte is sampled. -/
def V1.read_pages_byte_loop (n : Int) : Nat → Nat → (Nat → Nat) → World → (Nat → Nat) × World
  | 0, _, buf, w => (buf, w)
  | k + 1, i, buf, w =>
    let w := GPIO_SET_0 V1.N_READ_ENABLE w
    let w := shortpause w
    let w := GPIO_SET_1 V1.N_READ_ENABLE w
    let r := V1.GPIO_DATA8_IN w
    let buf := Function.update buf ((i : Int) + n).toNat (r.1 % 256)
    let w := shortpause r.2
    V1.read_pages_byte_loop n k (i + 1) buf w

/-- The part of `read_pages` of rpi-tsop48-nand-v1.c before the `for` loop. -/
def V1.read_pages_start (first_page_number number_of_pages : Int) (fopen_out fopen_badlog : Bool)
    (fwrite_ok : Nat → Bool) (write_spare : Int) (id0 id2 buf0 : Nat → Nat) (w : World) : RCfg :=
  let c : RCfg :=
    { pc := .exit (some (-1)), first_page_number := first_page_number,
      number_of_pages := number_of_pages, write_spare := write_spare, page := 0, page_no := 0,
      retry_count := 0, id := id0, id2 := id2, buf := buf0, sink := [], badlog := [],
      fwrite_ok := fwrite_ok, w := w }
  if !fopen_out then
    { c with w := w.print .perror_fopen_output }
  else if !fopen_badlog then
    { c with w := w.print .perror_fopen_badlog }
  else
    let r := GPIO_READ V1.N_READ_BUSY w
    if r.1 = 0 then
      { c with w := r.2.print .busy_low }
    else
      let q := V1.read_id (some id0) r.2
      if q.ret < 0 then
        { c with id := q.id, w := q.w }
      else
        let w := q.w.print (.v1_nand_id (q.id 0) (q.id 1) (q.id 2) (q.id 3) (q.id 4))
        let w := w.print .abort_hint
        { c with pc := .for_cond, id := q.id, w := w, retry_count := 0,
                 page := first_page_number * 2 }

/-- One basic block of `read_pages` of rpi-tsop48-nand-v1.c.  The program
points are those of `RPc`; `retry_all` and `busy` do not occur (the polling
loops are bounded and are part of the block at label `retry:`).  The line
`reading page %d` prints `page << 1`. -/
def V1.read_pages_step (c : RCfg) : RCfg :=
  match c.pc with
  | .for_cond =>
    if c.page < (c.first_page_number + c.number_of_pages) * 2 then
      { c with pc := .retry }
    else
      { c with pc := .exit none }
  | .retry =>
    let q := V1.read_id (some c.id2) c.w
    if memcmp_ne c.id q.id 5 then
      { c with pc := .retry, id2 := q.id, w := q.w.print .id_changed }
    else
      let w := q.w.print (.v1_reading_page (c.page * 2))
      let w := V1.send_command_address 0x00 0x30 (c.page >>> 1) w
      let r := V1.wait_read_busy 0 V1.MAX_WAIT_READ_BUSY w
      if !r.1 then
        { c with pc := .retry, id2 := q.id, w := r.2.print .busy_not_low }
      else
        let w := V1.set_data_direction_in r.2
        let r := V1.wait_read_busy 1 V1.MAX_WAIT_READ_BUSY w
        if !r.1 then
          { c with pc := .retry, id2 := q.id, w := r.2.print .busy_not_high }
        else
          let n : Int := (PAGE_SIZE : Int) * Int.land c.page 1
          let b := V1.read_pages_byte_loop n PAGE_SIZE 0 c.buf r.2
          { c with pc := .after_read, id2 := q.id, buf := b.1, w := b.2 }
  | .after_read =>
    let n : Int := (PAGE_SIZE : Int) * Int.land c.page 1
    if n = 0 then
      { c with pc := .for_cond, page := c.page + 1 }
    else
      { c with pc := .compare }
  | .compare =>
    if memcmp_ne c.buf (fun i => c.buf (i + PAGE_SIZE)) PAGE_SIZE then
      if c.retry_count < 5 then
        { c with pc := .retry, w := c.w.print .read_retry, retry_count := c.retry_count + 1,
                 page := Int.land c.page (~~~(1 : Int)) }
      else
        { c with pc := .write, w := c.w.print .too_many_retries,
                 badlog := c.badlog ++ [c.page >>> 1], retry_count := 0 }
    else
      { c with pc := .write }
  | .write =>
    let len := if c.write_spare ≠ 0 then PAGE_SIZE else 512 * (PAGE_SIZE / 512)
    if c.fwrite_ok c.sink.length then
      { c with pc := .for_cond, sink := c.sink ++ [(List.range len).map c.buf],
               page := c.page + 1 }
    else
      { c with pc := .exit (some (-1)), w := c.w.print .perror_fwrite }
  | _ => c

/-- The state of `read_pages` of rpi-tsop48-nand-v1.c when the second copy of
page 0 has just been read for the third time, after two mismatches
(`retry_count` is 2), and now equals the first copy. -/
def v1_cfg_after_two_retries : RCfg :=
  { pc := .compare, first_page_number := 0, number_of_pages := 2, write_spare := 1, page := 1,
    page_no := 0, retry_count := 2, id := fun _ => 0, id2 := fun _ => 0, buf := fun _ => 0,
    sink := [], badlog := [], fwrite_ok := fun _ => true, w := world_ready }

/-- The loop of `write_pages` at label `retry_all:` for page 1 of a source file
of two pages, all of whose bytes are `0xA5`, on a quiet chip. -/
def wcfg_page_one : WCfg :=
  { pc := .retry_all, first_page_number := 1, number_of_pages := 1, page := 1, retry_count := 0,
    id := fun _ => 0, id2 := fun _ => 0, buf := fun _ => 0, infile := List.replicate 4224 165,
    fpos := 0, fops := [], w := world_ready }

/-- The value returned by `read_status` in the step from `c`, when that step
makes the call. -/
def WCfg.status_result (c : WCfg) : Option Nat :=
  if c.pc = .status then some (read_status c.w).1 else none

/-- The file operations of `m` passes through label `retry_all:` for one page,
newest first. -/
def page_reads (page : Int) : Nat → List FileOp
  | 0 => []
  | m + 1 => .fread PAGE_SIZE :: .fseek (page * (PAGE_SIZE : Int)) :: page_reads page m

/-- A world whose level register always reads `0x0508`: the busy line and the
data lines 0 and 2 are high. -/
def world_five : World :=
  ⟨fun _ => 0x0508, [], []⟩

/-- The direction of every pin after a history (newest first), from the
directions `d0` before the first event: `true` is output, `false` is input. -/
def dirs (d0 : Nat → Bool) : List Ev → Nat → Bool
  | [] => d0
  | .inp g :: t => Function.update (dirs d0 t) g false
  | .out g :: t => Function.update (dirs d0 t) g true
  | _ :: t => dirs d0 t

/-- Pin `g` is one of the eight data lines of the table `m`. -/
def is_data_line (m : Nat → Nat) (g : Nat) : Bool :=
  (List.range 8).any (fun i => m i == g)

/-- All eight data lines have direction `b` in `d`. -/
def data_lines_are (m : Nat → Nat) (d : Nat → Bool) (b : Bool) : Bool :=
  (List.range 8).all (fun i => d (m i) == b)

/-- The event `e`, executed with the pin directions `d`, respects the ownership
of the data lines: a store to `GPSET0` or `GPCLR0` for a data line (only
`GPIO_DATA8_OUT` makes one) finds all eight data lines configured as outputs,
and a load of `GPLEV0` for a data line (only `GPIO_DATA8_IN` makes one) finds
all eight configured as inputs. -/
def ev_dir_ok (m : Nat → Nat) (d : Nat → Bool) : Ev → Bool
  | .set1 g => !is_data_line m g || data_lines_are m d true
  | .set0 g => !is_data_line m g || data_lines_are m d true
  | .read g _ => !is_data_line m g || data_lines_are m d false
  | _ => true

/-- Every event of the history (newest first) respects the ownership of the
data lines. -/
def dir_ok (m : Nat → Nat) (d0 : Nat → Bool) : List Ev → Bool
  | [] => true
  | e :: t => dir_ok m d0 t && ev_dir_ok m (dirs d0 t) e

/-- The kinds of bus event of rpi-raw-nand-v3.c that the pause discipline is
about. -/
inductive BusEv where
  /-- A data line is made an input or an output (`set_data_direction_in`,
  `set_data_direction_out`). -/
  | direction
  /-- Command-latch or address-latch is asserted or deasserted. -/
  | latch
  /-- An edge of read-enable or write-enable. -/
  | strobe
  deriving DecidableEq, Repr

/-- The bus event that a register access of rpi-raw-nand-v3.c makes, if any. -/
def bus_event : Ev → Option BusEv
  | .inp g => if is_data_line data_to_gpio_map g then some .direction else none
  | .out g => if is_data_line data_to_gpio_map g then some .direction else none
  | .set1 g =>
    if g = COMMAND_LATCH_ENABLE ∨ g = ADDRESS_LATCH_ENABLE then some .latch
    else if g = N_WRITE_ENABLE ∨ g = N_READ_ENABLE then some .strobe else none
  | .set0 g =>
    if g = COMMAND_LATCH_ENABLE ∨ g = ADDRESS_LATCH_ENABLE then some .latch
    else if g = N_WRITE_ENABLE ∨ g = N_READ_ENABLE then some .strobe else none
  | _ => none

/-- The latest bus event of a history (newest first) that no `shortpause()`
has followed yet. -/
def unpaused : List Ev → Option BusEv
  | [] => none
  | .pause :: _ => none
  | e :: t =>
    match bus_event e with
    | some k => some k
    | none => unpaused t

/-- Between any two consecutive bus events of the history (newest first) there
is a `shortpause()`; the register accesses of one direction change count as one
event. -/
def pause_between_all : List Ev → Bool
  | [] => true
  | e :: t =>
    pause_between_all t &&
      (match bus_event e, unpaused t with
        | some .direction, some .direction => true
        | some _, some _ => false
        | _, _ => true)

/-- The register accesses that the transactions follow with `shortpause()`
directly: the assertion of command-latch, the deassertion of either latch, and
the rising edge of either strobe. -/
def pause_follows : Ev → Bool
  | .set1 g => g == COMMAND_LATCH_ENABLE || g == N_WRITE_ENABLE || g == N_READ_ENABLE
  | .set0 g => g == COMMAND_LATCH_ENABLE || g == ADDRESS_LATCH_ENABLE
  | _ => false

/-- The register access is a call of `shortpause()`. -/
def is_pause : Ev → Bool
  | .pause => true
  | _ => false

/-- The newest register access of the history still waits for its
`shortpause()`. -/
def pending : List Ev → Bool
  | [] => false
  | e :: _ => pause_follows e

/-- Going back in the history (newest first), a `shortpause()` comes before the
latest store that lowered pin `g`. -/
def paused_since_fall (g : Nat) : List Ev → Bool
  | [] => false
  | .pause :: _ => true
  | .set0 h :: t => if h = g then false else paused_since_fall g t
  | _ :: t => paused_since_fall g t

/-- The pause discipline of the transactions, on a history (newest first):
every register access of `pause_follows` is followed by `shortpause()`
directly, and every rising edge of a strobe has a `shortpause()` between it and
the falling edge before it. -/
def pause_discipline : List Ev → Bool
  | [] => true
  | e :: t =>
    pause_discipline t && (!pending t || is_pause e) &&
      (match e with
        | .set1 g => !(g == N_WRITE_ENABLE || g == N_READ_ENABLE) || paused_since_fall g t
        | _ => true)

/-- The number of bytes of the page buffer that `read_pages` appends to the
output file: `PAGE_SIZE` with the spare area, `512 * (PAGE_SIZE / 512)`
without. -/
def record_len (write_spare : Int) : Nat :=
  if write_spare ≠ 0 then PAGE_SIZE else 512 * (PAGE_SIZE / 512)

/-- Step `i` of the run of `read_pages` from `c0` is the first of the two reads
of page `q`: the busy wait ends and the byte loop fills `buf[0 .. PAGE_SIZE)`
after `send_read_command(q)`. -/
def first_read_at (c0 : RCfg) (i : Nat) (q : Int) : Prop :=
  (read_pages_step^[i] c0).pc = .busy ∧
    (GPIO_READ N_READ_BUSY (read_pages_step^[i] c0).w).1 ≠ 0 ∧
    (read_pages_step^[i] c0).page = 2 * q ∧ (read_pages_step^[i] c0).page_no = q

/-- The front half of `buf` holds what a first read of page `q`, made before
step `K` of the run from `c0`, stored there. -/
def buf_from (c0 : RCfg) (K : Nat) (buf : Nat → Nat) (q : Int) : Prop :=
  ∃ i, i < K ∧ first_read_at c0 i q ∧
    ∀ x, x < PAGE_SIZE → buf x = (read_pages_step^[i + 1] c0).buf x

/-- Record `k` of `sink` holds the first `record_len` bytes stored by a first
read of page `first_page_number + k` made before step `K`. -/
def records_ok (c0 : RCfg) (K : Nat) (sink : List (List Nat)) : Prop :=
  ∀ k, k < sink.length → ∃ i, i < K ∧ first_read_at c0 i (c0.first_page_number + (k : Int)) ∧
    sink[k]? = some ((List.range (record_len c0.write_spare)).map
      (read_pages_step^[i + 1] c0).buf)

/-- The invariant of the loop of `read_pages`, for the configuration `c`
reached after `K` steps from the loop entry `c0` with first page `f`: the sink
holds one record for each page before the current one, and the page counter
stands at the first or the second read of the page after those. -/
def read_inv (c0 : RCfg) (f : Nat) (K : Nat) (c : RCfg) : Prop :=
  c.first_page_number = c0.first_page_number ∧ c.number_of_pages = c0.number_of_pages ∧
  c.write_spare = c0.write_spare ∧ records_ok c0 K c.sink ∧
  match c.pc with
  | .for_cond =>
    (c.page = 2 * ((f + c.sink.length : Nat) : Int) ∧
        (c.sink.length : Int) ≤ c0.number_of_pages) ∨
      (c.page = 2 * ((f + c.sink.length : Nat) : Int) + 1 ∧
        (c.sink.length : Int) < c0.number_of_pages ∧
        buf_from c0 K c.buf ((f + c.sink.length : Nat) : Int))
  | .retry_all =>
    (c.sink.length : Int) < c0.number_of_pages ∧
      (c.page = 2 * ((f + c.sink.length : Nat) : Int) ∨
        (c.page = 2 * ((f + c.sink.length : Nat) : Int) + 1 ∧
          buf_from c0 K c.buf ((f + c.sink.length : Nat) : Int)))
  | .retry =>
    (c.sink.length : Int) < c0.number_of_pages ∧ c.page_no = ((f + c.sink.length : Nat) : Int) ∧
      (c.page = 2 * ((f + c.sink.length : Nat) : Int) ∨
        (c.page = 2 * ((f + c.sink.length : Nat) : Int) + 1 ∧
          buf_from c0 K c.buf ((f + c.sink.length : Nat) : Int)))
  | .busy =>
    (c.sink.length : Int) < c0.number_of_pages ∧ c.page_no = ((f + c.sink.length : Nat) : Int) ∧
      (c.page = 2 * ((f + c.sink.length : Nat) : Int) ∨
        (c.page = 2 * ((f + c.sink.length : Nat) : Int) + 1 ∧
          buf_from c0 K c.buf ((f + c.sink.length : Nat) : Int)))
  | .after_read =>
    (c.sink.length : Int) < c0.number_of_pages ∧ c.page_no = ((f + c.sink.length : Nat) : Int) ∧
      buf_from c0 K c.buf ((f + c.sink.length : Nat) : Int) ∧
      (c.page = 2 * ((f + c.sink.length : Nat) : Int) ∨
        c.page = 2 * ((f + c.sink.length : Nat) : Int) + 1)
  | .compare =>
    (c.sink.length : Int) < c0.number_of_pages ∧ c.page_no = ((f + c.sink.length : Nat) : Int) ∧
      c.page = 2 * ((f + c.sink.length : Nat) : Int) + 1 ∧
      buf_from c0 K c.buf ((f + c.sink.length : Nat) : Int)
  | .write =>
    (c.sink.length : Int) < c0.number_of_pages ∧ c.page_no = ((f + c.sink.length : Nat) : Int) ∧
      c.page = 2 * ((f + c.sink.length : Nat) : Int) + 1 ∧
      buf_from c0 K c.buf ((f + c.sink.length : Nat) : Int)
  | .exit none => (c.sink.length : Int) = c0.number_of_pages
  | .exit (some _) => True

/-- The result of the `memcmp` of the two copies made by the step from `c`,
when that step compares them: `true` when they differ. -/
def RCfg.compare_result (c : RCfg) : Option Bool :=
  if c.pc = .compare then
    some (memcmp_ne c.buf (fun i => c.buf (i + PAGE_SIZE)) PAGE_SIZE)
  else none

/-- The number of times address-latch was raised in a history. -/
def ale_count : List Ev → Nat
  | [] => 0
  | .set1 g :: t => ale_count t + (if g = ADDRESS_LATCH_ENABLE then 1 else 0)
  | _ :: t => ale_count t

/-- The history (newest first) ends with: address-latch lowered, pause. -/
def ale_just_lowered : List Ev → Bool
  | .pause :: .set0 g :: _ => g == ADDRESS_LATCH_ENABLE
  | _ => false

/-- The history (newest first) ends with the events that precede the first
sample of a Read-ID answer: address-latch lowered, pause, read-enable lowered,
pause. -/
def id_first_strobe : List Ev → Bool
  | .pause :: .set0 g :: t => g == N_READ_ENABLE && ale_just_lowered t
  | _ => false

/-- Whether the simulated chip drives data line 7 high: on the first byte of a
Read-ID answer, and, when `flaky` is set, while the number of address phases
seen so far is 3 modulo 4. -/
def chip_sel (flaky : Bool) (t : List Ev) : Bool :=
  id_first_strobe t || (flaky && ale_count t % 4 == 3)

/-- The level register of a simulated chip: the busy line (GPIO 3) is always
high and data line 7 (GPIO 15) follows `chip_sel`.  Its ID is `80 00 00 00 00`;
with `flaky` set, the first of the two reads of every page returns `0x80`
bytes and the second one `0x00` bytes. -/
def chip_lev (flaky : Bool) : List Ev → Nat :=
  fun t => 8 + (if chip_sel flaky t then 32768 else 0)

/-- The ID of the simulated chip. -/
def chip_id (i : Nat) : Nat :=
  if i = 0 then 128 else 0

/-- The property holds at each of the first `n` configurations of the run. -/
def holds_before (Q : RCfg → Prop) (c : RCfg) (n : Nat) : Prop :=
  ∀ j, j < n → Q (read_pages_step^[j] c)

/-- A world with the simulated chip and an empty history. -/
def chip_world (fl : Bool) : World :=
  ⟨chip_lev fl, [], []⟩

/-! ## The bus as the chip decodes it: command cycles -/

/-- The level last loaded from every pin by `GPIO_READ` during a history
(newest first), from the levels `l0` before the first event. -/
def loaded (l0 : Nat → Nat) : List Ev → Nat → Nat
  | [] => l0
  | .read g x :: t => Function.update (loaded l0 t) g x
  | _ :: t => loaded l0 t

/-- A byte that crosses the bus of rpi-raw-nand-v3.c: one latched by the chip
on a rising edge of write-enable, or one taken by the driver during a strobe of
read-enable. -/
inductive Item where
  | latch (l : Latch)
  | sample (b : Nat)
  deriving DecidableEq, Repr

/-- The bytes that cross the bus during a history (newest first), oldest first:
one `latch` per rising edge of write-enable, as in `latched`, and one `sample`
per rising edge of read-enable, holding the levels that the driver last loaded
from the eight data lines. -/
def items (s0 l0 : Nat → Nat) : List Ev → List Item
  | [] => []
  | e :: t =>
    items s0 l0 t ++
      (if e = .set1 N_WRITE_ENABLE ∧ pins s0 t N_WRITE_ENABLE = 0 then
        [.latch ⟨pins s0 t COMMAND_LATCH_ENABLE, pins s0 t ADDRESS_LATCH_ENABLE,
          data_byte data_to_gpio_map (pins s0 t)⟩]
      else if e = .set1 N_READ_ENABLE ∧ pins s0 t N_READ_ENABLE = 0 then
        [.sample (data_byte data_to_gpio_map (loaded l0 t))]
      else [])

/-- A command byte: a byte latched with command-latch high. -/
def Item.is_cmd : Item → Bool
  | .latch l => l.cle == 1
  | .sample _ => false

/-- The byte of an item. -/
def Item.byte : Item → Nat
  | .latch l => l.data
  | .sample b => b

/-- An address byte: a byte latched with command-latch low and address-latch
high. -/
def Item.addr : Item → Option Nat
  | .latch l => if l.cle ≠ 1 ∧ l.ale = 1 then some l.data else none
  | .sample _ => none

/-- A data byte written to the chip: a byte latched with both latch-enable
lines low. -/
def Item.data : Item → Option Nat
  | .latch l => if l.cle ≠ 1 ∧ l.ale ≠ 1 then some l.data else none
  | .sample _ => none

/-- A byte read from the chip. -/
def Item.reply : Item → Option Nat
  | .latch _ => none
  | .sample b => some b

/-- A command cycle as the chip sees it: the command byte, the address bytes
and the data bytes latched after it, and the bytes read back, up to the next
command byte. -/
structure Cycle where
  cmd : Nat
  addr : List Nat
  data : List Nat
  reply : List Nat
  deriving DecidableEq, Repr

/-- The items up to the next command byte. -/
def cycle_body (t : List Item) : List Item :=
  t.takeWhile (fun y => !y.is_cmd)

/-- The command cycles of a sequence of bus items (oldest first).  Items before
the first command byte belong to no cycle. -/
def cycles : List Item → List Cycle
  | [] => []
  | x :: t =>
    if x.is_cmd then
      ⟨x.byte, (cycle_body t).filterMap Item.addr, (cycle_body t).filterMap Item.data,
        (cycle_body t).filterMap Item.reply⟩ :: cycles t
    else cycles t

/-- The cycle `c` with the items `S` added to its body. -/
def Cycle.extend (c : Cycle) (S : List Item) : Cycle :=
  ⟨c.cmd, c.addr ++ S.filterMap Item.addr, c.data ++ S.filterMap Item.data,
    c.reply ++ S.filterMap Item.reply⟩

/-- The items `S` added to the body of the last cycle. -/
def extend_last : List Cycle → List Item → List Cycle
  | [], _ => []
  | [c], S => [c.extend S]
  | c :: d :: t, S => c :: extend_last (d :: t) S

/-- The command cycles that the chip saw between the worlds `w0` and `w`. -/
def cycles_since (s0 l0 : Nat → Nat) (w w0 : World) : List Cycle :=
  cycles ((items s0 l0 w.trace).drop (items s0 l0 w0.trace).length)

/-- What the driver sent in a command cycle: command byte, address bytes and
data bytes. -/
def Cycle.sent (c : Cycle) : Nat × List Nat × List Nat :=
  (c.cmd, c.addr, c.data)

/-- The commands sent to the chip between the worlds `w0` and `w`, the Read-ID
commands (`0x90`) left out: command byte, address bytes and data bytes of every
cycle, in order. -/
def sent_since (s0 l0 : Nat → Nat) (w w0 : World) : List (Nat × List Nat × List Nat) :=
  ((cycles_since s0 l0 w w0).filter (fun c => c.cmd != 0x90)).map Cycle.sent

/-- The address bytes `page_to_address(page, i)` for `i = first .. 4`. -/
def address_bytes (page : Int) (first : Nat) : List Nat :=
  (List.range (5 - first)).map (fun i => (page_to_address page (first + i)).toNat)

/-- What a Read Page transaction for `page` sends: `0x00`, the five address
bytes, `0x30`. -/
def read_sent (page : Int) : List (Nat × List Nat × List Nat) :=
  [(0x00, address_bytes page 0, []), (0x30, [], [])]

/-- What a Page Program transaction for `page` sends: `0x80`, the five address
bytes, the `PAGE_SIZE` bytes of `data`, `0x10`. -/
def program_sent (page : Int) (data : Nat → Nat) : List (Nat × List Nat × List Nat) :=
  [(0x80, address_bytes page 0, (List.range PAGE_SIZE).map (fun i => data i % 256)),
    (0x10, [], [])]

/-- What a Block Erase transaction for the block at page address `page` sends:
`0x60`, the three row address bytes, `0xD0`. -/
def erase_sent (page : Int) : List (Nat × List Nat × List Nat) :=
  [(0x60, address_bytes page 2, []), (0xD0, [], [])]

/-- What a Read Status transaction sends: `0x70`. -/
def status_sent : List (Nat × List Nat × List Nat) :=
  [(0x70, [], [])]

/-- The two cycles of a Read Page transaction for `page` that was answered with
the bytes `B`. -/
def read_cycles (page : Int) (B : List Nat) : List Cycle :=
  [⟨0x00, address_bytes page 0, [], []⟩, ⟨0x30, [], [], B⟩]

/-- The cycles contain a Read Page transaction for `page` whose answer, the
bytes that the driver took while the chip was read out, is `B`. -/
def read_answer (cyc : List Cycle) (page : Int) (B : List Nat) : Prop :=
  ∃ j, cyc[j]? = some ⟨0x00, address_bytes page 0, [], []⟩ ∧ cyc[j + 1]? = some ⟨0x30, [], [], B⟩

/-- The commands of the erase transactions, each followed by its status check,
for the first `j` blocks of a range that starts at block `first`. -/
def erase_sent_upto (first : Int) (j : Nat) : List (Nat × List Nat × List Nat) :=
  (List.range j).flatMap (fun k => erase_sent ((first + (k : Int)) * 64) ++ status_sent)

/-- The invariant of the loop of `erase_blocks` while `read_status` reports
success: the retry counter is 0, no retry message was printed, and the commands
sent so far are the erase transactions, each followed by its status check, of
the blocks before the current one, in order, and the erase transaction of the
current block once it was issued. -/
def erase_inv (c0 c : ECfg) (sent : List (Nat × List Nat × List Nat)) : Prop :=
  c.first_block_number = c0.first_block_number ∧ c.number_of_blocks = c0.number_of_blocks ∧
  c.retry_count = 0 ∧ c.w.stdout.count .erase_retry = c0.w.stdout.count .erase_retry ∧
  ∃ j : Nat, c.block = c0.first_block_number + (j : Int) ∧ j ≤ c0.number_of_blocks.toNat ∧
    match c.pc with
    | .for_cond => sent = erase_sent_upto c0.first_block_number j
    | .retry_all => j < c0.number_of_blocks.toNat ∧ sent = erase_sent_upto c0.first_block_number j
    | .retry => j < c0.number_of_blocks.toNat ∧ sent = erase_sent_upto c0.first_block_number j
    | .busy => j < c0.number_of_blocks.toNat ∧
        sent = erase_sent_upto c0.first_block_number j ++
          erase_sent ((c0.first_block_number + (j : Int)) * 64)
    | .status => j < c0.number_of_blocks.toNat ∧
        sent = erase_sent_upto c0.first_block_number j ++
          erase_sent ((c0.first_block_number + (j : Int)) * 64)
    | .exit _ => sent = erase_sent_upto c0.first_block_number c0.number_of_blocks.toNat

/-- The loop of `erase_blocks(3, 2)` as its prologue enters it on the simulated
chip. -/
def ecfg_chip : ECfg :=
  erase_blocks_start 3 2 (fun _ => 0) (fun _ => 0) (chip_world false)

/-- The invariant of `write_pages` while it works on the page of `c0`: the
status checks so far all reported an error, there were `retry_count` of them,
the buffer holds what `fread` put there, and the commands sent and the file
operations so far are those of the passes made. -/
def write_inv (c0 c : WCfg) (sent : List (Nat × List Nat × List Nat)) (S : List Nat) : Prop :=
  c.first_page_number = c0.first_page_number ∧ c.number_of_pages = c0.number_of_pages ∧
  c.page = c0.page ∧ c.infile = c0.infile ∧ c.retry_count ≤ 5 ∧ S.length = c.retry_count ∧
  (∀ x ∈ S, x ≠ 0) ∧
  c.w.stdout.count .write_retry = c0.w.stdout.count .write_retry + c.retry_count ∧
  match c.pc with
  | .for_cond => c.retry_count = 0 ∧ sent = [] ∧ c.fops = c0.fops ∧ c.buf = c0.buf
  | .retry_all =>
    sent = (List.replicate c.retry_count
        (program_sent c0.page (fread_page c0.infile (c0.page * (PAGE_SIZE : Int)).toNat c0.buf) ++
          status_sent)).flatten ∧
      c.fops = page_reads c0.page c.retry_count ++ c0.fops ∧
      (c.buf = c0.buf ∨
        c.buf = fread_page c0.infile (c0.page * (PAGE_SIZE : Int)).toNat c0.buf)
  | .retry =>
    sent = (List.replicate c.retry_count
        (program_sent c0.page (fread_page c0.infile (c0.page * (PAGE_SIZE : Int)).toNat c0.buf) ++
          status_sent)).flatten ∧
      c.fops = page_reads c0.page (c.retry_count + 1) ++ c0.fops ∧
      c.buf = fread_page c0.infile (c0.page * (PAGE_SIZE : Int)).toNat c0.buf
  | .busy =>
    sent = (List.replicate c.retry_count
        (program_sent c0.page (fread_page c0.infile (c0.page * (PAGE_SIZE : Int)).toNat c0.buf) ++
          status_sent)).flatten ++
        program_sent c0.page (fread_page c0.infile (c0.page * (PAGE_SIZE : Int)).toNat c0.buf) ∧
      c.fops = page_reads c0.page (c.retry_count + 1) ++ c0.fops ∧
      c.buf = fread_page c0.infile (c0.page * (PAGE_SIZE : Int)).toNat c0.buf
  | .status =>
    sent = (List.replicate c.retry_count
        (program_sent c0.page (fread_page c0.infile (c0.page * (PAGE_SIZE : Int)).toNat c0.buf) ++
          status_sent)).flatten ++
        program_sent c0.page (fread_page c0.infile (c0.page * (PAGE_SIZE : Int)).toNat c0.buf) ∧
      c.fops = page_reads c0.page (c.retry_count + 1) ++ c0.fops ∧
      c.buf = fread_page c0.infile (c0.page * (PAGE_SIZE : Int)).toNat c0.buf
  | .exit _ => False

/-- The history (newest first) ends with a data line being made an input. -/
def dir_in_just_set : List Ev → Bool
  | .inp _ :: _ => true
  | _ => false

/-- The history without the loads of the level register at its end. -/
def skip_reads : List Ev → List Ev
  | .read _ _ :: t => skip_reads t
  | t => t

/-- The history (newest first) ends with the events that precede the sampling
of the status byte and the loads made for it so far: the data lines made
inputs, read-enable lowered, pause. -/
def status_strobe (t : List Ev) : Bool :=
  match skip_reads t with
  | .pause :: .set0 g :: u => g == N_READ_ENABLE && dir_in_just_set u
  | _ => false

/-- Whether the simulated chip reports a failed operation in the status byte
that is being sampled: it does while address-latch was raised fewer than
`2 k + 2` times, that is for the first `k` operations after the Read-ID of the
prologue, each of them preceded by one Read-ID. -/
def status_fail (k : Nat) (t : List Ev) : Bool :=
  status_strobe t && Nat.blt (ale_count t) (2 * k + 2)

/-- The level register of a simulated chip whose first `k` operations fail: the
busy line (GPIO 3) is always high, data line 7 (GPIO 15) is high on the first
byte of a Read-ID answer, so that the ID is `80 00 00 00 00`, and data line 0
(GPIO 8) is high while a status byte that reports a failure is sampled. -/
def wchip_lev (k : Nat) : List Ev → Nat :=
  fun t => 8 + (if id_first_strobe t then 32768 else 0) + (if status_fail k t then 256 else 0)

/-- A world with the simulated chip whose first `k` operations fail, and an
empty history. -/
def wchip_world (k : Nat) : World :=
  ⟨wchip_lev k, [], []⟩

/-- The loop of `write_pages(7, 1, infile)` as its prologue enters it on the
simulated chip whose first operation fails; the source file holds eight pages
of `0xA5` bytes. -/
def wcfg_chip : WCfg :=
  write_pages_start 7 1 true (List.replicate 16896 165) (fun _ => 0) (fun _ => 0) (fun _ => 0)
    (wchip_world 1)

/-- A configuration of `write_pages` on the simulated chip whose first `k`
operations fail, at work on page 7 alone: program point, retry counter and the
number of times address-latch was raised so far. -/
def wchip_state (k : Nat) (c : WCfg) (pc : WPc) (rc a : Nat) : Prop :=
  c.w.lev = wchip_lev k ∧ (∀ j, j < 5 → c.id j = chip_id j) ∧ c.first_page_number = 7 ∧
    c.number_of_pages = 1 ∧ c.page = 7 ∧ c.pc = pc ∧ c.retry_count = rc ∧
    ale_count c.w.trace = a

/-- The invariant of `read_pages` while it works on page `m`, for the
configuration `c` reached after `K` steps from the loop test `c0` for that
page: `reads` are the transactions sent on the bus since `c0` (Read ID apart)
and `cmps` the comparison results so far.
Every comparison so far found a difference and was answered by a retry, except
the last one when the record is about to be written. -/
def page_inv (c0 : RCfg) (m : Nat) (K : Nat) (c : RCfg) (reads : List (Nat × List Nat × List Nat))
    (cmps : List Bool) : Prop :=
  c.first_page_number = c0.first_page_number ∧ c.number_of_pages = c0.number_of_pages ∧
  c.write_spare = c0.write_spare ∧ c.sink = c0.sink ∧ c.retry_count ≤ 5 ∧
  c.w.stdout.count .read_retry = c0.w.stdout.count .read_retry + c.retry_count ∧
  match c.pc with
  | .for_cond =>
    cmps = List.replicate c.retry_count true ∧ c.badlog = c0.badlog ∧
      ((c.page = 2 * (m : Int) ∧ c.retry_count = 0 ∧ reads = []) ∨
        (c.page = 2 * (m : Int) + 1 ∧ reads = (List.replicate (2 * c.retry_count + 1) (read_sent (m : Int))).flatten ∧
          buf_from c0 K c.buf m))
  | .retry_all =>
    cmps = List.replicate c.retry_count true ∧ c.badlog = c0.badlog ∧
      ((c.page = 2 * (m : Int) ∧ reads = (List.replicate (2 * c.retry_count) (read_sent (m : Int))).flatten) ∨
        (c.page = 2 * (m : Int) + 1 ∧ reads = (List.replicate (2 * c.retry_count + 1) (read_sent (m : Int))).flatten ∧
          buf_from c0 K c.buf m))
  | .retry =>
    c.page_no = m ∧ cmps = List.replicate c.retry_count true ∧ c.badlog = c0.badlog ∧
      ((c.page = 2 * (m : Int) ∧ reads = (List.replicate (2 * c.retry_count) (read_sent (m : Int))).flatten) ∨
        (c.page = 2 * (m : Int) + 1 ∧ reads = (List.replicate (2 * c.retry_count + 1) (read_sent (m : Int))).flatten ∧
          buf_from c0 K c.buf m))
  | .busy =>
    c.page_no = m ∧ cmps = List.replicate c.retry_count true ∧ c.badlog = c0.badlog ∧
      ((c.page = 2 * (m : Int) ∧ reads = (List.replicate (2 * c.retry_count + 1) (read_sent (m : Int))).flatten) ∨
        (c.page = 2 * (m : Int) + 1 ∧ reads = (List.replicate (2 * c.retry_count + 2) (read_sent (m : Int))).flatten ∧
          buf_from c0 K c.buf m))
  | .after_read =>
    c.page_no = m ∧ cmps = List.replicate c.retry_count true ∧ c.badlog = c0.badlog ∧
      buf_from c0 K c.buf m ∧
      ((c.page = 2 * (m : Int) ∧ reads = (List.replicate (2 * c.retry_count + 1) (read_sent (m : Int))).flatten) ∨
        (c.page = 2 * (m : Int) + 1 ∧ reads = (List.replicate (2 * c.retry_count + 2) (read_sent (m : Int))).flatten))
  | .compare =>
    c.page_no = m ∧ cmps = List.replicate c.retry_count true ∧ c.badlog = c0.badlog ∧
      buf_from c0 K c.buf m ∧ c.page = 2 * (m : Int) + 1 ∧
      reads = (List.replicate (2 * c.retry_count + 2) (read_sent (m : Int))).flatten
  | .write =>
    c.page_no = m ∧ buf_from c0 K c.buf m ∧ c.page = 2 * (m : Int) + 1 ∧
      reads = (List.replicate (2 * c.retry_count + 2) (read_sent (m : Int))).flatten ∧
      ((cmps = List.replicate c.retry_count true ++ [false] ∧ c.badlog = c0.badlog ∧
          memcmp_ne c.buf (fun i => c.buf (i + PAGE_SIZE)) PAGE_SIZE = false) ∨
        (c.retry_count = 5 ∧ cmps = List.replicate 6 true ∧ c.badlog = c0.badlog ++ [(m : Int)]))
  | .exit _ => True

/-- What the simulated chip needs of a configuration of `read_pages`: its level
register, its ID in `id`, the range of two pages from page 3, and a sink that
accepts every record. -/
def rchip_cfg (fl : Bool) (c : RCfg) : Prop :=
  c.w.lev = chip_lev fl ∧ (∀ j, j < 5 → c.id j = chip_id j) ∧ c.first_page_number = 3 ∧
    c.number_of_pages = 2 ∧ (∀ k, c.fwrite_ok k = true)

/-- A configuration of `read_pages` on the simulated chip: program point, page
counter, retry counter, the number of address phases so far modulo 4, and the
sink. -/
def rchip_state (fl : Bool) (c : RCfg) (pc : RPc) (page : Int) (rc a : Nat)
    (S : List (List Nat)) : Prop :=
  rchip_cfg fl c ∧ c.pc = pc ∧ c.page = page ∧ c.retry_count = rc ∧ c.sink = S ∧
    ale_count c.w.trace % 4 = a

/-- The loop of `read_pages(3, 2, outfile, 1)` as its prologue enters it on the
simulated chip: both files open and every `fwrite` succeeds. -/
def rcfg_pages (fl : Bool) : RCfg :=
  read_pages_start 3 2 true true (fun _ => true) 1 (fun _ => 0) (fun _ => 0) (fun _ => 0)
    (chip_world fl)

/-! ## Theorems -/

/-! ### The data lines -/

theorem data_to_gpio_map_inj (a b : Nat) (ha : a < 8) (hb : b < 8)
    (h : data_to_gpio_map a = data_to_gpio_map b) : a = b := by
  interval_cases a <;> interval_cases b <;> simp_all [data_to_gpio_map]

theorem pins_DATA8_OUT_loop_other (s0 : Nat → Nat) (m : Nat → Nat) (g : Nat) :
    ∀ (k i : Nat) (d : Int) (w : World), (∀ j, j < k → m (i + j) ≠ g) →
      pins s0 (GPIO_DATA8_OUT_loop m k i d w).trace g = pins s0 w.trace g := by
  intro k
  induction k with
  | zero => intro i d w _; rfl
  | succ k ih =>
    intro i d w h
    have h0 : m i ≠ g := by simpa using h 0 (by omega)
    have hrest : ∀ j, j < k → m (i + 1 + j) ≠ g := by
      intro j hj
      have := h (j + 1) (by omega)
      rwa [show i + (j + 1) = i + 1 + j by omega] at this
    simp only [GPIO_DATA8_OUT_loop]
    rw [ih (i + 1) _ _ hrest]
    split <;> simp [GPIO_SET_1, GPIO_SET_0, World.log, pins, Function.update, h0.symm]

theorem land_one_ne_zero (n : Nat) : (Int.land (n : Int) 1 ≠ 0) ↔ n % 2 = 1 := by
  have e : Int.land (n : Int) 1 = ((n &&& 1 : Nat) : Int) := rfl
  rw [e, Nat.and_one_is_mod]
  omega

theorem pins_DATA8_OUT_loop_bit (s0 : Nat → Nat) (m : Nat → Nat)
    (hm : ∀ a b, a < 8 → b < 8 → m a = m b → a = b) :
    ∀ (k i n : Nat) (w : World) (j : Nat), i + k ≤ 8 → j < k →
      pins s0 (GPIO_DATA8_OUT_loop m k i (n : Int) w).trace (m (i + j)) = n / 2 ^ j % 2 := by
  intro k
  induction k with
  | zero => intro i n w j _ hj; omega
  | succ k ih =>
    intro i n w j hik hj
    have e : ((n : Int) >>> 1) = ((n >>> 1 : Nat) : Int) := rfl
    simp only [GPIO_DATA8_OUT_loop]
    rw [e]
    rcases j with _ | j
    · rw [pins_DATA8_OUT_loop_other]
      · by_cases hb : n % 2 = 1
        · rw [if_pos ((land_one_ne_zero n).2 hb)]
          simp [GPIO_SET_1, World.log, pins, hb]
        · rw [if_neg (fun hh => hb ((land_one_ne_zero n).1 hh))]
          simp [GPIO_SET_0, World.log, pins]
          omega
      · intro j hj2 hEq
        have := hm (i + 1 + j) i (by omega) (by omega) (by simpa using hEq)
        omega
    · have := ih (i + 1) (n >>> 1) (if Int.land (n : Int) 1 ≠ 0 then GPIO_SET_1 (m i) w
        else GPIO_SET_0 (m i) w) j (by omega) (by omega)
      rw [show i + (j + 1) = i + 1 + j by omega, this, Nat.shiftRight_eq_div_pow,
        Nat.div_div_eq_div_mul, pow_succ]
      congr 2
      ring

theorem V1.v1_data_to_gpio_map_inj (a b : Nat) (ha : a < 8) (hb : b < 8)
    (h : V1.data_to_gpio_map a = V1.data_to_gpio_map b) : a = b := by
  interval_cases a <;> interval_cases b <;> simp_all [V1.data_to_gpio_map]

theorem latched_DATA8_OUT_loop (wr : Wiring) (s0 : Nat → Nat) (m : Nat → Nat) :
    ∀ (k i : Nat) (d : Int) (w : World), (∀ j, j < k → m (i + j) ≠ wr.we) →
      latched wr s0 (GPIO_DATA8_OUT_loop m k i d w).trace = latched wr s0 w.trace := by
  intro k
  induction k with
  | zero => intro i d w _; rfl
  | succ k ih =>
    intro i d w h
    have h0 : m i ≠ wr.we := by simpa using h 0 (by omega)
    have hrest : ∀ j, j < k → m (i + 1 + j) ≠ wr.we := by
      intro j hj
      have := h (j + 1) (by omega)
      rwa [show i + (j + 1) = i + 1 + j by omega] at this
    simp only [GPIO_DATA8_OUT_loop]
    rw [ih (i + 1) _ _ hrest]
    split <;> simp [GPIO_SET_1, GPIO_SET_0, World.log, latched, h0]

theorem data_byte_DATA8_OUT (s0 : Nat → Nat) (m : Nat → Nat)
    (hm : ∀ a b, a < 8 → b < 8 → m a = m b → a = b) (n : Nat) (w : World) :
    data_byte m (pins s0 (GPIO_DATA8_OUT_of m (n : Int) w).trace) = n % 256 := by
  have h := fun j (hj : j < 8) =>
    pins_DATA8_OUT_loop_bit s0 m hm 8 0 n w j (by omega) hj
  simp only [Nat.zero_add] at h
  simp only [data_byte, GPIO_DATA8_OUT_of]
  rw [h 0 (by omega), h 1 (by omega), h 2 (by omega), h 3 (by omega), h 4 (by omega),
    h 5 (by omega), h 6 (by omega), h 7 (by omega)]
  norm_num
  omega

theorem pins_set_data_direction_out_loop (s0 : Nat → Nat) (m : Nat → Nat) :
    ∀ (k i : Nat) (w : World),
      pins s0 (set_data_direction_out_loop m k i w).trace = pins s0 w.trace := by
  intro k
  induction k with
  | zero => intro i w; rfl
  | succ k ih =>
    intro i w
    simp [set_data_direction_out_loop, ih, OUT_GPIO, INP_GPIO, World.log, pins]

theorem pins_set_data_direction_in_loop (s0 : Nat → Nat) (m : Nat → Nat) :
    ∀ (k i : Nat) (w : World),
      pins s0 (set_data_direction_in_loop m k i w).trace = pins s0 w.trace := by
  intro k
  induction k with
  | zero => intro i w; rfl
  | succ k ih =>
    intro i w
    simp [set_data_direction_in_loop, ih, INP_GPIO, World.log, pins]

theorem latched_set_data_direction_out_loop (wr : Wiring) (s0 : Nat → Nat) (m : Nat → Nat) :
    ∀ (k i : Nat) (w : World),
      latched wr s0 (set_data_direction_out_loop m k i w).trace = latched wr s0 w.trace := by
  intro k
  induction k with
  | zero => intro i w; rfl
  | succ k ih =>
    intro i w
    simp [set_data_direction_out_loop, ih, OUT_GPIO, INP_GPIO, World.log, latched]

theorem latched_set_data_direction_in_loop (wr : Wiring) (s0 : Nat → Nat) (m : Nat → Nat) :
    ∀ (k i : Nat) (w : World),
      latched wr s0 (set_data_direction_in_loop m k i w).trace = latched wr s0 w.trace := by
  intro k
  induction k with
  | zero => intro i w; rfl
  | succ k ih =>
    intro i w
    simp [set_data_direction_in_loop, ih, INP_GPIO, World.log, latched]

/-! ### Transfer lemmas for rpi-raw-nand-v3.c -/

theorem data_to_gpio_map_ge (j : Nat) (hj : j < 8) : 8 ≤ data_to_gpio_map j := by
  interval_cases j <;> simp [data_to_gpio_map]

theorem pins_GPIO_DATA8_OUT (s0 : Nat → Nat) (d : Int) (w : World) (g : Nat) (hg : g < 8) :
    pins s0 (GPIO_DATA8_OUT d w).trace g = pins s0 w.trace g := by
  apply pins_DATA8_OUT_loop_other
  intro j hj h
  have := data_to_gpio_map_ge (0 + j) (by omega)
  omega

theorem latched_GPIO_DATA8_OUT (s0 : Nat → Nat) (d : Int) (w : World) :
    latched wiring s0 (GPIO_DATA8_OUT d w).trace = latched wiring s0 w.trace := by
  apply latched_DATA8_OUT_loop
  intro j hj h
  have := data_to_gpio_map_ge (0 + j) (by omega)
  have h2 : data_to_gpio_map (0 + j) = 7 := h
  omega

theorem data_byte_GPIO_DATA8_OUT (s0 : Nat → Nat) (d : Int) (hd : 0 ≤ d) (w : World) :
    data_byte data_to_gpio_map (pins s0 (GPIO_DATA8_OUT d w).trace) = d.toNat % 256 := by
  obtain ⟨n, rfl⟩ := Int.eq_ofNat_of_zero_le hd
  simpa [GPIO_DATA8_OUT] using data_byte_DATA8_OUT s0 data_to_gpio_map data_to_gpio_map_inj n w

theorem pins_set_data_direction_out (s0 : Nat → Nat) (w : World) :
    pins s0 (set_data_direction_out w).trace = pins s0 w.trace :=
  pins_set_data_direction_out_loop s0 _ 8 0 w

theorem pins_set_data_direction_in (s0 : Nat → Nat) (w : World) :
    pins s0 (set_data_direction_in w).trace = pins s0 w.trace :=
  pins_set_data_direction_in_loop s0 _ 8 0 w

theorem latched_set_data_direction_out (wr : Wiring) (s0 : Nat → Nat) (w : World) :
    latched wr s0 (set_data_direction_out w).trace = latched wr s0 w.trace :=
  latched_set_data_direction_out_loop wr s0 _ 8 0 w

theorem latched_set_data_direction_in (wr : Wiring) (s0 : Nat → Nat) (w : World) :
    latched wr s0 (set_data_direction_in w).trace = latched wr s0 w.trace :=
  latched_set_data_direction_in_loop wr s0 _ 8 0 w

theorem page_to_address_two (p : Nat) : page_to_address (p : Int) 2 = ((p &&& 0xff : Nat) : Int) :=
  rfl

theorem page_to_address_three (p : Nat) :
    page_to_address (p : Int) 3 = (((p >>> 8) &&& 0xff : Nat) : Int) :=
  rfl

theorem page_to_address_four (p : Nat) :
    page_to_address (p : Int) 4 = (((p >>> 16) &&& 0xff : Nat) : Int) :=
  rfl

theorem and_ff_mod (x : Nat) : (x &&& 0xff) % 256 = x &&& 0xff :=
  Nat.mod_eq_of_lt (lt_of_le_of_lt Nat.and_le_right (by norm_num))

theorem page_to_address_zero (p : Int) : page_to_address p 0 = 0 := rfl

theorem page_to_address_one (p : Int) : page_to_address p 1 = 0 := rfl

theorem wiring_we : wiring.we = N_WRITE_ENABLE := rfl

theorem wiring_cle : wiring.cle = COMMAND_LATCH_ENABLE := rfl

theorem wiring_ale : wiring.ale = ADDRESS_LATCH_ENABLE := rfl

theorem wiring_data : wiring.data = data_to_gpio_map := rfl

theorem pins_SET_1 (s0 : Nat → Nat) (g h : Nat) (w : World) :
    pins s0 (GPIO_SET_1 g w).trace h = if h = g then 1 else pins s0 w.trace h := by
  simp [GPIO_SET_1, World.log, pins, Function.update]

theorem pins_SET_0 (s0 : Nat → Nat) (g h : Nat) (w : World) :
    pins s0 (GPIO_SET_0 g w).trace h = if h = g then 0 else pins s0 w.trace h := by
  simp [GPIO_SET_0, World.log, pins, Function.update]

theorem pins_shortpause (s0 : Nat → Nat) (w : World) :
    pins s0 (shortpause w).trace = pins s0 w.trace := rfl

theorem latched_shortpause (wr : Wiring) (s0 : Nat → Nat) (w : World) :
    latched wr s0 (shortpause w).trace = latched wr s0 w.trace := by
  simp [shortpause, World.log, latched]

theorem latched_SET_0 (wr : Wiring) (s0 : Nat → Nat) (g : Nat) (w : World) :
    latched wr s0 (GPIO_SET_0 g w).trace = latched wr s0 w.trace := by
  simp [GPIO_SET_0, World.log, latched]

theorem latched_SET_1 (wr : Wiring) (s0 : Nat → Nat) (g : Nat) (w : World) :
    latched wr s0 (GPIO_SET_1 g w).trace = latched wr s0 w.trace ++
      (if g = wr.we ∧ pins s0 w.trace wr.we = 0 then
        [⟨pins s0 w.trace wr.cle, pins s0 w.trace wr.ale, data_byte wr.data (pins s0 w.trace)⟩]
      else []) := by
  simp [GPIO_SET_1, World.log, latched]

/-- One iteration of the data loop of `send_write_command` latches `data[i]`
and leaves the control lines below write-enable as they were. -/
theorem write_data_loop_bus (s0 : Nat → Nat) (data : Nat → Nat) :
    ∀ (k i : Nat) (w : World),
      latched wiring s0 (write_data_loop data k i w).trace =
          latched wiring s0 w.trace ++ (List.range k).map (fun j =>
            (⟨pins s0 w.trace COMMAND_LATCH_ENABLE, pins s0 w.trace ADDRESS_LATCH_ENABLE,
              data (i + j) % 256⟩ : Latch)) ∧
        ∀ g, g < 7 → pins s0 (write_data_loop data k i w).trace g = pins s0 w.trace g := by
  intro k
  induction k with
  | zero => intro i w; simp [write_data_loop]
  | succ k ih =>
    intro i w
    simp only [write_data_loop]
    obtain ⟨h1, h2⟩ := ih (i + 1) (shortpause (GPIO_SET_1 N_WRITE_ENABLE (shortpause
      (GPIO_DATA8_OUT (data i : Nat) (shortpause (GPIO_SET_0 N_WRITE_ENABLE w))))))
    constructor
    · rw [h1, List.range_succ_eq_map, List.map_cons, List.map_map]
      simp [latched_SET_1, latched_SET_0, latched_shortpause, pins_SET_1, pins_SET_0,
        pins_shortpause, latched_GPIO_DATA8_OUT, pins_GPIO_DATA8_OUT, data_byte_GPIO_DATA8_OUT,
        wiring_we, wiring_cle, wiring_ale, wiring_data, N_WRITE_ENABLE, COMMAND_LATCH_ENABLE,
        ADDRESS_LATCH_ENABLE, Function.comp_def, Nat.add_assoc, Nat.add_comm 1]
    · intro g hg
      rw [h2 g hg]
      have hg7 : g ≠ 7 := by omega
      simp [pins_SET_1, pins_SET_0, pins_shortpause, pins_GPIO_DATA8_OUT, N_WRITE_ENABLE, hg7,
        show g < 8 by omega]

/-! ### Transfer lemmas for rpi-tsop48-nand-v1.c -/

theorem V1.v1_pins_GPIO_DATA8_OUT (s0 : Nat → Nat) (d : Int) (w : World) (g : Nat)
    (hg : g = 21 ∨ g = 17 ∨ g = 4 ∨ g = 18) :
    pins s0 (V1.GPIO_DATA8_OUT d w).trace g = pins s0 w.trace g := by
  apply pins_DATA8_OUT_loop_other
  intro j hj h
  simp only [Nat.zero_add] at h
  interval_cases j <;> simp [V1.data_to_gpio_map] at h <;> omega

theorem V1.v1_latched_GPIO_DATA8_OUT (s0 : Nat → Nat) (d : Int) (w : World) :
    latched V1.wiring s0 (V1.GPIO_DATA8_OUT d w).trace = latched V1.wiring s0 w.trace := by
  apply latched_DATA8_OUT_loop
  intro j hj h
  have h2 : V1.data_to_gpio_map (0 + j) = 21 := h
  simp only [Nat.zero_add] at h2
  interval_cases j <;> simp [V1.data_to_gpio_map] at h2

theorem V1.v1_data_byte_GPIO_DATA8_OUT (s0 : Nat → Nat) (d : Int) (hd : 0 ≤ d) (w : World) :
    data_byte V1.data_to_gpio_map (pins s0 (V1.GPIO_DATA8_OUT d w).trace) = d.toNat % 256 := by
  obtain ⟨n, rfl⟩ := Int.eq_ofNat_of_zero_le hd
  simpa [V1.GPIO_DATA8_OUT] using
    data_byte_DATA8_OUT s0 V1.data_to_gpio_map V1.v1_data_to_gpio_map_inj n w

theorem V1.v1_pins_set_data_direction_out (s0 : Nat → Nat) (w : World) :
    pins s0 (V1.set_data_direction_out w).trace = pins s0 w.trace :=
  pins_set_data_direction_out_loop s0 _ 8 0 w

theorem V1.v1_latched_set_data_direction_out (wr : Wiring) (s0 : Nat → Nat) (w : World) :
    latched wr s0 (V1.set_data_direction_out w).trace = latched wr s0 w.trace :=
  latched_set_data_direction_out_loop wr s0 _ 8 0 w

theorem V1.v1_wiring_we : V1.wiring.we = V1.N_WRITE_ENABLE := rfl

theorem V1.v1_wiring_cle : V1.wiring.cle = V1.COMMAND_LATCH_ENABLE := rfl

theorem V1.v1_wiring_ale : V1.wiring.ale = V1.ADDRESS_LATCH_ENABLE := rfl

theorem V1.v1_wiring_data : V1.wiring.data = V1.data_to_gpio_map := rfl

/-! ### The command phases (claims C8, C9, C10) -/

set_option maxHeartbeats 1000000 in
/-- C8: for every page `p ≥ 0` the read-page command phase of both drivers
latches exactly seven bytes on write-enable, in this order: `0x00` with
command-latch high, the five address bytes `0, 0, p & 0xFF, (p >> 8) & 0xFF,
(p >> 16) & 0xFF` with address-latch high and command-latch low, and `0x30`
with command-latch high and address-latch low.  The level of address-latch
during the first byte is the one the function found on entry. -/
theorem C8_read_command_latches (s0 : Nat → Nat) (p : Nat) (w : World) :
    latched wiring s0 (send_read_command (p : Int) w).trace =
        latched wiring s0 w.trace ++
          [⟨1, pins s0 w.trace ADDRESS_LATCH_ENABLE, 0x00⟩, ⟨0, 1, 0⟩, ⟨0, 1, 0⟩,
            ⟨0, 1, p &&& 0xFF⟩, ⟨0, 1, (p >>> 8) &&& 0xFF⟩, ⟨0, 1, (p >>> 16) &&& 0xFF⟩,
            ⟨1, 0, 0x30⟩] ∧
      latched V1.wiring s0 (V1.send_command_address 0x00 0x30 (p : Int) w).trace =
        latched V1.wiring s0 w.trace ++
          [⟨1, pins s0 w.trace V1.ADDRESS_LATCH_ENABLE, 0x00⟩, ⟨0, 1, 0⟩, ⟨0, 1, 0⟩,
            ⟨0, 1, p &&& 0xFF⟩, ⟨0, 1, (p >>> 8) &&& 0xFF⟩, ⟨0, 1, (p >>> 16) &&& 0xFF⟩,
            ⟨1, 0, 0x30⟩] := by
  constructor
  · simp only [send_read_command, address_loop]
    simp [latched_SET_1, latched_SET_0, latched_shortpause, pins_SET_1, pins_SET_0,
      pins_shortpause, latched_GPIO_DATA8_OUT, pins_GPIO_DATA8_OUT, data_byte_GPIO_DATA8_OUT,
      pins_set_data_direction_out, latched_set_data_direction_out, wiring_we, wiring_cle,
      wiring_ale, wiring_data, N_WRITE_ENABLE, COMMAND_LATCH_ENABLE, ADDRESS_LATCH_ENABLE,
      page_to_address_two, page_to_address_three, page_to_address_four, and_ff_mod,
      page_to_address_zero, page_to_address_one]
  · simp only [V1.send_command_address, V1.address_loop]
    simp [latched_SET_1, latched_SET_0, latched_shortpause, pins_SET_1, pins_SET_0,
      pins_shortpause, V1.v1_latched_GPIO_DATA8_OUT, V1.v1_pins_GPIO_DATA8_OUT,
      V1.v1_data_byte_GPIO_DATA8_OUT, V1.v1_pins_set_data_direction_out,
      V1.v1_latched_set_data_direction_out, V1.v1_wiring_we, V1.v1_wiring_cle, V1.v1_wiring_ale,
      V1.v1_wiring_data, V1.N_WRITE_ENABLE, V1.COMMAND_LATCH_ENABLE, V1.ADDRESS_LATCH_ENABLE,
      page_to_address_two, page_to_address_three, page_to_address_four, and_ff_mod,
      page_to_address_zero, page_to_address_one]

set_option maxHeartbeats 1000000 in
/-- C9: for every page `p ≥ 0` and every buffer `data`, `send_write_command`
latches, in order, `0x80` with command-latch high, the five address bytes with
address-latch high, the bytes `data[0] .. data[2111]` with both latches low,
and `0x10` with command-latch high: 2119 write-enable strobes in all. -/
theorem C9_write_command_latches (s0 : Nat → Nat) (p : Nat) (data : Nat → Nat) (w : World) :
    latched wiring s0 (send_write_command (p : Int) data w).trace =
        latched wiring s0 w.trace ++
          ([⟨1, pins s0 w.trace ADDRESS_LATCH_ENABLE, 0x80⟩, ⟨0, 1, 0⟩, ⟨0, 1, 0⟩,
            ⟨0, 1, p &&& 0xFF⟩, ⟨0, 1, (p >>> 8) &&& 0xFF⟩, ⟨0, 1, (p >>> 16) &&& 0xFF⟩] ++
          (List.range 2112).map (fun i => (⟨0, 0, data i % 256⟩ : Latch)) ++
          [⟨1, 0, 0x10⟩]) ∧
      (latched wiring s0 (send_write_command (p : Int) data w).trace).length =
        (latched wiring s0 w.trace).length + 2119 := by
  have key : latched wiring s0 (send_write_command (p : Int) data w).trace =
        latched wiring s0 w.trace ++
          ([⟨1, pins s0 w.trace ADDRESS_LATCH_ENABLE, 0x80⟩, ⟨0, 1, 0⟩, ⟨0, 1, 0⟩,
            ⟨0, 1, p &&& 0xFF⟩, ⟨0, 1, (p >>> 8) &&& 0xFF⟩, ⟨0, 1, (p >>> 16) &&& 0xFF⟩] ++
          (List.range 2112).map (fun i => (⟨0, 0, data i % 256⟩ : Latch)) ++
          [⟨1, 0, 0x10⟩]) := by
    simp only [send_write_command, address_loop, PAGE_SIZE]
    simp [latched_SET_1, latched_SET_0, latched_shortpause, pins_SET_1, pins_SET_0,
      pins_shortpause, latched_GPIO_DATA8_OUT, pins_GPIO_DATA8_OUT, data_byte_GPIO_DATA8_OUT,
      pins_set_data_direction_out, latched_set_data_direction_out, wiring_we, wiring_cle,
      wiring_ale, wiring_data, N_WRITE_ENABLE, COMMAND_LATCH_ENABLE, ADDRESS_LATCH_ENABLE,
      page_to_address_two, page_to_address_three, page_to_address_four, and_ff_mod,
      page_to_address_zero, page_to_address_one, (write_data_loop_bus s0 data _ _ _).1,
      (write_data_loop_bus s0 data _ _ _).2]
  refine ⟨key, ?_⟩
  rw [key]
  simp

set_option maxHeartbeats 1000000 in
/-- C10: for every block `b ≥ 0`, the erase transaction issued for `b`,
`send_eraseblock_command(b * 64)`, latches exactly five bytes: `0x60` with
command-latch high, the three row bytes of `64 b` with address-latch high (no
column byte), and `0xD0` with command-latch high. -/
theorem C10_erase_command_latches (s0 : Nat → Nat) (b : Nat) (w : World) :
    latched wiring s0 (send_eraseblock_command ((b : Int) * 64) w).trace =
      latched wiring s0 w.trace ++
        [⟨1, pins s0 w.trace ADDRESS_LATCH_ENABLE, 0x60⟩, ⟨0, 1, (64 * b) &&& 0xFF⟩,
          ⟨0, 1, ((64 * b) >>> 8) &&& 0xFF⟩, ⟨0, 1, ((64 * b) >>> 16) &&& 0xFF⟩,
          ⟨1, 0, 0xD0⟩] := by
  have aux : ∀ n : Nat,
      latched wiring s0 (send_eraseblock_command (n : Int) w).trace =
        latched wiring s0 w.trace ++
          [⟨1, pins s0 w.trace ADDRESS_LATCH_ENABLE, 0x60⟩, ⟨0, 1, n &&& 0xFF⟩,
            ⟨0, 1, (n >>> 8) &&& 0xFF⟩, ⟨0, 1, (n >>> 16) &&& 0xFF⟩, ⟨1, 0, 0xD0⟩] := by
    intro n
    simp only [send_eraseblock_command, address_loop]
    simp [latched_SET_1, latched_SET_0, latched_shortpause, pins_SET_1, pins_SET_0,
      pins_shortpause, latched_GPIO_DATA8_OUT, pins_GPIO_DATA8_OUT, data_byte_GPIO_DATA8_OUT,
      pins_set_data_direction_out, latched_set_data_direction_out, wiring_we, wiring_cle,
      wiring_ale, wiring_data, N_WRITE_ENABLE, COMMAND_LATCH_ENABLE, ADDRESS_LATCH_ENABLE,
      page_to_address_two, page_to_address_three, page_to_address_four, and_ff_mod]
  have e : (b : Int) * 64 = ((64 * b : Nat) : Int) := by push_cast; ring
  rw [e]
  exact aux (64 * b)

/-! ### Reading the bus does not drive it -/

theorem GPIO_READ_trace (g : Nat) (w : World) :
    (GPIO_READ g w).2.trace = .read g (GPIO_READ g w).1 :: w.trace := rfl

theorem pins_GPIO_READ (s0 : Nat → Nat) (g : Nat) (w : World) :
    pins s0 (GPIO_READ g w).2.trace = pins s0 w.trace := rfl

theorem latched_GPIO_READ (wr : Wiring) (s0 : Nat → Nat) (g : Nat) (w : World) :
    latched wr s0 (GPIO_READ g w).2.trace = latched wr s0 w.trace := by
  simp [GPIO_READ, World.log, latched]

theorem bus_DATA8_IN_loop (wr : Wiring) (s0 : Nat → Nat) (m : Nat → Nat) :
    ∀ (k i data : Nat) (w : World),
      pins s0 (GPIO_DATA8_IN_loop m k i data w).2.trace = pins s0 w.trace ∧
        latched wr s0 (GPIO_DATA8_IN_loop m k i data w).2.trace = latched wr s0 w.trace := by
  intro k
  induction k with
  | zero => intro i data w; exact ⟨rfl, rfl⟩
  | succ k ih =>
    intro i data w
    simp only [GPIO_DATA8_IN_loop]
    obtain ⟨h1, h2⟩ := ih (i + 1) ((data ||| (GPIO_READ (m (7 - i)) w).1) <<< 1)
      (GPIO_READ (m (7 - i)) w).2
    exact ⟨by rw [h1, pins_GPIO_READ], by rw [h2, latched_GPIO_READ]⟩

theorem pins_GPIO_DATA8_IN (s0 : Nat → Nat) (w : World) :
    pins s0 (GPIO_DATA8_IN w).2.trace = pins s0 w.trace :=
  (bus_DATA8_IN_loop wiring s0 _ 8 0 0 w).1

theorem latched_GPIO_DATA8_IN (wr : Wiring) (s0 : Nat → Nat) (w : World) :
    latched wr s0 (GPIO_DATA8_IN w).2.trace = latched wr s0 w.trace :=
  (bus_DATA8_IN_loop wr s0 _ 8 0 0 w).2

theorem bus_read_id_loop (s0 : Nat → Nat) :
    ∀ (k i : Nat) (buf : Nat → Nat) (w : World),
      latched wiring s0 (read_id_loop k i buf w).2.trace = latched wiring s0 w.trace ∧
        ∀ g, g ≠ N_READ_ENABLE →
          pins s0 (read_id_loop k i buf w).2.trace g = pins s0 w.trace g := by
  intro k
  induction k with
  | zero => intro i buf w; exact ⟨rfl, fun _ _ => rfl⟩
  | succ k ih =>
    intro i buf w
    simp only [read_id_loop]
    obtain ⟨h1, h2⟩ := ih (i + 1)
      (Function.update buf i ((GPIO_DATA8_IN (shortpause (GPIO_SET_0 N_READ_ENABLE w))).1 % 256))
      (shortpause (GPIO_SET_1 N_READ_ENABLE
        (GPIO_DATA8_IN (shortpause (GPIO_SET_0 N_READ_ENABLE w))).2))
    constructor
    · rw [h1]
      simp [latched_SET_1, latched_SET_0, latched_shortpause, latched_GPIO_DATA8_IN, wiring_we,
        N_WRITE_ENABLE, N_READ_ENABLE]
    · intro g hg
      rw [h2 g hg]
      simp [pins_SET_1, pins_SET_0, pins_shortpause, pins_GPIO_DATA8_IN, hg]

/-- What `read_id` returns, in terms of the bus transaction. -/
theorem read_id_eq (id : Option (Nat → Nat)) (w : World) :
    (read_id id w).buf = (read_id_capture w).1 ∧
      (read_id id w).w.trace = (read_id_capture w).2.trace ∧
      (read_id id w).w.lev = (read_id_capture w).2.lev ∧
      (read_id id w).id = (match id with
        | some a => memcpy a (read_id_capture w).1 5
        | none => (read_id_capture w).1) := by
  unfold read_id
  generalize read_id_capture w = r
  cases id <;> dsimp only <;> split <;> exact ⟨rfl, rfl, rfl, rfl⟩

set_option maxHeartbeats 1000000 in
/-- The transaction `read_id` latches the command `0x90` and the address `0x00`,
and leaves both latch-enable lines low and write-enable high. -/
theorem read_id_bus (s0 : Nat → Nat) (id : Option (Nat → Nat)) (w : World) :
    latched wiring s0 (read_id id w).w.trace =
        latched wiring s0 w.trace ++
          [⟨1, pins s0 w.trace ADDRESS_LATCH_ENABLE, 0x90⟩, ⟨0, 1, 0x00⟩] ∧
      pins s0 (read_id id w).w.trace ADDRESS_LATCH_ENABLE = 0 ∧
      pins s0 (read_id id w).w.trace COMMAND_LATCH_ENABLE = 0 ∧
      pins s0 (read_id id w).w.trace N_WRITE_ENABLE = 1 := by
  rw [(read_id_eq id w).2.1]
  simp only [read_id_capture]
  simp [(bus_read_id_loop s0 _ _ _ _).1,
    (bus_read_id_loop s0 _ _ _ _).2, latched_SET_1, latched_SET_0, latched_shortpause,
    pins_SET_1, pins_SET_0, pins_shortpause, latched_GPIO_DATA8_OUT, pins_GPIO_DATA8_OUT,
    data_byte_GPIO_DATA8_OUT, pins_set_data_direction_out, latched_set_data_direction_out,
    pins_set_data_direction_in, latched_set_data_direction_in, wiring_we, wiring_cle,
    wiring_ale, wiring_data, N_WRITE_ENABLE, COMMAND_LATCH_ENABLE, ADDRESS_LATCH_ENABLE,
    N_READ_ENABLE]

/-! ### The ID check of `read_id` (claim C5) -/

/-- C5: in both drivers `read_id` returns -1 exactly when the five ID bytes
captured from the bus are all equal to one another, and 0 for every other
readout; a caller that passes an array receives these five bytes. -/
theorem C5_read_id_return (id : Option (Nat → Nat)) (a : Nat → Nat) (w : World) :
    (((read_id id w).ret = -1 ↔
          ((read_id_capture w).1 0 = (read_id_capture w).1 1 ∧
            (read_id_capture w).1 1 = (read_id_capture w).1 2 ∧
            (read_id_capture w).1 2 = (read_id_capture w).1 3 ∧
            (read_id_capture w).1 3 = (read_id_capture w).1 4)) ∧
        ((read_id id w).ret ≠ -1 → (read_id id w).ret = 0) ∧
        (∀ i, i < 5 → (read_id (some a) w).id i = (read_id_capture w).1 i)) ∧
      (((V1.read_id id w).ret = -1 ↔
          ((V1.read_id_capture w).1 0 = (V1.read_id_capture w).1 1 ∧
            (V1.read_id_capture w).1 1 = (V1.read_id_capture w).1 2 ∧
            (V1.read_id_capture w).1 2 = (V1.read_id_capture w).1 3 ∧
            (V1.read_id_capture w).1 3 = (V1.read_id_capture w).1 4)) ∧
        ((V1.read_id id w).ret ≠ -1 → (V1.read_id id w).ret = 0) ∧
        (∀ i, i < 5 → (V1.read_id (some a) w).id i = (V1.read_id_capture w).1 i)) := by
  refine ⟨⟨?_, ?_, ?_⟩, ⟨?_, ?_, ?_⟩⟩
  · unfold read_id
    generalize read_id_capture w = r
    dsimp only
    split <;> simp_all
  · unfold read_id
    generalize read_id_capture w = r
    dsimp only
    split <;> simp
  · intro i hi
    unfold read_id
    generalize read_id_capture w = r
    dsimp only
    split <;> simp [memcpy, hi]
  · unfold V1.read_id
    generalize V1.read_id_capture w = r
    dsimp only
    split <;> simp_all
  · unfold V1.read_id
    generalize V1.read_id_capture w = r
    dsimp only
    split <;> simp
  · intro i hi
    unfold V1.read_id
    generalize V1.read_id_capture w = r
    dsimp only
    split <;> simp [memcpy, hi]

/-! ### ID drift (claim C4) -/

theorem read_id_latches_succ (a m : Nat) :
    read_id_latches a (m + 1) =
      read_id_latches a m ++ [⟨1, if m = 0 then a else 0, 0x90⟩, ⟨0, 1, 0x00⟩] := by
  simp [read_id_latches, List.range_succ, List.flatMap_append]

theorem read_pages_retry_drift (s0 : Nat → Nat) (c : RCfg) (hpc : c.pc = .retry) :
    ∀ m : Nat, (∀ i, i < m → (read_pages_step^[i] c).id_drift = true) →
      (read_pages_step^[m] c).pc = .retry ∧
      (read_pages_step^[m] c).retry_count = c.retry_count ∧
      (read_pages_step^[m] c).page = c.page ∧
      (read_pages_step^[m] c).page_no = c.page_no ∧
      (read_pages_step^[m] c).id = c.id ∧
      (read_pages_step^[m] c).buf = c.buf ∧
      (read_pages_step^[m] c).sink = c.sink ∧
      (read_pages_step^[m] c).badlog = c.badlog ∧
      latched wiring s0 (read_pages_step^[m] c).w.trace =
        latched wiring s0 c.w.trace ++
          read_id_latches (pins s0 c.w.trace ADDRESS_LATCH_ENABLE) m ∧
      pins s0 (read_pages_step^[m] c).w.trace ADDRESS_LATCH_ENABLE =
        (if m = 0 then pins s0 c.w.trace ADDRESS_LATCH_ENABLE else 0) := by
  intro m
  induction m with
  | zero => intro _; simp [read_id_latches, hpc]
  | succ m ih =>
    intro h
    obtain ⟨h1, h2, h3, h4, h5, h6, h7, h8, h9, h10⟩ := ih (fun i hi => h i (by omega))
    have hd := h m (by omega)
    rw [Function.iterate_succ_apply']
    generalize read_pages_step^[m] c = d at *
    have hd2 : memcmp_ne d.id (read_id (some d.id2) d.w).id 5 = true := hd
    have hb := read_id_bus s0 (some d.id2) d.w
    simp only [read_pages_step, h1, hd2, if_true]
    refine ⟨trivial, h2, h3, h4, h5, h6, h7, h8, ?_, ?_⟩
    · simp only [World.print]
      rw [hb.1, h9, h10, read_id_latches_succ, List.append_assoc]
    · simp only [World.print]
      rw [hb.2.1]
      simp

theorem write_pages_retry_drift (s0 : Nat → Nat) (c : WCfg) (hpc : c.pc = .retry) :
    ∀ m : Nat, (∀ i, i < m → (write_pages_step^[i] c).id_drift = true) →
      (write_pages_step^[m] c).pc = .retry ∧
      (write_pages_step^[m] c).retry_count = c.retry_count ∧
      (write_pages_step^[m] c).page = c.page ∧
      (write_pages_step^[m] c).id = c.id ∧
      (write_pages_step^[m] c).buf = c.buf ∧
      (write_pages_step^[m] c).fops = c.fops ∧
      latched wiring s0 (write_pages_step^[m] c).w.trace =
        latched wiring s0 c.w.trace ++
          read_id_latches (pins s0 c.w.trace ADDRESS_LATCH_ENABLE) m ∧
      pins s0 (write_pages_step^[m] c).w.trace ADDRESS_LATCH_ENABLE =
        (if m = 0 then pins s0 c.w.trace ADDRESS_LATCH_ENABLE else 0) := by
  intro m
  induction m with
  | zero => intro _; simp [read_id_latches, hpc]
  | succ m ih =>
    intro h
    obtain ⟨h1, h2, h3, h4, h5, h6, h9, h10⟩ := ih (fun i hi => h i (by omega))
    have hd := h m (by omega)
    rw [Function.iterate_succ_apply']
    generalize write_pages_step^[m] c = d at *
    have hd2 : memcmp_ne d.id (read_id (some d.id2) d.w).id 5 = true := hd
    have hb := read_id_bus s0 (some d.id2) d.w
    simp only [write_pages_step, h1, hd2, if_true]
    refine ⟨trivial, h2, h3, h4, h5, h6, ?_, ?_⟩
    · simp only [World.print]
      rw [hb.1, h9, h10, read_id_latches_succ, List.append_assoc]
    · simp only [World.print]
      rw [hb.2.1]
      simp

theorem erase_blocks_retry_drift (s0 : Nat → Nat) (c : ECfg) (hpc : c.pc = .retry) :
    ∀ m : Nat, (∀ i, i < m → (erase_blocks_step^[i] c).id_drift = true) →
      (erase_blocks_step^[m] c).pc = .retry ∧
      (erase_blocks_step^[m] c).retry_count = c.retry_count ∧
      (erase_blocks_step^[m] c).block = c.block ∧
      (erase_blocks_step^[m] c).id = c.id ∧
      latched wiring s0 (erase_blocks_step^[m] c).w.trace =
        latched wiring s0 c.w.trace ++
          read_id_latches (pins s0 c.w.trace ADDRESS_LATCH_ENABLE) m ∧
      pins s0 (erase_blocks_step^[m] c).w.trace ADDRESS_LATCH_ENABLE =
        (if m = 0 then pins s0 c.w.trace ADDRESS_LATCH_ENABLE else 0) := by
  intro m
  induction m with
  | zero => intro _; simp [read_id_latches, hpc]
  | succ m ih =>
    intro h
    obtain ⟨h1, h2, h3, h4, h9, h10⟩ := ih (fun i hi => h i (by omega))
    have hd := h m (by omega)
    rw [Function.iterate_succ_apply']
    generalize erase_blocks_step^[m] c = d at *
    have hd2 : memcmp_ne d.id (read_id (some d.id2) d.w).id 5 = true := hd
    have hb := read_id_bus s0 (some d.id2) d.w
    simp only [erase_blocks_step, h1, hd2, if_true]
    refine ⟨trivial, h2, h3, h4, ?_, ?_⟩
    · simp only [World.print]
      rw [hb.1, h9, h10, read_id_latches_succ, List.append_assoc]
    · simp only [World.print]
      rw [hb.2.1]
      simp

/-- C4: in `read_pages`, `write_pages` and `erase_blocks`, as long as the ID
re-read at label `retry:` differs from the ID captured at the start, control
stays at `retry:` with `retry_count`, the page (or block) and the buffers
unchanged, the sink, `bad.log` and the input file are not touched, and the
only bytes latched by the chip are those of the Read-ID transactions (`0x90`,
then address `0x00`): no read, program or erase command is issued, and no
content or status check is reached. -/
theorem C4_id_drift_retries (s0 : Nat → Nat) (cr : RCfg) (cw : WCfg) (ce : ECfg)
    (mr mw me : Nat) (hr : cr.pc = .retry) (hw : cw.pc = .retry) (he : ce.pc = .retry)
    (hdr : ∀ i, i < mr → (read_pages_step^[i] cr).id_drift = true)
    (hdw : ∀ i, i < mw → (write_pages_step^[i] cw).id_drift = true)
    (hde : ∀ i, i < me → (erase_blocks_step^[i] ce).id_drift = true) :
    ((read_pages_step^[mr] cr).pc = .retry ∧
      (read_pages_step^[mr] cr).retry_count = cr.retry_count ∧
      (read_pages_step^[mr] cr).page = cr.page ∧
      (read_pages_step^[mr] cr).buf = cr.buf ∧
      (read_pages_step^[mr] cr).sink = cr.sink ∧
      (read_pages_step^[mr] cr).badlog = cr.badlog ∧
      latched wiring s0 (read_pages_step^[mr] cr).w.trace =
        latched wiring s0 cr.w.trace ++
          read_id_latches (pins s0 cr.w.trace ADDRESS_LATCH_ENABLE) mr) ∧
    ((write_pages_step^[mw] cw).pc = .retry ∧
      (write_pages_step^[mw] cw).retry_count = cw.retry_count ∧
      (write_pages_step^[mw] cw).page = cw.page ∧
      (write_pages_step^[mw] cw).buf = cw.buf ∧
      (write_pages_step^[mw] cw).fops = cw.fops ∧
      latched wiring s0 (write_pages_step^[mw] cw).w.trace =
        latched wiring s0 cw.w.trace ++
          read_id_latches (pins s0 cw.w.trace ADDRESS_LATCH_ENABLE) mw) ∧
    ((erase_blocks_step^[me] ce).pc = .retry ∧
      (erase_blocks_step^[me] ce).retry_count = ce.retry_count ∧
      (erase_blocks_step^[me] ce).block = ce.block ∧
      latched wiring s0 (erase_blocks_step^[me] ce).w.trace =
        latched wiring s0 ce.w.trace ++
          read_id_latches (pins s0 ce.w.trace ADDRESS_LATCH_ENABLE) me) := by
  obtain ⟨a1, a2, a3, _, _, a6, a7, a8, a9, _⟩ := read_pages_retry_drift s0 cr hr mr hdr
  obtain ⟨b1, b2, b3, _, b5, b6, b7, _⟩ := write_pages_retry_drift s0 cw hw mw hdw
  obtain ⟨c1, c2, c3, _, c5, _⟩ := erase_blocks_retry_drift s0 ce he me hde
  exact ⟨⟨a1, a2, a3, a6, a7, a8, a9⟩, ⟨b1, b2, b3, b5, b6, b7⟩, ⟨c1, c2, c3, c5⟩⟩

/-- Witness for C4: three configurations whose re-read ID differs twice in a
row; after two steps each is still at `retry:` with its retry counter. -/
theorem C4_id_drift_retries_witness :
    ((read_pages_step^[2] rcfg_drift).pc = .retry ∧
      (read_pages_step^[2] rcfg_drift).retry_count = 3) ∧
    ((write_pages_step^[2] wcfg_drift).pc = .retry ∧
      (write_pages_step^[2] wcfg_drift).retry_count = 2) ∧
    ((erase_blocks_step^[2] ecfg_drift).pc = .retry ∧
      (erase_blocks_step^[2] ecfg_drift).retry_count = 1) := by
  have h := C4_id_drift_retries (fun _ => 0) rcfg_drift wcfg_drift ecfg_drift 2 2 2 rfl rfl rfl
    (by decide) (by decide) (by decide)
  exact ⟨⟨h.1.1, h.1.2.1⟩, ⟨h.2.1.1, h.2.1.2.1⟩, ⟨h.2.2.1, h.2.2.2.1⟩⟩

/-! ### The bus functions leave the level oracle and standard output alone -/

@[simp] theorem log_lev (w : World) (e : Ev) : (w.log e).lev = w.lev := rfl
@[simp] theorem log_stdout (w : World) (e : Ev) : (w.log e).stdout = w.stdout := rfl
@[simp] theorem print_lev (w : World) (m : Msg) : (w.print m).lev = w.lev := rfl
@[simp] theorem print_trace (w : World) (m : Msg) : (w.print m).trace = w.trace := rfl
@[simp] theorem print_stdout (w : World) (m : Msg) : (w.print m).stdout = m :: w.stdout := rfl

@[simp] theorem frame_INP (g : Nat) (w : World) :
    ( INP_GPIO g w).lev = w.lev ∧ ( INP_GPIO g w).stdout = w.stdout := ⟨rfl, rfl⟩
@[simp] theorem frame_OUT (g : Nat) (w : World) :
    ( OUT_GPIO g w).lev = w.lev ∧ ( OUT_GPIO g w).stdout = w.stdout := ⟨rfl, rfl⟩
@[simp] theorem frame_SET_1 (g : Nat) (w : World) :
    (GPIO_SET_1 g w).lev = w.lev ∧ (GPIO_SET_1 g w).stdout = w.stdout := ⟨rfl, rfl⟩
@[simp] theorem frame_SET_0 (g : Nat) (w : World) :
    (GPIO_SET_0 g w).lev = w.lev ∧ (GPIO_SET_0 g w).stdout = w.stdout := ⟨rfl, rfl⟩
@[simp] theorem frame_READ (g : Nat) (w : World) :
    (GPIO_READ g w).2.lev = w.lev ∧ (GPIO_READ g w).2.stdout = w.stdout := ⟨rfl, rfl⟩
@[simp] theorem frame_shortpause (w : World) :
    (shortpause w).lev = w.lev ∧ (shortpause w).stdout = w.stdout := ⟨rfl, rfl⟩

theorem frame_dir_in_loop (m : Nat → Nat) : ∀ (k i : Nat) (w : World),
    (set_data_direction_in_loop m k i w).lev = w.lev ∧
      (set_data_direction_in_loop m k i w).stdout = w.stdout := by
  intro k
  induction k with
  | zero => intro i w; exact ⟨rfl, rfl⟩
  | succ k ih => intro i w; simp only [set_data_direction_in_loop]; rw [(ih _ _).1, (ih _ _).2]; exact ⟨rfl, rfl⟩

theorem frame_dir_out_loop (m : Nat → Nat) : ∀ (k i : Nat) (w : World),
    (set_data_direction_out_loop m k i w).lev = w.lev ∧
      (set_data_direction_out_loop m k i w).stdout = w.stdout := by
  intro k
  induction k with
  | zero => intro i w; exact ⟨rfl, rfl⟩
  | succ k ih => intro i w; simp only [set_data_direction_out_loop]; rw [(ih _ _).1, (ih _ _).2]; exact ⟨rfl, rfl⟩

@[simp] theorem frame_dir_in (w : World) :
    (set_data_direction_in w).lev = w.lev ∧ (set_data_direction_in w).stdout = w.stdout :=
  frame_dir_in_loop _ 8 0 w

@[simp] theorem frame_dir_out (w : World) :
    (set_data_direction_out w).lev = w.lev ∧ (set_data_direction_out w).stdout = w.stdout :=
  frame_dir_out_loop _ 8 0 w

theorem frame_DATA8_IN_loop (m : Nat → Nat) : ∀ (k i d : Nat) (w : World),
    (GPIO_DATA8_IN_loop m k i d w).2.lev = w.lev ∧
      (GPIO_DATA8_IN_loop m k i d w).2.stdout = w.stdout := by
  intro k
  induction k with
  | zero => intro i d w; exact ⟨rfl, rfl⟩
  | succ k ih => intro i d w; simp only [GPIO_DATA8_IN_loop]; rw [(ih _ _ _).1, (ih _ _ _).2]; exact ⟨rfl, rfl⟩

@[simp] theorem frame_DATA8_IN (w : World) :
    (GPIO_DATA8_IN w).2.lev = w.lev ∧ (GPIO_DATA8_IN w).2.stdout = w.stdout :=
  frame_DATA8_IN_loop _ 8 0 0 w

theorem frame_DATA8_OUT_loop (m : Nat → Nat) : ∀ (k i : Nat) (d : Int) (w : World),
    (GPIO_DATA8_OUT_loop m k i d w).lev = w.lev ∧
      (GPIO_DATA8_OUT_loop m k i d w).stdout = w.stdout := by
  intro k
  induction k with
  | zero => intro i d w; exact ⟨rfl, rfl⟩
  | succ k ih =>
    intro i d w
    simp only [GPIO_DATA8_OUT_loop]
    rw [(ih _ _ _).1, (ih _ _ _).2]
    split <;> exact ⟨rfl, rfl⟩

@[simp] theorem frame_DATA8_OUT (d : Int) (w : World) :
    (GPIO_DATA8_OUT d w).lev = w.lev ∧ (GPIO_DATA8_OUT d w).stdout = w.stdout :=
  frame_DATA8_OUT_loop _ 8 0 d w

theorem frame_read_id_loop : ∀ (k i : Nat) (buf : Nat → Nat) (w : World),
    (read_id_loop k i buf w).2.lev = w.lev ∧ (read_id_loop k i buf w).2.stdout = w.stdout := by
  intro k
  induction k with
  | zero => intro i buf w; exact ⟨rfl, rfl⟩
  | succ k ih =>
    intro i buf w
    simp only [read_id_loop]
    rw [(ih _ _ _).1, (ih _ _ _).2]
    simp

@[simp] theorem frame_read_id_capture (w : World) :
    (read_id_capture w).2.lev = w.lev ∧ (read_id_capture w).2.stdout = w.stdout := by
  simp only [read_id_capture]
  rw [(frame_read_id_loop _ _ _ _).1, (frame_read_id_loop _ _ _ _).2]
  simp

theorem frame_address_loop (b : Bool) (page : Int) : ∀ (k i : Nat) (w : World),
    (address_loop b page k i w).lev = w.lev ∧ (address_loop b page k i w).stdout = w.stdout := by
  intro k
  induction k with
  | zero => intro i w; exact ⟨rfl, rfl⟩
  | succ k ih =>
    intro i w
    simp only [address_loop]
    rw [(ih _ _).1, (ih _ _).2]
    cases b <;> simp

@[simp] theorem frame_send_read_command (page : Int) (w : World) :
    (send_read_command page w).lev = w.lev ∧ (send_read_command page w).stdout = w.stdout := by
  simp [send_read_command, frame_address_loop]

theorem frame_write_data_loop (data : Nat → Nat) : ∀ (k i : Nat) (w : World),
    (write_data_loop data k i w).lev = w.lev ∧ (write_data_loop data k i w).stdout = w.stdout := by
  intro k
  induction k with
  | zero => intro i w; exact ⟨rfl, rfl⟩
  | succ k ih =>
    intro i w
    simp only [write_data_loop]
    rw [(ih _ _).1, (ih _ _).2]
    simp

@[simp] theorem frame_send_write_command (page : Int) (data : Nat → Nat) (w : World) :
    (send_write_command page data w).lev = w.lev ∧
      (send_write_command page data w).stdout = w.stdout := by
  simp [send_write_command, frame_address_loop, frame_write_data_loop]

@[simp] theorem frame_send_eraseblock_command (block : Int) (w : World) :
    (send_eraseblock_command block w).lev = w.lev ∧
      (send_eraseblock_command block w).stdout = w.stdout := by
  simp [send_eraseblock_command, frame_address_loop]

@[simp] theorem frame_read_status (w : World) :
    (read_status w).2.lev = w.lev ∧ (read_status w).2.stdout = w.stdout := by
  simp [read_status]

theorem frame_read_pages_byte_loop (n : Int) : ∀ (k i : Nat) (buf : Nat → Nat) (w : World),
    (read_pages_byte_loop n k i buf w).2.lev = w.lev ∧
      (read_pages_byte_loop n k i buf w).2.stdout = w.stdout := by
  intro k
  induction k with
  | zero => intro i buf w; exact ⟨rfl, rfl⟩
  | succ k ih =>
    intro i buf w
    simp only [read_pages_byte_loop]
    rw [(ih _ _ _).1, (ih _ _ _).2]
    simp

/-- With an array argument `read_id` prints at most the line about identical
bytes. -/
theorem read_id_stdout (a : Nat → Nat) (w : World) :
    (read_id (some a) w).w.lev = w.lev ∧
      ((read_id (some a) w).w.stdout = w.stdout ∨
        (read_id (some a) w).w.stdout = .id_identical :: w.stdout) := by
  unfold read_id
  have h := frame_read_id_capture w
  generalize read_id_capture w = r at h
  dsimp only
  split
  · exact ⟨h.1, Or.inr (by simp [error_msg, h.2])⟩
  · exact ⟨h.1, Or.inl h.2⟩

/-! ### Observations of a run -/

theorem observe_succ {σ α : Type} (step : σ → σ) (obs : σ → Option α) (c : σ) (K : Nat) :
    observe step obs c (K + 1) = observe step obs c K ++ (obs (step^[K] c)).toList := by
  cases h : obs (step^[K] c) <;>
    simp [observe, List.range_succ, List.filterMap_append, h]

/-! ### Return values, the ID report and page addresses (claims C12, C15, C19) -/

set_option maxRecDepth 100000 in
/-- C15 (code defect): the plane-size `switch` of `print_id` assigns
`8 MiB * 2^k` for the field values `k = 0, 1, 4, 5, 6, 7` of bits 6..4 of the
fifth byte, and assigns nothing for `k = 2` and `k = 3`, because the labels
`010` and `011` are octal; for the fifth byte `0x20` no case is taken. -/
theorem C15_plane_size_octal_labels :
    plane_size 0x20 = none ∧ plane_size 0x30 = none ∧
      ∀ b, b < 256 →
        (plane_size b =
          if b / 16 % 8 = 2 ∨ b / 16 % 8 = 3 then none
          else some (8 * 1024 * 1024 * 2 ^ (b / 16 % 8))) := by
  decide

theorem read_pages_step_ne_zero (c : RCfg) (h : c.pc ≠ .exit (some 0)) :
    (read_pages_step c).pc ≠ .exit (some 0) := by
  rcases hpc : c.pc with _ | _ | _ | _ | _ | _ | _ | r <;>
    simp only [read_pages_step, hpc] <;> (try split_ifs) <;> simp_all

theorem write_pages_step_ne_zero (c : WCfg) (h : c.pc ≠ .exit (some 0)) :
    (write_pages_step c).pc ≠ .exit (some 0) := by
  rcases hpc : c.pc with _ | _ | _ | _ | _ | r <;>
    simp only [write_pages_step, hpc] <;> (try split_ifs) <;> simp_all

theorem erase_blocks_step_ne_zero (c : ECfg) (h : c.pc ≠ .exit (some 0)) :
    (erase_blocks_step c).pc ≠ .exit (some 0) := by
  rcases hpc : c.pc with _ | _ | _ | _ | _ | r <;>
    simp only [erase_blocks_step, hpc] <;> (try split_ifs) <;> simp_all

theorem iterate_inv {σ : Type} (step : σ → σ) (P : σ → Prop) (hP : ∀ c, P c → P (step c))
    (c : σ) (h : P c) : ∀ K, P (step^[K] c) := by
  intro K
  induction K with
  | zero => exact h
  | succ K ih => rw [Function.iterate_succ_apply']; exact hP _ ih

theorem read_pages_start_pc (a b : Int) (f1 f2 : Bool) (fw : Nat → Bool) (ws : Int)
    (i1 i2 b0 : Nat → Nat) (w : World) :
    (read_pages_start a b f1 f2 fw ws i1 i2 b0 w).pc ≠ .exit (some 0) := by
  unfold read_pages_start
  dsimp only
  split
  · simp
  · split
    · simp
    · split
      · simp
      · split <;> simp

theorem write_pages_start_pc (a b : Int) (f1 : Bool) (infile : List Nat)
    (i1 i2 b0 : Nat → Nat) (w : World) :
    (write_pages_start a b f1 infile i1 i2 b0 w).pc ≠ .exit (some 0) := by
  unfold write_pages_start
  dsimp only
  split
  · simp
  · split <;> simp

theorem erase_blocks_start_pc (a b : Int) (i1 i2 : Nat → Nat) (w : World) :
    (erase_blocks_start a b i1 i2 w).pc ≠ .exit (some 0) := by
  unfold erase_blocks_start
  dsimp only
  split <;> simp

set_option maxRecDepth 1000000 in
/-- C12 (code defect): no run of `read_pages`, `write_pages` or `erase_blocks`
ever returns 0.  Each of them either returns -1 from the code before the loop
(or from a failed `fwrite`) or runs off the end of the function without a
`return` statement, as the erase of blocks 3 and 4 on a quiet chip does. -/
theorem C12_no_return_zero (first count write_spare : Int) (fopen_out fopen_badlog fopen_in : Bool)
    (fwrite_ok : Nat → Bool) (infile : List Nat) (id0 id2 buf0 : Nat → Nat) (w : World)
    (K : Nat) :
    (read_pages_step^[K] (read_pages_start first count fopen_out fopen_badlog fwrite_ok
        write_spare id0 id2 buf0 w)).pc ≠ .exit (some 0) ∧
      (write_pages_step^[K] (write_pages_start first count fopen_in infile id0 id2 buf0 w)).pc ≠
        .exit (some 0) ∧
      (erase_blocks_step^[K] (erase_blocks_start first count id0 id2 w)).pc ≠ .exit (some 0) ∧
      (erase_blocks_step^[11] ecfg_two_blocks).pc = .exit none := by
  refine ⟨?_, ?_, ?_, by decide⟩
  · exact iterate_inv read_pages_step (fun c => c.pc ≠ .exit (some 0)) read_pages_step_ne_zero _
      (read_pages_start_pc _ _ _ _ _ _ _ _ _ _) K
  · exact iterate_inv write_pages_step (fun c => c.pc ≠ .exit (some 0)) write_pages_step_ne_zero _
      (write_pages_start_pc _ _ _ _ _ _ _ _) K
  · exact iterate_inv erase_blocks_step (fun c => c.pc ≠ .exit (some 0))
      erase_blocks_step_ne_zero _ (erase_blocks_start_pc _ _ _ _ _) K

theorem page_to_address_row (p : Nat) :
    page_to_address (p : Int) 2 = ((p % 256 : Nat) : Int) ∧
      page_to_address (p : Int) 3 = ((p / 256 % 256 : Nat) : Int) ∧
      page_to_address (p : Int) 4 = ((p / 65536 % 256 : Nat) : Int) := by
  have h2 : p &&& 0xff = p % 256 := Nat.and_pow_two_sub_one_eq_mod p 8
  have h3 : (p >>> 8) &&& 0xff = p / 256 % 256 := by
    rw [Nat.shiftRight_eq_div_pow]; exact Nat.and_pow_two_sub_one_eq_mod _ 8
  have h4 : (p >>> 16) &&& 0xff = p / 65536 % 256 := by
    rw [Nat.shiftRight_eq_div_pow]; exact Nat.and_pow_two_sub_one_eq_mod _ 8
  rw [page_to_address_two, page_to_address_three, page_to_address_four, h2, h3, h4]
  exact ⟨rfl, rfl, rfl⟩

theorem page_to_address_col (p : Int) (i : Nat) (h : i ≠ 2 ∧ i ≠ 3 ∧ i ≠ 4) :
    page_to_address p i = 0 := by
  unfold page_to_address
  split <;> simp_all

/-- C19: for pages `p, q` below `2 ^ 24`, the two column bytes are 0, the three
row bytes lie in 0..255 and satisfy `b2 + 256 b3 + 65536 b4 = p`, so that
equal address bytes mean equal pages; and for every page `r ≥ 0` the pages `r`
and `r + 2 ^ 24` get the same five address bytes. -/
theorem C19_page_to_address (p q r : Nat) (hp : p < 2 ^ 24) (hq : q < 2 ^ 24) :
    page_to_address (p : Int) 0 = 0 ∧ page_to_address (p : Int) 1 = 0 ∧
      (0 ≤ page_to_address (p : Int) 2 ∧ page_to_address (p : Int) 2 ≤ 255) ∧
      (0 ≤ page_to_address (p : Int) 3 ∧ page_to_address (p : Int) 3 ≤ 255) ∧
      (0 ≤ page_to_address (p : Int) 4 ∧ page_to_address (p : Int) 4 ≤ 255) ∧
      page_to_address (p : Int) 2 + 256 * page_to_address (p : Int) 3 +
          65536 * page_to_address (p : Int) 4 = (p : Int) ∧
      ((∀ i, i < 5 → page_to_address (p : Int) i = page_to_address (q : Int) i) → p = q) ∧
      (∀ i, page_to_address (((r + 2 ^ 24 : Nat) : Int)) i = page_to_address (r : Int) i) := by
  obtain ⟨p2, p3, p4⟩ := page_to_address_row p
  obtain ⟨q2, q3, q4⟩ := page_to_address_row q
  refine ⟨rfl, rfl, ?_, ?_, ?_, ?_, ?_, ?_⟩
  · rw [p2]; omega
  · rw [p3]; omega
  · rw [p4]; omega
  · rw [p2, p3, p4]; omega
  · intro h
    have e2 := h 2 (by omega)
    have e3 := h 3 (by omega)
    have e4 := h 4 (by omega)
    rw [p2, q2] at e2
    rw [p3, q3] at e3
    rw [p4, q4] at e4
    omega
  · intro i
    by_cases hi : i ≠ 2 ∧ i ≠ 3 ∧ i ≠ 4
    · rw [page_to_address_col _ i hi, page_to_address_col _ i hi]
    · obtain ⟨a2, a3, a4⟩ := page_to_address_row (r + 2 ^ 24)
      obtain ⟨r2, r3, r4⟩ := page_to_address_row r
      have : i = 2 ∨ i = 3 ∨ i = 4 := by omega
      rcases this with rfl | rfl | rfl
      · rw [a2, r2]; congr 1; omega
      · rw [a3, r3]; congr 1; omega
      · rw [a4, r4]; congr 1; omega

/-- Witness for C19: pages 70000 and 70001 are below `2 ^ 24`; the row bytes of
page 70000 are `0x70, 0x11, 0x01`. -/
theorem C19_page_to_address_witness :
    page_to_address 70000 2 + 256 * page_to_address 70000 3 + 65536 * page_to_address 70000 4
      = 70000 :=
  (C19_page_to_address 70000 70001 5 (by norm_num) (by norm_num)).2.2.2.2.2.1

/-! ### Argument checks of main (claim C11) -/

/-- C11: in `main` of both drivers, when the command is `read_full` or
`read_data` (in rpi-raw-nand-v3.c also `write_full` or `erase_blocks`) and the
count argument `argv[4]` converts to a value `≤ 0`, `main` returns -1 and
calls none of `read_pages`, `write_pages`, `erase_blocks`. -/
theorem C11_count_must_be_positive (atoi : String → Int) (open_ok mmap_ok : Bool)
    (argv argv1 : List String) (w : World) (hcount : atoi (argv.getD 4 "") ≤ 0)
    (hcmd : argv.getD 2 "" = "read_full" ∨ argv.getD 2 "" = "read_data" ∨
      argv.getD 2 "" = "write_full" ∨ argv.getD 2 "" = "erase_blocks")
    (hcount1 : atoi (argv1.getD 4 "") ≤ 0)
    (hcmd1 : argv1.getD 2 "" = "read_full" ∨ argv1.getD 2 "" = "read_data") :
    (∃ w1, main atoi open_ok mmap_ok argv w = .exit (-1) w1) ∧
      (∃ w1, V1.main atoi open_ok mmap_ok argv1 w = .exit (-1) w1) := by
  constructor
  · unfold main
    dsimp only
    generalize main_gpio_setup (w.print .banner) = w2
    cases open_ok
    · exact ⟨_, rfl⟩
    cases mmap_ok
    · exact ⟨_, rfl⟩
    generalize atoi (argv.getD 4 "") = cnt at hcount ⊢
    generalize argv.getD 2 "" = cmd at hcmd ⊢
    generalize argv.length = len
    by_cases hlen : len < 3
    · simp only [hlen]; exact ⟨_, rfl⟩
    by_cases h6 : len ≠ 6 <;> by_cases h5 : len ≠ 5 <;>
      rcases hcmd with h | h | h | h <;>
      simp [hlen, h, h5, h6, hcount]
  · unfold V1.main
    dsimp only
    generalize V1.main_gpio_setup w = w2
    cases open_ok
    · exact ⟨_, rfl⟩
    cases mmap_ok
    · exact ⟨_, rfl⟩
    generalize atoi (argv1.getD 4 "") = cnt at hcount1 ⊢
    generalize atoi (argv1.getD 1 "") = dly
    generalize argv1.getD 2 "" = cmd at hcmd1 ⊢
    generalize argv1.length = len
    by_cases hlen : len < 3
    · simp only [hlen]; exact ⟨_, rfl⟩
    by_cases hd : dly < 20
    · simp [hlen, hd]
    by_cases h6 : len ≠ 6 <;>
      rcases hcmd1 with h | h <;>
      simp [hlen, h, h6, hcount1, hd]

/-- Witness for C11: `prog 50 read_full 0 0 out.bin` with an `atoi` that yields
0 makes both drivers return -1. -/
theorem C11_count_must_be_positive_witness :
    (∃ w1, main (fun _ => 0) true true argv_zero_count world_low = .exit (-1) w1) ∧
      (∃ w1, V1.main (fun _ => 0) true true argv_zero_count world_low = .exit (-1) w1) :=
  C11_count_must_be_positive (fun _ => 0) true true argv_zero_count argv_zero_count world_low
    (by decide) (by decide) (by decide) (by decide)

/-! ### The retry counter of rpi-tsop48-nand-v1.c (claim C14) -/

set_option maxRecDepth 1000000 in
/-- C14 (code defect): in `read_pages` of rpi-tsop48-nand-v1.c the retry counter
set by page 0 is still there when the first read of page 1 begins.  After two
mismatches and a match on page 0, the page is written and the loop reaches
label `retry:` for page 1 (`page = 2`) with `retry_count = 2`. -/
theorem C14_v1_retry_count_carries_over :
    (V1.read_pages_step^[3] v1_cfg_after_two_retries).pc = .retry ∧
      (V1.read_pages_step^[3] v1_cfg_after_two_retries).page = 2 ∧
      (V1.read_pages_step^[3] v1_cfg_after_two_retries).sink.length = 1 ∧
      (V1.read_pages_step^[3] v1_cfg_after_two_retries).retry_count = 2 := by
  decide

/-! ### The source offset used by write_pages (claim C13) -/

/-- C13: in `write_pages`, when the pass through label `retry_all:` for page
`p ≥ 0` finds at least `(p + 1) * 2112` bytes in the source, it seeks to byte
offset `p * 2112` (the offset of the absolute page index), and the buffer that
the next successful ID check hands to `send_write_command` together with page
`p` holds the source bytes at offsets `p * 2112 .. p * 2112 + 2111`, whatever
number `m` of failed ID checks comes first. -/
theorem C13_write_buffer_from_page_offset (c : WCfg) (p m : Nat) (hpc : c.pc = .retry_all)
    (hpage : c.page = (p : Int)) (hlen : (p + 1) * PAGE_SIZE ≤ c.infile.length)
    (hdrift : ∀ i, i < m → (write_pages_step^[i + 1] c).id_drift = true)
    (hok : (write_pages_step^[m + 1] c).id_drift = false) :
    (write_pages_step^[m + 2] c).pc = .busy ∧
      (write_pages_step^[m + 2] c).w =
        send_write_command (p : Int) (write_pages_step^[m + 1] c).buf
          (read_id (some (write_pages_step^[m + 1] c).id2) (write_pages_step^[m + 1] c).w).w ∧
      (∀ i, i < PAGE_SIZE →
        (write_pages_step^[m + 1] c).buf i = c.infile.getD (p * PAGE_SIZE + i) 0 % 256) ∧
      (write_pages_step^[m + 1] c).fops =
        .fread PAGE_SIZE :: .fseek ((p : Int) * 2112) :: c.fops := by
  have h1pc : (write_pages_step c).pc = .retry := by simp [write_pages_step, hpc]
  have h1page : (write_pages_step c).page = (p : Int) := by simp [write_pages_step, hpc, hpage]
  have hoff : ¬ ((p : Int) * (PAGE_SIZE : Int) < 0) := by
    have : (0 : Int) ≤ (p : Int) * (PAGE_SIZE : Int) := by positivity
    omega
  have h1buf : ∀ i, i < PAGE_SIZE →
      (write_pages_step c).buf i = c.infile.getD (p * PAGE_SIZE + i) 0 % 256 := by
    intro i hi
    have hpos : ((p : Int) * (PAGE_SIZE : Int)).toNat = p * PAGE_SIZE := by
      rw [← Nat.cast_mul]; exact Int.toNat_natCast _
    have hlt : p * PAGE_SIZE + i < c.infile.length := by
      have : (p + 1) * PAGE_SIZE = p * PAGE_SIZE + PAGE_SIZE := by ring
      omega
    simp [write_pages_step, hpc, hpage, hoff, fread_page, hpos, hi, hlt]
  have h1fops : (write_pages_step c).fops =
      .fread PAGE_SIZE :: .fseek ((p : Int) * 2112) :: c.fops := by
    simp [write_pages_step, hpc, hpage, PAGE_SIZE]
  have hd : ∀ i, i < m → (write_pages_step^[i] (write_pages_step c)).id_drift = true := by
    intro i hi
    have := hdrift i hi
    rwa [Function.iterate_succ_apply] at this
  obtain ⟨d1, _, d3, _, d5, d6, _, _⟩ :=
    write_pages_retry_drift (fun _ => 0) (write_pages_step c) h1pc m hd
  rw [show m + 2 = (m + 1) + 1 by rfl, Function.iterate_succ_apply' write_pages_step (m + 1)]
  rw [Function.iterate_succ_apply] at hok ⊢
  generalize write_pages_step^[m] (write_pages_step c) = d at *
  have hok2 : memcmp_ne d.id (read_id (some d.id2) d.w).id 5 = false := hok
  have dp : d.page = (p : Int) := d3.trans h1page
  refine ⟨?_, ?_, ?_, ?_⟩
  · simp only [write_pages_step, d1, hok2, Bool.false_eq_true, if_false]
  · rw [← dp]
    simp only [write_pages_step, d1, hok2, Bool.false_eq_true, if_false]
  · intro i hi
    rw [d5]
    exact h1buf i hi
  · rw [d6, h1fops]

set_option maxRecDepth 1000000 in
/-- Witness for C13: page 1 of a two-page source of `0xA5` bytes, on a quiet
chip whose ID check passes at once. -/
theorem C13_write_buffer_from_page_offset_witness :
    (write_pages_step^[2] wcfg_page_one).pc = .busy ∧
      (write_pages_step^[1] wcfg_page_one).fops = [.fread PAGE_SIZE, .fseek 2112] := by
  have h := C13_write_buffer_from_page_offset wcfg_page_one 1 0 rfl rfl
    (by rw [show wcfg_page_one.infile = List.replicate 4224 165 from rfl, List.length_replicate]
        decide)
    (by intro i hi; omega) (by decide)
  exact ⟨h.1, h.2.2.2⟩

/-! ### The retry bound of write_pages (claim C6) -/

theorem read_id_count_write_retry (a : Nat → Nat) (w : World) :
    (read_id (some a) w).w.stdout.count .write_retry = w.stdout.count .write_retry := by
  rcases (read_id_stdout a w).2 with h | h <;> rw [h]
  simp

/-! ### Byte transfer on the data lines (C18) -/

theorem GPIO_READ_bit (g : Nat) (w : World) :
    (GPIO_READ g w).1 = (w.lev w.trace % 2 ^ 32) / 2 ^ g % 2 := by
  simp only [GPIO_READ]
  rw [Nat.one_shiftLeft, Nat.and_two_pow, Nat.shiftRight_eq_div_pow,
    Nat.mul_div_cancel _ (by positivity), Nat.toNat_testBit]

theorem GPIO_READ_lev (g : Nat) (w : World) : (GPIO_READ g w).2.lev = w.lev := rfl

theorem shift_or_bit (e x : Nat) (hx : x < 2) : (e <<< 1) ||| x = 2 * e + x := by
  have := Nat.mul_add_lt_is_or (i := 1) (b := x) (by simpa using hx) e
  rw [Nat.shiftLeft_eq, Nat.mul_comm]
  simpa using this.symm

/-- The value of `GPIO_DATA8_IN` when data line `i` holds level `l i`
throughout the eight loads of the level register. -/
theorem GPIO_DATA8_IN_levels (m : Nat → Nat) (l : Nat → Nat) (w : World)
    (hl : ∀ t i, i < 8 → (w.lev t % 2 ^ 32) / 2 ^ (m i) % 2 = l i) :
    (GPIO_DATA8_IN_of m w).1 =
      l 0 + 2 * l 1 + 4 * l 2 + 8 * l 3 + 16 * l 4 + 32 * l 5 + 64 * l 6 + 128 * l 7 := by
  have hlt : ∀ i, i < 8 → l i < 2 := by
    intro i hi
    rw [← hl [] i hi]
    exact Nat.mod_lt _ (by norm_num)
  have h0 := hlt 0 (by norm_num)
  have h1 := hlt 1 (by norm_num)
  have h2 := hlt 2 (by norm_num)
  have h3 := hlt 3 (by norm_num)
  have h4 := hlt 4 (by norm_num)
  have h5 := hlt 5 (by norm_num)
  have h6 := hlt 6 (by norm_num)
  have h7 := hlt 7 (by norm_num)
  simp only [GPIO_DATA8_IN_of, GPIO_DATA8_IN_loop, GPIO_READ_bit, GPIO_READ_lev]
  simp only [hl _ _ (show 7 - 0 < 8 by norm_num), hl _ _ (show 7 - (0 + 1) < 8 by norm_num),
    hl _ _ (show 7 - (0 + 1 + 1) < 8 by norm_num),
    hl _ _ (show 7 - (0 + 1 + 1 + 1) < 8 by norm_num),
    hl _ _ (show 7 - (0 + 1 + 1 + 1 + 1) < 8 by norm_num),
    hl _ _ (show 7 - (0 + 1 + 1 + 1 + 1 + 1) < 8 by norm_num),
    hl _ _ (show 7 - (0 + 1 + 1 + 1 + 1 + 1 + 1) < 8 by norm_num),
    hl _ _ (show 7 - (0 + 1 + 1 + 1 + 1 + 1 + 1 + 1) < 8 by norm_num)]
  norm_num
  rw [shift_or_bit _ _ h6, shift_or_bit _ _ h5, shift_or_bit _ _ h4, shift_or_bit _ _ h3,
    shift_or_bit _ _ h2, shift_or_bit _ _ h1, shift_or_bit _ _ h0]
  omega

/-- C18: for every byte `d`, `GPIO_DATA8_OUT(d)` leaves data line `i` (pin
`data_to_gpio_map[i]`) at bit `i` of `d`; `GPIO_DATA8_IN` on lines that hold
the levels `l 0 .. l 7` returns `l 0 + 2 l 1 + ... + 128 l 7`, a value in
0..255; hence, when the lines hold the levels set by `GPIO_DATA8_OUT(d)`,
`GPIO_DATA8_IN` returns `d`. -/
theorem C18_data8_out_in (s0 : Nat → Nat) (d : Nat) (w w2 : World) (l : Nat → Nat)
    (hd : d < 256)
    (hl : ∀ t i, i < 8 → (w2.lev t % 2 ^ 32) / 2 ^ (data_to_gpio_map i) % 2 = l i) :
    (∀ i, i < 8 →
        pins s0 (GPIO_DATA8_OUT (d : Int) w).trace (data_to_gpio_map i) = d / 2 ^ i % 2) ∧
      (GPIO_DATA8_IN w2).1 =
        l 0 + 2 * l 1 + 4 * l 2 + 8 * l 3 + 16 * l 4 + 32 * l 5 + 64 * l 6 + 128 * l 7 ∧
      (GPIO_DATA8_IN w2).1 ≤ 255 ∧
      ((∀ i, i < 8 → l i = pins s0 (GPIO_DATA8_OUT (d : Int) w).trace (data_to_gpio_map i)) →
        (GPIO_DATA8_IN w2).1 = d) := by
  have hout : ∀ i, i < 8 →
      pins s0 (GPIO_DATA8_OUT (d : Int) w).trace (data_to_gpio_map i) = d / 2 ^ i % 2 := by
    intro i hi
    have := pins_DATA8_OUT_loop_bit s0 data_to_gpio_map data_to_gpio_map_inj 8 0 d w i
      (by omega) hi
    simpa [GPIO_DATA8_OUT, GPIO_DATA8_OUT_of] using this
  have hin := GPIO_DATA8_IN_levels data_to_gpio_map l w2 hl
  have hlt : ∀ i, i < 8 → l i < 2 := by
    intro i hi
    rw [← hl [] i hi]
    exact Nat.mod_lt _ (by norm_num)
  have h0 := hlt 0 (by norm_num)
  have h1 := hlt 1 (by norm_num)
  have h2 := hlt 2 (by norm_num)
  have h3 := hlt 3 (by norm_num)
  have h4 := hlt 4 (by norm_num)
  have h5 := hlt 5 (by norm_num)
  have h6 := hlt 6 (by norm_num)
  have h7 := hlt 7 (by norm_num)
  refine ⟨hout, hin, ?_, ?_⟩
  · rw [show (GPIO_DATA8_IN w2).1 = _ from hin]
    omega
  · intro hsame
    rw [show (GPIO_DATA8_IN w2).1 = _ from hin]
    rw [hsame 0 (by norm_num), hsame 1 (by norm_num), hsame 2 (by norm_num),
      hsame 3 (by norm_num), hsame 4 (by norm_num), hsame 5 (by norm_num),
      hsame 6 (by norm_num), hsame 7 (by norm_num), hout 0 (by norm_num), hout 1 (by norm_num),
      hout 2 (by norm_num), hout 3 (by norm_num), hout 4 (by norm_num), hout 5 (by norm_num),
      hout 6 (by norm_num), hout 7 (by norm_num)]
    norm_num
    omega

/-- Witness for C18: after `GPIO_DATA8_OUT(5)` the data lines 0 and 2 are
high, and on a register that reads `0x0508` `GPIO_DATA8_IN` returns 5. -/
theorem C18_data8_out_in_witness : (GPIO_DATA8_IN world_five).1 = 5 :=
  (C18_data8_out_in (fun _ => 0) 5 world_low world_five
    (fun i => if i = 0 ∨ i = 2 then 1 else 0) (by norm_num)
    (by
      intro t i hi
      interval_cases i <;> simp [world_five, data_to_gpio_map])).2.1

/-! ### Ownership of the data lines (claim C17) -/

theorem is_data_line_map (m : Nat → Nat) (i : Nat) (hi : i < 8) : is_data_line m (m i) = true := by
  simp only [is_data_line, List.any_eq_true, List.mem_range]
  exact ⟨i, hi, by simp⟩

theorem is_data_line_control (g : Nat) (hg : g < 8) : is_data_line data_to_gpio_map g = false := by
  interval_cases g <;> decide

@[simp] theorem dirs_SET_1 (d0 : Nat → Bool) (g : Nat) (w : World) :
    dirs d0 (GPIO_SET_1 g w).trace = dirs d0 w.trace := rfl

@[simp] theorem dirs_SET_0 (d0 : Nat → Bool) (g : Nat) (w : World) :
    dirs d0 (GPIO_SET_0 g w).trace = dirs d0 w.trace := rfl

@[simp] theorem dirs_shortpause (d0 : Nat → Bool) (w : World) :
    dirs d0 (shortpause w).trace = dirs d0 w.trace := rfl

@[simp] theorem dirs_GPIO_READ (d0 : Nat → Bool) (g : Nat) (w : World) :
    dirs d0 (GPIO_READ g w).2.trace = dirs d0 w.trace := rfl

@[simp] theorem dirs_print (d0 : Nat → Bool) (msg : Msg) (w : World) :
    dirs d0 (w.print msg).trace = dirs d0 w.trace := rfl

theorem dir_ok_SET_1 (d0 : Nat → Bool) (g : Nat) (w : World) (hg : g < 8) :
    dir_ok data_to_gpio_map d0 (GPIO_SET_1 g w).trace = dir_ok data_to_gpio_map d0 w.trace := by
  simp [GPIO_SET_1, World.log, dir_ok, ev_dir_ok, is_data_line_control g hg]

theorem dir_ok_SET_0 (d0 : Nat → Bool) (g : Nat) (w : World) (hg : g < 8) :
    dir_ok data_to_gpio_map d0 (GPIO_SET_0 g w).trace = dir_ok data_to_gpio_map d0 w.trace := by
  simp [GPIO_SET_0, World.log, dir_ok, ev_dir_ok, is_data_line_control g hg]

theorem dir_ok_GPIO_READ (d0 : Nat → Bool) (g : Nat) (w : World) (hg : g < 8) :
    dir_ok data_to_gpio_map d0 (GPIO_READ g w).2.trace = dir_ok data_to_gpio_map d0 w.trace := by
  simp [GPIO_READ, World.log, dir_ok, ev_dir_ok, is_data_line_control g hg]

@[simp] theorem dir_ok_shortpause (m : Nat → Nat) (d0 : Nat → Bool) (w : World) :
    dir_ok m d0 (shortpause w).trace = dir_ok m d0 w.trace := by
  simp [shortpause, World.log, dir_ok, ev_dir_ok]

@[simp] theorem dir_ok_print (m : Nat → Nat) (d0 : Nat → Bool) (msg : Msg) (w : World) :
    dir_ok m d0 (w.print msg).trace = dir_ok m d0 w.trace := rfl

theorem dirs_DATA8_OUT_loop (d0 : Nat → Bool) (m : Nat → Nat) :
    ∀ (k i : Nat) (d : Int) (w : World),
      dirs d0 (GPIO_DATA8_OUT_loop m k i d w).trace = dirs d0 w.trace := by
  intro k
  induction k with
  | zero => intro i d w; rfl
  | succ k ih =>
    intro i d w
    simp only [GPIO_DATA8_OUT_loop]
    rw [ih]
    split <;> rfl

theorem dirs_DATA8_IN_loop (d0 : Nat → Bool) (m : Nat → Nat) :
    ∀ (k i data : Nat) (w : World),
      dirs d0 (GPIO_DATA8_IN_loop m k i data w).2.trace = dirs d0 w.trace := by
  intro k
  induction k with
  | zero => intro i data w; rfl
  | succ k ih =>
    intro i data w
    simp only [GPIO_DATA8_IN_loop]
    rw [ih]
    rfl

@[simp] theorem dirs_GPIO_DATA8_OUT (d0 : Nat → Bool) (d : Int) (w : World) :
    dirs d0 (GPIO_DATA8_OUT d w).trace = dirs d0 w.trace :=
  dirs_DATA8_OUT_loop d0 _ 8 0 d w

@[simp] theorem dirs_GPIO_DATA8_IN (d0 : Nat → Bool) (w : World) :
    dirs d0 (GPIO_DATA8_IN w).2.trace = dirs d0 w.trace :=
  dirs_DATA8_IN_loop d0 _ 8 0 0 w

/-- The stores of `GPIO_DATA8_OUT` respect the ownership of the data lines
exactly when the eight lines are outputs at the call. -/
theorem dir_ok_DATA8_OUT_loop (d0 : Nat → Bool) (m : Nat → Nat) :
    ∀ (k i : Nat) (d : Int) (w : World), i + k ≤ 8 →
      dir_ok m d0 (GPIO_DATA8_OUT_loop m k i d w).trace =
        (dir_ok m d0 w.trace && (k == 0 || data_lines_are m (dirs d0 w.trace) true)) := by
  intro k
  induction k with
  | zero => intro i d w _; simp [GPIO_DATA8_OUT_loop]
  | succ k ih =>
    intro i d w hik
    simp only [GPIO_DATA8_OUT_loop]
    rw [ih _ _ _ (by omega)]
    have hm := is_data_line_map m i (by omega)
    split <;>
      simp [GPIO_SET_1, GPIO_SET_0, World.log, dir_ok, dirs, ev_dir_ok, hm] <;>
      cases dir_ok m d0 w.trace <;> cases data_lines_are m (dirs d0 w.trace) true <;> simp

/-- The loads of `GPIO_DATA8_IN` respect the ownership of the data lines
exactly when the eight lines are inputs at the call. -/
theorem dir_ok_DATA8_IN_loop (d0 : Nat → Bool) (m : Nat → Nat) :
    ∀ (k i data : Nat) (w : World), k ≤ 8 - i →
      dir_ok m d0 (GPIO_DATA8_IN_loop m k i data w).2.trace =
        (dir_ok m d0 w.trace && (k == 0 || data_lines_are m (dirs d0 w.trace) false)) := by
  intro k
  induction k with
  | zero => intro i data w _; simp [GPIO_DATA8_IN_loop]
  | succ k ih =>
    intro i data w hik
    simp only [GPIO_DATA8_IN_loop]
    rw [ih _ _ _ (by omega)]
    have hm := is_data_line_map m (7 - i) (by omega)
    simp [GPIO_READ, World.log, dir_ok, dirs, ev_dir_ok, hm]
    cases dir_ok m d0 w.trace <;> cases data_lines_are m (dirs d0 w.trace) false <;> simp

theorem dir_ok_GPIO_DATA8_OUT (d0 : Nat → Bool) (d : Int) (w : World) :
    dir_ok data_to_gpio_map d0 (GPIO_DATA8_OUT d w).trace =
      (dir_ok data_to_gpio_map d0 w.trace &&
        data_lines_are data_to_gpio_map (dirs d0 w.trace) true) := by
  simpa using dir_ok_DATA8_OUT_loop d0 data_to_gpio_map 8 0 d w (by omega)

theorem dir_ok_GPIO_DATA8_IN (d0 : Nat → Bool) (w : World) :
    dir_ok data_to_gpio_map d0 (GPIO_DATA8_IN w).2.trace =
      (dir_ok data_to_gpio_map d0 w.trace &&
        data_lines_are data_to_gpio_map (dirs d0 w.trace) false) := by
  simpa using dir_ok_DATA8_IN_loop d0 data_to_gpio_map 8 0 0 w (by omega)

theorem dir_ok_set_data_direction_out (m : Nat → Nat) (d0 : Nat → Bool) (w : World) :
    dir_ok m d0 (set_data_direction_out w).trace = dir_ok m d0 w.trace := by
  simp [set_data_direction_out, set_data_direction_out_of, set_data_direction_out_loop, OUT_GPIO,
    INP_GPIO, World.log, dir_ok, ev_dir_ok]

theorem dir_ok_set_data_direction_in (m : Nat → Nat) (d0 : Nat → Bool) (w : World) :
    dir_ok m d0 (set_data_direction_in w).trace = dir_ok m d0 w.trace := by
  simp [set_data_direction_in, set_data_direction_in_of, set_data_direction_in_loop,
    INP_GPIO, World.log, dir_ok, ev_dir_ok]

/-- After `set_data_direction_out` the eight data lines are outputs. -/
theorem lines_set_data_direction_out (d0 : Nat → Bool) (w : World) (b : Bool) :
    data_lines_are data_to_gpio_map (dirs d0 (set_data_direction_out w).trace) b = b := by
  cases b <;>
  simp [set_data_direction_out, set_data_direction_out_of, set_data_direction_out_loop, OUT_GPIO,
    INP_GPIO, World.log, dirs, data_lines_are, data_to_gpio_map, List.range_succ,
    Function.update]

/-- After `set_data_direction_in` the eight data lines are inputs. -/
theorem lines_set_data_direction_in (d0 : Nat → Bool) (w : World) (b : Bool) :
    data_lines_are data_to_gpio_map (dirs d0 (set_data_direction_in w).trace) b = !b := by
  cases b <;>
  simp [set_data_direction_in, set_data_direction_in_of, set_data_direction_in_loop,
    INP_GPIO, World.log, dirs, data_lines_are, data_to_gpio_map, List.range_succ,
    Function.update]

theorem dirs_address_loop (d0 : Nat → Bool) (b : Bool) (page : Int) :
    ∀ (k i : Nat) (w : World), dirs d0 (address_loop b page k i w).trace = dirs d0 w.trace := by
  intro k
  induction k with
  | zero => intro i w; rfl
  | succ k ih =>
    intro i w
    simp only [address_loop]
    rw [ih]
    cases b <;> simp

theorem dir_ok_address_loop (d0 : Nat → Bool) (b : Bool) (page : Int) :
    ∀ (k i : Nat) (w : World), data_lines_are data_to_gpio_map (dirs d0 w.trace) true = true →
      dir_ok data_to_gpio_map d0 (address_loop b page k i w).trace =
        dir_ok data_to_gpio_map d0 w.trace := by
  intro k
  induction k with
  | zero => intro i w _; rfl
  | succ k ih =>
    intro i w h
    simp only [address_loop]
    rw [ih]
    · cases b <;>
        simp [dir_ok_SET_1, dir_ok_SET_0, dir_ok_GPIO_DATA8_OUT, N_WRITE_ENABLE, h]
    · cases b <;> simpa using h

theorem dirs_write_data_loop (d0 : Nat → Bool) (data : Nat → Nat) :
    ∀ (k i : Nat) (w : World), dirs d0 (write_data_loop data k i w).trace = dirs d0 w.trace := by
  intro k
  induction k with
  | zero => intro i w; rfl
  | succ k ih =>
    intro i w
    simp only [write_data_loop]
    rw [ih]
    simp

theorem dir_ok_write_data_loop (d0 : Nat → Bool) (data : Nat → Nat) :
    ∀ (k i : Nat) (w : World), data_lines_are data_to_gpio_map (dirs d0 w.trace) true = true →
      dir_ok data_to_gpio_map d0 (write_data_loop data k i w).trace =
        dir_ok data_to_gpio_map d0 w.trace := by
  intro k
  induction k with
  | zero => intro i w _; rfl
  | succ k ih =>
    intro i w h
    simp only [write_data_loop]
    rw [ih]
    · simp [dir_ok_SET_1, dir_ok_SET_0, dir_ok_GPIO_DATA8_OUT, N_WRITE_ENABLE, h]
    · simpa using h

theorem dirs_read_id_loop (d0 : Nat → Bool) :
    ∀ (k i : Nat) (buf : Nat → Nat) (w : World),
      dirs d0 (read_id_loop k i buf w).2.trace = dirs d0 w.trace := by
  intro k
  induction k with
  | zero => intro i buf w; rfl
  | succ k ih =>
    intro i buf w
    simp only [read_id_loop]
    rw [ih]
    simp

theorem dir_ok_read_id_loop (d0 : Nat → Bool) :
    ∀ (k i : Nat) (buf : Nat → Nat) (w : World),
      data_lines_are data_to_gpio_map (dirs d0 w.trace) false = true →
      dir_ok data_to_gpio_map d0 (read_id_loop k i buf w).2.trace =
        dir_ok data_to_gpio_map d0 w.trace := by
  intro k
  induction k with
  | zero => intro i buf w _; rfl
  | succ k ih =>
    intro i buf w h
    simp only [read_id_loop]
    rw [ih]
    · simp [dir_ok_SET_1, dir_ok_SET_0, dir_ok_GPIO_DATA8_IN, N_READ_ENABLE, h]
    · simpa using h

theorem dirs_read_pages_byte_loop (d0 : Nat → Bool) (n : Int) :
    ∀ (k i : Nat) (buf : Nat → Nat) (w : World),
      dirs d0 (read_pages_byte_loop n k i buf w).2.trace = dirs d0 w.trace := by
  intro k
  induction k with
  | zero => intro i buf w; rfl
  | succ k ih =>
    intro i buf w
    simp only [read_pages_byte_loop]
    rw [ih]
    simp

theorem dir_ok_read_pages_byte_loop (d0 : Nat → Bool) (n : Int) :
    ∀ (k i : Nat) (buf : Nat → Nat) (w : World),
      data_lines_are data_to_gpio_map (dirs d0 w.trace) false = true →
      dir_ok data_to_gpio_map d0 (read_pages_byte_loop n k i buf w).2.trace =
        dir_ok data_to_gpio_map d0 w.trace := by
  intro k
  induction k with
  | zero => intro i buf w _; rfl
  | succ k ih =>
    intro i buf w h
    simp only [read_pages_byte_loop]
    rw [ih]
    · simp [dir_ok_SET_1, dir_ok_SET_0, dir_ok_GPIO_DATA8_IN, N_READ_ENABLE, h]
    · simpa using h

/-- Stores to the control lines do not touch the data lines. -/
theorem dir_ok_control (d0 : Nat → Bool) (w : World) :
    dir_ok data_to_gpio_map d0 (GPIO_SET_1 N_WRITE_ENABLE w).trace =
        dir_ok data_to_gpio_map d0 w.trace ∧
      dir_ok data_to_gpio_map d0 (GPIO_SET_0 N_WRITE_ENABLE w).trace =
        dir_ok data_to_gpio_map d0 w.trace ∧
      dir_ok data_to_gpio_map d0 (GPIO_SET_1 N_READ_ENABLE w).trace =
        dir_ok data_to_gpio_map d0 w.trace ∧
      dir_ok data_to_gpio_map d0 (GPIO_SET_0 N_READ_ENABLE w).trace =
        dir_ok data_to_gpio_map d0 w.trace ∧
      dir_ok data_to_gpio_map d0 (GPIO_SET_1 COMMAND_LATCH_ENABLE w).trace =
        dir_ok data_to_gpio_map d0 w.trace ∧
      dir_ok data_to_gpio_map d0 (GPIO_SET_0 COMMAND_LATCH_ENABLE w).trace =
        dir_ok data_to_gpio_map d0 w.trace ∧
      dir_ok data_to_gpio_map d0 (GPIO_SET_1 ADDRESS_LATCH_ENABLE w).trace =
        dir_ok data_to_gpio_map d0 w.trace ∧
      dir_ok data_to_gpio_map d0 (GPIO_SET_0 ADDRESS_LATCH_ENABLE w).trace =
        dir_ok data_to_gpio_map d0 w.trace ∧
      dir_ok data_to_gpio_map d0 (GPIO_READ N_READ_BUSY w).2.trace =
        dir_ok data_to_gpio_map d0 w.trace :=
  ⟨dir_ok_SET_1 d0 _ w (by decide), dir_ok_SET_0 d0 _ w (by decide),
    dir_ok_SET_1 d0 _ w (by decide), dir_ok_SET_0 d0 _ w (by decide),
    dir_ok_SET_1 d0 _ w (by decide), dir_ok_SET_0 d0 _ w (by decide),
    dir_ok_SET_1 d0 _ w (by decide), dir_ok_SET_0 d0 _ w (by decide),
    dir_ok_GPIO_READ d0 _ w (by decide)⟩

/-- The transaction of `read_id` respects the ownership of the data lines. -/
theorem dir_ok_read_id (d0 : Nat → Bool) (id : Option (Nat → Nat)) (w : World) :
    dir_ok data_to_gpio_map d0 (read_id id w).w.trace = dir_ok data_to_gpio_map d0 w.trace := by
  rw [(read_id_eq id w).2.1]
  simp only [read_id_capture]
  rw [dir_ok_read_id_loop]
  · simp only [fun w => (dir_ok_control d0 w).1, fun w => (dir_ok_control d0 w).2.1,
      fun w => (dir_ok_control d0 w).2.2.2.2.1, fun w => (dir_ok_control d0 w).2.2.2.2.2.1,
      fun w => (dir_ok_control d0 w).2.2.2.2.2.2.1,
      fun w => (dir_ok_control d0 w).2.2.2.2.2.2.2.1, dir_ok_shortpause,
      dir_ok_GPIO_DATA8_OUT, dir_ok_set_data_direction_out, dir_ok_set_data_direction_in,
      lines_set_data_direction_out, dirs_SET_1, dirs_SET_0, dirs_shortpause,
      dirs_GPIO_DATA8_OUT, Bool.and_true]
  · simp only [dirs_SET_1, dirs_SET_0, dirs_shortpause, lines_set_data_direction_in,
      Bool.not_false]

theorem dir_ok_send_read_command (d0 : Nat → Bool) (page : Int) (w : World) :
    dir_ok data_to_gpio_map d0 (send_read_command page w).trace =
      dir_ok data_to_gpio_map d0 w.trace := by
  simp only [send_read_command]
  simp only [fun w => (dir_ok_control d0 w).1, fun w => (dir_ok_control d0 w).2.1,
    fun w => (dir_ok_control d0 w).2.2.2.2.1, fun w => (dir_ok_control d0 w).2.2.2.2.2.1,
    fun w => (dir_ok_control d0 w).2.2.2.2.2.2.1,
    fun w => (dir_ok_control d0 w).2.2.2.2.2.2.2.1, dir_ok_shortpause,
    dir_ok_GPIO_DATA8_OUT, dirs_SET_1, dirs_SET_0, dirs_shortpause, dirs_GPIO_DATA8_OUT,
    dirs_address_loop, lines_set_data_direction_out, Bool.and_true]
  rw [dir_ok_address_loop]
  · simp only [fun w => (dir_ok_control d0 w).1, fun w => (dir_ok_control d0 w).2.1,
      fun w => (dir_ok_control d0 w).2.2.2.2.1, fun w => (dir_ok_control d0 w).2.2.2.2.2.1,
      fun w => (dir_ok_control d0 w).2.2.2.2.2.2.1,
      fun w => (dir_ok_control d0 w).2.2.2.2.2.2.2.1, dir_ok_shortpause,
      dir_ok_GPIO_DATA8_OUT, dirs_SET_1, dirs_SET_0, dirs_shortpause, dirs_GPIO_DATA8_OUT,
      lines_set_data_direction_out, Bool.and_true, dir_ok_set_data_direction_out]
  · simp only [dirs_SET_1, dirs_SET_0, dirs_shortpause, dirs_GPIO_DATA8_OUT,
      lines_set_data_direction_out]

theorem dir_ok_send_write_command (d0 : Nat → Bool) (page : Int) (data : Nat → Nat) (w : World) :
    dir_ok data_to_gpio_map d0 (send_write_command page data w).trace =
      dir_ok data_to_gpio_map d0 w.trace := by
  simp only [send_write_command]
  simp only [fun w => (dir_ok_control d0 w).1, fun w => (dir_ok_control d0 w).2.1,
    fun w => (dir_ok_control d0 w).2.2.2.2.1, fun w => (dir_ok_control d0 w).2.2.2.2.2.1,
    fun w => (dir_ok_control d0 w).2.2.2.2.2.2.1,
    fun w => (dir_ok_control d0 w).2.2.2.2.2.2.2.1, dir_ok_shortpause,
    dir_ok_GPIO_DATA8_OUT, dirs_SET_1, dirs_SET_0, dirs_shortpause, dirs_GPIO_DATA8_OUT,
    dirs_address_loop, dirs_write_data_loop, lines_set_data_direction_out, Bool.and_true]
  rw [dir_ok_write_data_loop]
  · simp only [fun w => (dir_ok_control d0 w).1, fun w => (dir_ok_control d0 w).2.1,
      fun w => (dir_ok_control d0 w).2.2.2.2.1, fun w => (dir_ok_control d0 w).2.2.2.2.2.1,
      fun w => (dir_ok_control d0 w).2.2.2.2.2.2.1,
      fun w => (dir_ok_control d0 w).2.2.2.2.2.2.2.1, dir_ok_shortpause]
    rw [dir_ok_address_loop]
    · simp only [fun w => (dir_ok_control d0 w).1, fun w => (dir_ok_control d0 w).2.1,
        fun w => (dir_ok_control d0 w).2.2.2.2.1, fun w => (dir_ok_control d0 w).2.2.2.2.2.1,
        fun w => (dir_ok_control d0 w).2.2.2.2.2.2.1,
        fun w => (dir_ok_control d0 w).2.2.2.2.2.2.2.1, dir_ok_shortpause,
        dir_ok_GPIO_DATA8_OUT, dirs_SET_1, dirs_SET_0, dirs_shortpause, dirs_GPIO_DATA8_OUT,
        lines_set_data_direction_out, Bool.and_true, dir_ok_set_data_direction_out]
    · simp only [dirs_SET_1, dirs_SET_0, dirs_shortpause, dirs_GPIO_DATA8_OUT,
        lines_set_data_direction_out]
  · simp only [dirs_SET_1, dirs_SET_0, dirs_shortpause, dirs_GPIO_DATA8_OUT, dirs_address_loop,
      lines_set_data_direction_out]

theorem dir_ok_send_eraseblock_command (d0 : Nat → Bool) (block : Int) (w : World) :
    dir_ok data_to_gpio_map d0 (send_eraseblock_command block w).trace =
      dir_ok data_to_gpio_map d0 w.trace := by
  simp only [send_eraseblock_command]
  simp only [fun w => (dir_ok_control d0 w).1, fun w => (dir_ok_control d0 w).2.1,
    fun w => (dir_ok_control d0 w).2.2.2.2.1, fun w => (dir_ok_control d0 w).2.2.2.2.2.1,
    fun w => (dir_ok_control d0 w).2.2.2.2.2.2.1,
    fun w => (dir_ok_control d0 w).2.2.2.2.2.2.2.1, dir_ok_shortpause,
    dir_ok_GPIO_DATA8_OUT, dirs_SET_1, dirs_SET_0, dirs_shortpause, dirs_GPIO_DATA8_OUT,
    dirs_address_loop, lines_set_data_direction_out, Bool.and_true]
  rw [dir_ok_address_loop]
  · simp only [fun w => (dir_ok_control d0 w).1, fun w => (dir_ok_control d0 w).2.1,
      fun w => (dir_ok_control d0 w).2.2.2.2.1, fun w => (dir_ok_control d0 w).2.2.2.2.2.1,
      fun w => (dir_ok_control d0 w).2.2.2.2.2.2.1,
      fun w => (dir_ok_control d0 w).2.2.2.2.2.2.2.1, dir_ok_shortpause,
      dir_ok_GPIO_DATA8_OUT, dirs_SET_1, dirs_SET_0, dirs_shortpause, dirs_GPIO_DATA8_OUT,
      lines_set_data_direction_out, Bool.and_true, dir_ok_set_data_direction_out]
  · simp only [dirs_SET_1, dirs_SET_0, dirs_shortpause, dirs_GPIO_DATA8_OUT,
      lines_set_data_direction_out]

theorem dir_ok_read_status (d0 : Nat → Bool) (w : World) :
    dir_ok data_to_gpio_map d0 (read_status w).2.trace = dir_ok data_to_gpio_map d0 w.trace := by
  simp only [read_status]
  simp only [fun w => (dir_ok_control d0 w).1, fun w => (dir_ok_control d0 w).2.1,
    fun w => (dir_ok_control d0 w).2.2.1, fun w => (dir_ok_control d0 w).2.2.2.1,
    fun w => (dir_ok_control d0 w).2.2.2.2.1, fun w => (dir_ok_control d0 w).2.2.2.2.2.1,
    dir_ok_shortpause, dir_ok_GPIO_DATA8_OUT, dir_ok_GPIO_DATA8_IN, dirs_SET_1, dirs_SET_0,
    dirs_shortpause, dirs_GPIO_DATA8_OUT, dir_ok_set_data_direction_out,
    dir_ok_set_data_direction_in, lines_set_data_direction_out, lines_set_data_direction_in,
    Bool.and_true, Bool.not_false]

theorem dir_ok_read_pages_step (d0 : Nat → Bool) (c : RCfg) :
    dir_ok data_to_gpio_map d0 (read_pages_step c).w.trace =
      dir_ok data_to_gpio_map d0 c.w.trace := by
  rcases hpc : c.pc with _ | _ | _ | _ | _ | _ | _ | r
  · simp only [read_pages_step, hpc]
    split_ifs <;> simp only [dir_ok_print]
  · simp only [read_pages_step, hpc]
    split_ifs <;> simp only [dir_ok_print]
  · simp only [read_pages_step, hpc]
    split_ifs <;> simp only [dir_ok_print, dir_ok_read_id, dir_ok_send_read_command]
  · simp only [read_pages_step, hpc]
    split_ifs
    · simp only [dir_ok_shortpause, (dir_ok_control d0 _).2.2.2.2.2.2.2.2]
    · rw [dir_ok_read_pages_byte_loop]
      · simp only [dir_ok_set_data_direction_in, (dir_ok_control d0 _).2.2.2.2.2.2.2.2]
      · simp only [lines_set_data_direction_in, Bool.not_false]
  · simp only [read_pages_step, hpc]
    split_ifs <;> rfl
  · simp only [read_pages_step, hpc]
    split_ifs <;> simp only [dir_ok_print]
  · simp only [read_pages_step, hpc]
    split_ifs <;> simp only [dir_ok_print]
  · simp only [read_pages_step, hpc]

theorem dir_ok_write_pages_step (d0 : Nat → Bool) (c : WCfg) :
    dir_ok data_to_gpio_map d0 (write_pages_step c).w.trace =
      dir_ok data_to_gpio_map d0 c.w.trace := by
  rcases hpc : c.pc with _ | _ | _ | _ | _ | r
  · simp only [write_pages_step, hpc]
    split_ifs <;> simp only [dir_ok_print]
  · simp only [write_pages_step, hpc]
    split_ifs <;> simp only [dir_ok_print]
  · simp only [write_pages_step, hpc]
    split_ifs <;> simp only [dir_ok_print, dir_ok_read_id, dir_ok_send_write_command]
  · simp only [write_pages_step, hpc]
    split_ifs <;> simp only [dir_ok_shortpause, (dir_ok_control d0 _).2.2.2.2.2.2.2.2]
  · simp only [write_pages_step, hpc]
    split_ifs <;> simp only [dir_ok_print, dir_ok_read_status]
  · simp only [write_pages_step, hpc]

theorem dir_ok_erase_blocks_step (d0 : Nat → Bool) (c : ECfg) :
    dir_ok data_to_gpio_map d0 (erase_blocks_step c).w.trace =
      dir_ok data_to_gpio_map d0 c.w.trace := by
  rcases hpc : c.pc with _ | _ | _ | _ | _ | r
  · simp only [erase_blocks_step, hpc]
    split_ifs <;> simp only [dir_ok_print]
  · simp only [erase_blocks_step, hpc]
    split_ifs <;> simp only [dir_ok_print]
  · simp only [erase_blocks_step, hpc]
    split_ifs <;> simp only [dir_ok_print, dir_ok_read_id, dir_ok_send_eraseblock_command]
  · simp only [erase_blocks_step, hpc]
    split_ifs <;> simp only [dir_ok_shortpause, (dir_ok_control d0 _).2.2.2.2.2.2.2.2]
  · simp only [erase_blocks_step, hpc]
    split_ifs <;> simp only [dir_ok_print, dir_ok_read_status]
  · simp only [erase_blocks_step, hpc]

theorem dir_ok_read_pages_start (d0 : Nat → Bool) (first_page_number number_of_pages : Int)
    (fopen_out fopen_badlog : Bool) (fwrite_ok : Nat → Bool) (write_spare : Int)
    (id0 id2 buf0 : Nat → Nat) (w : World) :
    dir_ok data_to_gpio_map d0 (read_pages_start first_page_number number_of_pages fopen_out
      fopen_badlog fwrite_ok write_spare id0 id2 buf0 w).w.trace =
      dir_ok data_to_gpio_map d0 w.trace := by
  simp only [read_pages_start]
  split_ifs <;>
    simp only [dir_ok_print, error_msg, print_id, dir_ok_read_id,
      (dir_ok_control d0 _).2.2.2.2.2.2.2.2]

theorem dir_ok_write_pages_start (d0 : Nat → Bool) (first_page_number number_of_pages : Int)
    (fopen_in : Bool) (infile : List Nat) (id0 id2 buf0 : Nat → Nat) (w : World) :
    dir_ok data_to_gpio_map d0 (write_pages_start first_page_number number_of_pages fopen_in
      infile id0 id2 buf0 w).w.trace = dir_ok data_to_gpio_map d0 w.trace := by
  simp only [write_pages_start]
  split_ifs <;> simp only [dir_ok_print, print_id, dir_ok_read_id]

theorem dir_ok_erase_blocks_start (d0 : Nat → Bool) (first_block_number number_of_blocks : Int)
    (id0 id2 : Nat → Nat) (w : World) :
    dir_ok data_to_gpio_map d0 (erase_blocks_start first_block_number number_of_blocks
      id0 id2 w).w.trace = dir_ok data_to_gpio_map d0 w.trace := by
  simp only [erase_blocks_start]
  split_ifs <;> simp only [dir_ok_print, print_id, dir_ok_read_id]

theorem dir_ok_iterate {σ : Type} (d0 : Nat → Bool) (step : σ → σ) (tr : σ → List Ev)
    (h : ∀ c, dir_ok data_to_gpio_map d0 (tr (step c)) = dir_ok data_to_gpio_map d0 (tr c))
    (K : Nat) (c : σ) :
    dir_ok data_to_gpio_map d0 (tr (step^[K] c)) = dir_ok data_to_gpio_map d0 (tr c) := by
  induction K with
  | zero => rfl
  | succ K ih => rw [Function.iterate_succ_apply', h, ih]

/-- The check is not vacuous: `GPIO_DATA8_OUT` on data lines that are inputs,
and `GPIO_DATA8_IN` on data lines that are outputs, are detected. -/
theorem dir_ok_detects :
    dir_ok data_to_gpio_map (fun _ => false) (GPIO_DATA8_OUT 0 world_low).trace = false ∧
      dir_ok data_to_gpio_map (fun _ => true) (GPIO_DATA8_IN world_low).2.trace = false ∧
      dir_ok data_to_gpio_map (fun _ => false)
        (GPIO_DATA8_OUT 0 (set_data_direction_out world_low)).trace = true := by
  decide

/-- C17: in rpi-raw-nand-v3.c a call of `GPIO_DATA8_OUT` respects the ownership
of the data lines exactly when the eight lines are configured as outputs at the
call, and a call of `GPIO_DATA8_IN` exactly when they are configured as inputs;
whatever the pin directions `d0` and the history before it, no transaction
(`read_id`, `send_read_command`, `send_write_command`,
`send_eraseblock_command`, `read_status`) and no run of `read_pages`,
`write_pages` or `erase_blocks` (prologue, then any number of steps) executes a
`GPIO_DATA8_OUT` while the data lines are not all outputs or a `GPIO_DATA8_IN`
while they are not all inputs: each leaves `dir_ok` as it found it. -/
theorem C17_data_direction_owned (d0 : Nat → Bool) :
    (∀ (d : Int) (w : World),
        dir_ok data_to_gpio_map d0 (GPIO_DATA8_OUT d w).trace =
          (dir_ok data_to_gpio_map d0 w.trace &&
            data_lines_are data_to_gpio_map (dirs d0 w.trace) true)) ∧
      (∀ w : World,
        dir_ok data_to_gpio_map d0 (GPIO_DATA8_IN w).2.trace =
          (dir_ok data_to_gpio_map d0 w.trace &&
            data_lines_are data_to_gpio_map (dirs d0 w.trace) false)) ∧
      (∀ (id : Option (Nat → Nat)) (w : World),
        dir_ok data_to_gpio_map d0 (read_id id w).w.trace = dir_ok data_to_gpio_map d0 w.trace) ∧
      (∀ (page : Int) (w : World),
        dir_ok data_to_gpio_map d0 (send_read_command page w).trace =
          dir_ok data_to_gpio_map d0 w.trace) ∧
      (∀ (page : Int) (data : Nat → Nat) (w : World),
        dir_ok data_to_gpio_map d0 (send_write_command page data w).trace =
          dir_ok data_to_gpio_map d0 w.trace) ∧
      (∀ (block : Int) (w : World),
        dir_ok data_to_gpio_map d0 (send_eraseblock_command block w).trace =
          dir_ok data_to_gpio_map d0 w.trace) ∧
      (∀ w : World,
        dir_ok data_to_gpio_map d0 (read_status w).2.trace =
          dir_ok data_to_gpio_map d0 w.trace) ∧
      (∀ (first_page_number number_of_pages : Int) (fopen_out fopen_badlog : Bool)
          (fwrite_ok : Nat → Bool) (write_spare : Int) (id0 id2 buf0 : Nat → Nat) (w : World)
          (K : Nat),
        dir_ok data_to_gpio_map d0 (read_pages_step^[K] (read_pages_start first_page_number
          number_of_pages fopen_out fopen_badlog fwrite_ok write_spare id0 id2 buf0 w)).w.trace =
          dir_ok data_to_gpio_map d0 w.trace) ∧
      (∀ (first_page_number number_of_pages : Int) (fopen_in : Bool) (infile : List Nat)
          (id0 id2 buf0 : Nat → Nat) (w : World) (K : Nat),
        dir_ok data_to_gpio_map d0 (write_pages_step^[K] (write_pages_start first_page_number
          number_of_pages fopen_in infile id0 id2 buf0 w)).w.trace =
          dir_ok data_to_gpio_map d0 w.trace) ∧
      (∀ (first_block_number number_of_blocks : Int) (id0 id2 : Nat → Nat) (w : World)
          (K : Nat),
        dir_ok data_to_gpio_map d0 (erase_blocks_step^[K] (erase_blocks_start first_block_number
          number_of_blocks id0 id2 w)).w.trace = dir_ok data_to_gpio_map d0 w.trace) ∧
      (∀ (c : RCfg) (K : Nat),
        dir_ok data_to_gpio_map d0 (read_pages_step^[K] c).w.trace =
          dir_ok data_to_gpio_map d0 c.w.trace) ∧
      (∀ (c : WCfg) (K : Nat),
        dir_ok data_to_gpio_map d0 (write_pages_step^[K] c).w.trace =
          dir_ok data_to_gpio_map d0 c.w.trace) ∧
      (∀ (c : ECfg) (K : Nat),
        dir_ok data_to_gpio_map d0 (erase_blocks_step^[K] c).w.trace =
          dir_ok data_to_gpio_map d0 c.w.trace) := by
  refine ⟨dir_ok_GPIO_DATA8_OUT d0, dir_ok_GPIO_DATA8_IN d0, dir_ok_read_id d0,
    dir_ok_send_read_command d0, dir_ok_send_write_command d0,
    dir_ok_send_eraseblock_command d0, dir_ok_read_status d0, ?_, ?_, ?_, ?_, ?_, ?_⟩
  · intro a b c d e f g h i w K
    rw [dir_ok_iterate d0 read_pages_step (fun c => c.w.trace) (dir_ok_read_pages_step d0),
      dir_ok_read_pages_start]
  · intro a b c d e f g w K
    rw [dir_ok_iterate d0 write_pages_step (fun c => c.w.trace) (dir_ok_write_pages_step d0),
      dir_ok_write_pages_start]
  · intro a b c d w K
    rw [dir_ok_iterate d0 erase_blocks_step (fun c => c.w.trace) (dir_ok_erase_blocks_step d0),
      dir_ok_erase_blocks_start]
  · intro c K
    exact dir_ok_iterate d0 read_pages_step (fun c => c.w.trace) (dir_ok_read_pages_step d0) K c
  · intro c K
    exact dir_ok_iterate d0 write_pages_step (fun c => c.w.trace) (dir_ok_write_pages_step d0) K c
  · intro c K
    exact dir_ok_iterate d0 erase_blocks_step (fun c => c.w.trace)
      (dir_ok_erase_blocks_step d0) K c

/-! ### The pauses of the transactions (claim C16) -/

theorem data_to_gpio_map_not_control (i : Nat) :
    data_to_gpio_map i ≠ 4 ∧ data_to_gpio_map i ≠ 5 ∧ data_to_gpio_map i ≠ 6 ∧
      data_to_gpio_map i ≠ 7 := by
  by_cases h : i < 8
  · interval_cases i <;> decide
  · obtain ⟨j, rfl⟩ : ∃ j, i = j + 8 := ⟨i - 8, by omega⟩
    have : data_to_gpio_map (j + 8) = 0 := rfl
    omega

theorem pending_cons (e : Ev) (t : List Ev) : pending (e :: t) = pause_follows e := rfl

theorem pd_shortpause (w : World) :
    pause_discipline (shortpause w).trace = pause_discipline w.trace := by
  simp [shortpause, World.log, pause_discipline, is_pause]

theorem pending_shortpause (w : World) : pending (shortpause w).trace = false := rfl

theorem psf_shortpause (g : Nat) (w : World) : paused_since_fall g (shortpause w).trace = true :=
  rfl

theorem head_shortpause (w : World) : (shortpause w).trace.head? = some .pause := rfl

theorem pd_SET_0 (g : Nat) (w : World) :
    pause_discipline (GPIO_SET_0 g w).trace = (pause_discipline w.trace && !pending w.trace) := by
  simp [GPIO_SET_0, World.log, pause_discipline, is_pause]

theorem pd_SET_1 (g : Nat) (w : World) :
    pause_discipline (GPIO_SET_1 g w).trace =
      (pause_discipline w.trace && !pending w.trace &&
        (!(g == N_WRITE_ENABLE || g == N_READ_ENABLE) || paused_since_fall g w.trace)) := by
  simp [GPIO_SET_1, World.log, pause_discipline, is_pause]

theorem pending_SET_0 (g : Nat) (w : World) :
    pending (GPIO_SET_0 g w).trace = (g == COMMAND_LATCH_ENABLE || g == ADDRESS_LATCH_ENABLE) :=
  rfl

theorem pending_SET_1 (g : Nat) (w : World) :
    pending (GPIO_SET_1 g w).trace =
      (g == COMMAND_LATCH_ENABLE || g == N_WRITE_ENABLE || g == N_READ_ENABLE) :=
  rfl

theorem pd_set_data_direction_out (w : World) :
    pause_discipline (set_data_direction_out w).trace =
      (pause_discipline w.trace && !pending w.trace) := by
  simp [set_data_direction_out, set_data_direction_out_of, set_data_direction_out_loop, OUT_GPIO,
    INP_GPIO, World.log, pause_discipline, pending_cons, pause_follows, is_pause]

theorem pd_set_data_direction_in (w : World) :
    pause_discipline (set_data_direction_in w).trace =
      (pause_discipline w.trace && !pending w.trace) := by
  simp [set_data_direction_in, set_data_direction_in_of, set_data_direction_in_loop,
    INP_GPIO, World.log, pause_discipline, pending_cons, pause_follows, is_pause]

theorem pending_set_data_direction_out (w : World) :
    pending (set_data_direction_out w).trace = false := rfl

theorem pending_set_data_direction_in (w : World) :
    pending (set_data_direction_in w).trace = false := rfl

/-- The stores of `GPIO_DATA8_OUT` need no pause after them and are no edge of
a strobe. -/
theorem pause_DATA8_OUT_loop :
    ∀ (k i : Nat) (d : Int) (w : World),
      pause_discipline (GPIO_DATA8_OUT_loop data_to_gpio_map k i d w).trace =
          (pause_discipline w.trace && (k == 0 || !pending w.trace)) ∧
        pending (GPIO_DATA8_OUT_loop data_to_gpio_map k i d w).trace =
          (k == 0 && pending w.trace) ∧
        ∀ g, (g = 6 ∨ g = 7) →
          paused_since_fall g (GPIO_DATA8_OUT_loop data_to_gpio_map k i d w).trace =
            paused_since_fall g w.trace := by
  intro k
  induction k with
  | zero => intro i d w; simp [GPIO_DATA8_OUT_loop]
  | succ k ih =>
    intro i d w
    obtain ⟨h4, h5, h6, h7⟩ := data_to_gpio_map_not_control i
    have e4 : (data_to_gpio_map i == 4) = false := by simpa using h4
    have e5 : (data_to_gpio_map i == 5) = false := by simpa using h5
    have e6 : (data_to_gpio_map i == 6) = false := by simpa using h6
    have e7 : (data_to_gpio_map i == 7) = false := by simpa using h7
    simp only [GPIO_DATA8_OUT_loop]
    obtain ⟨a, b, c⟩ := ih (i + 1) (d >>> 1)
      (if Int.land d 1 ≠ 0 then GPIO_SET_1 (data_to_gpio_map i) w
        else GPIO_SET_0 (data_to_gpio_map i) w)
    refine ⟨?_, ?_, ?_⟩
    · rw [a]
      split <;>
        simp [pd_SET_1, pd_SET_0, pending_SET_1, pending_SET_0, N_WRITE_ENABLE, N_READ_ENABLE,
          COMMAND_LATCH_ENABLE, ADDRESS_LATCH_ENABLE, e4, e5, e6, e7]
    · rw [b]
      split <;>
        simp [pending_SET_1, pending_SET_0, N_WRITE_ENABLE, N_READ_ENABLE,
          COMMAND_LATCH_ENABLE, ADDRESS_LATCH_ENABLE, e4, e5, e6, e7]
    · intro g hg
      rw [c g hg]
      split
      · rfl
      · have : data_to_gpio_map i ≠ g := by rcases hg with rfl | rfl <;> assumption
        simp [GPIO_SET_0, World.log, paused_since_fall, this]

/-- The loads of `GPIO_DATA8_IN` need no pause after them. -/
theorem pause_DATA8_IN_loop (m : Nat → Nat) :
    ∀ (k i data : Nat) (w : World),
      pause_discipline (GPIO_DATA8_IN_loop m k i data w).2.trace =
          (pause_discipline w.trace && (k == 0 || !pending w.trace)) ∧
        pending (GPIO_DATA8_IN_loop m k i data w).2.trace = (k == 0 && pending w.trace) ∧
        ∀ g, paused_since_fall g (GPIO_DATA8_IN_loop m k i data w).2.trace =
          paused_since_fall g w.trace := by
  intro k
  induction k with
  | zero => intro i data w; simp [GPIO_DATA8_IN_loop]
  | succ k ih =>
    intro i data w
    simp only [GPIO_DATA8_IN_loop]
    obtain ⟨a, b, c⟩ := ih (i + 1) ((data ||| (GPIO_READ (m (7 - i)) w).1) <<< 1)
      (GPIO_READ (m (7 - i)) w).2
    refine ⟨?_, ?_, ?_⟩
    · rw [a]
      simp [GPIO_READ, World.log, pause_discipline, pending_cons, pause_follows, is_pause]
    · rw [b]
      simp [GPIO_READ, World.log, pending_cons, pause_follows]
    · intro g
      rw [c g]
      rfl

theorem pd_GPIO_DATA8_OUT (d : Int) (w : World) :
    pause_discipline (GPIO_DATA8_OUT d w).trace =
      (pause_discipline w.trace && !pending w.trace) := by
  simpa using (pause_DATA8_OUT_loop 8 0 d w).1

theorem pending_GPIO_DATA8_OUT (d : Int) (w : World) :
    pending (GPIO_DATA8_OUT d w).trace = false := by
  simpa using (pause_DATA8_OUT_loop 8 0 d w).2.1

theorem psf_GPIO_DATA8_OUT (d : Int) (w : World) :
    paused_since_fall N_WRITE_ENABLE (GPIO_DATA8_OUT d w).trace =
      paused_since_fall N_WRITE_ENABLE w.trace :=
  (pause_DATA8_OUT_loop 8 0 d w).2.2 7 (Or.inr rfl)

theorem pd_GPIO_DATA8_IN (w : World) :
    pause_discipline (GPIO_DATA8_IN w).2.trace =
      (pause_discipline w.trace && !pending w.trace) := by
  simpa using (pause_DATA8_IN_loop data_to_gpio_map 8 0 0 w).1

theorem pending_GPIO_DATA8_IN (w : World) :
    pending (GPIO_DATA8_IN w).2.trace = false := by
  simpa using (pause_DATA8_IN_loop data_to_gpio_map 8 0 0 w).2.1

theorem psf_GPIO_DATA8_IN (g : Nat) (w : World) :
    paused_since_fall g (GPIO_DATA8_IN w).2.trace = paused_since_fall g w.trace :=
  (pause_DATA8_IN_loop data_to_gpio_map 8 0 0 w).2.2 g

theorem pause_address_loop (b : Bool) (page : Int) :
    ∀ (k i : Nat) (w : World), pending w.trace = false →
      pause_discipline (address_loop b page k i w).trace = pause_discipline w.trace ∧
        pending (address_loop b page k i w).trace = false := by
  intro k
  induction k with
  | zero => intro i w h; exact ⟨rfl, h⟩
  | succ k ih =>
    intro i w h
    simp only [address_loop]
    obtain ⟨a, c⟩ := ih (i + 1) (shortpause (GPIO_SET_1 N_WRITE_ENABLE (shortpause
      (GPIO_DATA8_OUT (page_to_address page i)
        (if b = true then shortpause (GPIO_SET_0 N_WRITE_ENABLE w)
          else GPIO_SET_0 N_WRITE_ENABLE w))))) rfl
    refine ⟨?_, c⟩
    rw [a]
    cases b <;>
      simp [pd_shortpause, pending_shortpause, psf_shortpause, pd_SET_0, pd_SET_1,
        pending_SET_0, pd_GPIO_DATA8_OUT, pending_GPIO_DATA8_OUT, h, N_WRITE_ENABLE,
        N_READ_ENABLE, COMMAND_LATCH_ENABLE, ADDRESS_LATCH_ENABLE]

theorem pause_write_data_loop (data : Nat → Nat) :
    ∀ (k i : Nat) (w : World), pending w.trace = false →
      pause_discipline (write_data_loop data k i w).trace = pause_discipline w.trace ∧
        pending (write_data_loop data k i w).trace = false := by
  intro k
  induction k with
  | zero => intro i w h; exact ⟨rfl, h⟩
  | succ k ih =>
    intro i w h
    simp only [write_data_loop]
    obtain ⟨a, c⟩ := ih (i + 1) (shortpause (GPIO_SET_1 N_WRITE_ENABLE (shortpause
      (GPIO_DATA8_OUT (data i : Nat) (shortpause (GPIO_SET_0 N_WRITE_ENABLE w)))))) rfl
    refine ⟨?_, c⟩
    rw [a]
    simp [pd_shortpause, pending_shortpause, psf_shortpause, pd_SET_0, pd_SET_1,
      pending_SET_0, pd_GPIO_DATA8_OUT, pending_GPIO_DATA8_OUT, h, N_WRITE_ENABLE,
      N_READ_ENABLE, COMMAND_LATCH_ENABLE, ADDRESS_LATCH_ENABLE]

theorem pause_read_id_loop :
    ∀ (k i : Nat) (buf : Nat → Nat) (w : World), w.trace.head? = some .pause →
      pause_discipline (read_id_loop k i buf w).2.trace = pause_discipline w.trace ∧
        (read_id_loop k i buf w).2.trace.head? = some .pause := by
  intro k
  induction k with
  | zero => intro i buf w h; exact ⟨rfl, h⟩
  | succ k ih =>
    intro i buf w h
    have hp : pending w.trace = false := by
      cases hw : w.trace with
      | nil => rfl
      | cons e t =>
        rw [hw] at h
        cases (Option.some.inj h : e = .pause)
        rfl
    simp only [read_id_loop]
    obtain ⟨a, c⟩ := ih (i + 1)
      (Function.update buf i ((GPIO_DATA8_IN (shortpause (GPIO_SET_0 N_READ_ENABLE w))).1 % 256))
      (shortpause (GPIO_SET_1 N_READ_ENABLE
        (GPIO_DATA8_IN (shortpause (GPIO_SET_0 N_READ_ENABLE w))).2)) rfl
    refine ⟨?_, c⟩
    rw [a]
    simp [pd_shortpause, pending_shortpause, psf_shortpause, pd_SET_0, pd_SET_1,
      pending_SET_0, pd_GPIO_DATA8_IN, pending_GPIO_DATA8_IN, psf_GPIO_DATA8_IN, hp,
      N_WRITE_ENABLE, N_READ_ENABLE, COMMAND_LATCH_ENABLE, ADDRESS_LATCH_ENABLE]

theorem pause_address_loop_ale (b : Bool) (page : Int) (k i : Nat) (w : World) :
    pause_discipline (address_loop b page k i (GPIO_SET_1 ADDRESS_LATCH_ENABLE w)).trace =
        pause_discipline (GPIO_SET_1 ADDRESS_LATCH_ENABLE w).trace ∧
      pending (address_loop b page k i (GPIO_SET_1 ADDRESS_LATCH_ENABLE w)).trace = false :=
  pause_address_loop b page k i _ rfl

theorem pause_write_data_loop_paused (data : Nat → Nat) (k i : Nat) (w : World) :
    pause_discipline (write_data_loop data k i (shortpause w)).trace =
        pause_discipline (shortpause w).trace ∧
      pending (write_data_loop data k i (shortpause w)).trace = false :=
  pause_write_data_loop data k i _ rfl

theorem pause_read_id_loop_paused (k i : Nat) (buf : Nat → Nat) (w : World) :
    pause_discipline (read_id_loop k i buf (shortpause w)).2.trace =
        pause_discipline (shortpause w).trace ∧
      (read_id_loop k i buf (shortpause w)).2.trace.head? = some .pause :=
  pause_read_id_loop k i buf _ rfl

theorem pause_send_read_command (page : Int) (w : World) :
    pause_discipline (send_read_command page w).trace =
        (pause_discipline w.trace && !pending w.trace) ∧
      (send_read_command page w).trace.head? = some .pause := by
  refine ⟨?_, rfl⟩
  simp only [send_read_command]
  simp only [pd_shortpause, pending_shortpause, psf_shortpause, pd_SET_0, pd_SET_1,
    pending_SET_0, pending_SET_1, pd_GPIO_DATA8_OUT, pending_GPIO_DATA8_OUT, psf_GPIO_DATA8_OUT]
  rw [(pause_address_loop_ale true page 5 0 _).1, (pause_address_loop_ale true page 5 0 _).2]
  simp [pd_shortpause, pending_shortpause, psf_shortpause, pd_SET_0, pd_SET_1,
    pending_SET_0, pending_SET_1, pd_GPIO_DATA8_OUT, pending_GPIO_DATA8_OUT, psf_GPIO_DATA8_OUT,
    pd_set_data_direction_out, pending_set_data_direction_out, N_WRITE_ENABLE,
    N_READ_ENABLE, COMMAND_LATCH_ENABLE, ADDRESS_LATCH_ENABLE]

theorem pause_send_eraseblock_command (block : Int) (w : World) :
    pause_discipline (send_eraseblock_command block w).trace =
        (pause_discipline w.trace && !pending w.trace) ∧
      (send_eraseblock_command block w).trace.head? = some .pause := by
  refine ⟨?_, rfl⟩
  simp only [send_eraseblock_command]
  simp only [pd_shortpause, pending_shortpause, psf_shortpause, pd_SET_0, pd_SET_1,
    pending_SET_0, pending_SET_1, pd_GPIO_DATA8_OUT, pending_GPIO_DATA8_OUT, psf_GPIO_DATA8_OUT]
  rw [(pause_address_loop_ale true block 3 2 _).1, (pause_address_loop_ale true block 3 2 _).2]
  simp [pd_shortpause, pending_shortpause, psf_shortpause, pd_SET_0, pd_SET_1,
    pending_SET_0, pending_SET_1, pd_GPIO_DATA8_OUT, pending_GPIO_DATA8_OUT, psf_GPIO_DATA8_OUT,
    pd_set_data_direction_out, pending_set_data_direction_out, N_WRITE_ENABLE,
    N_READ_ENABLE, COMMAND_LATCH_ENABLE, ADDRESS_LATCH_ENABLE]

theorem pause_send_write_command (page : Int) (data : Nat → Nat) (w : World) :
    pause_discipline (send_write_command page data w).trace =
        (pause_discipline w.trace && !pending w.trace) ∧
      (send_write_command page data w).trace.head? = some .pause := by
  refine ⟨?_, rfl⟩
  simp only [send_write_command]
  simp only [pd_shortpause, pending_shortpause, psf_shortpause, pd_SET_0, pd_SET_1,
    pending_SET_0, pending_SET_1, pd_GPIO_DATA8_OUT, pending_GPIO_DATA8_OUT, psf_GPIO_DATA8_OUT]
  rw [(pause_write_data_loop_paused data PAGE_SIZE 0 _).1,
    (pause_write_data_loop_paused data PAGE_SIZE 0 _).2]
  simp only [pd_shortpause, pending_shortpause, psf_shortpause, pd_SET_0, pd_SET_1,
    pending_SET_0, pending_SET_1, pd_GPIO_DATA8_OUT, pending_GPIO_DATA8_OUT, psf_GPIO_DATA8_OUT]
  rw [(pause_address_loop_ale false page 5 0 _).1, (pause_address_loop_ale false page 5 0 _).2]
  simp [pd_shortpause, pending_shortpause, psf_shortpause, pd_SET_0, pd_SET_1,
    pending_SET_0, pending_SET_1, pd_GPIO_DATA8_OUT, pending_GPIO_DATA8_OUT, psf_GPIO_DATA8_OUT,
    pd_set_data_direction_out, pending_set_data_direction_out, N_WRITE_ENABLE,
    N_READ_ENABLE, COMMAND_LATCH_ENABLE, ADDRESS_LATCH_ENABLE]

theorem pause_read_status (w : World) :
    pause_discipline (read_status w).2.trace =
        (pause_discipline w.trace && !pending w.trace) ∧
      (read_status w).2.trace.head? = some .pause := by
  refine ⟨?_, rfl⟩
  simp only [read_status]
  simp [pd_shortpause, pending_shortpause, psf_shortpause, pd_SET_0, pd_SET_1,
    pending_SET_0, pending_SET_1, pd_GPIO_DATA8_OUT, pending_GPIO_DATA8_OUT, psf_GPIO_DATA8_OUT,
    pd_GPIO_DATA8_IN, pending_GPIO_DATA8_IN, psf_GPIO_DATA8_IN,
    pd_set_data_direction_out, pending_set_data_direction_out, pd_set_data_direction_in,
    pending_set_data_direction_in, N_WRITE_ENABLE,
    N_READ_ENABLE, COMMAND_LATCH_ENABLE, ADDRESS_LATCH_ENABLE]

theorem pause_read_id (id : Option (Nat → Nat)) (w : World) :
    pause_discipline (read_id id w).w.trace =
        (pause_discipline w.trace && !pending w.trace) ∧
      (read_id id w).w.trace.head? = some .pause := by
  rw [(read_id_eq id w).2.1]
  simp only [read_id_capture]
  rw [(pause_read_id_loop_paused 5 0 _ _).1, (pause_read_id_loop_paused 5 0 _ _).2]
  refine ⟨?_, rfl⟩
  simp [pd_shortpause, pending_shortpause, psf_shortpause, pd_SET_0, pd_SET_1,
    pending_SET_0, pending_SET_1, pd_GPIO_DATA8_OUT, pending_GPIO_DATA8_OUT, psf_GPIO_DATA8_OUT,
    pd_set_data_direction_out, pending_set_data_direction_out, pd_set_data_direction_in,
    pending_set_data_direction_in, N_WRITE_ENABLE,
    N_READ_ENABLE, COMMAND_LATCH_ENABLE, ADDRESS_LATCH_ENABLE]

theorem pba_suffix (t : List Ev) :
    ∀ l : List Ev, pause_between_all (l ++ t) = true → pause_between_all t = true := by
  intro l
  induction l with
  | nil => exact id
  | cons e l ih =>
    intro h
    simp only [List.cons_append, pause_between_all, Bool.and_eq_true] at h
    exact ih h.1

theorem pba_of_suffix {t u : List Ev} (h : t <:+ u) (hu : pause_between_all u = true) :
    pause_between_all t = true := by
  obtain ⟨l, rfl⟩ := h
  exact pba_suffix t l hu

theorem suffix_shortpause {t : List Ev} {w : World} (h : t <:+ w.trace) :
    t <:+ (shortpause w).trace :=
  h.trans (List.suffix_cons _ _)

theorem suffix_SET_1 {t : List Ev} {w : World} (g : Nat) (h : t <:+ w.trace) :
    t <:+ (GPIO_SET_1 g w).trace :=
  h.trans (List.suffix_cons _ _)

theorem suffix_SET_0 {t : List Ev} {w : World} (g : Nat) (h : t <:+ w.trace) :
    t <:+ (GPIO_SET_0 g w).trace :=
  h.trans (List.suffix_cons _ _)

theorem suffix_READ {t : List Ev} {w : World} (g : Nat) (h : t <:+ w.trace) :
    t <:+ (GPIO_READ g w).2.trace :=
  h.trans (List.suffix_cons _ _)

theorem suffix_DATA8_OUT_loop (m : Nat → Nat) {t : List Ev} :
    ∀ (k i : Nat) (d : Int) (w : World), t <:+ w.trace →
      t <:+ (GPIO_DATA8_OUT_loop m k i d w).trace := by
  intro k
  induction k with
  | zero => intro i d w h; exact h
  | succ k ih =>
    intro i d w h
    simp only [GPIO_DATA8_OUT_loop]
    apply ih
    split
    · exact suffix_SET_1 _ h
    · exact suffix_SET_0 _ h

theorem suffix_DATA8_IN_loop (m : Nat → Nat) {t : List Ev} :
    ∀ (k i data : Nat) (w : World), t <:+ w.trace →
      t <:+ (GPIO_DATA8_IN_loop m k i data w).2.trace := by
  intro k
  induction k with
  | zero => intro i data w h; exact h
  | succ k ih =>
    intro i data w h
    simp only [GPIO_DATA8_IN_loop]
    exact ih _ _ _ (suffix_READ _ h)

theorem suffix_DATA8_OUT {t : List Ev} {w : World} (d : Int) (h : t <:+ w.trace) :
    t <:+ (GPIO_DATA8_OUT d w).trace :=
  suffix_DATA8_OUT_loop _ 8 0 d w h

theorem suffix_DATA8_IN {t : List Ev} {w : World} (h : t <:+ w.trace) :
    t <:+ (GPIO_DATA8_IN w).2.trace :=
  suffix_DATA8_IN_loop _ 8 0 0 w h

theorem suffix_dir_in {t : List Ev} {w : World} (h : t <:+ w.trace) :
    t <:+ (set_data_direction_in w).trace :=
  h.trans ⟨[.inp 15, .inp 14, .inp 13, .inp 12, .inp 11, .inp 10, .inp 9, .inp 8], rfl⟩

theorem suffix_dir_out {t : List Ev} {w : World} (h : t <:+ w.trace) :
    t <:+ (set_data_direction_out w).trace :=
  h.trans ⟨[.out 15, .inp 15, .out 14, .inp 14, .out 13, .inp 13, .out 12, .inp 12, .out 11,
    .inp 11, .out 10, .inp 10, .out 9, .inp 9, .out 8, .inp 8], rfl⟩

theorem suffix_address_loop (b : Bool) (page : Int) {t : List Ev} :
    ∀ (k i : Nat) (w : World), t <:+ w.trace → t <:+ (address_loop b page k i w).trace := by
  intro k
  induction k with
  | zero => intro i w h; exact h
  | succ k ih =>
    intro i w h
    simp only [address_loop]
    apply ih
    apply suffix_shortpause
    apply suffix_SET_1
    apply suffix_shortpause
    apply suffix_DATA8_OUT
    cases b
    · exact suffix_SET_0 _ h
    · exact suffix_shortpause (suffix_SET_0 _ h)

theorem suffix_write_data_loop (data : Nat → Nat) {t : List Ev} :
    ∀ (k i : Nat) (w : World), t <:+ w.trace → t <:+ (write_data_loop data k i w).trace := by
  intro k
  induction k with
  | zero => intro i w h; exact h
  | succ k ih =>
    intro i w h
    simp only [write_data_loop]
    apply ih
    exact suffix_shortpause (suffix_SET_1 _ (suffix_shortpause (suffix_DATA8_OUT _
      (suffix_shortpause (suffix_SET_0 _ h)))))

theorem suffix_read_id_loop {t : List Ev} :
    ∀ (k i : Nat) (buf : Nat → Nat) (w : World), t <:+ w.trace →
      t <:+ (read_id_loop k i buf w).2.trace := by
  intro k
  induction k with
  | zero => intro i buf w h; exact h
  | succ k ih =>
    intro i buf w h
    simp only [read_id_loop]
    apply ih
    exact suffix_shortpause (suffix_SET_1 _ (suffix_DATA8_IN
      (suffix_shortpause (suffix_SET_0 _ h))))

/-- A direction change directly followed by a store to a latch or strobe line
breaks `pause_between_all`. -/
theorem pba_dir_out_then (w : World) :
    pause_between_all (GPIO_SET_1 COMMAND_LATCH_ENABLE (set_data_direction_out w)).trace =
      false := by
  simp [GPIO_SET_1, set_data_direction_out, set_data_direction_out_of,
    set_data_direction_out_loop, OUT_GPIO, INP_GPIO, World.log, pause_between_all, unpaused,
    bus_event, COMMAND_LATCH_ENABLE, show is_data_line data_to_gpio_map (data_to_gpio_map 7) = true
      from by decide]

/-- A falling edge of write-enable directly followed by a direction change
breaks `pause_between_all`. -/
theorem pba_fall_then_dir_out (w : World) :
    pause_between_all (set_data_direction_out (GPIO_SET_0 N_WRITE_ENABLE w)).trace = false := by
  simp [GPIO_SET_0, set_data_direction_out, set_data_direction_out_of,
    set_data_direction_out_loop, OUT_GPIO, INP_GPIO, World.log, pause_between_all, unpaused,
    bus_event, N_WRITE_ENABLE, COMMAND_LATCH_ENABLE, ADDRESS_LATCH_ENABLE,
    show is_data_line data_to_gpio_map (data_to_gpio_map 0) = true from by decide]

theorem pba_send_read_command (page : Int) (w : World) :
    pause_between_all (send_read_command page w).trace = false := by
  rw [← Bool.not_eq_true]
  intro h
  have hs : (GPIO_SET_1 COMMAND_LATCH_ENABLE (set_data_direction_out w)).trace <:+
      (send_read_command page w).trace := by
    simp only [send_read_command]
    generalize GPIO_SET_1 COMMAND_LATCH_ENABLE (set_data_direction_out w) = X
    exact suffix_shortpause (suffix_SET_0 _ (suffix_shortpause (suffix_SET_1 _
      (suffix_shortpause (suffix_DATA8_OUT _ (suffix_shortpause (suffix_SET_0 _
      (suffix_shortpause (suffix_SET_1 _ (suffix_shortpause (suffix_SET_0 _
      (suffix_address_loop _ _ _ _ _ (suffix_SET_1 _ (suffix_shortpause (suffix_SET_0 _
      (suffix_shortpause (suffix_SET_1 _ (suffix_shortpause (suffix_DATA8_OUT _
      (suffix_shortpause (suffix_SET_0 _ (suffix_shortpause (List.suffix_refl
      _)))))))))))))))))))))))
  have := pba_of_suffix hs h
  rw [pba_dir_out_then] at this
  exact Bool.false_ne_true this

theorem pba_send_write_command (page : Int) (data : Nat → Nat) (w : World) :
    pause_between_all (send_write_command page data w).trace = false := by
  rw [← Bool.not_eq_true]
  intro h
  have hs : (GPIO_SET_1 COMMAND_LATCH_ENABLE (set_data_direction_out w)).trace <:+
      (send_write_command page data w).trace := by
    simp only [send_write_command]
    generalize GPIO_SET_1 COMMAND_LATCH_ENABLE (set_data_direction_out w) = X
    exact suffix_shortpause (suffix_SET_0 _ (suffix_shortpause (suffix_SET_1 _
      (suffix_shortpause (suffix_DATA8_OUT _ (suffix_SET_0 _ (suffix_shortpause
      (suffix_SET_1 _ (suffix_write_data_loop _ _ _ _ (suffix_shortpause (suffix_SET_0 _
      (suffix_address_loop _ _ _ _ _ (suffix_SET_1 _ (suffix_shortpause (suffix_SET_0 _
      (suffix_shortpause (suffix_SET_1 _ (suffix_shortpause (suffix_DATA8_OUT _
      (suffix_shortpause (suffix_SET_0 _ (suffix_shortpause (List.suffix_refl
      _)))))))))))))))))))))))
  have := pba_of_suffix hs h
  rw [pba_dir_out_then] at this
  exact Bool.false_ne_true this

theorem pba_send_eraseblock_command (block : Int) (w : World) :
    pause_between_all (send_eraseblock_command block w).trace = false := by
  rw [← Bool.not_eq_true]
  intro h
  have hs : (GPIO_SET_1 COMMAND_LATCH_ENABLE (set_data_direction_out w)).trace <:+
      (send_eraseblock_command block w).trace := by
    simp only [send_eraseblock_command]
    generalize GPIO_SET_1 COMMAND_LATCH_ENABLE (set_data_direction_out w) = X
    exact suffix_shortpause (suffix_SET_0 _ (suffix_shortpause (suffix_SET_1 _
      (suffix_shortpause (suffix_DATA8_OUT _ (suffix_shortpause (suffix_SET_0 _
      (suffix_shortpause (suffix_SET_1 _ (suffix_shortpause (suffix_SET_0 _
      (suffix_address_loop _ _ _ _ _ (suffix_SET_1 _ (suffix_shortpause (suffix_SET_0 _
      (suffix_shortpause (suffix_SET_1 _ (suffix_shortpause (suffix_DATA8_OUT _
      (suffix_shortpause (suffix_SET_0 _ (suffix_shortpause (List.suffix_refl
      _)))))))))))))))))))))))
  have := pba_of_suffix hs h
  rw [pba_dir_out_then] at this
  exact Bool.false_ne_true this

theorem pba_read_status (w : World) :
    pause_between_all (read_status w).2.trace = false := by
  rw [← Bool.not_eq_true]
  intro h
  have hs : (GPIO_SET_1 COMMAND_LATCH_ENABLE (set_data_direction_out w)).trace <:+
      (read_status w).2.trace := by
    simp only [read_status]
    generalize GPIO_SET_1 COMMAND_LATCH_ENABLE (set_data_direction_out w) = X
    exact suffix_shortpause (suffix_SET_1 _ (suffix_shortpause (suffix_DATA8_IN
      (suffix_shortpause (suffix_SET_0 _ (suffix_dir_in (suffix_shortpause (suffix_SET_0 _
      (suffix_shortpause (suffix_SET_1 _ (suffix_shortpause (suffix_DATA8_OUT _
      (suffix_SET_0 _ (suffix_shortpause (List.suffix_refl _)))))))))))))))
  have := pba_of_suffix hs h
  rw [pba_dir_out_then] at this
  exact Bool.false_ne_true this

theorem pba_read_id (id : Option (Nat → Nat)) (w : World) :
    pause_between_all (read_id id w).w.trace = false := by
  rw [← Bool.not_eq_true]
  intro h
  have hs : (set_data_direction_out (GPIO_SET_0 N_WRITE_ENABLE
      (shortpause (GPIO_SET_1 COMMAND_LATCH_ENABLE w)))).trace <:+ (read_id id w).w.trace := by
    rw [(read_id_eq id w).2.1]
    simp only [read_id_capture]
    generalize set_data_direction_out (GPIO_SET_0 N_WRITE_ENABLE
      (shortpause (GPIO_SET_1 COMMAND_LATCH_ENABLE w))) = X
    exact suffix_read_id_loop _ _ _ _ (suffix_shortpause (suffix_SET_0 _ (suffix_dir_in
      (suffix_shortpause (suffix_SET_1 _ (suffix_shortpause (suffix_DATA8_OUT _
      (suffix_dir_out (suffix_SET_0 _ (suffix_SET_1 _ (suffix_shortpause (suffix_SET_0 _
      (suffix_dir_in (suffix_shortpause (suffix_SET_1 _ (suffix_shortpause (suffix_DATA8_OUT
      _ (List.suffix_refl _))))))))))))))))))
  have := pba_of_suffix hs h
  rw [pba_fall_then_dir_out] at this
  exact Bool.false_ne_true this

/-- The two checks tell histories apart: write-enable raised with no pause since
it fell, or lowered again with no pause after the rise, breaks the discipline;
a strobe with its pauses satisfies both checks. -/
theorem pause_checks_detect :
    pause_discipline [.set1 N_WRITE_ENABLE, .set0 N_WRITE_ENABLE] = false ∧
      pause_discipline [.set0 N_WRITE_ENABLE, .set1 N_WRITE_ENABLE, .pause,
        .set0 N_WRITE_ENABLE] = false ∧
      pause_discipline [.pause, .set1 N_WRITE_ENABLE, .pause, .set0 N_WRITE_ENABLE] = true ∧
      pause_between_all [.pause, .set1 N_WRITE_ENABLE, .pause, .set0 N_WRITE_ENABLE] = true ∧
      pause_between_all [.pause, .set1 N_WRITE_ENABLE, .set0 8, .set0 N_WRITE_ENABLE] = false := by
  decide

set_option maxRecDepth 1000000 in
/-- Counterexample to C16 as stated: in the transaction `send_read_command(0)`
the last register access of `set_data_direction_out()` is followed directly by
the assertion of command-latch, and the assertion of address-latch directly by
the falling edge of write-enable; no `shortpause()` lies between them. -/
theorem C16_pause_between_all_counterexample :
    pause_between_all (send_read_command 0 world_low).trace = false ∧
      ((send_read_command 0 world_low).trace.reverse.drop 15).take 2 =
        [.out 15, .set1 COMMAND_LATCH_ENABLE] ∧
      ((send_read_command 0 world_low).trace.reverse.drop 33).take 2 =
        [.set1 ADDRESS_LATCH_ENABLE, .set0 N_WRITE_ENABLE] := by
  decide

/-- C16, amended: in every bus transaction of rpi-raw-nand-v3.c (`read_id`,
`send_read_command`, `send_write_command`, `send_eraseblock_command`,
`read_status`), from any history `w.trace`, `shortpause()` is called directly
after every assertion of command-latch, every deassertion of command-latch or
address-latch and every rising edge of read-enable or write-enable, and at
least once between the falling and the following rising edge of every strobe
(`pause_discipline` holds after the transaction exactly when it held before and
nothing was waiting for its pause), and the transaction ends with a
`shortpause()`.  A `shortpause()` between every two consecutive bus events is
not what the code does: `pause_between_all` fails for every call of each of the
five transactions. -/
theorem C16_pause_discipline (w : World) :
    (∀ id : Option (Nat → Nat),
        pause_discipline (read_id id w).w.trace =
            (pause_discipline w.trace && !pending w.trace) ∧
          (read_id id w).w.trace.head? = some .pause ∧
          pause_between_all (read_id id w).w.trace = false) ∧
      (∀ page : Int,
        pause_discipline (send_read_command page w).trace =
            (pause_discipline w.trace && !pending w.trace) ∧
          (send_read_command page w).trace.head? = some .pause ∧
          pause_between_all (send_read_command page w).trace = false) ∧
      (∀ (page : Int) (data : Nat → Nat),
        pause_discipline (send_write_command page data w).trace =
            (pause_discipline w.trace && !pending w.trace) ∧
          (send_write_command page data w).trace.head? = some .pause ∧
          pause_between_all (send_write_command page data w).trace = false) ∧
      (∀ block : Int,
        pause_discipline (send_eraseblock_command block w).trace =
            (pause_discipline w.trace && !pending w.trace) ∧
          (send_eraseblock_command block w).trace.head? = some .pause ∧
          pause_between_all (send_eraseblock_command block w).trace = false) ∧
      (pause_discipline (read_status w).2.trace =
          (pause_discipline w.trace && !pending w.trace) ∧
        (read_status w).2.trace.head? = some .pause ∧
        pause_between_all (read_status w).2.trace = false) :=
  ⟨fun id => ⟨(pause_read_id id w).1, (pause_read_id id w).2, pba_read_id id w⟩,
    fun page => ⟨(pause_send_read_command page w).1, (pause_send_read_command page w).2,
      pba_send_read_command page w⟩,
    fun page data => ⟨(pause_send_write_command page data w).1,
      (pause_send_write_command page data w).2, pba_send_write_command page data w⟩,
    fun block => ⟨(pause_send_eraseblock_command block w).1,
      (pause_send_eraseblock_command block w).2, pba_send_eraseblock_command block w⟩,
    (pause_read_status w).1, (pause_read_status w).2, pba_read_status w⟩

/-! ### The loop of read_pages (claims C1, C2, C3) -/

theorem shr_even (m : Nat) : (2 * (m : Int)) >>> (1 : Int) = m := by
  have h := Int.shiftRight_coe_nat (2 * m) 1
  rw [Nat.shiftRight_eq_div_pow] at h
  have e : (2 * (m : Int)) = ((2 * m : Nat) : Int) := by push_cast; rfl
  rw [e]
  simpa using h

theorem shr_odd (m : Nat) : (2 * (m : Int) + 1) >>> (1 : Int) = m := by
  have h := Int.shiftRight_coe_nat (2 * m + 1) 1
  rw [Nat.shiftRight_eq_div_pow] at h
  have e : (2 * (m : Int) + 1) = ((2 * m + 1 : Nat) : Int) := by push_cast; rfl
  rw [e]
  have d : (2 * m + 1) / 2 ^ 1 = m := by omega
  rw [d] at h
  simpa using h

theorem land_one_even (m : Nat) : Int.land (2 * (m : Int)) 1 = 0 := by
  have e : (2 * (m : Int)) = ((2 * m : Nat) : Int) := by push_cast; rfl
  rw [e]
  have : Int.land ((2 * m : Nat) : Int) 1 = (((2 * m) &&& 1 : Nat) : Int) := rfl
  rw [this, Nat.and_one_is_mod]
  simp

theorem land_one_odd (m : Nat) : Int.land (2 * (m : Int) + 1) 1 = 1 := by
  have e : (2 * (m : Int) + 1) = ((2 * m + 1 : Nat) : Int) := by push_cast; rfl
  rw [e]
  have : Int.land ((2 * m + 1 : Nat) : Int) 1 = (((2 * m + 1) &&& 1 : Nat) : Int) := rfl
  rw [this, Nat.and_one_is_mod]
  simp [Nat.add_mod]

theorem land_not_one_odd (m : Nat) : Int.land (2 * (m : Int) + 1) (~~~(1 : Int)) = 2 * (m : Int) := by
  have e : (2 * (m : Int) + 1) = ((2 * m + 1 : Nat) : Int) := by push_cast; rfl
  rw [e]
  have : Int.land ((2 * m + 1 : Nat) : Int) (~~~(1 : Int)) = ((Nat.ldiff (2 * m + 1) 1 : Nat) : Int) :=
    rfl
  rw [this]
  have h : Nat.ldiff (2 * m + 1) 1 = 2 * m := by
    apply Nat.eq_of_testBit_eq
    intro i
    rw [Nat.testBit_ldiff]
    rcases i with _ | i
    · simp [Nat.testBit_zero, Nat.add_mod]
    · have h1 : Nat.testBit 1 (i + 1) = false := by
        simp [Nat.testBit_succ]
      rw [h1]
      simp [Nat.testBit_succ]
      congr 1
      omega
  rw [h]
  push_cast
  rfl

theorem read_pages_byte_loop_low (n : Int) (hn : (PAGE_SIZE : Int) ≤ n) :
    ∀ (k i : Nat) (buf : Nat → Nat) (w : World) (x : Nat), x < PAGE_SIZE →
      (read_pages_byte_loop n k i buf w).1 x = buf x := by
  intro k
  induction k with
  | zero => intro i buf w x _; rfl
  | succ k ih =>
    intro i buf w x hx
    simp only [read_pages_byte_loop]
    rw [ih _ _ _ _ hx]
    have hne : x ≠ ((i : Int) + n).toNat := by omega
    simp [Function.update, hne]

theorem buf_from_mono (c0 : RCfg) (K : Nat) (buf buf2 : Nat → Nat) (q : Int)
    (h : buf_from c0 K buf q) (he : ∀ x, x < PAGE_SIZE → buf2 x = buf x) :
    buf_from c0 (K + 1) buf2 q := by
  obtain ⟨i, hi, hr, hb⟩ := h
  exact ⟨i, by omega, hr, fun x hx => (he x hx).trans (hb x hx)⟩

theorem records_ok_mono (c0 : RCfg) (K : Nat) (sink : List (List Nat))
    (h : records_ok c0 K sink) : records_ok c0 (K + 1) sink := by
  intro k hk
  obtain ⟨i, hi, hr, hs⟩ := h k hk
  exact ⟨i, by omega, hr, hs⟩

theorem record_len_le (ws : Int) : record_len ws ≤ PAGE_SIZE := by
  unfold record_len
  split <;> decide

theorem records_ok_append (c0 : RCfg) (f : Nat) (hf : c0.first_page_number = (f : Int))
    (K : Nat) (sink : List (List Nat)) (buf : Nat → Nat)
    (h : records_ok c0 K sink) (hb : buf_from c0 K buf ((f + sink.length : Nat) : Int)) :
    records_ok c0 (K + 1) (sink ++ [(List.range (record_len c0.write_spare)).map buf]) := by
  intro k hk
  simp only [List.length_append, List.length_singleton] at hk
  by_cases hlt : k < sink.length
  · obtain ⟨i, hi, hr, hs⟩ := h k hlt
    exact ⟨i, by omega, hr, by rw [List.getElem?_append_left hlt]; exact hs⟩
  · have hk2 : k = sink.length := by omega
    obtain ⟨i, hi, hr, hx⟩ := hb
    refine ⟨i, by omega, ?_, ?_⟩
    · rw [hf, hk2]
      push_cast at hr ⊢
      exact hr
    · rw [hk2, List.getElem?_append_right (le_refl _)]
      simp only [Nat.sub_self, List.getElem?_cons_zero, Option.some.injEq]
      apply List.map_congr_left
      intro x hxm
      have := List.mem_range.1 hxm
      exact hx x (lt_of_lt_of_le this (record_len_le _))

theorem read_inv_step (c0 : RCfg) (f : Nat) (hf : c0.first_page_number = (f : Int)) (K : Nat)
    (h : read_inv c0 f K (read_pages_step^[K] c0)) :
    read_inv c0 f (K + 1) (read_pages_step^[K + 1] c0) := by
  rw [Function.iterate_succ_apply']
  generalize hcdef : read_pages_step^[K] c0 = c at h ⊢
  obtain ⟨h1, h2, h3, h4, h5⟩ := h
  have h4' := records_ok_mono c0 K c.sink h4
  rcases hpc : c.pc with _ | _ | _ | _ | _ | _ | _ | r
  · -- for_cond
    simp only [hpc] at h5
    simp only [read_pages_step, hpc]
    rcases h5 with ⟨hp, hj⟩ | ⟨hp, hj, hb⟩
    · by_cases hlt : (c.sink.length : Int) < c0.number_of_pages
      · rw [if_pos (by rw [h1, h2, hf, hp]; push_cast; omega)]
        exact ⟨h1, h2, h3, h4', hlt, Or.inl hp⟩
      · rw [if_neg (by rw [h1, h2, hf, hp]; push_cast; omega)]
        exact ⟨h1, h2, h3, h4', by show (c.sink.length : Int) = c0.number_of_pages; omega⟩
    · rw [if_pos (by rw [h1, h2, hf, hp]; push_cast; omega)]
      exact ⟨h1, h2, h3, h4', hj, Or.inr ⟨hp, buf_from_mono c0 K _ _ _ hb (fun _ _ => rfl)⟩⟩
  · -- retry_all
    simp only [hpc] at h5
    simp only [read_pages_step, hpc]
    obtain ⟨hj, hp⟩ := h5
    refine ⟨h1, h2, h3, h4', hj, ?_, ?_⟩
    · show c.page >>> (1 : Int) = _
      rcases hp with hp | ⟨hp, _⟩
      · rw [hp, shr_even]
      · rw [hp, shr_odd]
    · rcases hp with hp | ⟨hp, hb⟩
      · exact Or.inl hp
      · exact Or.inr ⟨hp, buf_from_mono c0 K _ _ _ hb (fun _ _ => rfl)⟩
  · -- retry
    simp only [hpc] at h5
    simp only [read_pages_step, hpc]
    obtain ⟨hj, hpn, hp⟩ := h5
    have hp' : c.page = 2 * ((f + c.sink.length : Nat) : Int) ∨
        (c.page = 2 * ((f + c.sink.length : Nat) : Int) + 1 ∧
          buf_from c0 (K + 1) c.buf ((f + c.sink.length : Nat) : Int)) := by
      rcases hp with hp | ⟨hp, hb⟩
      · exact Or.inl hp
      · exact Or.inr ⟨hp, buf_from_mono c0 K _ _ _ hb (fun _ _ => rfl)⟩
    split
    · exact ⟨h1, h2, h3, h4', hj, hpn, hp'⟩
    · exact ⟨h1, h2, h3, h4', hj, hpn, hp'⟩
  · -- busy
    simp only [hpc] at h5
    obtain ⟨hj, hpn, hp⟩ := h5
    by_cases hr : (GPIO_READ N_READ_BUSY c.w).1 = 0
    · simp only [read_pages_step, hpc, hr, if_true]
      refine ⟨h1, h2, h3, h4', hj, hpn, ?_⟩
      rcases hp with hp | ⟨hp, hb⟩
      · exact Or.inl hp
      · exact Or.inr ⟨hp, buf_from_mono c0 K _ _ _ hb (fun _ _ => rfl)⟩
    · obtain ⟨B, hB⟩ : ∃ B, B = read_pages_byte_loop ((PAGE_SIZE : Int) * Int.land c.page 1)
          PAGE_SIZE 0 c.buf (set_data_direction_in (GPIO_READ N_READ_BUSY c.w).2) := ⟨_, rfl⟩
      have hstep : read_pages_step c = { c with pc := .after_read, buf := B.1, w := B.2 } := by
        rw [hB]
        simp only [read_pages_step, hpc, hr, if_false]
      have hlow : c.page = 2 * ((f + c.sink.length : Nat) : Int) + 1 →
          ∀ x, x < PAGE_SIZE → B.1 x = c.buf x := by
        intro hp x hx
        rw [hB]
        apply read_pages_byte_loop_low _ _ _ _ _ _ _ hx
        rw [hp, land_one_odd]
        norm_num
      clear hB
      rw [hstep]
      refine ⟨h1, h2, h3, h4', hj, hpn, ?_, ?_⟩
      · rcases hp with hp | ⟨hp, hb⟩
        · refine ⟨K, Nat.lt_succ_self K, ⟨by rw [hcdef]; exact hpc, by rw [hcdef]; exact hr,
            by rw [hcdef]; exact hp, by rw [hcdef]; exact hpn⟩, ?_⟩
          intro x _
          have e : read_pages_step^[K + 1] c0 = read_pages_step c := by
            rw [Function.iterate_succ_apply', hcdef]
          exact (congrArg (fun d : RCfg => d.buf x) (e.trans hstep)).symm
        · exact buf_from_mono c0 K _ _ _ hb (hlow hp)
      · rcases hp with hp | ⟨hp, _⟩
        · exact Or.inl hp
        · exact Or.inr hp
  · -- after_read
    simp only [hpc] at h5
    obtain ⟨hj, hpn, hb, hp⟩ := h5
    have hb' := buf_from_mono c0 K _ _ _ hb (fun _ _ => rfl)
    simp only [read_pages_step, hpc]
    rcases hp with hp | hp
    · rw [if_pos (by rw [hp, land_one_even]; norm_num)]
      exact ⟨h1, h2, h3, h4', Or.inr ⟨by show c.page + 1 = _; rw [hp], hj, hb'⟩⟩
    · rw [if_neg (by rw [hp, land_one_odd]; norm_num [PAGE_SIZE])]
      exact ⟨h1, h2, h3, h4', hj, hpn, hp, hb'⟩
  · -- compare
    simp only [hpc] at h5
    obtain ⟨hj, hpn, hp, hb⟩ := h5
    have hb' := buf_from_mono c0 K _ _ _ hb (fun _ _ => rfl)
    simp only [read_pages_step, hpc]
    split
    · split
      · refine ⟨h1, h2, h3, h4', hj, Or.inl ?_⟩
        show Int.land c.page (~~~(1 : Int)) = _
        rw [hp, land_not_one_odd]
      · exact ⟨h1, h2, h3, h4', hj, hpn, hp, hb'⟩
    · exact ⟨h1, h2, h3, h4', hj, hpn, hp, hb'⟩
  · -- write
    simp only [hpc] at h5
    obtain ⟨hj, hpn, hp, hb⟩ := h5
    simp only [read_pages_step, hpc]
    split
    · refine ⟨h1, h2, h3, ?_, Or.inl ⟨?_, ?_⟩⟩
      · have := records_ok_append c0 f hf K c.sink c.buf h4 hb
        simpa [record_len, h3] using this
      · show c.page + 1 = 2 * ((f + (c.sink ++ [_]).length : Nat) : Int)
        rw [hp]
        simp only [List.length_append, List.length_singleton]
        push_cast
        ring
      · show (((c.sink ++ [_]).length : Nat) : Int) ≤ c0.number_of_pages
        simp only [List.length_append, List.length_singleton]
        push_cast
        omega
    · exact ⟨h1, h2, h3, h4', trivial⟩
  · -- exit
    simp only [hpc] at h5
    simp only [read_pages_step, hpc]
    rcases r with _ | r
    · exact ⟨h1, h2, h3, h4', by rw [hpc]; exact h5⟩
    · exact ⟨h1, h2, h3, h4', by rw [hpc]; trivial⟩

theorem read_inv_run (c0 : RCfg) (f : Nat) (hf : c0.first_page_number = (f : Int))
    (hpc : c0.pc = .for_cond) (hpage : c0.page = c0.first_page_number * 2)
    (hsink : c0.sink = []) (hn : 0 ≤ c0.number_of_pages) :
    ∀ K, read_inv c0 f K (read_pages_step^[K] c0) := by
  intro K
  induction K with
  | zero =>
    refine ⟨rfl, rfl, rfl, ?_, ?_⟩
    · intro k hk
      simp [hsink] at hk
    · show match c0.pc with
        | .for_cond => _
        | .retry_all => _
        | .retry => _
        | .busy => _
        | .after_read => _
        | .compare => _
        | .write => _
        | .exit none => _
        | .exit (some _) => _
      rw [hpc]
      refine Or.inl ⟨?_, ?_⟩
      · show c0.page = 2 * ((f + c0.sink.length : Nat) : Int)
        rw [hpage, hf, hsink]
        simp
        ring
      · show (c0.sink.length : Int) ≤ c0.number_of_pages
        rw [hsink]
        simpa using hn
  | succ K ih => exact read_inv_step c0 f hf K ih

theorem read_pages_exit_stays (c : RCfg) (r : Option Int) (h : c.pc = .exit r) :
    ∀ K, (read_pages_step^[K] c).pc = .exit r := by
  intro K
  induction K with
  | zero => exact h
  | succ K ih =>
    rw [Function.iterate_succ_apply']
    simp only [read_pages_step, ih]

/-- The code of `read_pages` before the loop either returns -1 or enters the
loop at the first read of the first page, with an empty sink. -/
theorem read_pages_start_entry (a b : Int) (f1 f2 : Bool) (fw : Nat → Bool) (ws : Int)
    (i1 i2 b0 : Nat → Nat) (w : World) :
    ((read_pages_start a b f1 f2 fw ws i1 i2 b0 w).pc = .exit (some (-1)) ∨
        ((read_pages_start a b f1 f2 fw ws i1 i2 b0 w).pc = .for_cond ∧
          (read_pages_start a b f1 f2 fw ws i1 i2 b0 w).page = a * 2 ∧
          f1 = true ∧ f2 = true ∧ (GPIO_READ N_READ_BUSY w).1 ≠ 0 ∧
          ¬ (read_id (some i1) (GPIO_READ N_READ_BUSY w).2).ret < 0)) ∧
      (read_pages_start a b f1 f2 fw ws i1 i2 b0 w).first_page_number = a ∧
      (read_pages_start a b f1 f2 fw ws i1 i2 b0 w).number_of_pages = b ∧
      (read_pages_start a b f1 f2 fw ws i1 i2 b0 w).write_spare = ws ∧
      (read_pages_start a b f1 f2 fw ws i1 i2 b0 w).sink = [] ∧
      (read_pages_start a b f1 f2 fw ws i1 i2 b0 w).retry_count = 0 := by
  unfold read_pages_start
  dsimp only
  split
  · simp
  · split
    · simp
    · split
      · simp
      · split
        · simp
        · simp_all

theorem read_id_count_read_retry (a : Nat → Nat) (w : World) :
    (read_id (some a) w).w.stdout.count .read_retry = w.stdout.count .read_retry := by
  rcases (read_id_stdout a w).2 with h | h <;> rw [h]
  simp

theorem byte_loop_count_read_retry (n : Int) (k i : Nat) (buf : Nat → Nat) (w : World) :
    (read_pages_byte_loop n k i buf w).2.stdout.count .read_retry = w.stdout.count .read_retry := by
  rw [(frame_read_pages_byte_loop n k i buf w).2]

theorem mem_observe {σ α : Type} (step : σ → σ) (obs : σ → Option α) (c : σ) (K : Nat) (x : α)
    (h : x ∈ observe step obs c K) : ∃ j, j < K ∧ obs (step^[j] c) = some x := by
  simp only [observe, List.mem_filterMap, List.mem_range] at h
  exact h

theorem chip_busy (fl : Bool) (w : World) (h : w.lev = chip_lev fl) :
    (GPIO_READ N_READ_BUSY w).1 = 1 := by
  simp only [GPIO_READ, h, chip_lev, N_READ_BUSY]
  split <;> decide

theorem chip_READ_low (fl : Bool) (g : Nat) (w : World) (h : w.lev = chip_lev fl)
    (hg : 8 ≤ g ∧ g ≤ 14) : (GPIO_READ g w).1 = 0 := by
  obtain ⟨h1, h2⟩ := hg
  simp only [GPIO_READ, h, chip_lev]
  split <;> interval_cases g <;> decide

theorem chip_READ_high (fl : Bool) (w : World) (h : w.lev = chip_lev fl) :
    (GPIO_READ 15 w).1 = if chip_sel fl w.trace then 1 else 0 := by
  simp only [GPIO_READ, h, chip_lev]
  split <;> decide

theorem chip_DATA8_IN_rest (fl : Bool) :
    ∀ (k i data : Nat) (w : World), w.lev = chip_lev fl → 1 ≤ i → i + k ≤ 8 →
      (GPIO_DATA8_IN_loop data_to_gpio_map k i data w).1 = data <<< k := by
  intro k
  induction k with
  | zero => intro i data w _ _ _; rfl
  | succ k ih =>
    intro i data w h h1 h2
    simp only [GPIO_DATA8_IN_loop]
    have hpin : 8 ≤ data_to_gpio_map (7 - i) ∧ data_to_gpio_map (7 - i) ≤ 14 := by
      have hi : i ≤ 7 := by omega
      interval_cases i <;> simp [data_to_gpio_map]
    rw [ih _ _ _ (by simp [h]) (by omega) (by omega), chip_READ_low fl _ w h hpin]
    simp [Nat.shiftLeft_eq, pow_succ]
    ring

theorem chip_DATA8_IN (fl : Bool) (w : World) (h : w.lev = chip_lev fl) :
    (GPIO_DATA8_IN w).1 = if chip_sel fl w.trace then 128 else 0 := by
  simp only [GPIO_DATA8_IN, GPIO_DATA8_IN_of]
  rw [show GPIO_DATA8_IN_loop data_to_gpio_map 8 0 0 w =
    GPIO_DATA8_IN_loop data_to_gpio_map 7 1 ((0 ||| (GPIO_READ 15 w).1) <<< 1)
      (GPIO_READ 15 w).2 from rfl]
  rw [chip_DATA8_IN_rest fl 7 1 _ _ (by simp [h]) (by omega) (by omega), chip_READ_high fl w h]
  split <;> decide

theorem ale_count_DATA8_OUT_loop :
    ∀ (k i : Nat) (d : Int) (w : World),
      ale_count (GPIO_DATA8_OUT_loop data_to_gpio_map k i d w).trace = ale_count w.trace := by
  intro k
  induction k with
  | zero => intro i d w; rfl
  | succ k ih =>
    intro i d w
    simp only [GPIO_DATA8_OUT_loop]
    rw [ih]
    have h4 := (data_to_gpio_map_not_control i).1
    split
    · simp [GPIO_SET_1, World.log, ale_count, ADDRESS_LATCH_ENABLE, h4]
    · rfl

theorem ale_count_DATA8_IN_loop (m : Nat → Nat) :
    ∀ (k i data : Nat) (w : World),
      ale_count (GPIO_DATA8_IN_loop m k i data w).2.trace = ale_count w.trace := by
  intro k
  induction k with
  | zero => intro i data w; rfl
  | succ k ih =>
    intro i data w
    simp only [GPIO_DATA8_IN_loop]
    rw [ih]
    rfl

theorem ale_count_GPIO_DATA8_OUT (d : Int) (w : World) :
    ale_count (GPIO_DATA8_OUT d w).trace = ale_count w.trace :=
  ale_count_DATA8_OUT_loop 8 0 d w

theorem ale_count_GPIO_DATA8_IN (w : World) :
    ale_count (GPIO_DATA8_IN w).2.trace = ale_count w.trace :=
  ale_count_DATA8_IN_loop _ 8 0 0 w

theorem ale_count_SET_1 (g : Nat) (w : World) :
    ale_count (GPIO_SET_1 g w).trace =
      ale_count w.trace + (if g = ADDRESS_LATCH_ENABLE then 1 else 0) := rfl

theorem ale_count_SET_0 (g : Nat) (w : World) :
    ale_count (GPIO_SET_0 g w).trace = ale_count w.trace := rfl

theorem ale_count_shortpause (w : World) :
    ale_count (shortpause w).trace = ale_count w.trace := rfl

theorem ale_count_READ (g : Nat) (w : World) :
    ale_count (GPIO_READ g w).2.trace = ale_count w.trace := rfl

theorem ale_count_dir_in (w : World) :
    ale_count (set_data_direction_in w).trace = ale_count w.trace := rfl

theorem ale_count_dir_out (w : World) :
    ale_count (set_data_direction_out w).trace = ale_count w.trace := rfl

theorem ale_count_print (msg : Msg) (w : World) :
    ale_count (w.print msg).trace = ale_count w.trace := rfl

theorem ale_count_address_loop (b : Bool) (page : Int) :
    ∀ (k i : Nat) (w : World),
      ale_count (address_loop b page k i w).trace = ale_count w.trace := by
  intro k
  induction k with
  | zero => intro i w; rfl
  | succ k ih =>
    intro i w
    simp only [address_loop]
    rw [ih]
    cases b <;>
      simp [ale_count_shortpause, ale_count_SET_1, ale_count_SET_0, ale_count_GPIO_DATA8_OUT,
        N_WRITE_ENABLE, ADDRESS_LATCH_ENABLE]

theorem ale_count_read_id_loop :
    ∀ (k i : Nat) (buf : Nat → Nat) (w : World),
      ale_count (read_id_loop k i buf w).2.trace = ale_count w.trace := by
  intro k
  induction k with
  | zero => intro i buf w; rfl
  | succ k ih =>
    intro i buf w
    simp only [read_id_loop]
    rw [ih]
    simp [ale_count_shortpause, ale_count_SET_1, ale_count_SET_0, ale_count_GPIO_DATA8_IN,
      N_READ_ENABLE, ADDRESS_LATCH_ENABLE]

theorem ale_count_byte_loop (n : Int) :
    ∀ (k i : Nat) (buf : Nat → Nat) (w : World),
      ale_count (read_pages_byte_loop n k i buf w).2.trace = ale_count w.trace := by
  intro k
  induction k with
  | zero => intro i buf w; rfl
  | succ k ih =>
    intro i buf w
    simp only [read_pages_byte_loop]
    rw [ih]
    simp [ale_count_shortpause, ale_count_SET_1, ale_count_SET_0, ale_count_GPIO_DATA8_IN,
      N_READ_ENABLE, ADDRESS_LATCH_ENABLE]

theorem ale_count_send_read_command (page : Int) (w : World) :
    ale_count (send_read_command page w).trace = ale_count w.trace + 1 := by
  simp only [send_read_command]
  simp only [ale_count_shortpause, ale_count_SET_1, ale_count_SET_0, ale_count_GPIO_DATA8_OUT,
    ale_count_address_loop, ale_count_dir_out]
  simp [N_WRITE_ENABLE, ADDRESS_LATCH_ENABLE, COMMAND_LATCH_ENABLE]

theorem ale_count_read_id (id : Option (Nat → Nat)) (w : World) :
    ale_count (read_id id w).w.trace = ale_count w.trace + 1 := by
  rw [(read_id_eq id w).2.1]
  simp only [read_id_capture]
  simp only [ale_count_read_id_loop, ale_count_shortpause, ale_count_SET_1, ale_count_SET_0,
    ale_count_GPIO_DATA8_OUT, ale_count_dir_out, ale_count_dir_in]
  simp [N_WRITE_ENABLE, ADDRESS_LATCH_ENABLE, COMMAND_LATCH_ENABLE]

theorem chip_sel_strobe (fl : Bool) (w : World) :
    chip_sel fl (shortpause (GPIO_SET_0 N_READ_ENABLE w)).trace =
      (ale_just_lowered w.trace || (fl && ale_count w.trace % 4 == 3)) := by
  simp [chip_sel, id_first_strobe, shortpause, GPIO_SET_0, World.log, ale_count]

/-- The bytes of a Read-ID answer after the first one are `0x00`. -/
theorem chip_read_id_loop_rest (fl : Bool) :
    ∀ (k i : Nat) (buf : Nat → Nat) (w : World), w.lev = chip_lev fl →
      ale_just_lowered w.trace = false → (fl && ale_count w.trace % 4 == 3) = false →
      ∀ j, (read_id_loop k i buf w).1 j = if i ≤ j ∧ j < i + k then 0 else buf j := by
  intro k
  induction k with
  | zero =>
    intro i buf w _ _ _ j
    rw [if_neg (by omega)]
    rfl
  | succ k ih =>
    intro i buf w h ha hc j
    simp only [read_id_loop]
    have hv : (GPIO_DATA8_IN (shortpause (GPIO_SET_0 N_READ_ENABLE w))).1 = 0 := by
      rw [chip_DATA8_IN fl _ (by simp [h]), chip_sel_strobe, ha, hc]
      rfl
    have ih' := ih (i + 1)
      (Function.update buf i ((GPIO_DATA8_IN (shortpause (GPIO_SET_0 N_READ_ENABLE w))).1 % 256))
      (shortpause (GPIO_SET_1 N_READ_ENABLE
        (GPIO_DATA8_IN (shortpause (GPIO_SET_0 N_READ_ENABLE w))).2))
      (by simp [h]) rfl
      (by simpa [ale_count_shortpause, ale_count_SET_1, ale_count_SET_0, ale_count_GPIO_DATA8_IN,
        N_READ_ENABLE, ADDRESS_LATCH_ENABLE] using hc) j
    rw [ih', hv]
    by_cases hj : j = i
    · subst hj
      simp
    · simp only [Function.update, hj]
      by_cases h1 : i + 1 ≤ j ∧ j < i + 1 + k
      · rw [if_pos h1, if_pos (by omega)]
      · rw [if_neg h1]
        by_cases h2 : i ≤ j ∧ j < i + (k + 1)
        · omega
        · rw [if_neg h2]
          simp

/-- The answer of the simulated chip to Read-ID is `80 00 00 00 00`. -/
theorem chip_read_id_capture (fl : Bool) (w : World) (h : w.lev = chip_lev fl)
    (hc : (fl && (ale_count w.trace + 1) % 4 == 3) = false) :
    ∀ j, (read_id_capture w).1 j = chip_id j := by
  intro j
  obtain ⟨W, hWl, hWa, hWc, hcap⟩ : ∃ W : World, W.lev = chip_lev fl ∧
      ale_just_lowered W.trace = true ∧ ale_count W.trace = ale_count w.trace + 1 ∧
      read_id_capture w = read_id_loop (4 + 1) 0 (fun _ => 0) W := by
    refine ⟨_, ?_, ?_, ?_, rfl⟩
    · simp [h]
    · rfl
    · simp only [ale_count_shortpause, ale_count_SET_1, ale_count_SET_0,
        ale_count_GPIO_DATA8_OUT, ale_count_dir_out, ale_count_dir_in]
      simp [N_WRITE_ENABLE, ADDRESS_LATCH_ENABLE, COMMAND_LATCH_ENABLE]
  rw [hcap]
  show (read_id_loop 4 1 (Function.update (fun _ => 0) 0
    ((GPIO_DATA8_IN (shortpause (GPIO_SET_0 N_READ_ENABLE W))).1 % 256))
    (shortpause (GPIO_SET_1 N_READ_ENABLE
      (GPIO_DATA8_IN (shortpause (GPIO_SET_0 N_READ_ENABLE W))).2))).1 j = chip_id j
  have hv : (GPIO_DATA8_IN (shortpause (GPIO_SET_0 N_READ_ENABLE W))).1 = 128 := by
    rw [chip_DATA8_IN fl _ (by simp [hWl]), chip_sel_strobe, hWa]
    rfl
  have hrest := chip_read_id_loop_rest fl 4 1
    (Function.update (fun _ => 0) 0
      ((GPIO_DATA8_IN (shortpause (GPIO_SET_0 N_READ_ENABLE W))).1 % 256))
    (shortpause (GPIO_SET_1 N_READ_ENABLE
      (GPIO_DATA8_IN (shortpause (GPIO_SET_0 N_READ_ENABLE W))).2))
    (by simp [hWl]) rfl
    (by simpa [ale_count_shortpause, ale_count_SET_1, ale_count_SET_0, ale_count_GPIO_DATA8_IN,
      N_READ_ENABLE, ADDRESS_LATCH_ENABLE, hWc] using hc) j
  rw [hrest, hv]
  by_cases hj : j = 0
  · subst hj
    simp [chip_id]
  · simp [Function.update, hj, chip_id]

theorem read_id_ret_zero (id : Option (Nat → Nat)) (w : World)
    (h : (read_id_capture w).1 0 ≠ (read_id_capture w).1 1) : (read_id id w).ret = 0 := by
  unfold read_id
  generalize read_id_capture w = r at h
  dsimp only
  rw [if_neg (fun hh => h hh.1)]

theorem chip_read_id (fl : Bool) (a : Nat → Nat) (w : World) (h : w.lev = chip_lev fl)
    (hc : (fl && (ale_count w.trace + 1) % 4 == 3) = false) :
    (read_id (some a) w).ret = 0 ∧ (∀ j, j < 5 → (read_id (some a) w).id j = chip_id j) ∧
      (read_id (some a) w).w.lev = chip_lev fl ∧
      ale_count (read_id (some a) w).w.trace = ale_count w.trace + 1 := by
  have hz := chip_read_id_capture fl w h hc
  refine ⟨?_, ?_, ?_, ale_count_read_id _ w⟩
  · apply read_id_ret_zero
    rw [hz 0, hz 1]
    simp [chip_id]
  · intro j hj
    rw [(read_id_eq (some a) w).2.2.2]
    simp [memcpy, hj, hz]
  · rw [(read_id_eq (some a) w).2.2.1]
    simp [h]

theorem holds_before_add (Q : RCfg → Prop) (c : RCfg) (a b : Nat)
    (h1 : holds_before Q c a) (h2 : holds_before Q (read_pages_step^[a] c) b) :
    holds_before Q c (a + b) := by
  intro j hj
  by_cases hja : j < a
  · exact h1 j hja
  · have := h2 (j - a) (by omega)
    rw [← Function.iterate_add_apply, Nat.sub_add_cancel (by omega)] at this
    exact this

theorem holds_before_mono (Q R : RCfg → Prop) (c : RCfg) (n : Nat) (h : ∀ d, Q d → R d)
    (h1 : holds_before Q c n) : holds_before R c n :=
  fun j hj => h _ (h1 j hj)

/-- The bytes that the simulated chip returns during the byte loop of
`read_pages`. -/
theorem chip_byte_loop (fl : Bool) (N : Nat) :
    ∀ (k i : Nat) (buf : Nat → Nat) (w : World), w.lev = chip_lev fl →
      ale_just_lowered w.trace = false →
      ∀ x, (read_pages_byte_loop (N : Int) k i buf w).1 x =
        if N + i ≤ x ∧ x < N + i + k then
          (if (fl && ale_count w.trace % 4 == 3) = true then 128 else 0)
        else buf x := by
  intro k
  induction k with
  | zero =>
    intro i buf w _ _ x
    rw [if_neg (by omega)]
    rfl
  | succ k ih =>
    intro i buf w h ha x
    simp only [read_pages_byte_loop]
    have hv : (GPIO_DATA8_IN (shortpause (GPIO_SET_0 N_READ_ENABLE w))).1 =
        if (fl && ale_count w.trace % 4 == 3) = true then 128 else 0 := by
      rw [chip_DATA8_IN fl _ (by simp [h]), chip_sel_strobe, ha]
      simp
    have ih' := ih (i + 1)
      (Function.update buf ((i : Int) + (N : Int)).toNat
        ((GPIO_DATA8_IN (shortpause (GPIO_SET_0 N_READ_ENABLE w))).1 % 256))
      (shortpause (GPIO_SET_1 N_READ_ENABLE
        (GPIO_DATA8_IN (shortpause (GPIO_SET_0 N_READ_ENABLE w))).2))
      (by simp [h]) rfl x
    rw [ih', hv]
    have hc : ale_count (shortpause (GPIO_SET_1 N_READ_ENABLE
        (GPIO_DATA8_IN (shortpause (GPIO_SET_0 N_READ_ENABLE w))).2)).trace = ale_count w.trace := by
      simp [ale_count_shortpause, ale_count_SET_1, ale_count_SET_0, ale_count_GPIO_DATA8_IN,
        N_READ_ENABLE, ADDRESS_LATCH_ENABLE]
    rw [hc]
    have hidx : ((i : Int) + (N : Int)).toNat = N + i := by omega
    rw [hidx]
    have hmod : (if (fl && ale_count w.trace % 4 == 3) = true then 128 else 0) % 256 =
        if (fl && ale_count w.trace % 4 == 3) = true then 128 else 0 := by
      split <;> rfl
    rw [hmod]
    generalize (if (fl && ale_count w.trace % 4 == 3) = true then 128 else 0) = V
    by_cases hx : x = N + i
    · rw [hx, if_neg (by omega), if_pos (by omega), Function.update_same]
    · rw [Function.update_noteq hx]
      by_cases h1 : N + (i + 1) ≤ x ∧ x < N + (i + 1) + k
      · rw [if_pos h1, if_pos (by omega)]
      · rw [if_neg h1]
        by_cases h2 : N + i ≤ x ∧ x < N + i + (k + 1)
        · omega
        · rw [if_neg h2]

theorem compare_result_none (d : RCfg) (h : d.pc ≠ .compare) : d.compare_result = none := by
  simp [RCfg.compare_result, h]

theorem compare_result_some (d : RCfg) (h : d.pc = .compare) :
    d.compare_result = some (memcmp_ne d.buf (fun i => d.buf (i + PAGE_SIZE)) PAGE_SIZE) := by
  simp [RCfg.compare_result, h]

theorem holds_before_two (Q : RCfg → Prop) (c : RCfg) (h0 : Q c) (h1 : Q (read_pages_step c)) :
    holds_before Q c 2 := by
  intro j hj
  interval_cases j
  · exact h0
  · exact h1

theorem holds_before_one (Q : RCfg → Prop) (c : RCfg) (h0 : Q c) : holds_before Q c 1 := by
  intro j hj
  interval_cases j
  exact h0

/-! ### Command cycles -/

theorem cycles_nil : cycles [] = [] := rfl

theorem cycles_cons (x : Item) (t : List Item) :
    cycles (x :: t) =
      if x.is_cmd then
        ⟨x.byte, (cycle_body t).filterMap Item.addr, (cycle_body t).filterMap Item.data,
          (cycle_body t).filterMap Item.reply⟩ :: cycles t
      else cycles t := rfl

theorem cycle_body_all (t : List Item) (h : ∀ y ∈ t, y.is_cmd = false) : cycle_body t = t := by
  unfold cycle_body
  rw [List.takeWhile_eq_self_iff]
  intro y hy
  simp [h y hy]

theorem cycle_body_append_all (t S : List Item) (h : ∀ y ∈ t, y.is_cmd = false) :
    cycle_body (t ++ S) = t ++ cycle_body S := by
  induction t with
  | nil => rfl
  | cons x t ih =>
    have hx : x.is_cmd = false := h x (List.mem_cons_self _ _)
    have ht : ∀ y ∈ t, y.is_cmd = false := fun y hy => h y (List.mem_cons_of_mem _ hy)
    show cycle_body (x :: (t ++ S)) = x :: (t ++ cycle_body S)
    unfold cycle_body
    rw [List.takeWhile_cons]
    simp only [hx, Bool.not_false, if_true]
    congr 1
    exact ih ht

theorem cycle_body_append_cmd (t S : List Item) (h : ∃ y ∈ t, y.is_cmd = true) :
    cycle_body (t ++ S) = cycle_body t := by
  induction t with
  | nil => simp at h
  | cons x t ih =>
    show cycle_body (x :: (t ++ S)) = cycle_body (x :: t)
    unfold cycle_body
    rw [List.takeWhile_cons, List.takeWhile_cons]
    by_cases hx : x.is_cmd = true
    · simp [hx]
    · have hx' : x.is_cmd = false := by simpa using hx
      simp only [hx', Bool.not_false, if_true]
      congr 1
      apply ih
      obtain ⟨y, hy, hc⟩ := h
      rcases List.mem_cons.1 hy with rfl | hy
      · exact absurd hc hx
      · exact ⟨y, hy, hc⟩

theorem cycle_body_cmd (x : Item) (t : List Item) (h : x.is_cmd = true) :
    cycle_body (x :: t) = [] := by
  unfold cycle_body
  rw [List.takeWhile_cons]
  simp [h]

theorem cycles_no_cmd (t : List Item) (h : ∀ y ∈ t, y.is_cmd = false) : cycles t = [] := by
  induction t with
  | nil => rfl
  | cons x t ih =>
    rw [cycles_cons, if_neg (by simp [h x (List.mem_cons_self _ _)])]
    exact ih (fun y hy => h y (List.mem_cons_of_mem _ hy))

theorem cycles_eq_nil (t : List Item) (h : cycles t = []) : ∀ y ∈ t, y.is_cmd = false := by
  induction t with
  | nil => intro y hy; simp at hy
  | cons x t ih =>
    rw [cycles_cons] at h
    by_cases hx : x.is_cmd = true
    · rw [if_pos hx] at h
      simp at h
    · rw [if_neg hx] at h
      intro y hy
      rcases List.mem_cons.1 hy with rfl | hy
      · simpa using hx
      · exact ih h y hy

/-- A command byte closes the cycles before it. -/
theorem cycles_append_cmd (A : List Item) (x : Item) (T : List Item) (hx : x.is_cmd = true) :
    cycles (A ++ x :: T) = cycles A ++ cycles (x :: T) := by
  induction A with
  | nil => rfl
  | cons a A ih =>
    show cycles (a :: (A ++ x :: T)) = cycles (a :: A) ++ cycles (x :: T)
    rw [cycles_cons, cycles_cons, ih]
    by_cases ha : a.is_cmd = true
    · rw [if_pos ha, if_pos ha]
      have hb : cycle_body (A ++ x :: T) = cycle_body A := by
        by_cases hA : ∃ y ∈ A, y.is_cmd = true
        · exact cycle_body_append_cmd A _ hA
        · have hA' : ∀ y ∈ A, y.is_cmd = false := by
            intro y hy
            by_contra hc
            exact hA ⟨y, hy, by simpa using hc⟩
          rw [cycle_body_append_all A _ hA', cycle_body_cmd x T hx, cycle_body_all A hA']
          simp
      rw [hb]
      rfl
    · rw [if_neg ha, if_neg ha]

/-- A cycle made of a command byte and a body without command bytes. -/
theorem cycles_cmd_body (x : Item) (body T : List Item) (hx : x.is_cmd = true)
    (hb : ∀ y ∈ body, y.is_cmd = false) (hT : T = [] ∨ ∃ y T2, T = y :: T2 ∧ y.is_cmd = true) :
    cycles (x :: (body ++ T)) =
      ⟨x.byte, body.filterMap Item.addr, body.filterMap Item.data, body.filterMap Item.reply⟩ ::
        cycles T := by
  rw [cycles_cons, if_pos hx]
  have h1 : cycle_body (body ++ T) = body := by
    rcases hT with rfl | ⟨y, T2, rfl, hy⟩
    · rw [List.append_nil, cycle_body_all body hb]
    · rw [cycle_body_append_all body _ hb, cycle_body_cmd y T2 hy, List.append_nil]
  have h2 : cycles (body ++ T) = cycles T := by
    rcases hT with rfl | ⟨y, T2, rfl, hy⟩
    · rw [List.append_nil, cycles_no_cmd body hb]
      rfl
    · rw [cycles_append_cmd body y T2 hy, cycles_no_cmd body hb]
      rfl
  rw [h1, h2]

theorem extend_last_cons (c : Cycle) (t : List Cycle) (S : List Item) (ht : t ≠ []) :
    extend_last (c :: t) S = c :: extend_last t S := by
  cases t with
  | nil => exact absurd rfl ht
  | cons d t => rfl

theorem extend_last_append (Y : List Cycle) (c : Cycle) (S : List Item) :
    extend_last (Y ++ [c]) S = Y ++ [c.extend S] := by
  induction Y with
  | nil => rfl
  | cons a Y ih =>
    show extend_last (a :: (Y ++ [c])) S = a :: (Y ++ [c.extend S])
    rw [extend_last_cons _ _ _ (by simp), ih]

/-- Items that are not command bytes go to the last cycle. -/
theorem cycles_append_body (A S : List Item) (hS : ∀ y ∈ S, y.is_cmd = false) :
    cycles (A ++ S) = extend_last (cycles A) S := by
  induction A with
  | nil =>
    show cycles S = extend_last (cycles []) S
    rw [cycles_no_cmd S hS]
    rfl
  | cons a A ih =>
    show cycles (a :: (A ++ S)) = extend_last (cycles (a :: A)) S
    rw [cycles_cons, cycles_cons, ih]
    by_cases ha : a.is_cmd = true
    · rw [if_pos ha, if_pos ha]
      by_cases hA : cycles A = []
      · have hA' := cycles_eq_nil A hA
        rw [hA, cycle_body_append_all A S hA', cycle_body_all S hS, cycle_body_all A hA']
        simp [extend_last, Cycle.extend]
      · have hex : ∃ y ∈ A, y.is_cmd = true := by
          by_contra hno
          apply hA
          apply cycles_no_cmd
          intro y hy
          by_contra hc
          exact hno ⟨y, hy, by simpa using hc⟩
        rw [cycle_body_append_cmd A S hex, extend_last_cons _ _ _ hA]
    · rw [if_neg ha, if_neg ha]

theorem extend_last_filter_sent (cs : List Cycle) (S : List Item)
    (hS : ∀ y ∈ S, Item.addr y = none ∧ Item.data y = none) :
    ((extend_last cs S).filter (fun c => c.cmd != 0x90)).map Cycle.sent =
      (cs.filter (fun c => c.cmd != 0x90)).map Cycle.sent := by
  have ha : S.filterMap Item.addr = [] := by
    rw [List.filterMap_eq_nil_iff]
    exact fun y hy => (hS y hy).1
  have hd : S.filterMap Item.data = [] := by
    rw [List.filterMap_eq_nil_iff]
    exact fun y hy => (hS y hy).2
  induction cs with
  | nil => rfl
  | cons c t ih =>
    by_cases ht : t = []
    · subst ht
      by_cases hc : c.cmd = 0x90 <;>
        simp [extend_last, Cycle.extend, Cycle.sent, ha, hd, List.filter_cons, hc]
    · rw [extend_last_cons _ _ _ ht, List.filter_cons, List.filter_cons]
      by_cases hc : c.cmd = 0x90 <;> simp [hc, ih]

/-! ### Bus items of the GPIO primitives -/

theorem items_SET_0 (s0 l0 : Nat → Nat) (g : Nat) (w : World) :
    items s0 l0 (GPIO_SET_0 g w).trace = items s0 l0 w.trace := by
  simp [GPIO_SET_0, World.log, items]

theorem items_SET_1 (s0 l0 : Nat → Nat) (g : Nat) (w : World) :
    items s0 l0 (GPIO_SET_1 g w).trace = items s0 l0 w.trace ++
      (if g = N_WRITE_ENABLE ∧ pins s0 w.trace N_WRITE_ENABLE = 0 then
        [.latch ⟨pins s0 w.trace COMMAND_LATCH_ENABLE, pins s0 w.trace ADDRESS_LATCH_ENABLE,
          data_byte data_to_gpio_map (pins s0 w.trace)⟩]
      else if g = N_READ_ENABLE ∧ pins s0 w.trace N_READ_ENABLE = 0 then
        [.sample (data_byte data_to_gpio_map (loaded l0 w.trace))]
      else []) := by
  simp [GPIO_SET_1, World.log, items]

theorem items_shortpause (s0 l0 : Nat → Nat) (w : World) :
    items s0 l0 (shortpause w).trace = items s0 l0 w.trace := by
  simp [shortpause, World.log, items]

theorem items_GPIO_READ (s0 l0 : Nat → Nat) (g : Nat) (w : World) :
    items s0 l0 (GPIO_READ g w).2.trace = items s0 l0 w.trace := by
  simp [GPIO_READ, World.log, items]

theorem items_print (s0 l0 : Nat → Nat) (m : Msg) (w : World) :
    items s0 l0 (w.print m).trace = items s0 l0 w.trace := rfl

theorem items_set_data_direction_out_loop (s0 l0 : Nat → Nat) (m : Nat → Nat) :
    ∀ (k i : Nat) (w : World),
      items s0 l0 (set_data_direction_out_loop m k i w).trace = items s0 l0 w.trace := by
  intro k
  induction k with
  | zero => intro i w; rfl
  | succ k ih =>
    intro i w
    simp [set_data_direction_out_loop, ih, OUT_GPIO, INP_GPIO, World.log, items]

theorem items_set_data_direction_in_loop (s0 l0 : Nat → Nat) (m : Nat → Nat) :
    ∀ (k i : Nat) (w : World),
      items s0 l0 (set_data_direction_in_loop m k i w).trace = items s0 l0 w.trace := by
  intro k
  induction k with
  | zero => intro i w; rfl
  | succ k ih =>
    intro i w
    simp [set_data_direction_in_loop, ih, INP_GPIO, World.log, items]

theorem items_set_data_direction_out (s0 l0 : Nat → Nat) (w : World) :
    items s0 l0 (set_data_direction_out w).trace = items s0 l0 w.trace :=
  items_set_data_direction_out_loop s0 l0 _ 8 0 w

theorem items_set_data_direction_in (s0 l0 : Nat → Nat) (w : World) :
    items s0 l0 (set_data_direction_in w).trace = items s0 l0 w.trace :=
  items_set_data_direction_in_loop s0 l0 _ 8 0 w

theorem items_DATA8_OUT_loop (s0 l0 : Nat → Nat) (m : Nat → Nat) :
    ∀ (k i : Nat) (d : Int) (w : World),
      (∀ j, j < k → m (i + j) ≠ N_WRITE_ENABLE ∧ m (i + j) ≠ N_READ_ENABLE) →
      items s0 l0 (GPIO_DATA8_OUT_loop m k i d w).trace = items s0 l0 w.trace := by
  intro k
  induction k with
  | zero => intro i d w _; rfl
  | succ k ih =>
    intro i d w h
    have h0 : m i ≠ N_WRITE_ENABLE ∧ m i ≠ N_READ_ENABLE := by simpa using h 0 (by omega)
    have hrest : ∀ j, j < k → m (i + 1 + j) ≠ N_WRITE_ENABLE ∧ m (i + 1 + j) ≠ N_READ_ENABLE := by
      intro j hj
      have := h (j + 1) (by omega)
      rwa [show i + (j + 1) = i + 1 + j by omega] at this
    simp only [GPIO_DATA8_OUT_loop]
    rw [ih (i + 1) _ _ hrest]
    split
    · rw [items_SET_1]
      simp [h0.1, h0.2]
    · rw [items_SET_0]

theorem items_GPIO_DATA8_OUT (s0 l0 : Nat → Nat) (d : Int) (w : World) :
    items s0 l0 (GPIO_DATA8_OUT d w).trace = items s0 l0 w.trace := by
  apply items_DATA8_OUT_loop
  intro j hj
  have := data_to_gpio_map_ge (0 + j) (by omega)
  constructor
  · intro h
    have h2 : data_to_gpio_map (0 + j) = 7 := h
    omega
  · intro h
    have h2 : data_to_gpio_map (0 + j) = 6 := h
    omega

theorem items_DATA8_IN_loop (s0 l0 : Nat → Nat) (m : Nat → Nat) :
    ∀ (k i data : Nat) (w : World),
      items s0 l0 (GPIO_DATA8_IN_loop m k i data w).2.trace = items s0 l0 w.trace := by
  intro k
  induction k with
  | zero => intro i data w; rfl
  | succ k ih =>
    intro i data w
    simp only [GPIO_DATA8_IN_loop]
    rw [ih, items_GPIO_READ]

theorem items_GPIO_DATA8_IN (s0 l0 : Nat → Nat) (w : World) :
    items s0 l0 (GPIO_DATA8_IN w).2.trace = items s0 l0 w.trace :=
  items_DATA8_IN_loop s0 l0 _ 8 0 0 w

/-! ### The levels loaded by `GPIO_DATA8_IN` -/

theorem loaded_shortpause (l0 : Nat → Nat) (w : World) :
    loaded l0 (shortpause w).trace = loaded l0 w.trace := rfl

theorem loaded_GPIO_READ (l0 : Nat → Nat) (g : Nat) (w : World) :
    loaded l0 (GPIO_READ g w).2.trace =
      Function.update (loaded l0 w.trace) g (GPIO_READ g w).1 := rfl

theorem GPIO_READ_lt (g : Nat) (w : World) : (GPIO_READ g w).1 < 2 := by
  rw [GPIO_READ_bit]
  exact Nat.mod_lt _ (by norm_num)

/-- The loop of `GPIO_DATA8_IN` with `k` iterations left: the value is made of
the levels loaded from the data lines `k - 1 .. 0`, and the lines already
loaded are not loaded again. -/
theorem DATA8_IN_loop_loaded (l0 : Nat → Nat) (m : Nat → Nat)
    (hm : ∀ a b, a < 8 → b < 8 → m a = m b → a = b) :
    ∀ (k i e : Nat) (w : World), i + k = 8 →
      (GPIO_DATA8_IN_loop m k i (e <<< 1) w).1 =
          2 ^ (k + 1) * e + 2 * Finset.sum (Finset.range k) (fun j =>
            2 ^ j * loaded l0 (GPIO_DATA8_IN_loop m k i (e <<< 1) w).2.trace (m j)) ∧
        (∀ j, k ≤ j → j < 8 →
          loaded l0 (GPIO_DATA8_IN_loop m k i (e <<< 1) w).2.trace (m j) =
            loaded l0 w.trace (m j)) ∧
        (∀ j, j < k → loaded l0 (GPIO_DATA8_IN_loop m k i (e <<< 1) w).2.trace (m j) < 2) := by
  intro k
  induction k with
  | zero =>
    intro i e w _
    refine ⟨?_, fun _ _ _ => rfl, fun j hj => absurd hj (by omega)⟩
    simp [GPIO_DATA8_IN_loop, Nat.shiftLeft_eq]
    ring
  | succ k ih =>
    intro i e w hik
    have hpin : 7 - i = k := by omega
    have hx := GPIO_READ_lt (m k) w
    have hstep : GPIO_DATA8_IN_loop m (k + 1) i (e <<< 1) w =
        GPIO_DATA8_IN_loop m k (i + 1) ((2 * e + (GPIO_READ (m k) w).1) <<< 1)
          (GPIO_READ (m k) w).2 := by
      simp only [GPIO_DATA8_IN_loop]
      rw [hpin, shift_or_bit _ _ hx]
    rw [hstep]
    obtain ⟨h1, h2, h3⟩ := ih (i + 1) (2 * e + (GPIO_READ (m k) w).1) (GPIO_READ (m k) w).2
      (by omega)
    have hk : loaded l0 (GPIO_DATA8_IN_loop m k (i + 1)
        ((2 * e + (GPIO_READ (m k) w).1) <<< 1) (GPIO_READ (m k) w).2).2.trace (m k) =
        (GPIO_READ (m k) w).1 := by
      rw [h2 k (le_refl _) (by omega), loaded_GPIO_READ, Function.update_same]
    refine ⟨?_, ?_, ?_⟩
    · rw [h1, Finset.sum_range_succ, hk]
      ring
    · intro j hj1 hj2
      rw [h2 j (by omega) hj2, loaded_GPIO_READ]
      have hne : m j ≠ m k := fun hh => by
        have := hm j k hj2 (by omega) hh
        omega
      rw [Function.update_noteq hne]
    · intro j hj
      by_cases hjk : j = k
      · rw [hjk, hk]
        exact hx
      · exact h3 j (by omega)

/-- The byte returned by `GPIO_DATA8_IN` is the one made of the levels loaded
from the eight data lines, and it is below 256. -/
theorem data_byte_loaded_DATA8_IN (l0 : Nat → Nat) (w : World) :
    data_byte data_to_gpio_map (loaded l0 (GPIO_DATA8_IN w).2.trace) = (GPIO_DATA8_IN w).1 ∧
      (GPIO_DATA8_IN w).1 < 256 := by
  obtain ⟨h1, _, h3⟩ := DATA8_IN_loop_loaded l0 data_to_gpio_map data_to_gpio_map_inj 8 0 0 w rfl
  have e0 : (0 : Nat) <<< 1 = 0 := rfl
  rw [e0] at h1 h3
  have hv : (GPIO_DATA8_IN w).1 = (GPIO_DATA8_IN_loop data_to_gpio_map 8 0 0 w).1 >>> 1 := rfl
  have ht : (GPIO_DATA8_IN w).2.trace = (GPIO_DATA8_IN_loop data_to_gpio_map 8 0 0 w).2.trace := rfl
  rw [hv, ht, h1]
  have b0 := h3 0 (by omega)
  have b1 := h3 1 (by omega)
  have b2 := h3 2 (by omega)
  have b3 := h3 3 (by omega)
  have b4 := h3 4 (by omega)
  have b5 := h3 5 (by omega)
  have b6 := h3 6 (by omega)
  have b7 := h3 7 (by omega)
  simp only [Finset.sum_range_succ, Finset.sum_range_zero, data_byte, Nat.shiftRight_eq_div_pow]
  constructor <;> omega

/-! ### Bus items of the transactions -/

theorem land_ff_range (x : Int) : 0 ≤ Int.land x 0xff ∧ Int.land x 0xff < 256 := by
  rcases x with n | n
  · have e : Int.land (Int.ofNat n) 0xff = ((n &&& 0xff : Nat) : Int) := rfl
    rw [e]
    have : n &&& 0xff ≤ 0xff := Nat.and_le_right
    constructor <;> omega
  · have e : Int.land (Int.negSucc n) 0xff = ((Nat.ldiff 0xff n : Nat) : Int) := rfl
    rw [e]
    have : Nat.ldiff 0xff n < 2 ^ 8 := by
      apply Nat.lt_pow_two_of_testBit
      intro i hi
      rw [Nat.testBit_ldiff]
      have : Nat.testBit 0xff i = false := by
        apply Nat.testBit_lt_two_pow
        calc 0xff < 2 ^ 8 := by norm_num
          _ ≤ 2 ^ i := Nat.pow_le_pow_right (by norm_num) hi
      simp [this]
    constructor <;> omega

theorem page_to_address_range (p : Int) (i : Nat) :
    0 ≤ page_to_address p i ∧ page_to_address p i < 256 := by
  unfold page_to_address
  split
  · exact land_ff_range _
  · exact land_ff_range _
  · exact land_ff_range _
  · constructor <;> norm_num

theorem data_byte_address (s0 : Nat → Nat) (p : Int) (i : Nat) (w : World) :
    data_byte data_to_gpio_map (pins s0 (GPIO_DATA8_OUT (page_to_address p i) w).trace) =
      (page_to_address p i).toNat := by
  obtain ⟨h1, h2⟩ := page_to_address_range p i
  rw [data_byte_GPIO_DATA8_OUT s0 _ h1]
  apply Nat.mod_eq_of_lt
  omega

theorem address_bytes_nat (p : Nat) :
    address_bytes (p : Int) 0 = [0, 0, p % 256, p / 256 % 256, p / 65536 % 256] ∧
      address_bytes (p : Int) 2 = [p % 256, p / 256 % 256, p / 65536 % 256] := by
  obtain ⟨h2, h3, h4⟩ := page_to_address_row p
  constructor
  · show [(page_to_address (p : Int) (0 + 0)).toNat, (page_to_address (p : Int) (0 + 1)).toNat,
      (page_to_address (p : Int) (0 + 2)).toNat, (page_to_address (p : Int) (0 + 3)).toNat,
      (page_to_address (p : Int) (0 + 4)).toNat] = _
    simp only [Nat.zero_add, page_to_address_zero, page_to_address_one, h2, h3, h4,
      Int.toNat_natCast, Int.toNat_zero]
  · show [(page_to_address (p : Int) (2 + 0)).toNat, (page_to_address (p : Int) (2 + 1)).toNat,
      (page_to_address (p : Int) (2 + 2)).toNat] = _
    simp only [Nat.add_zero, h2, h3, h4, Int.toNat_natCast]

theorem items_read_id_loop (s0 l0 : Nat → Nat) :
    ∀ (k i : Nat) (buf : Nat → Nat) (w : World), ∃ bs : List Nat, bs.length = k ∧
      items s0 l0 (read_id_loop k i buf w).2.trace = items s0 l0 w.trace ++ bs.map Item.sample := by
  intro k
  induction k with
  | zero => intro i buf w; exact ⟨[], rfl, by simp [read_id_loop]⟩
  | succ k ih =>
    intro i buf w
    simp only [read_id_loop]
    obtain ⟨bs, hl, hbs⟩ := ih (i + 1)
      (Function.update buf i ((GPIO_DATA8_IN (shortpause (GPIO_SET_0 N_READ_ENABLE w))).1 % 256))
      (shortpause (GPIO_SET_1 N_READ_ENABLE
        (GPIO_DATA8_IN (shortpause (GPIO_SET_0 N_READ_ENABLE w))).2))
    refine ⟨data_byte data_to_gpio_map (loaded l0
      (GPIO_DATA8_IN (shortpause (GPIO_SET_0 N_READ_ENABLE w))).2.trace) :: bs, by simp [hl], ?_⟩
    rw [hbs]
    simp [items_SET_1, items_SET_0, items_shortpause, items_GPIO_DATA8_IN, pins_SET_0,
      pins_shortpause, pins_GPIO_DATA8_IN, N_WRITE_ENABLE, N_READ_ENABLE]

set_option maxHeartbeats 1000000 in
/-- The bytes that cross the bus during `read_id`: the command `0x90`, the
address `0x00`, and the five bytes of the answer. -/
theorem items_read_id (s0 l0 : Nat → Nat) (id : Option (Nat → Nat)) (w : World) :
    ∃ bs : List Nat, bs.length = 5 ∧
      items s0 l0 (read_id id w).w.trace = items s0 l0 w.trace ++
        (Item.latch ⟨1, pins s0 w.trace ADDRESS_LATCH_ENABLE, 0x90⟩ :: Item.latch ⟨0, 1, 0x00⟩ ::
          bs.map Item.sample) := by
  rw [(read_id_eq id w).2.1]
  simp only [read_id_capture]
  obtain ⟨bs, hl, hbs⟩ := items_read_id_loop s0 l0 5 0 (fun _ => 0)
    (shortpause (GPIO_SET_0 ADDRESS_LATCH_ENABLE (set_data_direction_in (shortpause
      (GPIO_SET_1 N_WRITE_ENABLE (shortpause (GPIO_DATA8_OUT 0x00 (set_data_direction_out
        (GPIO_SET_0 N_WRITE_ENABLE (GPIO_SET_1 ADDRESS_LATCH_ENABLE (shortpause
          (GPIO_SET_0 COMMAND_LATCH_ENABLE (set_data_direction_in (shortpause
            (GPIO_SET_1 N_WRITE_ENABLE (shortpause (GPIO_DATA8_OUT 0x90 (set_data_direction_out
              (GPIO_SET_0 N_WRITE_ENABLE (shortpause
                (GPIO_SET_1 COMMAND_LATCH_ENABLE w)))))))))))))))))))))
  refine ⟨bs, hl, ?_⟩
  rw [hbs]
  simp [items_SET_1, items_SET_0, items_shortpause, pins_SET_1, pins_SET_0,
    pins_shortpause, items_GPIO_DATA8_OUT, pins_GPIO_DATA8_OUT,
    data_byte_GPIO_DATA8_OUT, pins_set_data_direction_out, items_set_data_direction_out,
    pins_set_data_direction_in, items_set_data_direction_in,
    N_WRITE_ENABLE, COMMAND_LATCH_ENABLE, ADDRESS_LATCH_ENABLE, N_READ_ENABLE]

/-- The address loop latches `page_to_address(page, i)` for each of its
iterations and leaves the control lines below write-enable as they were. -/
theorem items_address_loop (s0 l0 : Nat → Nat) (b : Bool) (page : Int) :
    ∀ (k i : Nat) (w : World),
      items s0 l0 (address_loop b page k i w).trace =
          items s0 l0 w.trace ++ (List.range k).map (fun j =>
            Item.latch ⟨pins s0 w.trace COMMAND_LATCH_ENABLE, pins s0 w.trace ADDRESS_LATCH_ENABLE,
              (page_to_address page (i + j)).toNat⟩) ∧
        ∀ g, g < 7 → pins s0 (address_loop b page k i w).trace g = pins s0 w.trace g := by
  intro k
  induction k with
  | zero => intro i w; simp [address_loop]
  | succ k ih =>
    intro i w
    simp only [address_loop]
    obtain ⟨h1, h2⟩ := ih (i + 1) (shortpause (GPIO_SET_1 N_WRITE_ENABLE (shortpause
      (GPIO_DATA8_OUT (page_to_address page i)
        (if b = true then shortpause (GPIO_SET_0 N_WRITE_ENABLE w)
          else GPIO_SET_0 N_WRITE_ENABLE w)))))
    constructor
    · rw [h1, List.range_succ_eq_map, List.map_cons, List.map_map]
      cases b <;>
      simp [items_SET_1, items_SET_0, items_shortpause, pins_SET_1, pins_SET_0,
        pins_shortpause, items_GPIO_DATA8_OUT, pins_GPIO_DATA8_OUT, data_byte_address,
        N_WRITE_ENABLE, COMMAND_LATCH_ENABLE, ADDRESS_LATCH_ENABLE, N_READ_ENABLE,
        Function.comp_def, Nat.add_assoc, Nat.add_comm 1]
    · intro g hg
      rw [h2 g hg]
      have hg7 : g ≠ 7 := by omega
      cases b <;>
      simp [pins_SET_1, pins_SET_0, pins_shortpause, pins_GPIO_DATA8_OUT, N_WRITE_ENABLE, hg7,
        show g < 8 by omega]

/-- The data loop of `send_write_command` latches `data[i]` for each of its
iterations and leaves the control lines below write-enable as they were. -/
theorem items_write_data_loop (s0 l0 : Nat → Nat) (data : Nat → Nat) :
    ∀ (k i : Nat) (w : World),
      items s0 l0 (write_data_loop data k i w).trace =
          items s0 l0 w.trace ++ (List.range k).map (fun j =>
            Item.latch ⟨pins s0 w.trace COMMAND_LATCH_ENABLE, pins s0 w.trace ADDRESS_LATCH_ENABLE,
              data (i + j) % 256⟩) ∧
        ∀ g, g < 7 → pins s0 (write_data_loop data k i w).trace g = pins s0 w.trace g := by
  intro k
  induction k with
  | zero => intro i w; simp [write_data_loop]
  | succ k ih =>
    intro i w
    simp only [write_data_loop]
    obtain ⟨h1, h2⟩ := ih (i + 1) (shortpause (GPIO_SET_1 N_WRITE_ENABLE (shortpause
      (GPIO_DATA8_OUT (data i : Nat) (shortpause (GPIO_SET_0 N_WRITE_ENABLE w))))))
    constructor
    · rw [h1, List.range_succ_eq_map, List.map_cons, List.map_map]
      simp [items_SET_1, items_SET_0, items_shortpause, pins_SET_1, pins_SET_0,
        pins_shortpause, items_GPIO_DATA8_OUT, pins_GPIO_DATA8_OUT, data_byte_GPIO_DATA8_OUT,
        N_WRITE_ENABLE, COMMAND_LATCH_ENABLE, ADDRESS_LATCH_ENABLE, N_READ_ENABLE,
        Function.comp_def, Nat.add_assoc, Nat.add_comm 1]
    · intro g hg
      rw [h2 g hg]
      have hg7 : g ≠ 7 := by omega
      simp [pins_SET_1, pins_SET_0, pins_shortpause, pins_GPIO_DATA8_OUT, N_WRITE_ENABLE, hg7,
        show g < 8 by omega]

set_option maxHeartbeats 1000000 in
/-- The bytes that cross the bus during `send_read_command`. -/
theorem items_send_read_command (s0 l0 : Nat → Nat) (p : Int) (w : World) :
    items s0 l0 (send_read_command p w).trace = items s0 l0 w.trace ++
      (Item.latch ⟨1, pins s0 w.trace ADDRESS_LATCH_ENABLE, 0x00⟩ ::
        ((address_bytes p 0).map (fun b => Item.latch ⟨0, 1, b⟩) ++ [Item.latch ⟨1, 0, 0x30⟩])) := by
  simp only [send_read_command]
  simp [items_SET_1, items_SET_0, items_shortpause, pins_SET_1, pins_SET_0,
    pins_shortpause, items_GPIO_DATA8_OUT, pins_GPIO_DATA8_OUT, data_byte_GPIO_DATA8_OUT,
    pins_set_data_direction_out, items_set_data_direction_out,
    N_WRITE_ENABLE, COMMAND_LATCH_ENABLE, ADDRESS_LATCH_ENABLE, N_READ_ENABLE,
    (items_address_loop s0 l0 _ _ _ _ _).1, (items_address_loop s0 l0 _ _ _ _ _).2, address_bytes,
    Function.comp_def]

set_option maxHeartbeats 1000000 in
/-- The bytes that cross the bus during `send_eraseblock_command`. -/
theorem items_send_eraseblock_command (s0 l0 : Nat → Nat) (p : Int) (w : World) :
    items s0 l0 (send_eraseblock_command p w).trace = items s0 l0 w.trace ++
      (Item.latch ⟨1, pins s0 w.trace ADDRESS_LATCH_ENABLE, 0x60⟩ ::
        ((address_bytes p 2).map (fun b => Item.latch ⟨0, 1, b⟩) ++ [Item.latch ⟨1, 0, 0xD0⟩])) := by
  simp only [send_eraseblock_command]
  simp [items_SET_1, items_SET_0, items_shortpause, pins_SET_1, pins_SET_0,
    pins_shortpause, items_GPIO_DATA8_OUT, pins_GPIO_DATA8_OUT, data_byte_GPIO_DATA8_OUT,
    pins_set_data_direction_out, items_set_data_direction_out,
    N_WRITE_ENABLE, COMMAND_LATCH_ENABLE, ADDRESS_LATCH_ENABLE, N_READ_ENABLE,
    (items_address_loop s0 l0 _ _ _ _ _).1, (items_address_loop s0 l0 _ _ _ _ _).2, address_bytes,
    Function.comp_def]

set_option maxHeartbeats 1000000 in
/-- The bytes that cross the bus during `send_write_command`. -/
theorem items_send_write_command (s0 l0 : Nat → Nat) (p : Int) (data : Nat → Nat) (w : World) :
    items s0 l0 (send_write_command p data w).trace = items s0 l0 w.trace ++
      (Item.latch ⟨1, pins s0 w.trace ADDRESS_LATCH_ENABLE, 0x80⟩ ::
        (((address_bytes p 0).map (fun b => Item.latch ⟨0, 1, b⟩) ++
          (List.range PAGE_SIZE).map (fun i => Item.latch ⟨0, 0, data i % 256⟩)) ++
          [Item.latch ⟨1, 0, 0x10⟩])) := by
  simp only [send_write_command]
  simp [items_SET_1, items_SET_0, items_shortpause, pins_SET_1, pins_SET_0,
    pins_shortpause, items_GPIO_DATA8_OUT, pins_GPIO_DATA8_OUT, data_byte_GPIO_DATA8_OUT,
    pins_set_data_direction_out, items_set_data_direction_out,
    N_WRITE_ENABLE, COMMAND_LATCH_ENABLE, ADDRESS_LATCH_ENABLE, N_READ_ENABLE,
    (items_address_loop s0 l0 _ _ _ _ _).1, (items_address_loop s0 l0 _ _ _ _ _).2,
    (items_write_data_loop s0 l0 _ _ _ _).1, (items_write_data_loop s0 l0 _ _ _ _).2,
    address_bytes, Function.comp_def]

set_option maxHeartbeats 1000000 in
/-- The bytes that cross the bus during `read_status`: the command `0x70` and
the status byte. -/
theorem items_read_status (s0 l0 : Nat → Nat) (w : World) :
    ∃ b : Nat, items s0 l0 (read_status w).2.trace = items s0 l0 w.trace ++
      [Item.latch ⟨1, pins s0 w.trace ADDRESS_LATCH_ENABLE, 0x70⟩, Item.sample b] := by
  refine ⟨data_byte data_to_gpio_map (loaded l0 (GPIO_DATA8_IN (shortpause
    (GPIO_SET_0 N_READ_ENABLE (set_data_direction_in (shortpause
      (GPIO_SET_0 COMMAND_LATCH_ENABLE (shortpause (GPIO_SET_1 N_WRITE_ENABLE (shortpause
        (GPIO_DATA8_OUT 0x70 (GPIO_SET_0 N_WRITE_ENABLE (shortpause
          (GPIO_SET_1 COMMAND_LATCH_ENABLE (set_data_direction_out w)))))))))))))).2.trace), ?_⟩
  simp only [read_status]
  simp [items_SET_1, items_SET_0, items_shortpause, pins_SET_1, pins_SET_0,
    pins_shortpause, items_GPIO_DATA8_OUT, pins_GPIO_DATA8_OUT, data_byte_GPIO_DATA8_OUT,
    pins_set_data_direction_out, items_set_data_direction_out, pins_set_data_direction_in,
    items_set_data_direction_in, items_GPIO_DATA8_IN, pins_GPIO_DATA8_IN, loaded_shortpause,
    N_WRITE_ENABLE, COMMAND_LATCH_ENABLE, ADDRESS_LATCH_ENABLE, N_READ_ENABLE]

theorem byte_loop_below (N : Nat) :
    ∀ (k i : Nat) (buf : Nat → Nat) (w : World) (x : Nat), x < N + i →
      (read_pages_byte_loop (N : Int) k i buf w).1 x = buf x := by
  intro k
  induction k with
  | zero => intro i buf w x _; rfl
  | succ k ih =>
    intro i buf w x hx
    simp only [read_pages_byte_loop]
    rw [ih _ _ _ _ (by omega)]
    have hne : x ≠ ((i : Int) + (N : Int)).toNat := by omega
    simp [Function.update, hne]

/-- The bytes that cross the bus during the byte loop of `read_pages` are the
bytes that the loop stores in `buf[n + i ..]`. -/
theorem items_byte_loop (s0 l0 : Nat → Nat) (N : Nat) :
    ∀ (k i : Nat) (buf : Nat → Nat) (w : World),
      items s0 l0 (read_pages_byte_loop (N : Int) k i buf w).2.trace =
        items s0 l0 w.trace ++ (List.range k).map (fun j =>
          Item.sample ((read_pages_byte_loop (N : Int) k i buf w).1 (N + i + j))) := by
  intro k
  induction k with
  | zero => intro i buf w; simp [read_pages_byte_loop]
  | succ k ih =>
    intro i buf w
    obtain ⟨hb, hlt⟩ := data_byte_loaded_DATA8_IN l0 (shortpause (GPIO_SET_0 N_READ_ENABLE w))
    have hstep : read_pages_byte_loop (N : Int) (k + 1) i buf w =
        read_pages_byte_loop (N : Int) k (i + 1)
          (Function.update buf ((i : Int) + (N : Int)).toNat
            ((GPIO_DATA8_IN (shortpause (GPIO_SET_0 N_READ_ENABLE w))).1 % 256))
          (shortpause (GPIO_SET_1 N_READ_ENABLE
            (GPIO_DATA8_IN (shortpause (GPIO_SET_0 N_READ_ENABLE w))).2)) := rfl
    rw [hstep, ih, List.range_succ_eq_map, List.map_cons, List.map_map]
    have hfirst : (read_pages_byte_loop (N : Int) k (i + 1)
          (Function.update buf ((i : Int) + (N : Int)).toNat
            ((GPIO_DATA8_IN (shortpause (GPIO_SET_0 N_READ_ENABLE w))).1 % 256))
          (shortpause (GPIO_SET_1 N_READ_ENABLE
            (GPIO_DATA8_IN (shortpause (GPIO_SET_0 N_READ_ENABLE w))).2))).1 (N + i + 0) =
        (GPIO_DATA8_IN (shortpause (GPIO_SET_0 N_READ_ENABLE w))).1 := by
      rw [byte_loop_below N k (i + 1) _ _ _ (by omega)]
      have hidx : ((i : Int) + (N : Int)).toNat = N + i + 0 := by omega
      rw [hidx, Function.update_same]
      exact Nat.mod_eq_of_lt hlt
    rw [hfirst]
    have hit : items s0 l0 (shortpause (GPIO_SET_1 N_READ_ENABLE
        (GPIO_DATA8_IN (shortpause (GPIO_SET_0 N_READ_ENABLE w))).2)).trace =
        items s0 l0 w.trace ++
          [Item.sample (GPIO_DATA8_IN (shortpause (GPIO_SET_0 N_READ_ENABLE w))).1] := by
      rw [← hb]
      simp [items_SET_1, items_SET_0, items_shortpause, items_GPIO_DATA8_IN, pins_SET_0,
        pins_shortpause, pins_GPIO_DATA8_IN, N_WRITE_ENABLE, N_READ_ENABLE]
    rw [hit, List.append_assoc]
    congr 1
    simp only [List.singleton_append, List.cons.injEq, true_and]
    apply List.map_congr_left
    intro j _
    simp only [Function.comp_apply]
    have hidx : N + i + j.succ = N + (i + 1) + j := by omega
    rw [hidx]

/-! ### The cycles of the transactions -/

theorem cmd_latch (a d : Nat) : (Item.latch ⟨1, a, d⟩).is_cmd = true := rfl

theorem filterMap_addr_latches (bs : List Nat) :
    (bs.map (fun b => Item.latch ⟨0, 1, b⟩)).filterMap Item.addr = bs ∧
      (bs.map (fun b => Item.latch ⟨0, 1, b⟩)).filterMap Item.data = [] ∧
      (bs.map (fun b => Item.latch ⟨0, 1, b⟩)).filterMap Item.reply = [] ∧
      ∀ y ∈ bs.map (fun b => Item.latch ⟨0, 1, b⟩), y.is_cmd = false := by
  refine ⟨?_, ?_, ?_, ?_⟩
  · induction bs with
    | nil => rfl
    | cons b bs ih => simp [Item.addr, ih]
  · induction bs with
    | nil => rfl
    | cons b bs ih => simp [Item.data, ih]
  · induction bs with
    | nil => rfl
    | cons b bs ih => simp [Item.reply, ih]
  · intro y hy
    obtain ⟨b, _, rfl⟩ := List.mem_map.1 hy
    rfl

theorem filterMap_data_latches (bs : List Nat) :
    (bs.map (fun b => Item.latch ⟨0, 0, b⟩)).filterMap Item.addr = [] ∧
      (bs.map (fun b => Item.latch ⟨0, 0, b⟩)).filterMap Item.data = bs ∧
      (bs.map (fun b => Item.latch ⟨0, 0, b⟩)).filterMap Item.reply = [] ∧
      ∀ y ∈ bs.map (fun b => Item.latch ⟨0, 0, b⟩), y.is_cmd = false := by
  refine ⟨?_, ?_, ?_, ?_⟩
  · induction bs with
    | nil => rfl
    | cons b bs ih => simp [Item.addr, ih]
  · induction bs with
    | nil => rfl
    | cons b bs ih => simp [Item.data, ih]
  · induction bs with
    | nil => rfl
    | cons b bs ih => simp [Item.reply, ih]
  · intro y hy
    obtain ⟨b, _, rfl⟩ := List.mem_map.1 hy
    rfl

theorem filterMap_samples (bs : List Nat) :
    (bs.map Item.sample).filterMap Item.addr = [] ∧
      (bs.map Item.sample).filterMap Item.data = [] ∧
      (bs.map Item.sample).filterMap Item.reply = bs ∧
      ∀ y ∈ bs.map Item.sample, y.is_cmd = false ∧ Item.addr y = none ∧ Item.data y = none := by
  refine ⟨?_, ?_, ?_, ?_⟩
  · induction bs with
    | nil => rfl
    | cons b bs ih => simp [Item.addr, ih]
  · induction bs with
    | nil => rfl
    | cons b bs ih => simp [Item.data, ih]
  · induction bs with
    | nil => rfl
    | cons b bs ih => simp [Item.reply, ih]
  · intro y hy
    obtain ⟨b, _, rfl⟩ := List.mem_map.1 hy
    exact ⟨rfl, rfl, rfl⟩

/-- The cycle of a Read-ID transaction. -/
theorem cycles_read_id_block (a : Nat) (bs : List Nat) (T : List Item)
    (hT : T = [] ∨ ∃ y T2, T = y :: T2 ∧ y.is_cmd = true) :
    cycles (Item.latch ⟨1, a, 0x90⟩ :: Item.latch ⟨0, 1, 0x00⟩ :: (bs.map Item.sample ++ T)) =
      ⟨0x90, [0], [], bs⟩ :: cycles T := by
  have h := cycles_cmd_body (Item.latch ⟨1, a, 0x90⟩) (Item.latch ⟨0, 1, 0x00⟩ :: bs.map Item.sample)
    T rfl (by
      intro y hy
      rcases List.mem_cons.1 hy with rfl | hy
      · rfl
      · exact ((filterMap_samples bs).2.2.2 y hy).1) hT
  obtain ⟨f1, f2, f3, _⟩ := filterMap_samples bs
  rw [List.cons_append] at h
  rw [h]
  simp [Item.addr, Item.data, Item.reply, Item.byte, f1, f2, f3]

/-- The two cycles of a Read Page transaction. -/
theorem cycles_read_block (a : Nat) (p : Int) (T : List Item)
    (hT : T = [] ∨ ∃ y T2, T = y :: T2 ∧ y.is_cmd = true) :
    cycles (Item.latch ⟨1, a, 0x00⟩ ::
        ((address_bytes p 0).map (fun b => Item.latch ⟨0, 1, b⟩) ++ [Item.latch ⟨1, 0, 0x30⟩]) ++ T) =
      read_cycles p [] ++ cycles T := by
  obtain ⟨f1, f2, f3, f4⟩ := filterMap_addr_latches (address_bytes p 0)
  have e : Item.latch ⟨1, a, 0x00⟩ ::
        ((address_bytes p 0).map (fun b => Item.latch ⟨0, 1, b⟩) ++ [Item.latch ⟨1, 0, 0x30⟩]) ++ T =
      Item.latch ⟨1, a, 0x00⟩ :: ((address_bytes p 0).map (fun b => Item.latch ⟨0, 1, b⟩) ++
        (Item.latch ⟨1, 0, 0x30⟩ :: ([] ++ T))) := by simp
  rw [e, cycles_cmd_body (Item.latch ⟨1, a, 0x00⟩) _ _ (cmd_latch _ _) f4
      (Or.inr ⟨_, _, rfl, cmd_latch _ _⟩),
    cycles_cmd_body (Item.latch ⟨1, 0, 0x30⟩) [] T (cmd_latch _ _) (by simp) hT, f1, f2, f3]
  rfl

/-- The two cycles of a Block Erase transaction. -/
theorem cycles_erase_block (a : Nat) (p : Int) (T : List Item)
    (hT : T = [] ∨ ∃ y T2, T = y :: T2 ∧ y.is_cmd = true) :
    cycles (Item.latch ⟨1, a, 0x60⟩ ::
        ((address_bytes p 2).map (fun b => Item.latch ⟨0, 1, b⟩) ++ [Item.latch ⟨1, 0, 0xD0⟩]) ++ T) =
      ⟨0x60, address_bytes p 2, [], []⟩ :: ⟨0xD0, [], [], []⟩ :: cycles T := by
  obtain ⟨f1, f2, f3, f4⟩ := filterMap_addr_latches (address_bytes p 2)
  have e : Item.latch ⟨1, a, 0x60⟩ ::
        ((address_bytes p 2).map (fun b => Item.latch ⟨0, 1, b⟩) ++ [Item.latch ⟨1, 0, 0xD0⟩]) ++ T =
      Item.latch ⟨1, a, 0x60⟩ :: ((address_bytes p 2).map (fun b => Item.latch ⟨0, 1, b⟩) ++
        (Item.latch ⟨1, 0, 0xD0⟩ :: ([] ++ T))) := by simp
  rw [e, cycles_cmd_body (Item.latch ⟨1, a, 0x60⟩) _ _ (cmd_latch _ _) f4
      (Or.inr ⟨_, _, rfl, cmd_latch _ _⟩),
    cycles_cmd_body (Item.latch ⟨1, 0, 0xD0⟩) [] T (cmd_latch _ _) (by simp) hT, f1, f2, f3]
  rfl

/-- The two cycles of a Page Program transaction. -/
theorem cycles_program_block (a : Nat) (p : Int) (data : Nat → Nat) (T : List Item)
    (hT : T = [] ∨ ∃ y T2, T = y :: T2 ∧ y.is_cmd = true) :
    cycles (Item.latch ⟨1, a, 0x80⟩ ::
        (((address_bytes p 0).map (fun b => Item.latch ⟨0, 1, b⟩) ++
          (List.range PAGE_SIZE).map (fun i => Item.latch ⟨0, 0, data i % 256⟩)) ++
          [Item.latch ⟨1, 0, 0x10⟩]) ++ T) =
      ⟨0x80, address_bytes p 0, (List.range PAGE_SIZE).map (fun i => data i % 256), []⟩ ::
        ⟨0x10, [], [], []⟩ :: cycles T := by
  obtain ⟨f1, f2, f3, f4⟩ := filterMap_addr_latches (address_bytes p 0)
  obtain ⟨g1, g2, g3, g4⟩ :=
    filterMap_data_latches ((List.range PAGE_SIZE).map (fun i => data i % 256))
  rw [List.map_map] at g1 g2 g3 g4
  have hc : ((fun b => Item.latch ⟨0, 0, b⟩) ∘ fun i => data i % 256) =
      fun i => Item.latch ⟨0, 0, data i % 256⟩ := rfl
  rw [hc] at g1 g2 g3 g4
  have e : Item.latch ⟨1, a, 0x80⟩ ::
        (((address_bytes p 0).map (fun b => Item.latch ⟨0, 1, b⟩) ++
          (List.range PAGE_SIZE).map (fun i => Item.latch ⟨0, 0, data i % 256⟩)) ++
          [Item.latch ⟨1, 0, 0x10⟩]) ++ T =
      Item.latch ⟨1, a, 0x80⟩ :: (((address_bytes p 0).map (fun b => Item.latch ⟨0, 1, b⟩) ++
          (List.range PAGE_SIZE).map (fun i => Item.latch ⟨0, 0, data i % 256⟩)) ++
        (Item.latch ⟨1, 0, 0x10⟩ :: ([] ++ T))) := by simp
  have hb : ∀ y ∈ (address_bytes p 0).map (fun b => Item.latch ⟨0, 1, b⟩) ++
      (List.range PAGE_SIZE).map (fun i => Item.latch ⟨0, 0, data i % 256⟩), y.is_cmd = false := by
    intro y hy
    rcases List.mem_append.1 hy with hy | hy
    · exact f4 y hy
    · exact g4 y hy
  rw [e, cycles_cmd_body (Item.latch ⟨1, a, 0x80⟩) _ _ (cmd_latch _ _) hb
      (Or.inr ⟨_, _, rfl, cmd_latch _ _⟩),
    cycles_cmd_body (Item.latch ⟨1, 0, 0x10⟩) [] T (cmd_latch _ _) (by simp) hT,
    List.filterMap_append, List.filterMap_append,
    List.filterMap_append, f1, f2, f3, g1, g2, g3]
  simp only [List.append_nil, List.nil_append, List.filterMap_nil, Item.byte]

/-- The cycle of a Read Status transaction. -/
theorem cycles_status_block (a b : Nat) (T : List Item)
    (hT : T = [] ∨ ∃ y T2, T = y :: T2 ∧ y.is_cmd = true) :
    cycles ([Item.latch ⟨1, a, 0x70⟩, Item.sample b] ++ T) = ⟨0x70, [], [], [b]⟩ :: cycles T := by
  have h := cycles_cmd_body (Item.latch ⟨1, a, 0x70⟩) [Item.sample b] T rfl (by simp [Item.is_cmd]) hT
  have e : [Item.latch ⟨1, a, 0x70⟩, Item.sample b] ++ T =
      Item.latch ⟨1, a, 0x70⟩ :: ([Item.sample b] ++ T) := rfl
  rw [e, h]
  rfl

/-! ### The cycles since an earlier point of the run -/

theorem cycles_since_eq (s0 l0 : Nat → Nat) (w w0 : World) (L : List Item)
    (h : items s0 l0 w.trace = items s0 l0 w0.trace ++ L) : cycles_since s0 l0 w w0 = cycles L := by
  unfold cycles_since
  rw [h, List.drop_left]

theorem extend_last_append_right (A X : List Cycle) (S : List Item) (hX : X ≠ []) :
    extend_last (A ++ X) S = A ++ extend_last X S := by
  induction A with
  | nil => rfl
  | cons a A ih =>
    show extend_last (a :: (A ++ X)) S = a :: (A ++ extend_last X S)
    rw [extend_last_cons _ _ _ (by simp [hX]), ih]

/-! ### What one step of an operation puts on the bus -/

theorem land_one_cast (x : Int) : ∃ N : Nat, Int.land x 1 = (N : Int) := by
  rcases x with n | n
  · exact ⟨n &&& 1, rfl⟩
  · exact ⟨Nat.ldiff 1 n, rfl⟩

theorem read_pages_byte_offset (x : Int) : ∃ N : Nat, (PAGE_SIZE : Int) * Int.land x 1 = (N : Int) := by
  obtain ⟨M, hM⟩ := land_one_cast x
  exact ⟨PAGE_SIZE * M, by rw [hM]; push_cast; rfl⟩

/-- The bus items of one step of `read_pages`: a busy step adds no command byte
(and, when the busy line is high, the `PAGE_SIZE` bytes that it stores in the
buffer), a step at label `retry:` adds a Read-ID cycle and, when the ID check
passes, the two cycles of a Read Page transaction for `page_no`; the other
steps add nothing. -/
theorem read_pages_step_bus (s0 l0 : Nat → Nat) (c : RCfg) :
    ∃ S : List Item, items s0 l0 (read_pages_step c).w.trace = items s0 l0 c.w.trace ++ S ∧
      (c.pc = .busy →
        (∀ y ∈ S, y.is_cmd = false ∧ Item.addr y = none ∧ Item.data y = none) ∧
        ((GPIO_READ N_READ_BUSY c.w).1 = 0 → S = []) ∧
        ((GPIO_READ N_READ_BUSY c.w).1 ≠ 0 → ∀ N : Nat,
          (PAGE_SIZE : Int) * Int.land c.page 1 = (N : Int) →
            S.filterMap Item.reply =
              (List.range PAGE_SIZE).map (fun x => (read_pages_step c).buf (N + x)))) ∧
      (c.pc = .retry → ∃ bs : List Nat, ∀ L, cycles (L ++ S) = cycles L ++
        (⟨0x90, [0], [], bs⟩ :: (if c.id_drift = true then [] else read_cycles c.page_no []))) ∧
      (c.pc ≠ .busy → c.pc ≠ .retry → S = []) := by
  rcases hpc : c.pc with _ | _ | _ | _ | _ | _ | _ | r
  · refine ⟨[], ?_, by simp, by simp, fun _ _ => rfl⟩
    simp only [read_pages_step, hpc]
    split <;> simp [items_print]
  · refine ⟨[], ?_, by simp, by simp, fun _ _ => rfl⟩
    simp only [read_pages_step, hpc]
    split <;> simp [items_print]
  · -- retry
    obtain ⟨bs, _, hbs⟩ := items_read_id s0 l0 (some c.id2) c.w
    by_cases hd : memcmp_ne c.id (read_id (some c.id2) c.w).id 5 = true
    · have hdr : c.id_drift = true := hd
      refine ⟨Item.latch ⟨1, pins s0 c.w.trace ADDRESS_LATCH_ENABLE, 0x90⟩ ::
        Item.latch ⟨0, 1, 0x00⟩ :: bs.map Item.sample, ?_, by simp, ?_, by simp⟩
      · simp only [read_pages_step, hpc, hd, if_true, items_print]
        exact hbs
      · intro _
        refine ⟨bs, fun L => ?_⟩
        rw [cycles_append_cmd L _ _ (cmd_latch _ _), hdr, if_pos rfl]
        have := cycles_read_id_block (pins s0 c.w.trace ADDRESS_LATCH_ENABLE) bs [] (Or.inl rfl)
        rw [List.append_nil] at this
        rw [this]
        rfl
    · have hd' : memcmp_ne c.id (read_id (some c.id2) c.w).id 5 = false := by simpa using hd
      have hdr : c.id_drift = false := hd'
      refine ⟨(Item.latch ⟨1, pins s0 c.w.trace ADDRESS_LATCH_ENABLE, 0x90⟩ ::
        Item.latch ⟨0, 1, 0x00⟩ :: bs.map Item.sample) ++
        (Item.latch ⟨1, pins s0 (read_id (some c.id2) c.w).w.trace ADDRESS_LATCH_ENABLE, 0x00⟩ ::
          ((address_bytes c.page_no 0).map (fun b => Item.latch ⟨0, 1, b⟩) ++
            [Item.latch ⟨1, 0, 0x30⟩])), ?_, by simp, ?_, by simp⟩
      · have hstep : (read_pages_step c).w =
            send_read_command c.page_no (read_id (some c.id2) c.w).w := by
          simp only [read_pages_step, hpc, hd', Bool.false_eq_true, if_false]
        rw [hstep, items_send_read_command, hbs, List.append_assoc]
      · intro _
        refine ⟨bs, fun L => ?_⟩
        rw [List.cons_append, cycles_append_cmd L _ _ (cmd_latch _ _), List.cons_append,
          cycles_read_id_block _ bs _ (Or.inr ⟨_, _, rfl, cmd_latch _ _⟩)]
        have := cycles_read_block (pins s0 (read_id (some c.id2) c.w).w.trace ADDRESS_LATCH_ENABLE)
          c.page_no [] (Or.inl rfl)
        rw [List.append_nil] at this
        rw [this, hdr]
        simp [cycles_nil]
  · -- busy
    by_cases hr : (GPIO_READ N_READ_BUSY c.w).1 = 0
    · refine ⟨[], ?_, fun _ => ⟨by simp, fun _ => rfl, fun h => absurd hr h⟩, by simp,
        fun h => absurd rfl h⟩
      simp only [read_pages_step, hpc, hr, if_true, items_shortpause, items_GPIO_READ,
        List.append_nil]
    · obtain ⟨N, hN⟩ := read_pages_byte_offset c.page
      obtain ⟨B, hB⟩ : ∃ B, B = read_pages_byte_loop (N : Int)
          PAGE_SIZE 0 c.buf (set_data_direction_in (GPIO_READ N_READ_BUSY c.w).2) := ⟨_, rfl⟩
      have hstep : read_pages_step c = { c with pc := .after_read, buf := B.1, w := B.2 } := by
        rw [hB, ← hN]
        simp only [read_pages_step, hpc, hr, if_false]
      have hit : items s0 l0 B.2.trace = items s0 l0 c.w.trace ++
          (List.range PAGE_SIZE).map (fun j => Item.sample (B.1 (N + 0 + j))) := by
        rw [hB, items_byte_loop, items_set_data_direction_in, items_GPIO_READ]
      clear hB
      refine ⟨((List.range PAGE_SIZE).map (fun j => B.1 (N + 0 + j))).map Item.sample, ?_,
        fun _ => ⟨?_, fun h => absurd h hr, ?_⟩, by simp, fun h => absurd rfl h⟩
      · rw [hstep, List.map_map]
        exact hit
      · exact (filterMap_samples _).2.2.2
      · intro _ N2 hN2
        have hNN : N2 = N := by
          have : (N2 : Int) = (N : Int) := by rw [← hN2, hN]
          exact_mod_cast this
        rw [(filterMap_samples _).2.2.1, hstep, hNN]
        apply List.map_congr_left
        intro x _
        show B.1 (N + 0 + x) = B.1 (N + x)
        rw [Nat.add_zero]
  · refine ⟨[], ?_, by simp, by simp, fun _ _ => rfl⟩
    simp only [read_pages_step, hpc]
    split <;> simp
  · refine ⟨[], ?_, by simp, by simp, fun _ _ => rfl⟩
    simp only [read_pages_step, hpc]
    split
    · split <;> (try split) <;> simp [items_print]
    · simp
  · refine ⟨[], ?_, by simp, by simp, fun _ _ => rfl⟩
    simp only [read_pages_step, hpc]
    split <;> simp [items_print]
  · refine ⟨[], ?_, by simp, by simp, fun _ _ => rfl⟩
    simp only [read_pages_step, hpc]
    simp

/-- The commands that one step of `read_pages` adds to those sent so far: the
Read Page transaction for `page_no`, by the step at label `retry:` whose ID
check passes, and nothing otherwise. -/
theorem read_pages_step_sent (s0 l0 : Nat → Nat) (c : RCfg) :
    ∃ S : List Item, items s0 l0 (read_pages_step c).w.trace = items s0 l0 c.w.trace ++ S ∧
      ∀ L, ((cycles (L ++ S)).filter (fun c => c.cmd != 0x90)).map Cycle.sent =
        ((cycles L).filter (fun c => c.cmd != 0x90)).map Cycle.sent ++
          (if c.pc = .retry ∧ c.id_drift = false then read_sent c.page_no else []) := by
  obtain ⟨S, hS, hbusy, hretry, hother⟩ := read_pages_step_bus s0 l0 c
  refine ⟨S, hS, fun L => ?_⟩
  by_cases hb : c.pc = .busy
  · obtain ⟨h1, _, _⟩ := hbusy hb
    rw [cycles_append_body L S (fun y hy => (h1 y hy).1),
      extend_last_filter_sent _ _ (fun y hy => (h1 y hy).2), if_neg (by simp [hb])]
    simp
  · by_cases hr : c.pc = .retry
    · obtain ⟨bs, hc⟩ := hretry hr
      rw [hc L]
      by_cases hd : c.id_drift = true
      · simp [hd, List.filter_cons]
      · have hd' : c.id_drift = false := by simpa using hd
        simp [hd', hr, List.filter_cons, read_cycles, read_sent, Cycle.sent]
    · rw [hother hb hr, List.append_nil, if_neg (by simp [hr])]
      simp

/-- The commands that one step of `write_pages` adds to those sent so far: the
Page Program transaction for `page` with the bytes of `buf`, by the step at
label `retry:` whose ID check passes, the Read Status command by the step that
calls `read_status`, and nothing otherwise. -/
theorem write_pages_step_sent (s0 l0 : Nat → Nat) (c : WCfg) :
    ∃ S : List Item, items s0 l0 (write_pages_step c).w.trace = items s0 l0 c.w.trace ++ S ∧
      ∀ L, ((cycles (L ++ S)).filter (fun c => c.cmd != 0x90)).map Cycle.sent =
        ((cycles L).filter (fun c => c.cmd != 0x90)).map Cycle.sent ++
          (if c.pc = .retry ∧ c.id_drift = false then program_sent c.page c.buf
            else if c.pc = .status then status_sent else []) := by
  rcases hpc : c.pc with _ | _ | _ | _ | _ | r
  · refine ⟨[], ?_, fun L => by simp⟩
    simp only [write_pages_step, hpc]
    split <;> simp [items_print]
  · refine ⟨[], ?_, fun L => by simp⟩
    simp only [write_pages_step, hpc]
    split <;> simp [items_print]
  · -- retry
    obtain ⟨bs, _, hbs⟩ := items_read_id s0 l0 (some c.id2) c.w
    by_cases hd : memcmp_ne c.id (read_id (some c.id2) c.w).id 5 = true
    · have hdr : c.id_drift = true := hd
      refine ⟨Item.latch ⟨1, pins s0 c.w.trace ADDRESS_LATCH_ENABLE, 0x90⟩ ::
        Item.latch ⟨0, 1, 0x00⟩ :: bs.map Item.sample, ?_, fun L => ?_⟩
      · simp only [write_pages_step, hpc, hd, if_true, items_print]
        exact hbs
      · rw [cycles_append_cmd L _ _ (cmd_latch _ _)]
        have := cycles_read_id_block (pins s0 c.w.trace ADDRESS_LATCH_ENABLE) bs [] (Or.inl rfl)
        rw [List.append_nil] at this
        rw [this]
        simp [hdr, List.filter_cons, cycles_nil]
    · have hd' : memcmp_ne c.id (read_id (some c.id2) c.w).id 5 = false := by simpa using hd
      have hdr : c.id_drift = false := hd'
      refine ⟨(Item.latch ⟨1, pins s0 c.w.trace ADDRESS_LATCH_ENABLE, 0x90⟩ ::
        Item.latch ⟨0, 1, 0x00⟩ :: bs.map Item.sample) ++
        (Item.latch ⟨1, pins s0 (read_id (some c.id2) c.w).w.trace ADDRESS_LATCH_ENABLE, 0x80⟩ ::
          (((address_bytes c.page 0).map (fun b => Item.latch ⟨0, 1, b⟩) ++
            (List.range PAGE_SIZE).map (fun i => Item.latch ⟨0, 0, c.buf i % 256⟩)) ++
            [Item.latch ⟨1, 0, 0x10⟩])), ?_, fun L => ?_⟩
      · have hstep : (write_pages_step c).w =
            send_write_command c.page c.buf (read_id (some c.id2) c.w).w := by
          simp only [write_pages_step, hpc, hd', Bool.false_eq_true, if_false]
        rw [hstep, items_send_write_command, hbs, List.append_assoc]
      · rw [List.cons_append, cycles_append_cmd L _ _ (cmd_latch _ _), List.cons_append,
          cycles_read_id_block _ bs _ (Or.inr ⟨_, _, rfl, cmd_latch _ _⟩)]
        have := cycles_program_block
          (pins s0 (read_id (some c.id2) c.w).w.trace ADDRESS_LATCH_ENABLE) c.page c.buf []
          (Or.inl rfl)
        rw [List.append_nil] at this
        rw [this]
        simp [hdr, List.filter_cons, cycles_nil, program_sent, Cycle.sent]
  · -- busy
    refine ⟨[], ?_, fun L => by simp⟩
    simp only [write_pages_step, hpc]
    split <;> simp [items_shortpause, items_GPIO_READ]
  · -- status
    obtain ⟨b, hb⟩ := items_read_status s0 l0 c.w
    refine ⟨[Item.latch ⟨1, pins s0 c.w.trace ADDRESS_LATCH_ENABLE, 0x70⟩, Item.sample b], ?_,
      fun L => ?_⟩
    · have hw : items s0 l0 (write_pages_step c).w.trace = items s0 l0 (read_status c.w).2.trace := by
        simp only [write_pages_step, hpc]
        split
        · split <;> split <;> simp [items_print]
        · rfl
      rw [hw, hb]
    · have e : [Item.latch ⟨1, pins s0 c.w.trace ADDRESS_LATCH_ENABLE, 0x70⟩, Item.sample b] =
          Item.latch ⟨1, pins s0 c.w.trace ADDRESS_LATCH_ENABLE, 0x70⟩ :: [Item.sample b] := rfl
      rw [e, cycles_append_cmd L _ _ (cmd_latch _ _)]
      have := cycles_status_block (pins s0 c.w.trace ADDRESS_LATCH_ENABLE) b [] (Or.inl rfl)
      rw [List.append_nil] at this
      rw [this]
      simp [List.filter_cons, cycles_nil, status_sent, Cycle.sent]
  · refine ⟨[], ?_, fun L => by simp⟩
    simp only [write_pages_step, hpc]
    simp

/-- The commands that one step of `erase_blocks` adds to those sent so far:
the Block Erase transaction for page address `block * 64`, by the step at
label `retry:` whose ID check passes, the Read Status command by the step that
calls `read_status`, and nothing otherwise. -/
theorem erase_blocks_step_sent (s0 l0 : Nat → Nat) (c : ECfg) :
    ∃ S : List Item, items s0 l0 (erase_blocks_step c).w.trace = items s0 l0 c.w.trace ++ S ∧
      ∀ L, ((cycles (L ++ S)).filter (fun c => c.cmd != 0x90)).map Cycle.sent =
        ((cycles L).filter (fun c => c.cmd != 0x90)).map Cycle.sent ++
          (if c.pc = .retry ∧ c.id_drift = false then erase_sent (c.block * 64)
            else if c.pc = .status then status_sent else []) := by
  rcases hpc : c.pc with _ | _ | _ | _ | _ | r
  · refine ⟨[], ?_, fun L => by simp⟩
    simp only [erase_blocks_step, hpc]
    split <;> simp [items_print]
  · refine ⟨[], ?_, fun L => by simp⟩
    simp only [erase_blocks_step, hpc]
    split <;> simp [items_print]
  · -- retry
    obtain ⟨bs, _, hbs⟩ := items_read_id s0 l0 (some c.id2) c.w
    by_cases hd : memcmp_ne c.id (read_id (some c.id2) c.w).id 5 = true
    · have hdr : c.id_drift = true := hd
      refine ⟨Item.latch ⟨1, pins s0 c.w.trace ADDRESS_LATCH_ENABLE, 0x90⟩ ::
        Item.latch ⟨0, 1, 0x00⟩ :: bs.map Item.sample, ?_, fun L => ?_⟩
      · simp only [erase_blocks_step, hpc, hd, if_true, items_print]
        exact hbs
      · rw [cycles_append_cmd L _ _ (cmd_latch _ _)]
        have := cycles_read_id_block (pins s0 c.w.trace ADDRESS_LATCH_ENABLE) bs [] (Or.inl rfl)
        rw [List.append_nil] at this
        rw [this]
        simp [hdr, List.filter_cons, cycles_nil]
    · have hd' : memcmp_ne c.id (read_id (some c.id2) c.w).id 5 = false := by simpa using hd
      have hdr : c.id_drift = false := hd'
      refine ⟨(Item.latch ⟨1, pins s0 c.w.trace ADDRESS_LATCH_ENABLE, 0x90⟩ ::
        Item.latch ⟨0, 1, 0x00⟩ :: bs.map Item.sample) ++
        (Item.latch ⟨1, pins s0 (read_id (some c.id2) c.w).w.trace ADDRESS_LATCH_ENABLE, 0x60⟩ ::
          ((address_bytes (c.block * 64) 2).map (fun b => Item.latch ⟨0, 1, b⟩) ++
            [Item.latch ⟨1, 0, 0xD0⟩])), ?_, fun L => ?_⟩
      · have hstep : (erase_blocks_step c).w =
            send_eraseblock_command (c.block * 64) (read_id (some c.id2) c.w).w := by
          simp only [erase_blocks_step, hpc, hd', Bool.false_eq_true, if_false]
        rw [hstep, items_send_eraseblock_command, hbs, List.append_assoc]
      · rw [List.cons_append, cycles_append_cmd L _ _ (cmd_latch _ _), List.cons_append,
          cycles_read_id_block _ bs _ (Or.inr ⟨_, _, rfl, cmd_latch _ _⟩)]
        have := cycles_erase_block
          (pins s0 (read_id (some c.id2) c.w).w.trace ADDRESS_LATCH_ENABLE) (c.block * 64) []
          (Or.inl rfl)
        rw [List.append_nil] at this
        rw [this]
        simp [hdr, List.filter_cons, cycles_nil, erase_sent, Cycle.sent]
  · -- busy
    refine ⟨[], ?_, fun L => by simp⟩
    simp only [erase_blocks_step, hpc]
    split <;> simp [items_shortpause, items_GPIO_READ]
  · -- status
    obtain ⟨b, hb⟩ := items_read_status s0 l0 c.w
    refine ⟨[Item.latch ⟨1, pins s0 c.w.trace ADDRESS_LATCH_ENABLE, 0x70⟩, Item.sample b], ?_,
      fun L => ?_⟩
    · have hw : items s0 l0 (erase_blocks_step c).w.trace = items s0 l0 (read_status c.w).2.trace := by
        simp only [erase_blocks_step, hpc]
        split
        · split <;> split <;> simp [items_print]
        · rfl
      rw [hw, hb]
    · have e : [Item.latch ⟨1, pins s0 c.w.trace ADDRESS_LATCH_ENABLE, 0x70⟩, Item.sample b] =
          Item.latch ⟨1, pins s0 c.w.trace ADDRESS_LATCH_ENABLE, 0x70⟩ :: [Item.sample b] := rfl
      rw [e, cycles_append_cmd L _ _ (cmd_latch _ _)]
      have := cycles_status_block (pins s0 c.w.trace ADDRESS_LATCH_ENABLE) b [] (Or.inl rfl)
      rw [List.append_nil] at this
      rw [this]
      simp [List.filter_cons, cycles_nil, status_sent, Cycle.sent]
  · refine ⟨[], ?_, fun L => by simp⟩
    simp only [erase_blocks_step, hpc]
    simp

/-! ### The commands sent during a run -/

theorem sent_since_self (s0 l0 : Nat → Nat) (w : World) : sent_since s0 l0 w w = [] := by
  simp [sent_since, cycles_since, cycles_nil]

/-- Along a run whose steps add `delta c` to the commands sent, the bus items
only grow, and the commands sent since the start of the run grow by `delta` of
the configuration that makes the step. -/
theorem sent_since_run {σ : Type} (step : σ → σ) (wof : σ → World)
    (delta : σ → List (Nat × List Nat × List Nat)) (s0 l0 : Nat → Nat)
    (hstep : ∀ c, ∃ S : List Item,
      items s0 l0 (wof (step c)).trace = items s0 l0 (wof c).trace ++ S ∧
      ∀ L, ((cycles (L ++ S)).filter (fun c => c.cmd != 0x90)).map Cycle.sent =
        ((cycles L).filter (fun c => c.cmd != 0x90)).map Cycle.sent ++ delta c)
    (c0 : σ) (K : Nat) :
    (∃ L, items s0 l0 (wof (step^[K] c0)).trace = items s0 l0 (wof c0).trace ++ L) ∧
      sent_since s0 l0 (wof (step^[K + 1] c0)) (wof c0) =
        sent_since s0 l0 (wof (step^[K] c0)) (wof c0) ++ delta (step^[K] c0) := by
  have hgrow : ∀ K, ∃ L,
      items s0 l0 (wof (step^[K] c0)).trace = items s0 l0 (wof c0).trace ++ L := by
    intro K
    induction K with
    | zero => exact ⟨[], by simp⟩
    | succ K ih =>
      obtain ⟨L, hL⟩ := ih
      obtain ⟨S, hS, _⟩ := hstep (step^[K] c0)
      refine ⟨L ++ S, ?_⟩
      rw [Function.iterate_succ_apply', hS, hL, List.append_assoc]
  obtain ⟨L, hL⟩ := hgrow K
  obtain ⟨S, hS, hsent⟩ := hstep (step^[K] c0)
  refine ⟨⟨L, hL⟩, ?_⟩
  have h1 : items s0 l0 (wof (step^[K + 1] c0)).trace = items s0 l0 (wof c0).trace ++ (L ++ S) := by
    rw [Function.iterate_succ_apply', hS, hL, List.append_assoc]
  unfold sent_since
  rw [cycles_since_eq s0 l0 _ _ _ h1, cycles_since_eq s0 l0 _ _ _ hL]
  exact hsent L

/-! ### The loop of `erase_blocks` (claim C7) -/

theorem erase_sent_upto_succ (first : Int) (j : Nat) :
    erase_sent_upto first (j + 1) =
      erase_sent_upto first j ++ (erase_sent ((first + (j : Int)) * 64) ++ status_sent) := by
  simp [erase_sent_upto, List.range_succ, List.flatMap_append]

theorem read_id_count_erase_retry (a : Nat → Nat) (w : World) :
    (read_id (some a) w).w.stdout.count .erase_retry = w.stdout.count .erase_retry := by
  rcases (read_id_stdout a w).2 with h | h <;> rw [h]
  simp

theorem erase_inv_step (c0 c : ECfg) (sent : List (Nat × List Nat × List Nat))
    (h : erase_inv c0 c sent) (hok : c.pc = .status → (read_status c.w).1 = 0) :
    erase_inv c0 (erase_blocks_step c)
      (sent ++ (if c.pc = .retry ∧ c.id_drift = false then erase_sent (c.block * 64)
        else if c.pc = .status then status_sent else [])) := by
  obtain ⟨h1, h2, h3, hcnt, j, h4, hj, h5⟩ := h
  rcases hpc : c.pc with _ | _ | _ | _ | _ | r
  · rw [hpc] at h5
    simp only [erase_blocks_step, hpc]
    by_cases hlt : c.block < c.first_block_number + c.number_of_blocks
    · simp only [hlt, if_true]
      refine ⟨h1, h2, h3, hcnt, j, h4, hj, ?_⟩
      simp
      exact ⟨by omega, h5⟩
    · simp only [hlt, if_false]
      refine ⟨h1, h2, h3, by simpa using hcnt, j, h4, hj, ?_⟩
      simp
      have : j = c0.number_of_blocks.toNat := by omega
      rw [h5, this]
  · rw [hpc] at h5
    simp only [erase_blocks_step, hpc]
    refine ⟨h1, h2, h3, ?_, j, h4, hj, ?_⟩
    · simp only [h3, if_true]
      simpa using hcnt
    · simpa using h5
  · rw [hpc] at h5
    simp only [erase_blocks_step, hpc, ECfg.id_drift]
    by_cases hd : memcmp_ne c.id (read_id (some c.id2) c.w).id 5 = true
    · simp only [hd, if_true]
      refine ⟨h1, h2, h3, ?_, j, h4, hj, ?_⟩
      · simp [read_id_count_erase_retry, hcnt]
      · simpa using h5
    · simp only [hd]
      refine ⟨h1, h2, h3, ?_, j, h4, hj, ?_⟩
      · simp [read_id_count_erase_retry, hcnt]
      · simp
        refine ⟨by have := h5.1; omega, ?_⟩
        rw [h5.2, h4]
  · rw [hpc] at h5
    simp only [erase_blocks_step, hpc]
    by_cases hb : (GPIO_READ N_READ_BUSY c.w).1 = 0
    · simp only [hb, if_true]
      refine ⟨h1, h2, h3, by simpa using hcnt, j, h4, hj, ?_⟩
      simpa using h5
    · simp only [hb, if_false]
      refine ⟨h1, h2, h3, by simpa using hcnt, j, h4, hj, ?_⟩
      simpa using h5
  · rw [hpc] at h5
    have hs := hok hpc
    simp only [erase_blocks_step, hpc, hs]
    refine ⟨h1, h2, rfl, by simpa using hcnt, j + 1, ?_, by omega, ?_⟩
    · simp [h4]; ring
    · simp
      rw [erase_sent_upto_succ, h5.2, List.append_assoc]
  · rw [hpc] at h5
    simp only [erase_blocks_step, hpc]
    refine ⟨h1, h2, h3, hcnt, j, h4, hj, ?_⟩
    simpa [hpc] using h5

theorem erase_inv_run (s0 l0 : Nat → Nat) (c0 : ECfg) (hpc : c0.pc = .for_cond)
    (hblk : c0.block = c0.first_block_number) (hrc : c0.retry_count = 0) :
    ∀ K : Nat, (∀ i, i < K → (erase_blocks_step^[i] c0).pc = .status →
        (read_status (erase_blocks_step^[i] c0).w).1 = 0) →
      erase_inv c0 (erase_blocks_step^[K] c0)
        (sent_since s0 l0 (erase_blocks_step^[K] c0).w c0.w) := by
  intro K
  induction K with
  | zero =>
    intro _
    refine ⟨rfl, rfl, hrc, rfl, 0, by simpa using hblk, by omega, ?_⟩
    simp [hpc, sent_since_self, erase_sent_upto]
  | succ K ih =>
    intro h
    rw [(sent_since_run erase_blocks_step ECfg.w _ s0 l0 (erase_blocks_step_sent s0 l0) c0 K).2,
      Function.iterate_succ_apply']
    exact erase_inv_step c0 _ _ (ih (fun i hi => h i (by omega))) (h K (by omega))

theorem erase_sent_nat (b : Nat) :
    erase_sent ((b : Int) * 64) ++ status_sent =
      [(0x60, [64 * b % 256, 64 * b / 256 % 256, 64 * b / 65536 % 256], []), (0xD0, [], []),
        (0x70, [], [])] := by
  have e : (b : Int) * 64 = ((64 * b : Nat) : Int) := by push_cast; ring
  rw [e]
  show [(0x60, address_bytes ((64 * b : Nat) : Int) 2, []), (0xD0, [], []), (0x70, [], [])] = _
  rw [(address_bytes_nat (64 * b)).2]

theorem fread_page_twice (infile : List Nat) (pos : Nat) (buf : Nat → Nat) :
    fread_page infile pos (fread_page infile pos buf) = fread_page infile pos buf := by
  funext i
  unfold fread_page
  split <;> simp_all

theorem replicate_flatten_succ {α : Type} (n : Nat) (a : List α) :
    (List.replicate (n + 1) a).flatten = (List.replicate n a).flatten ++ a := by
  rw [List.replicate_succ', List.flatten_append]
  simp

/-- A step that stays on the page keeps the invariant. -/
theorem write_inv_step (c0 c : WCfg) (sent : List (Nat × List Nat × List Nat)) (S : List Nat)
    (h : write_inv c0 c sent S) (hpos : 0 ≤ c0.page)
    (hin : c0.page < c0.first_page_number + c0.number_of_pages)
    (hpage : (write_pages_step c).page = c.page) :
    write_inv c0 (write_pages_step c)
      (sent ++ (if c.pc = .retry ∧ c.id_drift = false then program_sent c.page c.buf
        else if c.pc = .status then status_sent else []))
      (S ++ c.status_result.toList) := by
  obtain ⟨h1, h2, h3, hfile, h4, h5, h6, h7, h8⟩ := h
  rcases hpc : c.pc with _ | _ | _ | _ | _ | r
  · rw [hpc] at h8
    have hlt : c.page < c.first_page_number + c.number_of_pages := by rw [h1, h2, h3]; exact hin
    simp only [write_pages_step, hpc, WCfg.status_result, hlt, if_true]
    refine ⟨h1, h2, h3, hfile, h4, by simpa using h5, by simpa using h6, h7, ?_⟩
    obtain ⟨a, b, d, e⟩ := h8
    simp [a, b, d, e, page_reads]
  · rw [hpc] at h8
    have hoff : ¬ (c.page * (PAGE_SIZE : Int) < 0) := by
      rw [h3]
      have : (0 : Int) ≤ c0.page * (PAGE_SIZE : Int) := by positivity
      omega
    simp only [write_pages_step, hpc, WCfg.status_result, hoff, if_false]
    refine ⟨h1, h2, h3, hfile, h4, by simpa using h5, by simpa using h6, ?_, ?_⟩
    · by_cases hrc : c.retry_count = 0 <;> simp [hrc, h7]
    · simp
      refine ⟨h8.1, ?_, ?_⟩
      · rw [h8.2.1, h3]
        rfl
      · rw [hfile, h3]
        rcases h8.2.2 with hb | hb
        · rw [hb]
        · rw [hb, fread_page_twice]
  · rw [hpc] at h8
    simp only [write_pages_step, hpc, WCfg.status_result, WCfg.id_drift]
    by_cases hd : memcmp_ne c.id (read_id (some c.id2) c.w).id 5 = true
    · simp only [hd, if_true]
      refine ⟨h1, h2, h3, hfile, h4, by simpa using h5, by simpa using h6, ?_, ?_⟩
      · simp [read_id_count_write_retry, h7]
      · simpa using h8
    · simp only [hd]
      refine ⟨h1, h2, h3, hfile, h4, by simpa using h5, by simpa using h6, ?_, ?_⟩
      · simp [read_id_count_write_retry, h7]
      · simp
        refine ⟨?_, h8.2.1, h8.2.2⟩
        rw [h8.1, h3, h8.2.2]
  · rw [hpc] at h8
    simp only [write_pages_step, hpc, WCfg.status_result]
    by_cases hb : (GPIO_READ N_READ_BUSY c.w).1 = 0
    · simp only [hb, if_true]
      refine ⟨h1, h2, h3, hfile, h4, by simpa using h5, by simpa using h6, ?_, ?_⟩
      · simpa using h7
      · simpa using h8
    · simp only [hb, if_false]
      refine ⟨h1, h2, h3, hfile, h4, by simpa using h5, by simpa using h6, ?_, ?_⟩
      · simpa using h7
      · simpa using h8
  · rw [hpc] at h8
    simp only [write_pages_step, hpc] at hpage
    simp only [write_pages_step, hpc, WCfg.status_result]
    by_cases hs : (read_status c.w).1 = 0
    · simp [hs] at hpage
    · by_cases hr : c.retry_count < 5
      · simp only [hs, hr, ne_eq, not_false_eq_true, if_true]
        refine ⟨h1, h2, h3, hfile, Nat.succ_le_of_lt hr, by simp [h5], ?_, ?_, ?_⟩
        · intro x hx
          simp at hx
          rcases hx with hx | hx
          · exact h6 x hx
          · rw [hx]; exact hs
        · by_cases hrc : c.retry_count = 0 <;> simp [hrc, h7]; omega
        · simp
          refine ⟨?_, h8.2.1, Or.inr h8.2.2⟩
          rw [h8.1, replicate_flatten_succ, List.append_assoc]
      · simp [hs, hr] at hpage
  · rw [hpc] at h8
    exact h8.elim

/-- The step that leaves the page is the status check, either on success or
with the retries used up. -/
theorem write_inv_end (c0 c : WCfg) (sent : List (Nat × List Nat × List Nat)) (S : List Nat)
    (h : write_inv c0 c sent S) (hin : c0.page < c0.first_page_number + c0.number_of_pages)
    (hpage : (write_pages_step c).page ≠ c.page) :
    c.pc = .status ∧ (write_pages_step c).pc = .for_cond ∧ (write_pages_step c).retry_count = 0 ∧
      (write_pages_step c).fops = c.fops ∧
      c.status_result = some (read_status c.w).1 ∧
      (((read_status c.w).1 = 0 ∧
          (write_pages_step c).w.stdout.count .write_retry = c.w.stdout.count .write_retry) ∨
        ((read_status c.w).1 ≠ 0 ∧ c.retry_count = 5 ∧
          (write_pages_step c).w.stdout.count .write_retry = c.w.stdout.count .write_retry)) := by
  obtain ⟨h1, h2, h3, hfile, h4, h5, h6, h7, h8⟩ := h
  rcases hpc : c.pc with _ | _ | _ | _ | _ | r
  · have hlt : c.page < c.first_page_number + c.number_of_pages := by rw [h1, h2, h3]; exact hin
    simp [write_pages_step, hpc, hlt] at hpage
  · simp [write_pages_step, hpc] at hpage
  · simp only [write_pages_step, hpc] at hpage
    split at hpage <;> simp at hpage
  · simp only [write_pages_step, hpc] at hpage
    split at hpage <;> simp at hpage
  · simp only [write_pages_step, hpc, WCfg.status_result]
    by_cases hs : (read_status c.w).1 = 0
    · simp [hs]
    · by_cases hr : c.retry_count < 5
      · simp [write_pages_step, hpc, hs, hr] at hpage
      · have h5' : c.retry_count = 5 := by omega
        simp [hs, hr, h5']
  · rw [hpc] at h8
    exact h8.elim

theorem write_inv_run (s0 l0 : Nat → Nat) (c0 : WCfg) (hpc : c0.pc = .for_cond)
    (hrc : c0.retry_count = 0) (hpos : 0 ≤ c0.page)
    (hin : c0.page < c0.first_page_number + c0.number_of_pages) :
    ∀ K : Nat, (∀ j, j ≤ K → (write_pages_step^[j] c0).page = c0.page) →
      write_inv c0 (write_pages_step^[K] c0)
        (sent_since s0 l0 (write_pages_step^[K] c0).w c0.w)
        (observe write_pages_step WCfg.status_result c0 K) := by
  intro K
  induction K with
  | zero =>
    intro _
    refine ⟨rfl, rfl, rfl, rfl, by simp [hrc], by simp [observe, hrc], by simp [observe],
      by simp [hrc], ?_⟩
    simp [hpc, hrc, sent_since_self]
  | succ K ih =>
    intro h
    rw [(sent_since_run write_pages_step WCfg.w _ s0 l0 (write_pages_step_sent s0 l0) c0 K).2,
      Function.iterate_succ_apply', observe_succ]
    have hK := h K (by omega)
    have hK1 := h (K + 1) (by omega)
    rw [Function.iterate_succ_apply'] at hK1
    exact write_inv_step c0 _ _ _ (ih (fun j hj => h j (by omega))) hpos hin (by rw [hK1, hK])

theorem program_sent_nat (p : Nat) (data : Nat → Nat) :
    program_sent (p : Int) data ++ status_sent =
      [(0x80, [0, 0, p % 256, p / 256 % 256, p / 65536 % 256],
          (List.range 2112).map (fun i => data i % 256)), (0x10, [], []), (0x70, [], [])] := by
  show [(0x80, address_bytes (p : Int) 0, (List.range PAGE_SIZE).map (fun i => data i % 256)),
    (0x10, [], []), (0x70, [], [])] = _
  rw [(address_bytes_nat p).1]
  rfl

theorem status_fail_READ (k g : Nat) (w : World) :
    status_fail k (GPIO_READ g w).2.trace = status_fail k w.trace := rfl

theorem wchip_READ (k : Nat) (w : World) (h : w.lev = wchip_lev k) :
    (GPIO_READ N_READ_BUSY w).1 = 1 ∧
      (GPIO_READ 15 w).1 = (if id_first_strobe w.trace then 1 else 0) ∧
      (GPIO_READ 8 w).1 = (if status_fail k w.trace then 1 else 0) ∧
      ∀ g, 9 ≤ g → g ≤ 14 → (GPIO_READ g w).1 = 0 := by
  refine ⟨?_, ?_, ?_, ?_⟩
  · simp only [GPIO_READ, h, wchip_lev, N_READ_BUSY]
    split <;> split <;> decide
  · simp only [GPIO_READ, h, wchip_lev]
    split <;> split <;> decide
  · simp only [GPIO_READ, h, wchip_lev]
    split <;> split <;> decide
  · intro g h1 h2
    simp only [GPIO_READ, h, wchip_lev]
    split <;> split <;> interval_cases g <;> decide

/-- The iterations of the loop of `GPIO_DATA8_IN` for the data lines 6 .. 0 on
the simulated chip: only line 0 can be high. -/
theorem wchip_DATA8_IN_rest (k : Nat) :
    ∀ (n i data : Nat) (w : World), w.lev = wchip_lev k → 1 ≤ i → i + n = 7 →
      (GPIO_DATA8_IN_loop data_to_gpio_map (n + 1) i data w).1 =
        ((data <<< n) ||| (if status_fail k w.trace then 1 else 0)) <<< 1 := by
  intro n
  induction n with
  | zero =>
    intro i data w h _ hi
    have hi7 : i = 7 := by omega
    subst hi7
    show ((data ||| (GPIO_READ 8 w).1) <<< 1) = _
    rw [(wchip_READ k w h).2.2.1]
    rfl
  | succ n ih =>
    intro i data w h h1 hi
    have hpin : 9 ≤ data_to_gpio_map (7 - i) ∧ data_to_gpio_map (7 - i) ≤ 14 := by
      have hi6 : i ≤ 6 := by omega
      interval_cases i <;> simp [data_to_gpio_map]
    have hstep : GPIO_DATA8_IN_loop data_to_gpio_map (n + 1 + 1) i data w =
        GPIO_DATA8_IN_loop data_to_gpio_map (n + 1) (i + 1)
          ((data ||| (GPIO_READ (data_to_gpio_map (7 - i)) w).1) <<< 1)
          (GPIO_READ (data_to_gpio_map (7 - i)) w).2 := rfl
    rw [hstep, ih _ _ _ (by simp [h]) (by omega) (by omega),
      (wchip_READ k w h).2.2.2 _ hpin.1 hpin.2, status_fail_READ]
    simp [Nat.shiftLeft_eq, pow_succ]
    ring_nf

theorem wchip_DATA8_IN (k : Nat) (w : World) (h : w.lev = wchip_lev k) :
    (GPIO_DATA8_IN w).1 =
      (if id_first_strobe w.trace then 128 else 0) + (if status_fail k w.trace then 1 else 0) := by
  simp only [GPIO_DATA8_IN, GPIO_DATA8_IN_of]
  rw [show GPIO_DATA8_IN_loop data_to_gpio_map 8 0 0 w =
    GPIO_DATA8_IN_loop data_to_gpio_map (6 + 1) 1 ((0 ||| (GPIO_READ 15 w).1) <<< 1)
      (GPIO_READ 15 w).2 from rfl]
  rw [wchip_DATA8_IN_rest k 6 1 _ _ (by simp [h]) (by omega) (by omega), (wchip_READ k w h).2.1,
    status_fail_READ]
  split <;> split <;> decide

theorem ale_count_write_data_loop (data : Nat → Nat) :
    ∀ (k i : Nat) (w : World),
      ale_count (write_data_loop data k i w).trace = ale_count w.trace := by
  intro k
  induction k with
  | zero => intro i w; rfl
  | succ k ih =>
    intro i w
    simp only [write_data_loop]
    rw [ih]
    simp [ale_count_shortpause, ale_count_SET_1, ale_count_SET_0, ale_count_GPIO_DATA8_OUT,
      N_WRITE_ENABLE, ADDRESS_LATCH_ENABLE]

theorem ale_count_send_write_command (page : Int) (data : Nat → Nat) (w : World) :
    ale_count (send_write_command page data w).trace = ale_count w.trace + 1 := by
  simp only [send_write_command]
  simp only [ale_count_shortpause, ale_count_SET_1, ale_count_SET_0, ale_count_GPIO_DATA8_OUT,
    ale_count_address_loop, ale_count_write_data_loop, ale_count_dir_out]
  simp [N_WRITE_ENABLE, ADDRESS_LATCH_ENABLE, COMMAND_LATCH_ENABLE]

theorem ale_count_read_status (w : World) :
    ale_count (read_status w).2.trace = ale_count w.trace := by
  simp only [read_status]
  simp only [ale_count_shortpause, ale_count_SET_1, ale_count_SET_0, ale_count_GPIO_DATA8_OUT,
    ale_count_GPIO_DATA8_IN, ale_count_dir_out, ale_count_dir_in]
  simp [N_WRITE_ENABLE, ADDRESS_LATCH_ENABLE, COMMAND_LATCH_ENABLE, N_READ_ENABLE]

/-- The status that the simulated chip reports. -/
theorem wchip_read_status (k : Nat) (w : World) (h : w.lev = wchip_lev k) :
    (read_status w).1 = (if ale_count w.trace < 2 * k + 2 then 1 else 0) := by
  obtain ⟨W, hWl, hWd, hWc, hval⟩ : ∃ W : World, W.lev = wchip_lev k ∧
      dir_in_just_set W.trace = true ∧ ale_count W.trace = ale_count w.trace ∧
      (read_status w).1 = (GPIO_DATA8_IN (shortpause (GPIO_SET_0 N_READ_ENABLE W))).1 &&& 1 := by
    refine ⟨set_data_direction_in (shortpause (GPIO_SET_0 COMMAND_LATCH_ENABLE (shortpause
      (GPIO_SET_1 N_WRITE_ENABLE (shortpause (GPIO_DATA8_OUT 0x70 (GPIO_SET_0 N_WRITE_ENABLE
        (shortpause (GPIO_SET_1 COMMAND_LATCH_ENABLE (set_data_direction_out w)))))))))),
      ?_, rfl, ?_, rfl⟩
    · simp [h]
    · simp only [ale_count_shortpause, ale_count_SET_1, ale_count_SET_0,
        ale_count_GPIO_DATA8_OUT, ale_count_dir_out, ale_count_dir_in]
      simp [N_WRITE_ENABLE, ADDRESS_LATCH_ENABLE, COMMAND_LATCH_ENABLE]
  rw [hval, wchip_DATA8_IN k _ (by simp [hWl])]
  have h1 : id_first_strobe (shortpause (GPIO_SET_0 N_READ_ENABLE W)).trace = false := by
    show (N_READ_ENABLE == N_READ_ENABLE && ale_just_lowered W.trace) = false
    cases hW : W.trace with
    | nil => rfl
    | cons e t =>
      rw [hW] at hWd
      cases e <;> simp [dir_in_just_set] at hWd
      cases t with
      | nil => rfl
      | cons e2 t2 => rfl
  have h2 : status_fail k (shortpause (GPIO_SET_0 N_READ_ENABLE W)).trace =
      Nat.blt (ale_count w.trace) (2 * k + 2) := by
    show ((N_READ_ENABLE == N_READ_ENABLE && dir_in_just_set W.trace) &&
      Nat.blt (ale_count W.trace) (2 * k + 2)) = _
    rw [hWd, hWc]
    rfl
  rw [h1, h2]
  by_cases hlt : ale_count w.trace < 2 * k + 2
  · have : Nat.blt (ale_count w.trace) (2 * k + 2) = true := by
      rw [Nat.blt_eq]; exact hlt
    rw [this, if_pos hlt]
    rfl
  · have : Nat.blt (ale_count w.trace) (2 * k + 2) = false := by
      rw [Bool.eq_false_iff, Ne, Nat.blt_eq]; exact hlt
    rw [this, if_neg hlt]
    rfl

/-- The bytes of a Read-ID answer after the first one are `0x00`. -/
theorem wchip_read_id_loop_rest (k : Nat) :
    ∀ (n i : Nat) (buf : Nat → Nat) (w : World), w.lev = wchip_lev k →
      ale_just_lowered w.trace = false → dir_in_just_set w.trace = false →
      ∀ j, (read_id_loop n i buf w).1 j = if i ≤ j ∧ j < i + n then 0 else buf j := by
  intro n
  induction n with
  | zero =>
    intro i buf w _ _ _ j
    rw [if_neg (by omega)]
    rfl
  | succ n ih =>
    intro i buf w h ha hc j
    simp only [read_id_loop]
    have hv : (GPIO_DATA8_IN (shortpause (GPIO_SET_0 N_READ_ENABLE w))).1 = 0 := by
      rw [wchip_DATA8_IN k _ (by simp [h])]
      have h1 : id_first_strobe (shortpause (GPIO_SET_0 N_READ_ENABLE w)).trace = false := by
        show (N_READ_ENABLE == N_READ_ENABLE && ale_just_lowered w.trace) = false
        rw [ha]
        rfl
      have h2 : status_fail k (shortpause (GPIO_SET_0 N_READ_ENABLE w)).trace = false := by
        show ((N_READ_ENABLE == N_READ_ENABLE && dir_in_just_set w.trace) &&
          Nat.blt (ale_count w.trace) (2 * k + 2)) = false
        rw [hc]
        rfl
      rw [h1, h2]
      rfl
    have ih' := ih (i + 1)
      (Function.update buf i ((GPIO_DATA8_IN (shortpause (GPIO_SET_0 N_READ_ENABLE w))).1 % 256))
      (shortpause (GPIO_SET_1 N_READ_ENABLE
        (GPIO_DATA8_IN (shortpause (GPIO_SET_0 N_READ_ENABLE w))).2))
      (by simp [h]) rfl rfl j
    rw [ih', hv]
    by_cases hj : j = i
    · subst hj
      simp
    · simp only [Function.update, hj]
      by_cases h1 : i + 1 ≤ j ∧ j < i + 1 + n
      · rw [if_pos h1, if_pos (by omega)]
      · rw [if_neg h1]
        by_cases h2 : i ≤ j ∧ j < i + (n + 1)
        · omega
        · rw [if_neg h2]
          simp

/-- The answer of the simulated chip to Read-ID is `80 00 00 00 00`. -/
theorem wchip_read_id_capture (k : Nat) (w : World) (h : w.lev = wchip_lev k) :
    ∀ j, (read_id_capture w).1 j = chip_id j := by
  intro j
  obtain ⟨W, hWl, hWa, hWd, hcap⟩ : ∃ W : World, W.lev = wchip_lev k ∧
      ale_just_lowered W.trace = true ∧ dir_in_just_set W.trace = false ∧
      read_id_capture w = read_id_loop (4 + 1) 0 (fun _ => 0) W := by
    refine ⟨_, ?_, ?_, ?_, rfl⟩
    · simp [h]
    · rfl
    · rfl
  rw [hcap]
  show (read_id_loop 4 1 (Function.update (fun _ => 0) 0
    ((GPIO_DATA8_IN (shortpause (GPIO_SET_0 N_READ_ENABLE W))).1 % 256))
    (shortpause (GPIO_SET_1 N_READ_ENABLE
      (GPIO_DATA8_IN (shortpause (GPIO_SET_0 N_READ_ENABLE W))).2))).1 j = chip_id j
  have hv : (GPIO_DATA8_IN (shortpause (GPIO_SET_0 N_READ_ENABLE W))).1 = 128 := by
    rw [wchip_DATA8_IN k _ (by simp [hWl])]
    have h1 : id_first_strobe (shortpause (GPIO_SET_0 N_READ_ENABLE W)).trace = true := by
      show (N_READ_ENABLE == N_READ_ENABLE && ale_just_lowered W.trace) = true
      rw [hWa]
      rfl
    have h2 : status_fail k (shortpause (GPIO_SET_0 N_READ_ENABLE W)).trace = false := by
      show ((N_READ_ENABLE == N_READ_ENABLE && dir_in_just_set W.trace) &&
        Nat.blt (ale_count W.trace) (2 * k + 2)) = false
      rw [hWd]
      rfl
    rw [h1, h2]
    rfl
  have hrest := wchip_read_id_loop_rest k 4 1
    (Function.update (fun _ => 0) 0
      ((GPIO_DATA8_IN (shortpause (GPIO_SET_0 N_READ_ENABLE W))).1 % 256))
    (shortpause (GPIO_SET_1 N_READ_ENABLE
      (GPIO_DATA8_IN (shortpause (GPIO_SET_0 N_READ_ENABLE W))).2))
    (by simp [hWl]) rfl rfl j
  rw [hrest, hv]
  by_cases hj : j = 0
  · subst hj
    simp [chip_id]
  · simp [Function.update, hj, chip_id]

theorem wchip_read_id (k : Nat) (a : Nat → Nat) (w : World) (h : w.lev = wchip_lev k) :
    (read_id (some a) w).ret = 0 ∧ (∀ j, j < 5 → (read_id (some a) w).id j = chip_id j) ∧
      (read_id (some a) w).w.lev = wchip_lev k ∧
      ale_count (read_id (some a) w).w.trace = ale_count w.trace + 1 := by
  have hz := wchip_read_id_capture k w h
  refine ⟨?_, ?_, ?_, ale_count_read_id _ w⟩
  · apply read_id_ret_zero
    rw [hz 0, hz 1]
    simp [chip_id]
  · intro j hj
    rw [(read_id_eq (some a) w).2.2.2]
    simp [memcpy, hj, hz]
  · rw [(read_id_eq (some a) w).2.2.1]
    simp [h]

theorem wchip_busy (k : Nat) (w : World) (h : w.lev = wchip_lev k) :
    (GPIO_READ N_READ_BUSY w).1 ≠ 0 := by
  rw [(wchip_READ k w h).1]
  decide

theorem status_result_none (c : WCfg) (h : c.pc ≠ .status) : c.status_result = none := by
  simp [WCfg.status_result, h]

theorem status_result_some (c : WCfg) (h : c.pc = .status) :
    c.status_result = some (read_status c.w).1 := by
  simp [WCfg.status_result, h]

theorem wchip_step_for (k : Nat) (c : WCfg) (rc a : Nat) (h : wchip_state k c .for_cond rc a) :
    wchip_state k (write_pages_step c) .retry_all rc a := by
  obtain ⟨g1, g2, g3, g4, g5, hpc, hrc, ha⟩ := h
  have hlt : c.page < c.first_page_number + c.number_of_pages := by
    rw [g3, g4, g5]; decide
  have hstep : write_pages_step c = { c with pc := .retry_all } := by
    simp only [write_pages_step, hpc, hlt, if_true]
  rw [hstep]
  exact ⟨g1, g2, g3, g4, g5, rfl, hrc, ha⟩

theorem wchip_step_retry_all (k : Nat) (c : WCfg) (rc a : Nat)
    (h : wchip_state k c .retry_all rc a) :
    wchip_state k (write_pages_step c) .retry rc a := by
  obtain ⟨g1, g2, g3, g4, g5, hpc, hrc, ha⟩ := h
  have hl : (write_pages_step c).w.lev = c.w.lev ∧
      ale_count (write_pages_step c).w.trace = ale_count c.w.trace := by
    simp only [write_pages_step, hpc]
    split <;> exact ⟨rfl, rfl⟩
  refine ⟨hl.1.trans g1, ?_, ?_, ?_, ?_, ?_, ?_, hl.2.trans ha⟩
  · simpa [write_pages_step, hpc] using g2
  · simpa [write_pages_step, hpc] using g3
  · simpa [write_pages_step, hpc] using g4
  · simpa [write_pages_step, hpc] using g5
  · simp [write_pages_step, hpc]
  · simpa [write_pages_step, hpc] using hrc

theorem wchip_step_retry (k : Nat) (c : WCfg) (rc a : Nat) (h : wchip_state k c .retry rc a) :
    wchip_state k (write_pages_step c) .busy rc (a + 2) := by
  obtain ⟨g1, g2, g3, g4, g5, hpc, hrc, ha⟩ := h
  obtain ⟨_, q2, q3, q4⟩ := wchip_read_id k c.id2 c.w g1
  have hd : memcmp_ne c.id (read_id (some c.id2) c.w).id 5 = false := by
    simp only [memcmp_ne, List.any_eq_false, List.mem_range]
    intro x hx
    rw [g2 x hx, q2 x hx]
    simp
  have hstep : write_pages_step c =
      { c with
        pc := .busy
        id2 := (read_id (some c.id2) c.w).id
        w := send_write_command c.page c.buf (read_id (some c.id2) c.w).w } := by
    simp only [write_pages_step, hpc, hd, Bool.false_eq_true, if_false]
  rw [hstep]
  refine ⟨?_, g2, g3, g4, g5, rfl, hrc, ?_⟩
  · show (send_write_command c.page c.buf (read_id (some c.id2) c.w).w).lev = _
    simp [q3]
  · show ale_count (send_write_command c.page c.buf (read_id (some c.id2) c.w).w).trace = _
    rw [ale_count_send_write_command, q4, ha]

theorem wchip_step_busy (k : Nat) (c : WCfg) (rc a : Nat) (h : wchip_state k c .busy rc a) :
    wchip_state k (write_pages_step c) .status rc a := by
  obtain ⟨g1, g2, g3, g4, g5, hpc, hrc, ha⟩ := h
  have hr := wchip_busy k c.w g1
  have hstep : write_pages_step c = { c with pc := .status, w := (GPIO_READ N_READ_BUSY c.w).2 } := by
    simp only [write_pages_step, hpc, hr, if_false]
  rw [hstep]
  exact ⟨g1, g2, g3, g4, g5, rfl, hrc, ha⟩

theorem wchip_step_status_fail (k : Nat) (c : WCfg) (rc a : Nat)
    (h : wchip_state k c .status rc a) (hlt : a < 2 * k + 2) (hrc5 : rc < 5) :
    wchip_state k (write_pages_step c) .retry_all (rc + 1) a ∧ c.status_result = some 1 := by
  obtain ⟨g1, g2, g3, g4, g5, hpc, hrc, ha⟩ := h
  have hs : (read_status c.w).1 = 1 := by
    rw [wchip_read_status k c.w g1, ha, if_pos hlt]
  have hlt' : c.retry_count < 5 := by rw [hrc]; exact hrc5
  obtain ⟨W, hW, hWl, hWa⟩ : ∃ W : World,
      write_pages_step c = { c with pc := .retry_all, w := W, retry_count := c.retry_count + 1 } ∧
      W.lev = c.w.lev ∧ ale_count W.trace = ale_count c.w.trace := by
    refine ⟨(write_pages_step c).w, by simp [write_pages_step, hpc, hs, hlt'], ?_, ?_⟩
    · simp only [write_pages_step, hpc, hs, hlt']
      simp only [ne_eq, one_ne_zero, not_false_eq_true, if_true]
      split <;> simp
    · simp only [write_pages_step, hpc, hs, hlt']
      simp only [ne_eq, one_ne_zero, not_false_eq_true, if_true]
      split <;> simp [ale_count_print, ale_count_read_status]
  rw [hW]
  refine ⟨⟨hWl.trans g1, g2, g3, g4, g5, rfl, by show c.retry_count + 1 = rc + 1; rw [hrc],
    hWa.trans ha⟩, ?_⟩
  rw [status_result_some c hpc, hs]

theorem wchip_step_status_ok (k : Nat) (c : WCfg) (rc a : Nat)
    (h : wchip_state k c .status rc a) (hge : ¬ a < 2 * k + 2) :
    (write_pages_step c).page = c.page + 1 ∧ c.status_result = some 0 := by
  obtain ⟨g1, g2, g3, g4, g5, hpc, hrc, ha⟩ := h
  have hs : (read_status c.w).1 = 0 := by
    rw [wchip_read_status k c.w g1, ha, if_neg hge]
  refine ⟨?_, by rw [status_result_some c hpc, hs]⟩
  simp [write_pages_step, hpc, hs]

theorem wchip_start (k : Nat) (infile : List Nat) (id0 id2 buf0 : Nat → Nat) (w : World)
    (hw : w.lev = wchip_lev k) (ht : ale_count w.trace = 0) :
    wchip_state k (write_pages_start 7 1 true infile id0 id2 buf0 w) .for_cond 0 1 := by
  obtain ⟨q1, q2, q3, q4⟩ := wchip_read_id k id0 w hw
  generalize hq : read_id (some id0) w = q at q1 q2 q3 q4
  have hstart : write_pages_start 7 1 true infile id0 id2 buf0 w =
      { pc := .for_cond, first_page_number := 7, number_of_pages := 1, page := 7,
        retry_count := 0, id := q.id, id2 := id2, buf := buf0, infile := infile, fpos := 0,
        fops := [], w := (((print_id q.id q.w).print .abort_hint).print .start_writing) } := by
    unfold write_pages_start
    simp only [hq]
    rw [if_neg (by rw [q1]; decide)]
    simp
  rw [hstart]
  refine ⟨?_, q2, rfl, rfl, rfl, rfl, rfl, ?_⟩
  · show (((print_id _ _).print _).print _).lev = _
    simp [print_id, q3]
  · show ale_count (((print_id _ _).print _).print _).trace = 1
    simp only [print_id, ale_count_print, q4, ht]

theorem wcfg_chip_state : wchip_state 1 wcfg_chip .for_cond 0 1 :=
  wchip_start 1 _ _ _ _ (wchip_world 1) rfl rfl

/-- On the chip whose first operation fails, `write_pages(7, 1, ..)` makes nine
steps up to the one that moves on to page 8: the first status check reports an
error, the second one success. -/
theorem wcfg_chip_run :
    wcfg_chip.pc = .for_cond ∧ wcfg_chip.retry_count = 0 ∧ wcfg_chip.page = ((7 : Nat) : Int) ∧
      wcfg_chip.page < wcfg_chip.first_page_number + wcfg_chip.number_of_pages ∧
      (∀ j, j < 9 → (write_pages_step^[j] wcfg_chip).page = wcfg_chip.page) ∧
      (write_pages_step^[9] wcfg_chip).page = wcfg_chip.page + 1 ∧
      observe write_pages_step WCfg.status_result wcfg_chip 9 = [1, 0] := by
  have s0 := wcfg_chip_state
  generalize wcfg_chip = c at s0 ⊢
  have s1 := wchip_step_for 1 _ _ _ s0
  generalize h1 : write_pages_step c = c1 at s1
  have s2 := wchip_step_retry_all 1 _ _ _ s1
  generalize h2 : write_pages_step c1 = c2 at s2
  have s3 := wchip_step_retry 1 _ _ _ s2
  generalize h3 : write_pages_step c2 = c3 at s3
  have s4 := wchip_step_busy 1 _ _ _ s3
  generalize h4 : write_pages_step c3 = c4 at s4
  obtain ⟨s5, o4⟩ := wchip_step_status_fail 1 _ _ _ s4 (by decide) (by decide)
  generalize h5 : write_pages_step c4 = c5 at s5
  have s6 := wchip_step_retry_all 1 _ _ _ s5
  generalize h6 : write_pages_step c5 = c6 at s6
  have s7 := wchip_step_retry 1 _ _ _ s6
  generalize h7 : write_pages_step c6 = c7 at s7
  have s8 := wchip_step_busy 1 _ _ _ s7
  generalize h8 : write_pages_step c7 = c8 at s8
  obtain ⟨p9, o8⟩ := wchip_step_status_ok 1 _ _ _ s8 (by decide)
  have e0 : write_pages_step^[0] c = c := rfl
  have e1 : write_pages_step^[1] c = c1 := by
    rw [Function.iterate_succ_apply', e0, h1]
  have e2 : write_pages_step^[2] c = c2 := by
    rw [Function.iterate_succ_apply', e1, h2]
  have e3 : write_pages_step^[3] c = c3 := by
    rw [Function.iterate_succ_apply', e2, h3]
  have e4 : write_pages_step^[4] c = c4 := by
    rw [Function.iterate_succ_apply', e3, h4]
  have e5 : write_pages_step^[5] c = c5 := by
    rw [Function.iterate_succ_apply', e4, h5]
  have e6 : write_pages_step^[6] c = c6 := by
    rw [Function.iterate_succ_apply', e5, h6]
  have e7 : write_pages_step^[7] c = c7 := by
    rw [Function.iterate_succ_apply', e6, h7]
  have e8 : write_pages_step^[8] c = c8 := by
    rw [Function.iterate_succ_apply', e7, h8]
  have e9 : write_pages_step^[9] c = write_pages_step c8 := by
    rw [Function.iterate_succ_apply', e8]
  have hp : c.page = 7 := s0.2.2.2.2.1
  refine ⟨s0.2.2.2.2.2.1, s0.2.2.2.2.2.2.1, by rw [hp]; rfl, ?_, ?_, ?_, ?_⟩
  · rw [hp, s0.2.2.1, s0.2.2.2.1]
    decide
  · intro j hj
    rw [hp]
    interval_cases j
    · rw [e0]; exact hp
    · rw [e1]; exact s1.2.2.2.2.1
    · rw [e2]; exact s2.2.2.2.2.1
    · rw [e3]; exact s3.2.2.2.2.1
    · rw [e4]; exact s4.2.2.2.2.1
    · rw [e5]; exact s5.2.2.2.2.1
    · rw [e6]; exact s6.2.2.2.2.1
    · rw [e7]; exact s7.2.2.2.2.1
    · rw [e8]; exact s8.2.2.2.2.1
  · rw [e9, p9, s8.2.2.2.2.1, hp]
  · have n0 := status_result_none c (by rw [s0.2.2.2.2.2.1]; simp)
    have n1 := status_result_none c1 (by rw [s1.2.2.2.2.2.1]; simp)
    have n2 := status_result_none c2 (by rw [s2.2.2.2.2.2.1]; simp)
    have n3 := status_result_none c3 (by rw [s3.2.2.2.2.2.1]; simp)
    have n5 := status_result_none c5 (by rw [s5.2.2.2.2.2.1]; simp)
    have n6 := status_result_none c6 (by rw [s6.2.2.2.2.2.1]; simp)
    have n7 := status_result_none c7 (by rw [s7.2.2.2.2.2.1]; simp)
    have hobs : observe write_pages_step WCfg.status_result c 9 =
        observe write_pages_step WCfg.status_result c 0 ++
          (WCfg.status_result (write_pages_step^[0] c)).toList ++
          (WCfg.status_result (write_pages_step^[1] c)).toList ++
          (WCfg.status_result (write_pages_step^[2] c)).toList ++
          (WCfg.status_result (write_pages_step^[3] c)).toList ++
          (WCfg.status_result (write_pages_step^[4] c)).toList ++
          (WCfg.status_result (write_pages_step^[5] c)).toList ++
          (WCfg.status_result (write_pages_step^[6] c)).toList ++
          (WCfg.status_result (write_pages_step^[7] c)).toList ++
          (WCfg.status_result (write_pages_step^[8] c)).toList := by
      rw [observe_succ _ _ _ 8, observe_succ _ _ _ 7, observe_succ _ _ _ 6, observe_succ _ _ _ 5,
        observe_succ _ _ _ 4, observe_succ _ _ _ 3, observe_succ _ _ _ 2, observe_succ _ _ _ 1,
        observe_succ _ _ _ 0]
    rw [hobs, e0, e1, e2, e3, e4, e5, e6, e7, e8, n0, n1, n2, n3, o4, n5, n6, n7, o8]
    rfl

theorem read_pages_items_grow (s0 l0 : Nat → Nat) (c0 : RCfg) (K : Nat) :
    ∃ L, items s0 l0 (read_pages_step^[K] c0).w.trace = items s0 l0 c0.w.trace ++ L :=
  (sent_since_run read_pages_step RCfg.w _ s0 l0 (read_pages_step_sent s0 l0) c0 K).1

theorem read_pages_step_busy_from (c : RCfg) (h : (read_pages_step c).pc = .busy) :
    (c.pc = .retry ∧ c.id_drift = false ∧ (read_pages_step c).page_no = c.page_no) ∨
      (c.pc = .busy ∧ (GPIO_READ N_READ_BUSY c.w).1 = 0 ∧
        (read_pages_step c).page_no = c.page_no) := by
  rcases hc : c.pc with _ | _ | _ | _ | _ | _ | _ | r
  · simp only [read_pages_step, hc] at h
    split at h <;> simp at h
  · simp only [read_pages_step, hc] at h
    simp at h
  · by_cases hd : memcmp_ne c.id (read_id (some c.id2) c.w).id 5 = true
    · simp only [read_pages_step, hc, hd, if_true] at h
      simp at h
    · have hd' : memcmp_ne c.id (read_id (some c.id2) c.w).id 5 = false := by simpa using hd
      refine Or.inl ⟨rfl, hd', ?_⟩
      simp only [read_pages_step, hc, hd']
      rfl
  · by_cases hr : (GPIO_READ N_READ_BUSY c.w).1 = 0
    · refine Or.inr ⟨rfl, hr, ?_⟩
      simp only [read_pages_step, hc, hr, if_true]
    · simp only [read_pages_step, hc, hr, if_false] at h
      simp at h
  · simp only [read_pages_step, hc] at h
    split at h <;> simp at h
  · simp only [read_pages_step, hc] at h
    split at h
    · split at h <;> simp at h
    · simp at h
  · simp only [read_pages_step, hc] at h
    split at h <;> simp at h
  · simp only [read_pages_step, hc] at h
    simp at h

/-- While `read_pages` waits for the busy line, the last thing that the chip
saw is the Read Page transaction for `page_no`, not yet answered. -/
theorem read_pages_open_read (s0 l0 : Nat → Nat) (c0 : RCfg) (hpc : c0.pc ≠ .busy) :
    ∀ K, (read_pages_step^[K] c0).pc = .busy →
      ∃ Y, cycles_since s0 l0 (read_pages_step^[K] c0).w c0.w =
        Y ++ read_cycles (read_pages_step^[K] c0).page_no [] := by
  intro K
  induction K with
  | zero => intro h; exact absurd h hpc
  | succ K ih =>
    intro h
    obtain ⟨L, hL⟩ := read_pages_items_grow s0 l0 c0 K
    rw [Function.iterate_succ_apply'] at h ⊢
    generalize read_pages_step^[K] c0 = c at h ih hL ⊢
    obtain ⟨S, hS, hbusy, hretry, _⟩ := read_pages_step_bus s0 l0 c
    have hL2 : items s0 l0 (read_pages_step c).w.trace = items s0 l0 c0.w.trace ++ (L ++ S) := by
      rw [hS, hL, List.append_assoc]
    rw [cycles_since_eq s0 l0 _ _ _ hL2]
    rcases read_pages_step_busy_from c h with ⟨hr, hd, hpn⟩ | ⟨hb, hlow, hpn⟩
    · obtain ⟨bs, hc⟩ := hretry hr
      rw [hc L, hd, hpn]
      exact ⟨cycles L ++ [⟨0x90, [0], [], bs⟩], by simp⟩
    · obtain ⟨Y, hY⟩ := ih hb
      rw [cycles_since_eq s0 l0 _ _ _ hL] at hY
      rw [(hbusy hb).2.1 hlow, List.append_nil, hpn]
      exact ⟨Y, hY⟩

theorem extend_last_ne_nil (X : List Cycle) (S : List Item) (h : X ≠ []) :
    extend_last X S ≠ [] := by
  cases X with
  | nil => exact absurd rfl h
  | cons c t =>
    by_cases ht : t = []
    · subst ht
      simp [extend_last]
    · rw [extend_last_cons _ _ _ ht]
      simp

/-- After a point of the run at which `read_pages` is not waiting for the busy
line, the cycles seen so far are not changed any more: later cycles are
appended. -/
theorem read_pages_cycles_grow (s0 l0 : Nat → Nat) (c0 : RCfg) (a : Nat)
    (ha : (read_pages_step^[a] c0).pc ≠ .busy) :
    ∀ n, ∃ X, cycles_since s0 l0 (read_pages_step^[a + n] c0).w c0.w =
        cycles_since s0 l0 (read_pages_step^[a] c0).w c0.w ++ X ∧
      ((read_pages_step^[a + n] c0).pc = .busy → X ≠ []) := by
  intro n
  induction n with
  | zero => exact ⟨[], by simp, fun h => absurd h ha⟩
  | succ n ih =>
    obtain ⟨X, hX, hne⟩ := ih
    obtain ⟨L, hL⟩ := read_pages_items_grow s0 l0 c0 (a + n)
    rw [show a + (n + 1) = (a + n) + 1 by omega, Function.iterate_succ_apply']
    generalize read_pages_step^[a + n] c0 = c at hX hne hL ⊢
    obtain ⟨S, hS, hbusy, hretry, hother⟩ := read_pages_step_bus s0 l0 c
    have hL2 : items s0 l0 (read_pages_step c).w.trace = items s0 l0 c0.w.trace ++ (L ++ S) := by
      rw [hS, hL, List.append_assoc]
    rw [cycles_since_eq s0 l0 _ _ _ hL2]
    rw [cycles_since_eq s0 l0 _ _ _ hL] at hX
    by_cases hb : c.pc = .busy
    · obtain ⟨h1, _, _⟩ := hbusy hb
      rw [cycles_append_body L S (fun y hy => (h1 y hy).1), hX,
        extend_last_append_right _ _ _ (hne hb)]
      exact ⟨extend_last X S, rfl, fun _ => extend_last_ne_nil _ _ (hne hb)⟩
    · by_cases hr : c.pc = .retry
      · obtain ⟨bs, hc⟩ := hretry hr
        rw [hc L, hX, List.append_assoc]
        exact ⟨_, rfl, fun _ => by simp⟩
      · rw [hother hb hr, List.append_nil, hX]
        refine ⟨X, rfl, fun h => ?_⟩
        rcases read_pages_step_busy_from c h with ⟨h1, _, _⟩ | ⟨h1, _, _⟩
        · exact absurd h1 hr
        · exact absurd h1 hb

/-- Every step of `read_pages` that reads the chip out answers a Read Page
transaction that the chip saw for `page_no`: the bytes that cross the bus as
the answer are the bytes that the step stores in the buffer. -/
theorem read_answer_on_bus (s0 l0 : Nat → Nat) (c0 : RCfg) (hpc : c0.pc ≠ .busy) (i K N : Nat)
    (hi : i < K) (hb : (read_pages_step^[i] c0).pc = .busy)
    (hr : (GPIO_READ N_READ_BUSY (read_pages_step^[i] c0).w).1 ≠ 0)
    (hN : (PAGE_SIZE : Int) * Int.land (read_pages_step^[i] c0).page 1 = (N : Int)) :
    read_answer (cycles_since s0 l0 (read_pages_step^[K] c0).w c0.w)
      (read_pages_step^[i] c0).page_no
      ((List.range PAGE_SIZE).map (fun x => (read_pages_step^[i + 1] c0).buf (N + x))) := by
  obtain ⟨Y, hY⟩ := read_pages_open_read s0 l0 c0 hpc i hb
  obtain ⟨L, hL⟩ := read_pages_items_grow s0 l0 c0 i
  have hnext : (read_pages_step^[i + 1] c0).pc ≠ .busy := by
    rw [Function.iterate_succ_apply']
    intro h
    rcases read_pages_step_busy_from _ h with ⟨h1, _, _⟩ | ⟨_, h1, _⟩
    · rw [hb] at h1
      simp at h1
    · exact hr h1
  obtain ⟨X, hX, _⟩ := read_pages_cycles_grow s0 l0 c0 (i + 1) hnext (K - (i + 1))
  rw [show i + 1 + (K - (i + 1)) = K by omega] at hX
  have hstep : cycles_since s0 l0 (read_pages_step^[i + 1] c0).w c0.w =
      Y ++ read_cycles (read_pages_step^[i] c0).page_no
        ((List.range PAGE_SIZE).map (fun x => (read_pages_step^[i + 1] c0).buf (N + x))) := by
    rw [Function.iterate_succ_apply']
    generalize read_pages_step^[i] c0 = c at hb hr hN hY hL ⊢
    obtain ⟨S, hS, hbusy, _, _⟩ := read_pages_step_bus s0 l0 c
    obtain ⟨h1, _, h3⟩ := hbusy hb
    have hL2 : items s0 l0 (read_pages_step c).w.trace = items s0 l0 c0.w.trace ++ (L ++ S) := by
      rw [hS, hL, List.append_assoc]
    rw [cycles_since_eq s0 l0 _ _ _ hL] at hY
    have hb0 : S.filterMap Item.addr = [] := by
      rw [List.filterMap_eq_nil_iff]
      exact fun y hy => (h1 y hy).2.1
    have hb1 : S.filterMap Item.data = [] := by
      rw [List.filterMap_eq_nil_iff]
      exact fun y hy => (h1 y hy).2.2
    rw [cycles_since_eq s0 l0 _ _ _ hL2, cycles_append_body L S (fun y hy => (h1 y hy).1), hY]
    have e : Y ++ read_cycles c.page_no [] =
        (Y ++ [⟨0x00, address_bytes c.page_no 0, [], []⟩]) ++ [⟨0x30, [], [], []⟩] := by
      simp [read_cycles]
    rw [e, extend_last_append]
    simp [Cycle.extend, hb0, hb1, h3 hr N hN, read_cycles]
  rw [hX, hstep]
  refine ⟨Y.length, ?_, ?_⟩
  · rw [List.append_assoc, List.getElem?_append_right (le_refl _)]
    simp only [Nat.sub_self, read_cycles]
    rfl
  · rw [List.append_assoc, List.getElem?_append_right (by omega)]
    simp only [Nat.add_sub_cancel_left, read_cycles, List.cons_append, List.getElem?_cons_succ,
      List.getElem?_cons_zero]

/-! ### Read transactions of one page -/

theorem page_inv_step (c0 : RCfg) (m K : Nat) (reads : List (Nat × List Nat × List Nat))
    (cmps : List Bool)
    (h : page_inv c0 m K (read_pages_step^[K] c0) reads cmps)
    (hin : 2 * (m : Int) + 1 < (c0.first_page_number + c0.number_of_pages) * 2)
    (hsame : (read_pages_step^[K + 1] c0).sink = (read_pages_step^[K] c0).sink) :
    page_inv c0 m (K + 1) (read_pages_step^[K + 1] c0)
      (reads ++ (if (read_pages_step^[K] c0).pc = .retry ∧
          (read_pages_step^[K] c0).id_drift = false then
        read_sent (read_pages_step^[K] c0).page_no else []))
      (cmps ++ (read_pages_step^[K] c0).compare_result.toList) := by
  rw [Function.iterate_succ_apply'] at hsame ⊢
  generalize hcdef : read_pages_step^[K] c0 = c at h hsame ⊢
  obtain ⟨h1, h2, h3, h4, h5, h6, h7⟩ := h
  rcases hpc : c.pc with _ | _ | _ | _ | _ | _ | _ | r
  · -- for_cond
    simp only [hpc] at h7
    obtain ⟨hcm, hbl, hp⟩ := h7
    have hlt : c.page < (c.first_page_number + c.number_of_pages) * 2 := by
      rw [h1, h2]
      rcases hp with ⟨hp, _⟩ | ⟨hp, _⟩ <;> rw [hp] <;> omega
    simp only [read_pages_step, hpc, hlt, if_true, RCfg.compare_result]
    simp only [reduceCtorEq, false_and, if_false, Option.toList, List.append_nil]
    refine ⟨h1, h2, h3, h4, h5, h6, hcm, hbl, ?_⟩
    rcases hp with ⟨hp, hrc, hr⟩ | ⟨hp, hr, hb⟩
    · exact Or.inl ⟨hp, by rw [hr]; show [] = (List.replicate (2 * c.retry_count) (read_sent (m : Int))).flatten; rw [hrc]; rfl⟩
    · exact Or.inr ⟨hp, hr, buf_from_mono c0 K _ _ _ hb (fun _ _ => rfl)⟩
  · -- retry_all
    simp only [hpc] at h7
    obtain ⟨hcm, hbl, hp⟩ := h7
    simp only [read_pages_step, hpc, RCfg.compare_result]
    simp only [reduceCtorEq, false_and, if_false, Option.toList, List.append_nil]
    refine ⟨h1, h2, h3, h4, h5, ?_, ?_, hcm, hbl, ?_⟩
    · show (if c.page.tmod 2 = 0 ∧ c.retry_count = 0 then _ else c.w).stdout.count .read_retry = _
      split
      · simpa using h6
      · exact h6
    · show c.page >>> (1 : Int) = _
      rcases hp with ⟨hp, _⟩ | ⟨hp, _⟩
      · rw [hp, shr_even]
      · rw [hp, shr_odd]
    · rcases hp with ⟨hp, hr⟩ | ⟨hp, hr, hb⟩
      · exact Or.inl ⟨hp, hr⟩
      · exact Or.inr ⟨hp, hr, buf_from_mono c0 K _ _ _ hb (fun _ _ => rfl)⟩
  · -- retry
    simp only [hpc] at h7
    obtain ⟨hpn, hcm, hbl, hp⟩ := h7
    by_cases hd : memcmp_ne c.id (read_id (some c.id2) c.w).id 5 = true
    · simp only [read_pages_step, hpc, hd, if_true, RCfg.compare_result, RCfg.id_drift]
      simp only [reduceCtorEq, and_false, if_false, Option.toList, List.append_nil]
      refine ⟨h1, h2, h3, h4, h5, ?_, hpn, hcm, hbl, ?_⟩
      · simp [read_id_count_read_retry, h6]
      · rcases hp with ⟨hp, hr⟩ | ⟨hp, hr, hb⟩
        · exact Or.inl ⟨hp, hr⟩
        · exact Or.inr ⟨hp, hr, buf_from_mono c0 K _ _ _ hb (fun _ _ => rfl)⟩
    · have hd' : memcmp_ne c.id (read_id (some c.id2) c.w).id 5 = false := by simpa using hd
      simp only [read_pages_step, hpc, hd', RCfg.compare_result, RCfg.id_drift]
      simp only [reduceCtorEq, Bool.false_eq_true, and_self, if_true, if_false, Option.toList,
        List.append_nil]
      refine ⟨h1, h2, h3, h4, h5, ?_, hpn, hcm, hbl, ?_⟩
      · simp [read_id_count_read_retry, h6]
      · rcases hp with ⟨hp, hr⟩ | ⟨hp, hr, hb⟩
        · refine Or.inl ⟨hp, ?_⟩
          show reads ++ read_sent c.page_no = _
          rw [hr, hpn]
          exact (replicate_flatten_succ _ _).symm
        · refine Or.inr ⟨hp, ?_, buf_from_mono c0 K _ _ _ hb (fun _ _ => rfl)⟩
          show reads ++ read_sent c.page_no = _
          rw [hr, hpn]
          exact (replicate_flatten_succ _ _).symm
  · -- busy
    simp only [hpc] at h7
    obtain ⟨hpn, hcm, hbl, hp⟩ := h7
    have ho : cmps ++ c.compare_result.toList = cmps := by
      simp [RCfg.compare_result, hpc]
    rw [ho]
    simp only [reduceCtorEq, false_and, if_false, List.append_nil]
    by_cases hr : (GPIO_READ N_READ_BUSY c.w).1 = 0
    · simp only [read_pages_step, hpc, hr, if_true]
      refine ⟨h1, h2, h3, h4, h5, ?_, hpn, hcm, hbl, ?_⟩
      · simpa using h6
      · rcases hp with ⟨hp, hr⟩ | ⟨hp, hr, hb⟩
        · exact Or.inl ⟨hp, hr⟩
        · exact Or.inr ⟨hp, hr, buf_from_mono c0 K _ _ _ hb (fun _ _ => rfl)⟩
    · obtain ⟨B, hB⟩ : ∃ B, B = read_pages_byte_loop ((PAGE_SIZE : Int) * Int.land c.page 1)
          PAGE_SIZE 0 c.buf (set_data_direction_in (GPIO_READ N_READ_BUSY c.w).2) := ⟨_, rfl⟩
      have hstep : read_pages_step c = { c with pc := .after_read, buf := B.1, w := B.2 } := by
        rw [hB]
        simp only [read_pages_step, hpc, hr, if_false]
      have hlow : c.page = 2 * (m : Int) + 1 → ∀ x, x < PAGE_SIZE → B.1 x = c.buf x := by
        intro hp x hx
        rw [hB]
        apply read_pages_byte_loop_low _ _ _ _ _ _ _ hx
        rw [hp, land_one_odd]
        norm_num
      have hcnt : B.2.stdout.count .read_retry = c.w.stdout.count .read_retry := by
        rw [hB, byte_loop_count_read_retry]
        simp
      clear hB
      rw [hstep]
      refine ⟨h1, h2, h3, h4, h5, hcnt.trans h6, hpn, hcm, hbl, ?_, ?_⟩
      · rcases hp with ⟨hp, _⟩ | ⟨hp, _, hb⟩
        · refine ⟨K, Nat.lt_succ_self K, ⟨by rw [hcdef]; exact hpc, by rw [hcdef]; exact hr,
            by rw [hcdef]; exact hp, by rw [hcdef]; exact hpn⟩, ?_⟩
          intro x _
          have e : read_pages_step^[K + 1] c0 = read_pages_step c := by
            rw [Function.iterate_succ_apply', hcdef]
          exact (congrArg (fun d : RCfg => d.buf x) (e.trans hstep)).symm
        · exact buf_from_mono c0 K _ _ _ hb (hlow hp)
      · rcases hp with ⟨hp, hr⟩ | ⟨hp, hr, _⟩
        · exact Or.inl ⟨hp, hr⟩
        · exact Or.inr ⟨hp, hr⟩
  · -- after_read
    simp only [hpc] at h7
    obtain ⟨hpn, hcm, hbl, hb, hp⟩ := h7
    have hb' := buf_from_mono c0 K _ _ _ hb (fun _ _ => rfl)
    have ho : cmps ++ c.compare_result.toList = cmps := by
      simp [RCfg.compare_result, hpc]
    rw [ho]
    simp only [reduceCtorEq, false_and, if_false, List.append_nil]
    simp only [read_pages_step, hpc]
    rcases hp with ⟨hp, hr⟩ | ⟨hp, hr⟩
    · rw [if_pos (by rw [hp, land_one_even]; norm_num)]
      exact ⟨h1, h2, h3, h4, h5, h6, hcm, hbl, Or.inr ⟨by show c.page + 1 = _; rw [hp], hr, hb'⟩⟩
    · rw [if_neg (by rw [hp, land_one_odd]; norm_num [PAGE_SIZE])]
      exact ⟨h1, h2, h3, h4, h5, h6, hpn, hcm, hbl, hb', hp, hr⟩
  · -- compare
    simp only [hpc] at h7
    obtain ⟨hpn, hcm, hbl, hb, hp, hr⟩ := h7
    have hb' := buf_from_mono c0 K _ _ _ hb (fun _ _ => rfl)
    simp only [reduceCtorEq, false_and, if_false, List.append_nil]
    by_cases hm : memcmp_ne c.buf (fun i => c.buf (i + PAGE_SIZE)) PAGE_SIZE = true
    · have hcr : c.compare_result.toList = [true] := by
        simp [RCfg.compare_result, hpc, hm]
      rw [hcr]
      by_cases hlt : c.retry_count < 5
      · simp only [read_pages_step, hpc, hm, hlt, if_true]
        refine ⟨h1, h2, h3, h4, Nat.succ_le_of_lt hlt, ?_, ?_, hbl, Or.inl ⟨?_, ?_⟩⟩
        · show ((if c.retry_count = 0 then c.w.print .newline else c.w).print .read_retry).stdout.count
            .read_retry = _
          split <;> simp [World.print, h6] <;> omega
        · show cmps ++ [true] = List.replicate (c.retry_count + 1) true
          rw [hcm, List.replicate_succ']
        · show Int.land c.page (~~~(1 : Int)) = _
          rw [hp, land_not_one_odd]
        · show reads = (List.replicate (2 * (c.retry_count + 1)) (read_sent (m : Int))).flatten
          rw [hr]
          rfl
      · have h55 : c.retry_count = 5 := by omega
        simp only [read_pages_step, hpc, hm, hlt, if_true, if_false]
        refine ⟨h1, h2, h3, h4, h5, ?_, hpn, hb', hp, hr, Or.inr ⟨h55, ?_, ?_⟩⟩
        · show ((if c.retry_count = 0 then c.w.print .newline else c.w).print
            .too_many_retries).stdout.count .read_retry = _
          split <;> simp [World.print, h6]
        · rw [hcm, h55]
          rfl
        · show c.badlog ++ [c.page_no] = _
          rw [hbl, hpn]
    · have hm' : memcmp_ne c.buf (fun i => c.buf (i + PAGE_SIZE)) PAGE_SIZE = false := by
        simpa using hm
      have hcr : c.compare_result.toList = [false] := by
        simp [RCfg.compare_result, hpc, hm']
      rw [hcr]
      simp only [read_pages_step, hpc, hm', Bool.false_eq_true, if_false]
      exact ⟨h1, h2, h3, h4, h5, h6, hpn, hb', hp, hr, Or.inl ⟨by rw [hcm], hbl, hm'⟩⟩
  · -- write
    simp only [read_pages_step, hpc] at hsame ⊢
    split at hsame
    · simp at hsame
    · rename_i hf
      simp only [hf]
      exact ⟨h1, h2, h3, h4, h5, by simpa using h6, trivial⟩
  · -- exit
    simp only [read_pages_step, hpc]
    exact ⟨h1, h2, h3, h4, h5, h6, by rw [hpc]; trivial⟩

theorem page_inv_run (s0 l0 : Nat → Nat) (c0 : RCfg) (m : Nat) (hpc : c0.pc = .for_cond)
    (hrc : c0.retry_count = 0) (hpage : c0.page = 2 * (m : Int))
    (hin : c0.page < (c0.first_page_number + c0.number_of_pages) * 2) :
    ∀ K : Nat, (∀ j, j ≤ K → (read_pages_step^[j] c0).sink = c0.sink) →
      page_inv c0 m K (read_pages_step^[K] c0)
        (sent_since s0 l0 (read_pages_step^[K] c0).w c0.w)
        (observe read_pages_step RCfg.compare_result c0 K) := by
  intro K
  induction K with
  | zero =>
    intro _
    refine ⟨rfl, rfl, rfl, rfl, by show c0.retry_count ≤ 5; omega,
      by show c0.w.stdout.count .read_retry = c0.w.stdout.count .read_retry + c0.retry_count
         omega, ?_⟩
    show match c0.pc with
      | .for_cond => _
      | .retry_all => _
      | .retry => _
      | .busy => _
      | .after_read => _
      | .compare => _
      | .write => _
      | .exit _ => _
    rw [hpc]
    refine ⟨?_, rfl, Or.inl ⟨hpage, hrc, ?_⟩⟩
    · show observe read_pages_step RCfg.compare_result c0 0 = List.replicate c0.retry_count true
      rw [hrc]
      rfl
    · exact sent_since_self s0 l0 c0.w
  | succ K ih =>
    intro h
    rw [(sent_since_run read_pages_step RCfg.w _ s0 l0 (read_pages_step_sent s0 l0) c0 K).2,
      observe_succ]
    apply page_inv_step c0 m K _ _ (ih (fun j hj => h j (by omega)))
    · rw [hpage] at hin
      omega
    · rw [h (K + 1) (le_refl _), h K (by omega)]

/-- The step that appends the record is the `fwrite`. -/
theorem page_inv_end (c : RCfg) (hs : (read_pages_step c).sink ≠ c.sink) :
    c.pc = .write ∧ (read_pages_step c).pc = .for_cond ∧ (read_pages_step c).retry_count = 0 ∧
      (read_pages_step c).page = c.page + 1 ∧
      (read_pages_step c).sink = c.sink ++ [(List.range (record_len c.write_spare)).map c.buf] ∧
      (read_pages_step c).badlog = c.badlog ∧ (read_pages_step c).w = c.w ∧
      (read_pages_step c).buf = c.buf ∧ c.compare_result = none := by
  rcases hpc : c.pc with _ | _ | _ | _ | _ | _ | _ | r
  · simp only [read_pages_step, hpc] at hs
    split at hs <;> simp at hs
  · simp [read_pages_step, hpc] at hs
  · simp only [read_pages_step, hpc] at hs
    split at hs <;> simp at hs
  · simp only [read_pages_step, hpc] at hs
    split at hs <;> simp at hs
  · simp only [read_pages_step, hpc] at hs
    split at hs <;> simp at hs
  · simp only [read_pages_step, hpc] at hs
    split at hs
    · split at hs <;> simp at hs
    · simp at hs
  · simp only [read_pages_step, hpc] at hs ⊢
    split at hs
    · rename_i hf
      simp only [hf, if_true, RCfg.compare_result, hpc, record_len]
      simp
    · simp at hs
  · simp [read_pages_step, hpc] at hs

/-- What the run of `read_pages` for page `m` looks like at the step `K` that
appends the record of the page: the configuration before that step is at the
`fwrite`, and the invariant holds there. -/
theorem page_inv_last (s0 l0 : Nat → Nat) (c0 : RCfg) (m K : Nat) (hpc : c0.pc = .for_cond)
    (hrc : c0.retry_count = 0) (hpage : c0.page = 2 * (m : Int))
    (hin : c0.page < (c0.first_page_number + c0.number_of_pages) * 2)
    (hstay : ∀ j, j < K → (read_pages_step^[j] c0).sink = c0.sink)
    (hend : (read_pages_step^[K] c0).sink ≠ c0.sink) :
    ∃ K1, K = K1 + 1 ∧
      page_inv c0 m K1 (read_pages_step^[K1] c0)
        (sent_since s0 l0 (read_pages_step^[K] c0).w c0.w)
        (observe read_pages_step RCfg.compare_result c0 K) ∧
      (read_pages_step^[K1] c0).pc = .write ∧ (read_pages_step^[K] c0).pc = .for_cond ∧
      (read_pages_step^[K] c0).retry_count = 0 ∧
      (read_pages_step^[K] c0).page = (read_pages_step^[K1] c0).page + 1 ∧
      (read_pages_step^[K] c0).sink = c0.sink ++
        [(List.range (record_len c0.write_spare)).map (read_pages_step^[K1] c0).buf] ∧
      (read_pages_step^[K] c0).badlog = (read_pages_step^[K1] c0).badlog ∧
      (read_pages_step^[K] c0).w = (read_pages_step^[K1] c0).w ∧
      (read_pages_step^[K] c0).buf = (read_pages_step^[K1] c0).buf := by
  rcases K with _ | K1
  · exact absurd rfl hend
  have hinv := page_inv_run s0 l0 c0 m hpc hrc hpage hin K1 (fun j hj => hstay j (by omega))
  have hK := hstay K1 (by omega)
  refine ⟨K1, rfl, ?_⟩
  rw [Function.iterate_succ_apply'] at hend ⊢
  rw [observe_succ]
  generalize read_pages_step^[K1] c0 = c at *
  obtain ⟨e1, e2, e3, e4, e5, e6, e7, e8, e10⟩ := page_inv_end c (by rw [hK]; exact hend)
  refine ⟨?_, e1, e2, e3, e4, ?_, e6, e7, e8⟩
  · rw [e10, e7]
    simpa using hinv
  · rw [e5, hK, hinv.2.2.1]

theorem read_sent_nat (p : Nat) :
    read_sent (p : Int) =
      [(0x00, [0, 0, p % 256, p / 256 % 256, p / 65536 % 256], []), (0x30, [], [])] := by
  show [(0x00, address_bytes (p : Int) 0, []), (0x30, [], [])] = _
  rw [(address_bytes_nat p).1]

/-- The front of the buffer left by a first read of page `q` is the front of
the answer to a Read Page transaction for page `q` on the bus. -/
theorem first_read_on_bus (s0 l0 : Nat → Nat) (c0 : RCfg) (hpc : c0.pc ≠ .busy) (K i q len : Nat)
    (hi : i < K) (hfr : first_read_at c0 i (q : Int)) (hlen : len ≤ PAGE_SIZE) :
    ∃ j B, B.length = 2112 ∧
      (cycles_since s0 l0 (read_pages_step^[K] c0).w c0.w)[j]? =
        some ⟨0x00, [0, 0, q % 256, q / 256 % 256, q / 65536 % 256], [], []⟩ ∧
      (cycles_since s0 l0 (read_pages_step^[K] c0).w c0.w)[j + 1]? = some ⟨0x30, [], [], B⟩ ∧
      (List.range len).map (read_pages_step^[i + 1] c0).buf = B.take len := by
  obtain ⟨hb, hr, hp, hpn⟩ := hfr
  have hN : (PAGE_SIZE : Int) * Int.land (read_pages_step^[i] c0).page 1 = ((0 : Nat) : Int) := by
    rw [hp, land_one_even]
    rfl
  obtain ⟨j, h1, h2⟩ := read_answer_on_bus s0 l0 c0 hpc i K 0 hi hb hr hN
  rw [hpn, (address_bytes_nat q).1] at h1
  refine ⟨j, _, ?_, h1, h2, ?_⟩
  · simp [PAGE_SIZE]
  · rw [← List.map_take, List.take_range, Nat.min_eq_left hlen]
    simp

/-! ### Records and retries of read_pages (claims C1, C2, C3) -/

/-- C1: for every first page `f ≥ 0` and every `number_of_pages > 0`, whenever
`read_pages` runs to completion (step `K` has left the loop through its test),
the sink holds exactly `number_of_pages` records, each of `record_len
write_spare` bytes (2112 with the spare area, 2048 without), and record `k` is
the front of the 2112 bytes `B` that crossed the bus as the answer to a Read
Page transaction for page `f + k`: the chip saw the command `0x00` with the
five address bytes of page `f + k`, then the command `0x30`, and `B` was
sampled during that cycle.  One record per page, in ascending page order,
whatever ID-drift or content-mismatch retries happened on the way. -/
theorem C1_read_pages_one_record_per_page (s0 l0 : Nat → Nat) (f : Nat) (number_of_pages : Int)
    (fopen_out fopen_badlog : Bool) (fwrite_ok : Nat → Bool) (write_spare : Int)
    (id0 id2 buf0 : Nat → Nat) (w : World) (K : Nat) (c0 : RCfg)
    (hc0 : c0 = read_pages_start (f : Int) number_of_pages fopen_out fopen_badlog fwrite_ok
      write_spare id0 id2 buf0 w)
    (hn : 0 < number_of_pages)
    (hdone : (read_pages_step^[K] c0).pc = .exit none) :
    ((read_pages_step^[K] c0).sink.length : Int) = number_of_pages ∧
      (record_len write_spare = if write_spare ≠ 0 then 2112 else 2048) ∧
      (∀ r ∈ (read_pages_step^[K] c0).sink, r.length = record_len write_spare) ∧
      ∀ k, k < (read_pages_step^[K] c0).sink.length →
        ∃ j B, B.length = 2112 ∧
          (cycles_since s0 l0 (read_pages_step^[K] c0).w c0.w)[j]? =
            some ⟨0x00, [0, 0, (f + k) % 256, (f + k) / 256 % 256, (f + k) / 65536 % 256],
              [], []⟩ ∧
          (cycles_since s0 l0 (read_pages_step^[K] c0).w c0.w)[j + 1]? =
            some ⟨0x30, [], [], B⟩ ∧
          (read_pages_step^[K] c0).sink[k]? = some (B.take (record_len write_spare)) := by
  obtain ⟨hent, e1, e2, e3, e4, _⟩ := read_pages_start_entry (f : Int) number_of_pages fopen_out
    fopen_badlog fwrite_ok write_spare id0 id2 buf0 w
  rw [← hc0] at hent e1 e2 e3 e4
  rcases hent with hx | ⟨hpc, hpage, _⟩
  · have := read_pages_exit_stays c0 _ hx K
    rw [this] at hdone
    simp at hdone
  have hinv := read_inv_run c0 f e1 hpc (by rw [hpage, e1]) e4 (by rw [e2]; omega) K
  obtain ⟨_, _, _, hrec, hlast⟩ := hinv
  rw [hdone] at hlast
  have hlen : ((read_pages_step^[K] c0).sink.length : Int) = c0.number_of_pages := hlast
  have hrecs : ∀ k, k < (read_pages_step^[K] c0).sink.length →
      ∃ j B, B.length = 2112 ∧
        (cycles_since s0 l0 (read_pages_step^[K] c0).w c0.w)[j]? =
          some ⟨0x00, [0, 0, (f + k) % 256, (f + k) / 256 % 256, (f + k) / 65536 % 256],
            [], []⟩ ∧
        (cycles_since s0 l0 (read_pages_step^[K] c0).w c0.w)[j + 1]? =
          some ⟨0x30, [], [], B⟩ ∧
        (read_pages_step^[K] c0).sink[k]? = some (B.take (record_len write_spare)) := by
    intro k hk
    obtain ⟨i, hi, hr, hs⟩ := hrec k hk
    rw [e1] at hr
    rw [e3] at hs
    have hr' : first_read_at c0 i ((f + k : Nat) : Int) := by
      rw [Nat.cast_add]
      exact hr
    obtain ⟨j, B, hB, h1, h2, h3⟩ := first_read_on_bus s0 l0 c0 (by rw [hpc]; simp) K i (f + k)
      (record_len write_spare) hi hr' (record_len_le _)
    exact ⟨j, B, hB, h1, h2, by rw [hs, h3]⟩
  refine ⟨by rw [hlen, e2], by unfold record_len; rfl, ?_, hrecs⟩
  intro r hr
  obtain ⟨k, hk, hget⟩ := List.getElem_of_mem hr
  obtain ⟨j, B, hB, _, _, hs⟩ := hrecs k hk
  rw [List.getElem?_eq_getElem hk, hget] at hs
  rw [Option.some.inj hs, List.length_take, hB]
  have := record_len_le write_spare
  simp only [PAGE_SIZE] at this
  omega

theorem rchip_step_for (fl : Bool) (c : RCfg) (p : Int) (rc a : Nat) (S : List (List Nat))
    (h : rchip_state fl c .for_cond p rc a S) (hp : p < 10) :
    rchip_state fl (read_pages_step c) .retry_all p rc a S ∧ (read_pages_step c).buf = c.buf ∧
      (read_pages_step c).write_spare = c.write_spare ∧
      (read_pages_step c).badlog = c.badlog := by
  obtain ⟨⟨g1, g2, g3, g4, g5⟩, hpc, hpage, hrc, hs, ha⟩ := h
  have hlt : c.page < (c.first_page_number + c.number_of_pages) * 2 := by
    rw [g3, g4, hpage]; omega
  have hstep : read_pages_step c = { c with pc := .retry_all } := by
    simp only [read_pages_step, hpc, hlt, if_true]
  rw [hstep]
  exact ⟨⟨⟨g1, g2, g3, g4, g5⟩, rfl, hpage, hrc, hs, ha⟩, rfl, rfl, rfl⟩

theorem rchip_step_for_exit (fl : Bool) (c : RCfg) (rc a : Nat) (S : List (List Nat))
    (h : rchip_state fl c .for_cond 10 rc a S) :
    (read_pages_step c).pc = .exit none ∧ (read_pages_step c).sink = S := by
  obtain ⟨⟨g1, g2, g3, g4, g5⟩, hpc, hpage, hrc, hs, ha⟩ := h
  have hlt : ¬ c.page < (c.first_page_number + c.number_of_pages) * 2 := by
    rw [g3, g4, hpage]; omega
  have hstep : read_pages_step c = { c with pc := .exit none, w := c.w.print .reading_done } := by
    simp only [read_pages_step, hpc, hlt, if_false]
  rw [hstep]
  exact ⟨rfl, hs⟩

theorem rchip_step_retry_all (fl : Bool) (c : RCfg) (p : Int) (rc a : Nat) (S : List (List Nat))
    (h : rchip_state fl c .retry_all p rc a S) :
    rchip_state fl (read_pages_step c) .retry p rc a S ∧ (read_pages_step c).buf = c.buf ∧
      (read_pages_step c).page_no = p >>> (1 : Int) ∧
      (read_pages_step c).write_spare = c.write_spare ∧
      (read_pages_step c).badlog = c.badlog := by
  obtain ⟨⟨g1, g2, g3, g4, g5⟩, hpc, hpage, hrc, hs, ha⟩ := h
  obtain ⟨W, hW, hWl, hWa⟩ : ∃ W : World,
      read_pages_step c = { c with pc := .retry, page_no := c.page >>> (1 : Int), w := W } ∧
      W.lev = c.w.lev ∧ ale_count W.trace = ale_count c.w.trace := by
    refine ⟨(read_pages_step c).w, by simp only [read_pages_step, hpc], ?_, ?_⟩
    · simp only [read_pages_step, hpc]
      split <;> rfl
    · simp only [read_pages_step, hpc]
      split <;> rfl
  rw [hW]
  exact ⟨⟨⟨hWl.trans g1, g2, g3, g4, g5⟩, rfl, hpage, hrc, hs, by rw [hWa]; exact ha⟩, rfl,
    by rw [← hpage], rfl, rfl⟩

theorem rchip_step_retry (fl : Bool) (c : RCfg) (p : Int) (rc a : Nat) (S : List (List Nat))
    (h : rchip_state fl c .retry p rc a S) (ha13 : a = 1 ∨ a = 3) :
    rchip_state fl (read_pages_step c) .busy p rc ((a + 2) % 4) S ∧
      (read_pages_step c).buf = c.buf ∧ (read_pages_step c).page_no = c.page_no ∧
      (read_pages_step c).write_spare = c.write_spare ∧
      (read_pages_step c).badlog = c.badlog ∧ c.id_drift = false := by
  obtain ⟨⟨g1, g2, g3, g4, g5⟩, hpc, hpage, hrc, hs, ha⟩ := h
  have hc : (fl && (ale_count c.w.trace + 1) % 4 == 3) = false := by
    have : (ale_count c.w.trace + 1) % 4 ≠ 3 := by omega
    simp [this]
  obtain ⟨q1, q2, q3, q4⟩ := chip_read_id fl c.id2 c.w g1 hc
  have hd : memcmp_ne c.id (read_id (some c.id2) c.w).id 5 = false := by
    simp only [memcmp_ne, List.any_eq_false, List.mem_range]
    intro x hx
    rw [g2 x hx, q2 x hx]
    simp
  have hstep : read_pages_step c =
      { c with
        pc := .busy
        id2 := (read_id (some c.id2) c.w).id
        w := send_read_command c.page_no (read_id (some c.id2) c.w).w } := by
    simp only [read_pages_step, hpc, hd, Bool.false_eq_true, if_false]
  rw [hstep]
  refine ⟨⟨⟨?_, g2, g3, g4, g5⟩, rfl, hpage, hrc, hs, ?_⟩, rfl, rfl, rfl, rfl, hd⟩
  · show (send_read_command c.page_no (read_id (some c.id2) c.w).w).lev = _
    simp [q3]
  · show ale_count (send_read_command c.page_no (read_id (some c.id2) c.w).w).trace % 4 = _
    rw [ale_count_send_read_command, q4]
    omega

theorem rchip_step_busy (fl : Bool) (c : RCfg) (p : Int) (rc a N : Nat) (S : List (List Nat))
    (h : rchip_state fl c .busy p rc a S) (hN : (PAGE_SIZE : Int) * Int.land p 1 = (N : Int)) :
    rchip_state fl (read_pages_step c) .after_read p rc a S ∧
      (∀ x, (read_pages_step c).buf x =
        if N ≤ x ∧ x < N + PAGE_SIZE then (if (fl && a == 3) = true then 128 else 0)
        else c.buf x) ∧
      (read_pages_step c).page_no = c.page_no ∧
      (read_pages_step c).write_spare = c.write_spare ∧
      (read_pages_step c).badlog = c.badlog := by
  obtain ⟨⟨g1, g2, g3, g4, g5⟩, hpc, hpage, hrc, hs, ha⟩ := h
  have hr : (GPIO_READ N_READ_BUSY c.w).1 ≠ 0 := by
    rw [chip_busy fl c.w g1]
    decide
  obtain ⟨B, hB⟩ : ∃ B, B = read_pages_byte_loop ((PAGE_SIZE : Int) * Int.land c.page 1)
      PAGE_SIZE 0 c.buf (set_data_direction_in (GPIO_READ N_READ_BUSY c.w).2) := ⟨_, rfl⟩
  have hstep : read_pages_step c = { c with pc := .after_read, buf := B.1, w := B.2 } := by
    rw [hB]
    simp only [read_pages_step, hpc, hr, if_false]
  have hl : B.2.lev = chip_lev fl := by
    rw [hB, (frame_read_pages_byte_loop _ _ _ _ _).1]
    simp [g1]
  have hcnt : ale_count B.2.trace = ale_count c.w.trace := by
    rw [hB, ale_count_byte_loop]
    rfl
  have hbuf : ∀ x, B.1 x =
      if N ≤ x ∧ x < N + PAGE_SIZE then (if (fl && a == 3) = true then 128 else 0)
      else c.buf x := by
    intro x
    rw [hB, hpage, hN]
    have := chip_byte_loop fl N PAGE_SIZE 0 c.buf
      (set_data_direction_in (GPIO_READ N_READ_BUSY c.w).2) (by simp [g1]) rfl x
    rw [this]
    have e : ale_count (set_data_direction_in (GPIO_READ N_READ_BUSY c.w).2).trace =
        ale_count c.w.trace := rfl
    rw [e, ha]
    rfl
  clear hB
  rw [hstep]
  exact ⟨⟨⟨hl, g2, g3, g4, g5⟩, rfl, hpage, hrc, hs, by rw [hcnt]; exact ha⟩, hbuf, rfl, rfl, rfl⟩

theorem rchip_step_after_even (fl : Bool) (c : RCfg) (q rc a : Nat) (S : List (List Nat))
    (h : rchip_state fl c .after_read (2 * (q : Int)) rc a S) :
    rchip_state fl (read_pages_step c) .for_cond (2 * (q : Int) + 1) rc a S ∧
      (read_pages_step c).buf = c.buf ∧
      (read_pages_step c).page_no = c.page_no ∧
      (read_pages_step c).write_spare = c.write_spare ∧
      (read_pages_step c).badlog = c.badlog := by
  obtain ⟨⟨g1, g2, g3, g4, g5⟩, hpc, hpage, hrc, hs, ha⟩ := h
  have hstep : read_pages_step c = { c with pc := .for_cond, page := c.page + 1 } := by
    simp only [read_pages_step, hpc]
    rw [if_pos (by rw [hpage, land_one_even]; rfl)]
  rw [hstep]
  exact ⟨⟨⟨g1, g2, g3, g4, g5⟩, rfl, by show c.page + 1 = _; rw [hpage], hrc, hs, ha⟩,
    rfl, rfl, rfl, rfl⟩

theorem rchip_step_after_odd (fl : Bool) (c : RCfg) (q rc a : Nat) (S : List (List Nat))
    (h : rchip_state fl c .after_read (2 * (q : Int) + 1) rc a S) :
    rchip_state fl (read_pages_step c) .compare (2 * (q : Int) + 1) rc a S ∧
      (read_pages_step c).buf = c.buf ∧
      (read_pages_step c).page_no = c.page_no ∧
      (read_pages_step c).write_spare = c.write_spare ∧
      (read_pages_step c).badlog = c.badlog := by
  obtain ⟨⟨g1, g2, g3, g4, g5⟩, hpc, hpage, hrc, hs, ha⟩ := h
  have hstep : read_pages_step c = { c with pc := .compare } := by
    simp only [read_pages_step, hpc]
    rw [if_neg (by rw [hpage, land_one_odd]; norm_num [PAGE_SIZE])]
  rw [hstep]
  exact ⟨⟨⟨g1, g2, g3, g4, g5⟩, rfl, hpage, hrc, hs, ha⟩, rfl, rfl, rfl, rfl⟩

theorem rchip_step_compare_match (fl : Bool) (c : RCfg) (p : Int) (rc a : Nat)
    (S : List (List Nat)) (h : rchip_state fl c .compare p rc a S)
    (hm : memcmp_ne c.buf (fun i => c.buf (i + PAGE_SIZE)) PAGE_SIZE = false) :
    rchip_state fl (read_pages_step c) .write p rc a S ∧ (read_pages_step c).buf = c.buf ∧
      (read_pages_step c).badlog = c.badlog ∧
      (read_pages_step c).write_spare = c.write_spare := by
  obtain ⟨⟨g1, g2, g3, g4, g5⟩, hpc, hpage, hrc, hs, ha⟩ := h
  have hstep : read_pages_step c = { c with pc := .write } := by
    simp only [read_pages_step, hpc, hm, Bool.false_eq_true, if_false]
  rw [hstep]
  exact ⟨⟨⟨g1, g2, g3, g4, g5⟩, rfl, hpage, hrc, hs, ha⟩, rfl, rfl, rfl⟩

theorem rchip_step_compare_retry (fl : Bool) (c : RCfg) (q rc a : Nat) (S : List (List Nat))
    (h : rchip_state fl c .compare (2 * (q : Int) + 1) rc a S)
    (hm : memcmp_ne c.buf (fun i => c.buf (i + PAGE_SIZE)) PAGE_SIZE = true) (hlt : rc < 5) :
    rchip_state fl (read_pages_step c) .retry_all (2 * (q : Int)) (rc + 1) a S ∧
      (read_pages_step c).write_spare = c.write_spare := by
  obtain ⟨⟨g1, g2, g3, g4, g5⟩, hpc, hpage, hrc, hs, ha⟩ := h
  have hlt' : c.retry_count < 5 := by rw [hrc]; exact hlt
  obtain ⟨W, hW, hWl, hWa⟩ : ∃ W : World,
      read_pages_step c = { c with pc := .retry_all, w := W, retry_count := c.retry_count + 1,
                                   page := Int.land c.page (~~~(1 : Int)) } ∧
      W.lev = c.w.lev ∧ ale_count W.trace = ale_count c.w.trace := by
    refine ⟨(read_pages_step c).w, by simp only [read_pages_step, hpc, hm, hlt', if_true], ?_, ?_⟩
    · simp only [read_pages_step, hpc, hm, hlt', if_true]
      split <;> rfl
    · simp only [read_pages_step, hpc, hm, hlt', if_true]
      split <;> rfl
  rw [hW]
  refine ⟨⟨⟨hWl.trans g1, g2, g3, g4, g5⟩, rfl, ?_, by show c.retry_count + 1 = rc + 1; rw [hrc],
    hs, by rw [hWa]; exact ha⟩, rfl⟩
  show Int.land c.page (~~~(1 : Int)) = _
  rw [hpage, land_not_one_odd]

theorem rchip_step_compare_exhaust (fl : Bool) (c : RCfg) (p : Int) (a : Nat)
    (S : List (List Nat)) (h : rchip_state fl c .compare p 5 a S)
    (hm : memcmp_ne c.buf (fun i => c.buf (i + PAGE_SIZE)) PAGE_SIZE = true) :
    rchip_state fl (read_pages_step c) .write p 5 a S ∧ (read_pages_step c).buf = c.buf ∧
      (read_pages_step c).write_spare = c.write_spare := by
  obtain ⟨⟨g1, g2, g3, g4, g5⟩, hpc, hpage, hrc, hs, ha⟩ := h
  have hlt' : ¬ c.retry_count < 5 := by rw [hrc]; omega
  obtain ⟨W, hW, hWl, hWa⟩ : ∃ W : World,
      read_pages_step c = { c with pc := .write, w := W, badlog := c.badlog ++ [c.page_no] } ∧
      W.lev = c.w.lev ∧ ale_count W.trace = ale_count c.w.trace := by
    refine ⟨(read_pages_step c).w,
      by simp only [read_pages_step, hpc, hm, hlt', if_true, if_false], ?_, ?_⟩
    · simp only [read_pages_step, hpc, hm, hlt', if_true, if_false]
      split <;> rfl
    · simp only [read_pages_step, hpc, hm, hlt', if_true, if_false]
      split <;> rfl
  rw [hW]
  exact ⟨⟨⟨hWl.trans g1, g2, g3, g4, g5⟩, rfl, hpage, hrc, hs, by rw [hWa]; exact ha⟩, rfl, rfl⟩

theorem rchip_step_write (fl : Bool) (c : RCfg) (p : Int) (rc a : Nat) (S : List (List Nat))
    (h : rchip_state fl c .write p rc a S) :
    rchip_state fl (read_pages_step c) .for_cond (p + 1) 0 a
      (S ++ [(List.range (record_len c.write_spare)).map c.buf]) := by
  obtain ⟨⟨g1, g2, g3, g4, g5⟩, hpc, hpage, hrc, hs, ha⟩ := h
  have hstep : read_pages_step c =
      { c with
        pc := .for_cond
        sink := c.sink ++ [(List.range (record_len c.write_spare)).map c.buf]
        retry_count := 0
        page := c.page + 1 } := by
    simp only [read_pages_step, hpc, g5, if_true, record_len]
  rw [hstep]
  refine ⟨⟨g1, g2, g3, g4, g5⟩, rfl, ?_, rfl, ?_, ha⟩
  · show c.page + 1 = _
    rw [hpage]
  · show c.sink ++ _ = _
    rw [hs]

/-- The nine steps from label `retry_all` at the first read of page `q` to the
comparison of the two copies, on the simulated chip: the copies differ exactly
when the chip is flaky. -/
theorem rchip_to_compare (fl : Bool) (c : RCfg) (q rc : Nat) (S : List (List Nat))
    (hq : q < 5) (h : rchip_state fl c .retry_all (2 * (q : Int)) rc 1 S) :
    holds_before (fun d => d.sink = S ∧ d.pc ≠ .compare) c 9 ∧
      rchip_state fl (read_pages_step^[9] c) .compare (2 * (q : Int) + 1) rc 1 S ∧
      memcmp_ne (read_pages_step^[9] c).buf
        (fun i => (read_pages_step^[9] c).buf (i + PAGE_SIZE)) PAGE_SIZE = fl ∧
      (read_pages_step^[9] c).write_spare = c.write_spare ∧
      (read_pages_step^[9] c).badlog = c.badlog := by
  obtain ⟨s1, b1, n1, w1, l1⟩ := rchip_step_retry_all fl c _ rc 1 S h
  obtain ⟨s2, b2, n2, w2, l2, _⟩ := rchip_step_retry fl _ _ rc 1 S s1 (Or.inl rfl)
  obtain ⟨s3, b3, n3, w3, l3⟩ := rchip_step_busy fl _ _ rc 3 0 S s2
    (by rw [land_one_even]; rfl)
  obtain ⟨s4, b4, n4, w4, l4⟩ := rchip_step_after_even fl _ q rc 3 S s3
  obtain ⟨s5, b5, w5, l5⟩ := rchip_step_for fl _ _ rc 3 S s4 (by omega)
  obtain ⟨s6, b6, n6, w6, l6⟩ := rchip_step_retry_all fl _ _ rc 3 S s5
  obtain ⟨s7, b7, n7, w7, l7, _⟩ := rchip_step_retry fl _ _ rc 3 S s6 (Or.inr rfl)
  obtain ⟨s8, b8, n8, w8, l8⟩ := rchip_step_busy fl _ _ rc 1 PAGE_SIZE S s7
    (by rw [land_one_odd]; rfl)
  obtain ⟨s9, b9, n9, w9, l9⟩ := rchip_step_after_odd fl _ q rc 1 S s8
  have e9 : read_pages_step^[9] c = read_pages_step (read_pages_step (read_pages_step
      (read_pages_step (read_pages_step (read_pages_step (read_pages_step (read_pages_step
        (read_pages_step c)))))))) := rfl
  rw [e9]
  refine ⟨?_, s9, ?_, ?_, ?_⟩
  · intro j hj
    interval_cases j
    · exact ⟨h.2.2.2.2.1, fun hh => by have := h.2.1.symm.trans hh; simp at this⟩
    · exact ⟨s1.2.2.2.2.1, fun hh => by have := s1.2.1.symm.trans hh; simp at this⟩
    · exact ⟨s2.2.2.2.2.1, fun hh => by have := s2.2.1.symm.trans hh; simp at this⟩
    · exact ⟨s3.2.2.2.2.1, fun hh => by have := s3.2.1.symm.trans hh; simp at this⟩
    · exact ⟨s4.2.2.2.2.1, fun hh => by have := s4.2.1.symm.trans hh; simp at this⟩
    · exact ⟨s5.2.2.2.2.1, fun hh => by have := s5.2.1.symm.trans hh; simp at this⟩
    · exact ⟨s6.2.2.2.2.1, fun hh => by have := s6.2.1.symm.trans hh; simp at this⟩
    · exact ⟨s7.2.2.2.2.1, fun hh => by have := s7.2.1.symm.trans hh; simp at this⟩
    · exact ⟨s8.2.2.2.2.1, fun hh => by have := s8.2.1.symm.trans hh; simp at this⟩
  · have hlow : ∀ x, x < PAGE_SIZE →
        (read_pages_step (read_pages_step (read_pages_step
      (read_pages_step (read_pages_step (read_pages_step (read_pages_step (read_pages_step
        (read_pages_step c))))))))).buf x = if fl = true then 128 else 0 := by
      intro x hx
      have t9 := congrFun b9 x
      have t7 := congrFun b7 x
      have t6 := congrFun b6 x
      have t5 := congrFun b5 x
      have t4 := congrFun b4 x
      rw [t9, b8 x, if_neg (by omega), t7, t6, t5, t4, b3 x, if_pos (by omega)]
      cases fl <;> rfl
    have hhigh : ∀ x, x < PAGE_SIZE → (read_pages_step (read_pages_step (read_pages_step
      (read_pages_step (read_pages_step (read_pages_step (read_pages_step (read_pages_step
        (read_pages_step c))))))))).buf (x + PAGE_SIZE) = 0 := by
      intro x hx
      have t9 := congrFun b9 (x + PAGE_SIZE)
      rw [t9, b8 (x + PAGE_SIZE), if_pos (by omega)]
      cases fl <;> rfl
    cases fl
    · simp only [memcmp_ne, List.any_eq_false, List.mem_range]
      intro x hx
      rw [hlow x hx, hhigh x hx]
      simp
    · simp only [memcmp_ne, List.any_eq_true, List.mem_range]
      refine ⟨0, by decide, ?_⟩
      rw [hlow 0 (by decide), hhigh 0 (by decide)]
      simp
  · rw [w9, w8, w7, w6, w5, w4, w3, w2, w1]
  · rw [l9, l8, l7, l6, l5, l4, l3, l2, l1]

theorem rchip_start (fl : Bool) (ws : Int) (id0 id2 buf0 : Nat → Nat) (w : World)
    (hw : w.lev = chip_lev fl) (ht : ale_count w.trace % 4 = 0) :
    rchip_state fl (read_pages_start 3 2 true true (fun _ => true) ws id0 id2 buf0 w)
        .for_cond (2 * ((3 : Nat) : Int)) 0 1 [] ∧
      (read_pages_start 3 2 true true (fun _ => true) ws id0 id2 buf0 w).write_spare = ws ∧
      (read_pages_start 3 2 true true (fun _ => true) ws id0 id2 buf0 w).badlog = [] := by
  have hb : (GPIO_READ N_READ_BUSY w).1 ≠ 0 := by
    rw [chip_busy fl _ hw]
    decide
  have hc : (fl && (ale_count (GPIO_READ N_READ_BUSY w).2.trace + 1) % 4 == 3) = false := by
    rw [ale_count_READ]
    have : (ale_count w.trace + 1) % 4 ≠ 3 := by omega
    simp [this]
  obtain ⟨q1, q2, q3, q4⟩ := chip_read_id fl id0 (GPIO_READ N_READ_BUSY w).2 (by simp [hw]) hc
  generalize hq : read_id (some id0) (GPIO_READ N_READ_BUSY w).2 = q at q1 q2 q3 q4
  have hstart : read_pages_start 3 2 true true (fun _ => true) ws id0 id2 buf0 w =
      { pc := .for_cond, first_page_number := 3, number_of_pages := 2, write_spare := ws,
        page := 3 * 2, page_no := 0, retry_count := 0, id := q.id, id2 := id2, buf := buf0,
        sink := [], badlog := [], fwrite_ok := fun _ => true,
        w := (((print_id q.id q.w).print .abort_hint).print .start_reading) } := by
    unfold read_pages_start
    simp only [Bool.not_true, Bool.false_eq_true, if_false]
    rw [if_neg hb, hq, if_neg (by rw [q1]; decide)]
  rw [hstart]
  refine ⟨⟨⟨?_, q2, rfl, rfl, fun _ => rfl⟩, rfl, rfl, rfl, rfl, ?_⟩, rfl, rfl⟩
  · show (((print_id _ _).print _).print _).lev = _
    simp [print_id, q3]
  · show ale_count (((print_id _ _).print _).print _).trace % 4 = 1
    simp only [print_id, ale_count_print, q4, ale_count_READ]
    omega

theorem rcfg_pages_state (fl : Bool) :
    rchip_state fl (rcfg_pages fl) .for_cond (2 * ((3 : Nat) : Int)) 0 1 [] ∧
      (rcfg_pages fl).write_spare = 1 ∧ (rcfg_pages fl).badlog = [] :=
  rchip_start fl 1 (fun _ => 0) (fun _ => 0) (fun _ => 0) (chip_world fl) rfl rfl

/-- On the simulated chip without glitches, `read_pages` makes twelve steps
from the loop test for page `q` up to the `fwrite` of the page, the comparison
finding equal copies, and is then at the loop test for the next page. -/
theorem rchip_run_good (c : RCfg) (q : Nat) (S : List (List Nat)) (hq : q < 5)
    (h : rchip_state false c .for_cond (2 * (q : Int)) 0 1 S) :
    holds_before (fun d => d.sink = S ∧ d.compare_result ≠ some true) c (1 + 9 + 2) ∧
      (read_pages_step^[1 + 9 + 2] c).sink ≠ S ∧
      ∃ r, rchip_state false (read_pages_step^[1 + 9 + 2] c) .for_cond (2 * (q : Int) + 1 + 1)
        0 1 (S ++ [r]) := by
  obtain ⟨s1, _, _, _⟩ := rchip_step_for false c _ 0 1 S h (by omega)
  have e1 : read_pages_step^[1] c = read_pages_step c := rfl
  rw [← e1] at s1
  obtain ⟨hb9, s10, hm, _, _⟩ := rchip_to_compare false _ q 0 S hq s1
  rw [← Function.iterate_add_apply] at s10 hm
  obtain ⟨s11, _, _, _⟩ := rchip_step_compare_match false _ _ 0 1 S s10 hm
  have s12 := rchip_step_write false _ _ 0 1 S s11
  have e11 : read_pages_step (read_pages_step (read_pages_step^[9 + 1] c)) =
      read_pages_step^[1 + 9 + 2] c := by
    rw [← Function.iterate_succ_apply' read_pages_step, ← Function.iterate_succ_apply' read_pages_step]
  rw [e11] at s12
  refine ⟨?_, ?_, _, s12⟩
  · apply holds_before_add
    · apply holds_before_add
      · exact holds_before_one _ c ⟨h.2.2.2.2.1, by rw [compare_result_none c (by rw [h.2.1]; simp)]; simp⟩
      · exact holds_before_mono _ _ _ 9
          (fun d hd => ⟨hd.1, by rw [compare_result_none d hd.2]; simp⟩) hb9
    · rw [Nat.add_comm 1 9]
      apply holds_before_two
      · exact ⟨s10.2.2.2.2.1, by rw [compare_result_some _ s10.2.1, hm]; simp⟩
      · exact ⟨s11.2.2.2.2.1, by rw [compare_result_none _ (by rw [s11.2.1]; simp)]; simp⟩
  · rw [s12.2.2.2.2.1]
    simp

/-- One failed double read on the flaky chip: ten steps from label `retry_all`
back to it, with the retry counter incremented. -/
theorem rchip_attempt (c : RCfg) (q rc : Nat) (S : List (List Nat)) (hq : q < 5) (hlt : rc < 5)
    (h : rchip_state true c .retry_all (2 * (q : Int)) rc 1 S) :
    holds_before (fun d => d.sink = S ∧ d.compare_result ≠ some false) c (9 + 1) ∧
      rchip_state true (read_pages_step^[9 + 1] c) .retry_all (2 * (q : Int)) (rc + 1) 1 S := by
  obtain ⟨hb9, s9, hm, _, _⟩ := rchip_to_compare true c q rc S hq h
  obtain ⟨s10, _⟩ := rchip_step_compare_retry true _ q rc 1 S s9 hm hlt
  rw [← Function.iterate_succ_apply' read_pages_step] at s10
  refine ⟨?_, s10⟩
  apply holds_before_add
  · exact holds_before_mono _ _ _ 9
      (fun d hd => ⟨hd.1, by rw [compare_result_none d hd.2]; simp⟩) hb9
  · exact holds_before_one _ _ ⟨s9.2.2.2.2.1, by rw [compare_result_some _ s9.2.1, hm]; simp⟩

theorem rchip_attempts (c : RCfg) (q : Nat) (S : List (List Nat)) (hq : q < 5)
    (h : rchip_state true c .retry_all (2 * (q : Int)) 0 1 S) :
    ∀ r, r ≤ 5 →
      holds_before (fun d => d.sink = S ∧ d.compare_result ≠ some false) c (10 * r) ∧
        rchip_state true (read_pages_step^[10 * r] c) .retry_all (2 * (q : Int)) r 1 S := by
  intro r
  induction r with
  | zero =>
    intro _
    exact ⟨fun j hj => absurd hj (by omega), h⟩
  | succ r ih =>
    intro hr
    obtain ⟨hb, hs⟩ := ih (by omega)
    obtain ⟨hb2, hs2⟩ := rchip_attempt _ q r S hq (by omega) hs
    rw [← Function.iterate_add_apply] at hs2
    have e : 10 * (r + 1) = 10 * r + (9 + 1) := by omega
    have e2 : 9 + 1 + 10 * r = 10 * (r + 1) := by omega
    rw [e2] at hs2
    refine ⟨?_, hs2⟩
    rw [e]
    exact holds_before_add _ _ _ _ hb hb2

/-- On the flaky chip `read_pages` makes 62 steps from the loop test for page
`q` up to the `fwrite` of the page, every comparison on the way finding a
difference. -/
theorem rchip_run_flaky (c : RCfg) (q : Nat) (S : List (List Nat)) (hq : q < 5)
    (h : rchip_state true c .for_cond (2 * (q : Int)) 0 1 S) :
    holds_before (fun d => d.sink = S ∧ d.compare_result ≠ some false) c (1 + (50 + 9 + 2)) ∧
      (read_pages_step^[1 + (50 + 9 + 2)] c).sink ≠ S := by
  obtain ⟨s1, _, _, _⟩ := rchip_step_for true c _ 0 1 S h (by omega)
  have e1 : read_pages_step^[1] c = read_pages_step c := rfl
  rw [← e1] at s1
  obtain ⟨hb50, s50⟩ := rchip_attempts _ q S hq s1 5 (le_refl _)
  obtain ⟨hb9, s59, hm, _, _⟩ := rchip_to_compare true _ q 5 S hq s50
  rw [← Function.iterate_add_apply] at s59 hm
  obtain ⟨s60, _, _⟩ := rchip_step_compare_exhaust true _ _ 1 S s59 hm
  have s61 := rchip_step_write true _ _ 5 1 S s60
  have e61 : read_pages_step (read_pages_step (read_pages_step^[9 + 10 * 5]
      (read_pages_step^[1] c))) = read_pages_step^[1 + (50 + 9 + 2)] c := by
    rw [← Function.iterate_succ_apply' read_pages_step,
      ← Function.iterate_succ_apply' read_pages_step, ← Function.iterate_add_apply]
  rw [e61] at s61
  refine ⟨?_, by rw [s61.2.2.2.2.1]; simp⟩
  apply holds_before_add
  · exact holds_before_one _ c ⟨h.2.2.2.2.1, by rw [compare_result_none c (by rw [h.2.1]; simp)]; simp⟩
  · apply holds_before_add
    · apply holds_before_add
      · exact hb50
      · exact holds_before_mono _ _ _ 9
          (fun d hd => ⟨hd.1, by rw [compare_result_none d hd.2]; simp⟩) hb9
    · show holds_before _ (read_pages_step^[9 + 10 * 5] (read_pages_step^[1] c)) 2
      apply holds_before_two
      · exact ⟨s59.2.2.2.2.1, by rw [compare_result_some _ s59.2.1, hm]; simp⟩
      · exact ⟨s60.2.2.2.2.1, by rw [compare_result_none _ (by rw [s60.2.1]; simp)]; simp⟩

theorem rcfg_pages_hyps (fl : Bool) :
    (rcfg_pages fl).pc = .for_cond ∧ (rcfg_pages fl).retry_count = 0 ∧
      (rcfg_pages fl).page = 2 * ((3 : Nat) : Int) ∧
      (rcfg_pages fl).page <
        ((rcfg_pages fl).first_page_number + (rcfg_pages fl).number_of_pages) * 2 ∧
      (rcfg_pages fl).sink = [] := by
  obtain ⟨⟨⟨_, _, g3, g4, _⟩, hpc, hpage, hrc, hs, _⟩, _, _⟩ := rcfg_pages_state fl
  refine ⟨hpc, hrc, hpage, by rw [hpage, g3, g4]; decide, hs⟩

/-- On the simulated chip without glitches `read_pages(3, 2, outfile, 1)`
leaves its loop through the loop test after 25 steps: twelve for page 3,
twelve for page 4, and the test. -/
theorem rcfg_pages_done : (read_pages_step^[25] (rcfg_pages false)).pc = .exit none := by
  obtain ⟨_, _, r1, s12⟩ := rchip_run_good _ 3 [] (by decide) (rcfg_pages_state false).1
  have s12' : rchip_state false (read_pages_step^[1 + 9 + 2] (rcfg_pages false)) .for_cond
      (2 * ((4 : Nat) : Int)) 0 1 ([] ++ [r1]) := s12
  obtain ⟨_, _, r2, s24⟩ := rchip_run_good _ 4 _ (by decide) s12'
  have s24' : rchip_state false
      (read_pages_step^[1 + 9 + 2] (read_pages_step^[1 + 9 + 2] (rcfg_pages false))) .for_cond 10
      0 1 ([] ++ [r1] ++ [r2]) := s24
  have hx := (rchip_step_for_exit false _ 0 1 _ s24').1
  rw [← Function.iterate_add_apply, ← Function.iterate_succ_apply' read_pages_step] at hx
  exact hx

/-- Witness for C1: on the simulated chip `read_pages(3, 2, outfile, 1)` leaves
its loop after 25 steps; the sink then holds two records, and record `k` is the
front of the answer to a Read Page transaction whose address bytes are those of
page `3 + k`. -/
theorem C1_read_pages_one_record_per_page_witness :
    (read_pages_step^[25] (rcfg_pages false)).pc = .exit none ∧
      ((read_pages_step^[25] (rcfg_pages false)).sink.length : Int) = 2 ∧
      ∀ k, k < (read_pages_step^[25] (rcfg_pages false)).sink.length →
        ∃ j B, B.length = 2112 ∧
          (cycles_since (fun _ => 0) (fun _ => 0) (read_pages_step^[25] (rcfg_pages false)).w
              (rcfg_pages false).w)[j]? =
            some ⟨0x00, [0, 0, (3 + k) % 256, (3 + k) / 256 % 256, (3 + k) / 65536 % 256],
              [], []⟩ ∧
          (cycles_since (fun _ => 0) (fun _ => 0) (read_pages_step^[25] (rcfg_pages false)).w
              (rcfg_pages false).w)[j + 1]? = some ⟨0x30, [], [], B⟩ ∧
          (read_pages_step^[25] (rcfg_pages false)).sink[k]? = some (B.take (record_len 1)) :=
  have h := C1_read_pages_one_record_per_page (fun _ => 0) (fun _ => 0) 3 2 true true
    (fun _ => true) 1 (fun _ => 0) (fun _ => 0) (fun _ => 0) (chip_world false) 25
    (rcfg_pages false) rfl (by decide) rcfg_pages_done
  ⟨rcfg_pages_done, h.1, h.2.2.2⟩

end Nand
